import Mathlib

/-! Box/box separating-axis solver (`fcl/narrowphase/detail/box_box.h`)

A shallow embedding of `lineClosestApproach`, `intersectRectQuad2`,
`cullPoints2` and the `Transform3` overload of `boxBox2`, followed by the
properties established about them.

The scalar type `S` of the C++ template is an arbitrary linearly ordered
field `K`; arithmetic is exact.  What the template takes from the platform
(`std::numeric_limits<S>::max()`, `epsilon()`, `std::sqrt`, `atan2`,
`constants<S>::pi()`) is bundled in `Scalar K` and passed explicitly.

`cullPoints2` is the one function whose source reckons with a NaN (the comment
on `*iret = i0`).  Its values are of type `Flt K`: exact numbers, the
infinities an overflow beyond `max` leaves, and NaN.
-/

namespace fcl

/-! ## Scalars, vectors, matrices, transforms -/

/-- Platform constants and library functions of the scalar type `S`. -/
structure Scalar (K : Type) where
  /-- The constant `std::numeric_limits<S>::max()`. -/
  max : K
  /-- The constant `std::numeric_limits<S>::epsilon()`. -/
  epsilon : K
  /-- The function `std::sqrt`, through which `Vector3::norm` is computed. -/
  sqrt : K → K
  /-- The function `atan2(y, x)`. -/
  atan2 : K → K → K
  /-- The constant `constants<S>::pi()`. -/
  pi : K

/-- The type `Vector3<S>`. -/
structure Vec3 (K : Type) where
  x : K
  y : K
  z : K

/-- The type `Matrix3<S>`; field `mij` is the entry in row `i`, column `j`. -/
structure Mat3 (K : Type) where
  m00 : K
  m01 : K
  m02 : K
  m10 : K
  m11 : K
  m12 : K
  m20 : K
  m21 : K
  m22 : K

/-- The type `Transform3<S>`: `linear()` and `translation()`. -/
structure Transform3 (K : Type) where
  linear : Mat3 K
  translation : Vec3 K

/-- Modelled from the spec: the record `ContactPoint` of `fcl/collision_data.h`
(not among the sources), `{normal, position, depth}`, built by
`ContactPoint(normal, position, depth)` in that argument order. -/
structure ContactPoint (K : Type) where
  normal : Vec3 K
  pos : Vec3 K
  penetration_depth : K

variable {K : Type} [LinearOrderedField K]

namespace Vec3

/-- Indexing `v[i]` (indices above 2 read the last component). -/
def get (v : Vec3 K) (i : Nat) : K :=
  if i = 0 then v.x else if i = 1 then v.y else v.z

/-- Sum `a + b`. -/
def add (a b : Vec3 K) : Vec3 K := ⟨a.x + b.x, a.y + b.y, a.z + b.z⟩

/-- Difference `a - b`. -/
def sub (a b : Vec3 K) : Vec3 K := ⟨a.x - b.x, a.y - b.y, a.z - b.z⟩

/-- Negation `-a`. -/
def neg (a : Vec3 K) : Vec3 K := ⟨-a.x, -a.y, -a.z⟩

/-- Scaling `a * s`. -/
def smul (a : Vec3 K) (s : K) : Vec3 K := ⟨a.x * s, a.y * s, a.z * s⟩

/-- Division `a / s`. -/
def sdiv (a : Vec3 K) (s : K) : Vec3 K := ⟨a.x / s, a.y / s, a.z / s⟩

/-- Inner product `a.dot(b)`. -/
def dot (a b : Vec3 K) : K := a.x * b.x + a.y * b.y + a.z * b.z

/-- Entrywise absolute value `a.cwiseAbs()`. -/
def cwiseAbs (a : Vec3 K) : Vec3 K := ⟨|a.x|, |a.y|, |a.z|⟩

/-- Euclidean length `a.norm()`, the square root of the squared norm. -/
def norm (cfg : Scalar K) (a : Vec3 K) : K := cfg.sqrt (a.dot a)

end Vec3

namespace Mat3

/-- Entry `m(i, j)` (indices above 2 read the last row or column). -/
def coeff (m : Mat3 K) (i j : Nat) : K :=
  if i = 0 then (if j = 0 then m.m00 else if j = 1 then m.m01 else m.m02)
  else if i = 1 then (if j = 0 then m.m10 else if j = 1 then m.m11 else m.m12)
  else (if j = 0 then m.m20 else if j = 1 then m.m21 else m.m22)

/-- Column `m.col(j)`. -/
def col (m : Mat3 K) (j : Nat) : Vec3 K := ⟨m.coeff 0 j, m.coeff 1 j, m.coeff 2 j⟩

/-- Row `m.row(i)`. -/
def row (m : Mat3 K) (i : Nat) : Vec3 K := ⟨m.coeff i 0, m.coeff i 1, m.coeff i 2⟩

/-- Transpose `m.transpose()`. -/
def transpose (m : Mat3 K) : Mat3 K :=
  ⟨m.m00, m.m10, m.m20, m.m01, m.m11, m.m21, m.m02, m.m12, m.m22⟩

/-- Matrix-vector product `m * v`. -/
def mulVec (m : Mat3 K) (v : Vec3 K) : Vec3 K :=
  ⟨(m.row 0).dot v, (m.row 1).dot v, (m.row 2).dot v⟩

/-- Matrix product `a * b`. -/
def mul (a b : Mat3 K) : Mat3 K :=
  ⟨(a.row 0).dot (b.col 0), (a.row 0).dot (b.col 1), (a.row 0).dot (b.col 2),
   (a.row 1).dot (b.col 0), (a.row 1).dot (b.col 1), (a.row 1).dot (b.col 2),
   (a.row 2).dot (b.col 0), (a.row 2).dot (b.col 1), (a.row 2).dot (b.col 2)⟩

/-- Entrywise absolute value `m.cwiseAbs()`. -/
def cwiseAbs (m : Mat3 K) : Mat3 K :=
  ⟨|m.m00|, |m.m01|, |m.m02|, |m.m10|, |m.m11|, |m.m12|, |m.m20|, |m.m21|, |m.m22|⟩

/-- The update `m.array() += c`: `c` added to every entry. -/
def addScalar (m : Mat3 K) (c : K) : Mat3 K :=
  ⟨m.m00 + c, m.m01 + c, m.m02 + c, m.m10 + c, m.m11 + c, m.m12 + c,
   m.m20 + c, m.m21 + c, m.m22 + c⟩

/-- Determinant. -/
def det (m : Mat3 K) : K :=
  m.m00 * (m.m11 * m.m22 - m.m12 * m.m21) - m.m01 * (m.m10 * m.m22 - m.m12 * m.m20)
    + m.m02 * (m.m10 * m.m21 - m.m11 * m.m20)

/-- A rotation: columns of unit length, pairwise orthogonal, determinant `+1`
(the invariant of `Transform3::linear()`). -/
def IsRotation (m : Mat3 K) : Prop :=
  (m.col 0).dot (m.col 0) = 1 ∧ (m.col 1).dot (m.col 1) = 1 ∧ (m.col 2).dot (m.col 2) = 1 ∧
  (m.col 0).dot (m.col 1) = 0 ∧ (m.col 0).dot (m.col 2) = 0 ∧ (m.col 1).dot (m.col 2) = 0 ∧
  m.det = 1

end Mat3

/-! ## The fifteen separating-axis tests of `boxBox2` -/

/-- The constant `fudge_factor = S(1.05)`. -/
def fudge_factor : K := 105 / 100

/-- The constant `fudge2 = 1.0e-6`. -/
def fudge2 : K := 1 / 1000000

/-- The running variables of the axis search: `s`, `best_col_id`, `normalT`
(`0` for `nullptr`, `1` for `&tf1`, `2` for `&tf2`), `normalC`,
`invert_normal`, `code`. -/
structure SatState (K : Type) where
  s : K
  best_col_id : Int
  normalT : Nat
  normalC : Vec3 K
  invert_normal : Bool
  code : Nat

/-- The variables before the first test: `s = -max`, `best_col_id = -1`,
`normalT = nullptr`, `invert_normal = 0`, `code = 0`.  `normalC` is declared
without a value; it is read only after a test has assigned it. -/
def SatState.init (cfg : Scalar K) : SatState K :=
  ⟨-cfg.max, -1, 0, ⟨0, 0, 0⟩, false, 0⟩

/-- One separating-axis candidate: the projected centre distance `tmp`, the sum
`r` of the projected half extents, and what a win records.  For a face axis
`edge` is `none` and `colId`, `T` name the column; for an edge axis `edge` is
the cross product `n` in body-1 coordinates. -/
structure Axis (K : Type) where
  tmp : K
  r : K
  edge : Option (Vec3 K)
  colId : Int
  T : Nat
  code : Nat

/-- One block of the axis search.  `none` is the exit
`if(s2 > 0) { *return_code = 0; return 0; }`. -/
def satStep (cfg : Scalar K) (st : SatState K) (ax : Axis K) : Option (SatState K) :=
  let s2 := |ax.tmp| - ax.r
  if s2 > 0 then none
  else
    match ax.edge with
    | none =>
      if s2 > st.s then
        some ⟨s2, ax.colId, ax.T, st.normalC, decide (ax.tmp < 0), ax.code⟩
      else some st
    | some n =>
      let l := n.norm cfg
      if l > cfg.epsilon then
        let s2 := s2 / l
        if s2 * fudge_factor > st.s then
          some ⟨s2, -1, st.normalT, n.sdiv l, decide (ax.tmp < 0), ax.code⟩
        else some st
      else some st

/-- The blocks run in order, stopping at the first separating axis. -/
def satFold (cfg : Scalar K) : SatState K → List (Axis K) → Option (SatState K)
  | st, [] => some st
  | st, ax :: rest =>
    match satStep cfg st ax with
    | none => none
    | some st1 => satFold cfg st1 rest

/-- The six face candidates in source order: `u1, u2, u3`, then `v1, v2, v3`. -/
def faceAxes (A B : Vec3 K) (tf1 tf2 : Transform3 K) : List (Axis K) :=
  let p := tf2.translation.sub tf1.translation
  let pp := tf1.linear.transpose.mulVec p
  let R := tf1.linear.transpose.mul tf2.linear
  let Q := R.cwiseAbs
  [ ⟨pp.get 0, (Q.row 0).dot B + A.get 0, none, 0, 1, 1⟩,
    ⟨pp.get 1, (Q.row 1).dot B + A.get 1, none, 1, 1, 2⟩,
    ⟨pp.get 2, (Q.row 2).dot B + A.get 2, none, 2, 1, 3⟩,
    ⟨(tf2.linear.col 0).dot p, (Q.col 0).dot A + B.get 0, none, 0, 2, 4⟩,
    ⟨(tf2.linear.col 1).dot p, (Q.col 1).dot A + B.get 1, none, 1, 2, 5⟩,
    ⟨(tf2.linear.col 2).dot p, (Q.col 2).dot A + B.get 2, none, 2, 2, 6⟩ ]

/-- The nine edge candidates `u_i x v_j` in source order, evaluated after
`Q.array() += fudge2`. -/
def edgeAxes (A B : Vec3 K) (tf1 tf2 : Transform3 K) : List (Axis K) :=
  let p := tf2.translation.sub tf1.translation
  let pp := tf1.linear.transpose.mulVec p
  let R := tf1.linear.transpose.mul tf2.linear
  let Qf := R.cwiseAbs.addScalar fudge2
  [ ⟨pp.get 2 * R.coeff 1 0 - pp.get 1 * R.coeff 2 0,
      A.get 1 * Qf.coeff 2 0 + A.get 2 * Qf.coeff 1 0 + B.get 1 * Qf.coeff 0 2
        + B.get 2 * Qf.coeff 0 1,
      some ⟨0, -R.coeff 2 0, R.coeff 1 0⟩, -1, 0, 7⟩,
    ⟨pp.get 2 * R.coeff 1 1 - pp.get 1 * R.coeff 2 1,
      A.get 1 * Qf.coeff 2 1 + A.get 2 * Qf.coeff 1 1 + B.get 0 * Qf.coeff 0 2
        + B.get 2 * Qf.coeff 0 0,
      some ⟨0, -R.coeff 2 1, R.coeff 1 1⟩, -1, 0, 8⟩,
    ⟨pp.get 2 * R.coeff 1 2 - pp.get 1 * R.coeff 2 2,
      A.get 1 * Qf.coeff 2 2 + A.get 2 * Qf.coeff 1 2 + B.get 0 * Qf.coeff 0 1
        + B.get 1 * Qf.coeff 0 0,
      some ⟨0, -R.coeff 2 2, R.coeff 1 2⟩, -1, 0, 9⟩,
    ⟨pp.get 0 * R.coeff 2 0 - pp.get 2 * R.coeff 0 0,
      A.get 0 * Qf.coeff 2 0 + A.get 2 * Qf.coeff 0 0 + B.get 1 * Qf.coeff 1 2
        + B.get 2 * Qf.coeff 1 1,
      some ⟨R.coeff 2 0, 0, -R.coeff 0 0⟩, -1, 0, 10⟩,
    ⟨pp.get 0 * R.coeff 2 1 - pp.get 2 * R.coeff 0 1,
      A.get 0 * Qf.coeff 2 1 + A.get 2 * Qf.coeff 0 1 + B.get 0 * Qf.coeff 1 2
        + B.get 2 * Qf.coeff 1 0,
      some ⟨R.coeff 2 1, 0, -R.coeff 0 1⟩, -1, 0, 11⟩,
    ⟨pp.get 0 * R.coeff 2 2 - pp.get 2 * R.coeff 0 2,
      A.get 0 * Qf.coeff 2 2 + A.get 2 * Qf.coeff 0 2 + B.get 0 * Qf.coeff 1 1
        + B.get 1 * Qf.coeff 1 0,
      some ⟨R.coeff 2 2, 0, -R.coeff 0 2⟩, -1, 0, 12⟩,
    ⟨pp.get 1 * R.coeff 0 0 - pp.get 0 * R.coeff 1 0,
      A.get 0 * Qf.coeff 1 0 + A.get 1 * Qf.coeff 0 0 + B.get 1 * Qf.coeff 2 2
        + B.get 2 * Qf.coeff 2 1,
      some ⟨-R.coeff 1 0, R.coeff 0 0, 0⟩, -1, 0, 13⟩,
    ⟨pp.get 1 * R.coeff 0 1 - pp.get 0 * R.coeff 1 1,
      A.get 0 * Qf.coeff 1 1 + A.get 1 * Qf.coeff 0 1 + B.get 0 * Qf.coeff 2 2
        + B.get 2 * Qf.coeff 2 0,
      some ⟨-R.coeff 1 1, R.coeff 0 1, 0⟩, -1, 0, 14⟩,
    ⟨pp.get 1 * R.coeff 0 2 - pp.get 0 * R.coeff 1 2,
      A.get 0 * Qf.coeff 1 2 + A.get 1 * Qf.coeff 0 2 + B.get 0 * Qf.coeff 2 1
        + B.get 1 * Qf.coeff 2 0,
      some ⟨-R.coeff 1 2, R.coeff 0 2, 0⟩, -1, 0, 15⟩ ]

/-- The fifteen candidates in source order. -/
def axes (A B : Vec3 K) (tf1 tf2 : Transform3 K) : List (Axis K) :=
  faceAxes A B tf1 tf2 ++ edgeAxes A B tf1 tf2

/-- The whole axis search of `boxBox2`, from `s = -max` on. -/
def satPhase (cfg : Scalar K) (A B : Vec3 K) (tf1 tf2 : Transform3 K) : Option (SatState K) :=
  satFold cfg (SatState.init cfg) (axes A B tf1 tf2)

/-! ## `lineClosestApproach` -/

/-- The function `lineClosestApproach(pa, ua, pb, ub, &alpha, &beta)`; the
result is the pair `(alpha, beta)`.  The threshold is the literal `0.0001f`. -/
def lineClosestApproach (pa ua pb ub : Vec3 K) : K × K :=
  let p := pb.sub pa
  let uaub := ua.dot ub
  let q1 := ua.dot p
  let q2 := -(ub.dot p)
  let d := 1 - uaub * uaub
  if d ≤ 1 / 10000 then (0, 0)
  else
    let d := 1 / d
    ((q1 + uaub * q2) * d, (uaub * q1 + q2) * d)

/-! ## `intersectRectQuad2` -/

/-- Coordinate `pt[dir]` of an `x,y` pair. -/
def coord (dir : Nat) (pt : K × K) : K := if dir = 0 then pt.1 else pt.2

/-- The point written where an edge crosses the chopping line:
`pr[1-dir] = pq[1-dir] + (nextq[1-dir]-pq[1-dir]) / (nextq[dir]-pq[dir]) * (sign*h[dir]-pq[dir])`
and `pr[dir] = sign*h[dir]`. -/
def crossing (h : K × K) (dir : Nat) (sign : K) (pq nextq : K × K) : K × K :=
  let other := coord (1 - dir) pq + (coord (1 - dir) nextq - coord (1 - dir) pq) /
    (coord dir nextq - coord dir pq) * (sign * coord dir h - coord dir pq)
  if dir = 0 then (sign * coord dir h, other) else (other, sign * coord dir h)

/-- The loop `for(int i = nq; i > 0; --i)` of one chop along the line
`xy[dir] = sign*h[dir]`: the points of `q` still to visit, `q0` the first point
of `q`, `r` the points written so far (`nr = r.length`).  The flag is `true`
when the loop left through `goto done` (`nr & 8`). -/
def chopLoop (h : K × K) (dir : Nat) (sign : K) (q0 : K × K) :
    List (K × K) → List (K × K) → List (K × K) × Bool
  | [], r => (r, false)
  | pq :: rest, r =>
    let inside := decide (sign * coord dir pq < coord dir h)
    let r1 := if inside then r ++ [pq] else r
    if inside && decide (r1.length &&& 8 ≠ 0) then (r1, true)
    else
      let nextq := match rest with
        | [] => q0
        | nx :: _ => nx
      if xor inside (decide (sign * coord dir nextq < coord dir h)) then
        let r2 := r1 ++ [crossing h dir sign pq nextq]
        if r2.length &&& 8 ≠ 0 then (r2, true)
        else chopLoop h dir sign q0 rest r2
      else chopLoop h dir sign q0 rest r1

/-- One chop of the polygon `q`, starting from `nr = 0`. -/
def chop (h : K × K) (dir : Nat) (sign : K) (q : List (K × K)) : List (K × K) × Bool :=
  chopLoop h dir sign (q.headD (0, 0)) q []

/-- The chops still to run, in order; `done` is reached either by `goto` or
when none is left. -/
def chopAll (h : K × K) : List (Nat × K) → List (K × K) → List (K × K)
  | [], q => q
  | (dir, sign) :: rest, q =>
    match chop h dir sign q with
    | (r, true) => r
    | (r, false) => chopAll h rest r

/-- The function `intersectRectQuad2(h, p, ret)`: the points left in `ret`; the
returned count `nr` is the length of the list. -/
def intersectRectQuad2 (h : K × K) (p : List (K × K)) : List (K × K) :=
  chopAll h [(0, -1), (0, 1), (1, -1), (1, 1)] p

/-! ## Values of `S` that need not be numbers -/

/-- A value of the floating type `S` where overflow matters: a number, one of
the two infinities, or a NaN.  Numbers are exact (rounding and the sign of
zero are not modelled); a result beyond `max` in magnitude is the infinity of
its sign. -/
inductive Flt (K : Type) where
  | fin (x : K)
  | pinf
  | ninf
  | nan

namespace Flt

/-- The exact result `x` of an operation on numbers, as stored. -/
def ofK (cfg : Scalar K) (x : K) : Flt K :=
  if x > cfg.max then pinf else if x < -cfg.max then ninf else fin x

/-- Negation `-a`. -/
def neg : Flt K → Flt K
  | fin x => fin (-x)
  | pinf => ninf
  | ninf => pinf
  | nan => nan

/-- Sum `a + b`; `inf + (-inf)` is a NaN. -/
def add (cfg : Scalar K) : Flt K → Flt K → Flt K
  | fin x, fin y => ofK cfg (x + y)
  | fin _, pinf => pinf
  | fin _, ninf => ninf
  | fin _, nan => nan
  | pinf, fin _ => pinf
  | pinf, pinf => pinf
  | pinf, ninf => nan
  | pinf, nan => nan
  | ninf, fin _ => ninf
  | ninf, pinf => nan
  | ninf, ninf => ninf
  | ninf, nan => nan
  | nan, _ => nan

/-- Difference `a - b`. -/
def sub (cfg : Scalar K) (a b : Flt K) : Flt K := add cfg a (neg b)

/-- The product of a number `x` with the infinity of sign `s`; `0 * inf` is
a NaN. -/
def mulInf (x : K) (neg : Bool) : Flt K :=
  if x > 0 then (if neg then ninf else pinf)
  else if x < 0 then (if neg then pinf else ninf)
  else nan

/-- Product `a * b`. -/
def mul (cfg : Scalar K) : Flt K → Flt K → Flt K
  | fin x, fin y => ofK cfg (x * y)
  | fin x, pinf => mulInf x false
  | fin x, ninf => mulInf x true
  | fin _, nan => nan
  | pinf, fin y => mulInf y false
  | pinf, pinf => pinf
  | pinf, ninf => ninf
  | pinf, nan => nan
  | ninf, fin y => mulInf y true
  | ninf, pinf => ninf
  | ninf, ninf => pinf
  | ninf, nan => nan
  | nan, _ => nan

/-- Quotient `a / b`; a number over an infinity is zero, `0 / 0` and
`inf / inf` are NaNs, and a non-zero number over zero is an infinity. -/
def div (cfg : Scalar K) : Flt K → Flt K → Flt K
  | fin x, fin y => if y = 0 then mulInf x false else ofK cfg (x / y)
  | fin _, pinf => fin 0
  | fin _, ninf => fin 0
  | fin _, nan => nan
  | pinf, fin y => if y < 0 then ninf else pinf
  | pinf, pinf => nan
  | pinf, ninf => nan
  | pinf, nan => nan
  | ninf, fin y => if y < 0 then pinf else ninf
  | ninf, pinf => nan
  | ninf, ninf => nan
  | ninf, nan => nan
  | nan, _ => nan

/-- Absolute value `std::abs(a)`. -/
def abs : Flt K → Flt K
  | fin x => fin |x|
  | pinf => pinf
  | ninf => pinf
  | nan => nan

/-- The comparison `a < b`; it is false as soon as one side is a NaN. -/
def lt : Flt K → Flt K → Bool
  | fin x, fin y => decide (x < y)
  | fin _, pinf => true
  | fin _, ninf => false
  | fin _, nan => false
  | pinf, _ => false
  | ninf, fin _ => true
  | ninf, pinf => true
  | ninf, ninf => false
  | ninf, nan => false
  | nan, _ => false

/-- The function `atan2(y, x)` on values that need not be numbers: a NaN for a
NaN argument, the limit angles for infinite arguments. -/
def atan2 (cfg : Scalar K) : Flt K → Flt K → Flt K
  | fin y, fin x => fin (cfg.atan2 y x)
  | fin _, pinf => fin 0
  | fin y, ninf => if y < 0 then fin (-cfg.pi) else fin cfg.pi
  | fin _, nan => nan
  | pinf, fin _ => fin (cfg.pi / 2)
  | pinf, pinf => fin (cfg.pi / 4)
  | pinf, ninf => fin (3 * cfg.pi / 4)
  | pinf, nan => nan
  | ninf, fin _ => fin (-(cfg.pi / 2))
  | ninf, pinf => fin (-(cfg.pi / 4))
  | ninf, ninf => fin (-(3 * cfg.pi / 4))
  | ninf, nan => nan
  | nan, _ => nan

end Flt

/-! ## `cullPoints2` -/

/-- Point `(p[2*i], p[2*i+1])` of the flat array `p`. -/
def pt2 (p : List (K × K)) (i : Nat) : K × K := p.getD i (0, 0)

/-- The centroid `(cx, cy)` computed at the head of `cullPoints2`; the sums of
the default case can overflow.  The fallback scale is the literal `1e18f`. -/
def cullCentroid (cfg : Scalar K) (n : Nat) (p : List (K × K)) : Flt K × Flt K :=
  if n = 1 then (Flt.fin (pt2 p 0).1, Flt.fin (pt2 p 0).2)
  else if n = 2 then
    (Flt.mul cfg (Flt.fin (1 / 2)) (Flt.add cfg (Flt.fin (pt2 p 0).1) (Flt.fin (pt2 p 1).1)),
      Flt.mul cfg (Flt.fin (1 / 2)) (Flt.add cfg (Flt.fin (pt2 p 0).2) (Flt.fin (pt2 p 1).2)))
  else
    let acc := (List.range (n - 1)).foldl
      (fun (acc : Flt K × Flt K × Flt K) i =>
        let q := Flt.sub cfg (Flt.mul cfg (Flt.fin (pt2 p i).1) (Flt.fin (pt2 p (i + 1)).2))
          (Flt.mul cfg (Flt.fin (pt2 p (i + 1)).1) (Flt.fin (pt2 p i).2))
        (Flt.add cfg acc.1 q,
          Flt.add cfg acc.2.1
            (Flt.mul cfg q (Flt.add cfg (Flt.fin (pt2 p i).1) (Flt.fin (pt2 p (i + 1)).1))),
          Flt.add cfg acc.2.2
            (Flt.mul cfg q (Flt.add cfg (Flt.fin (pt2 p i).2) (Flt.fin (pt2 p (i + 1)).2)))))
      (Flt.fin 0, Flt.fin 0, Flt.fin 0)
    let q := Flt.sub cfg (Flt.mul cfg (Flt.fin (pt2 p (n - 1)).1) (Flt.fin (pt2 p 0).2))
      (Flt.mul cfg (Flt.fin (pt2 p 0).1) (Flt.fin (pt2 p (n - 1)).2))
    let a := if Flt.lt (Flt.fin cfg.epsilon) (Flt.abs (Flt.add cfg acc.1 q))
      then Flt.div cfg (Flt.fin 1) (Flt.mul cfg (Flt.fin 3) (Flt.add cfg acc.1 q))
      else Flt.fin 1000000000000000000
    (Flt.mul cfg a (Flt.add cfg acc.2.1
        (Flt.mul cfg q (Flt.add cfg (Flt.fin (pt2 p (n - 1)).1) (Flt.fin (pt2 p 0).1)))),
      Flt.mul cfg a (Flt.add cfg acc.2.2
        (Flt.mul cfg q (Flt.add cfg (Flt.fin (pt2 p (n - 1)).2) (Flt.fin (pt2 p 0).2)))))

/-- The angles `A[0..n)` of the points about the centroid, the loop
`A[i] = atan2(p[i*2+1]-cy, p[i*2]-cx)`. -/
def cullAngles (cfg : Scalar K) (n : Nat) (p : List (K × K)) : List (Flt K) :=
  (List.range n).map (fun i =>
    Flt.atan2 cfg (Flt.sub cfg (Flt.fin (pt2 p i).2) (cullCentroid cfg n p).2)
      (Flt.sub cfg (Flt.fin (pt2 p i).1) (cullCentroid cfg n p).1))

/-- The distance `diff` of the inner search: `std::abs(A[i]-a)`, then
`if(diff > pi) diff = 2*pi - diff`. -/
def cullDiff (cfg : Scalar K) (x a : Flt K) : Flt K :=
  let diff := Flt.abs (Flt.sub cfg x a)
  if Flt.lt (Flt.fin cfg.pi) diff
  then Flt.sub cfg (Flt.mul cfg (Flt.fin 2) (Flt.fin cfg.pi)) diff
  else diff

/-- The inner search `for(int i = 0; i < n; ++i)` of `cullPoints2` for the target
angle `a`: the index left in `*iret`, starting from `*iret = i0` and
`maxdiff = 1e9`.  When `diff` is a NaN the test `diff < maxdiff` fails. -/
def cullPick (cfg : Scalar K) (n : Nat) (ang : List (Flt K)) (avail : List Bool) (a : Flt K)
    (i0 : Nat) : Nat :=
  ((List.range n).foldl
    (fun (acc : Flt K × Nat) i =>
      if avail.getD i false then
        if Flt.lt (cullDiff cfg (ang.getD i (Flt.fin 0)) a) acc.1
        then (cullDiff cfg (ang.getD i (Flt.fin 0)) a, i) else acc
      else acc)
    (Flt.fin 1000000000, i0)).2

/-- The target of round `j`: `a = j*(2*pi/m) + A[i0]`, then
`if (a > pi) a -= 2*pi`, with `a0` for `A[i0]`. -/
def cullAim (cfg : Scalar K) (m : Nat) (a0 : Flt K) (j : Nat) : Flt K :=
  let a := Flt.add cfg (Flt.mul cfg (Flt.fin (j : K))
    (Flt.div cfg (Flt.mul cfg (Flt.fin 2) (Flt.fin cfg.pi)) (Flt.fin (m : K)))) a0
  if Flt.lt (Flt.fin cfg.pi) a
  then Flt.sub cfg a (Flt.mul cfg (Flt.fin 2) (Flt.fin cfg.pi))
  else a

/-- The outer loop `for(int j = 1; j < m; ++j)` of `cullPoints2`, from `j` on
with `fuel` rounds left: the availability flags and the indices written. -/
def cullLoop (cfg : Scalar K) (n m i0 : Nat) (ang : List (Flt K)) :
    Nat → Nat → List Bool → List Nat → List Nat
  | 0, _, _, iret => iret
  | fuel + 1, j, avail, iret =>
    let pick := cullPick cfg n ang avail (cullAim cfg m (ang.getD i0 (Flt.fin 0)) j) i0
    cullLoop cfg n m i0 ang fuel (j + 1) (avail.set pick false) (iret ++ [pick])

/-- The function `cullPoints2(n, p, m, i0, iret)`: the `m` indices written to
`iret`. -/
def cullPoints2 (cfg : Scalar K) (n : Nat) (p : List (K × K)) (m i0 : Nat) : List Nat :=
  let avail := ((List.range n).map (fun _ => true)).set i0 false
  cullLoop cfg n m i0 (cullAngles cfg n p) (m - 1) 1 avail [i0]

/-! ## `boxBox2` -/

/-- What a call of `boxBox2` leaves behind: the returned count, the
reference arguments `normal` and `*depth`, `*return_code`, and the vector
`contacts`. -/
structure BoxBoxResult (K : Type) where
  ret : Nat
  normal : Vec3 K
  depth : K
  return_code : Nat
  contacts : List (ContactPoint K)

/-- The world-space normal after the axis search: the winning column of
`normalT->linear()` or `tf1.linear() * normalC`, negated when `invert_normal`
is set.  (`normalT` is `&tf1` or `&tf2` whenever `best_col_id != -1`.) -/
def satNormal (tf1 tf2 : Transform3 K) (st : SatState K) : Vec3 K :=
  let n := if st.best_col_id ≠ -1 then
      (if st.normalT = 2 then tf2 else tf1).linear.col st.best_col_id.toNat
    else tf1.linear.mulVec st.normalC
  if st.invert_normal then n.neg else n

/-- The loop `for(int j = 0; j < 3; ++j)` walking from a box centre to a corner:
`pt += col(j) * (half[j] * sign)` with `sign = pos` when `col(j).dot(normal) > 0`
and `sign = -pos` otherwise. -/
def cornerWalk (tf : Transform3 K) (half normal : Vec3 K) (pos : K) : Vec3 K :=
  [0, 1, 2].foldl
    (fun pt j =>
      let sign := if (tf.linear.col j).dot normal > 0 then pos else -pos
      pt.add ((tf.linear.col j).smul (half.get j * sign)))
    tf.translation

/-- The branch `if(code > 6)`: the single edge/edge contact
`contacts.emplace_back(normal, pb, -*depth)`. -/
def edgeContact (A B : Vec3 K) (tf1 tf2 : Transform3 K) (normal : Vec3 K) (depth : K)
    (code : Nat) : ContactPoint K :=
  let pa := cornerWalk tf1 A normal 1
  let pb := cornerWalk tf2 B normal (-1)
  let ua := tf1.linear.col ((code - 7) / 3)
  let ub := tf2.linear.col ((code - 7) % 3)
  let ab := lineClosestApproach pa ua pb ub
  let pb := pb.add (ub.smul ab.2)
  ⟨normal, pb, -depth⟩

/-- The values fixed before the clip in the face branch: reference and
incident transforms and half extents, `normal2`, `nr`, the axis numbers, the
incident face `center`, the 2-D data `c1, c2, m11 .. m22`. -/
structure FaceFrame (K : Type) where
  Ta : Transform3 K
  Tb : Transform3 K
  Sa : Vec3 K
  Sb : Vec3 K
  normal2 : Vec3 K
  nr : Vec3 K
  lanr : Nat
  a1 : Nat
  a2 : Nat
  center : Vec3 K
  codeN : Nat
  code1 : Nat
  code2 : Nat
  c1 : K
  c2 : K
  m11 : K
  m12 : K
  m21 : K
  m22 : K

/-- The set-up of the face branch, from the choice of `Ta, Tb, Sa, Sb` to the
four dot products `m11, m12, m21, m22`. -/
def faceFrame (A B : Vec3 K) (tf1 tf2 : Transform3 K) (normal : Vec3 K) (code : Nat) :
    FaceFrame K :=
  let Ta := if code ≤ 3 then tf1 else tf2
  let Tb := if code ≤ 3 then tf2 else tf1
  let Sa := if code ≤ 3 then A else B
  let Sb := if code ≤ 3 then B else A
  let normal2 := if code ≤ 3 then normal else normal.neg
  let nr := Tb.linear.transpose.mulVec normal2
  let anr := nr.cwiseAbs
  let sel : Nat × Nat × Nat :=
    if anr.get 1 > anr.get 0 then
      (if anr.get 1 > anr.get 2 then (1, 0, 2) else (2, 0, 1))
    else
      (if anr.get 0 > anr.get 2 then (0, 1, 2) else (2, 0, 1))
  let lanr := sel.1
  let a1 := sel.2.1
  let a2 := sel.2.2
  let center :=
    if nr.get lanr < 0 then
      (Tb.translation.sub Ta.translation).add ((Tb.linear.col lanr).smul (Sb.get lanr))
    else
      (Tb.translation.sub Ta.translation).sub ((Tb.linear.col lanr).smul (Sb.get lanr))
  let codeN := if code ≤ 3 then code - 1 else code - 4
  let code1 := if codeN = 0 then 1 else 0
  let code2 := if codeN = 0 then 2 else if codeN = 1 then 2 else 1
  let c1 := (Ta.linear.col code1).dot center
  let c2 := (Ta.linear.col code2).dot center
  let m11 := (Tb.linear.col a1).dot (Ta.linear.col code1)
  let m12 := (Tb.linear.col a2).dot (Ta.linear.col code1)
  let m21 := (Tb.linear.col a1).dot (Ta.linear.col code2)
  let m22 := (Tb.linear.col a2).dot (Ta.linear.col code2)
  ⟨Ta, Tb, Sa, Sb, normal2, nr, lanr, a1, a2, center, codeN, code1, code2,
    c1, c2, m11, m12, m21, m22⟩

/-- The array `quad`: the four corners of the incident face in reference-face
coordinates. -/
def faceQuad (f : FaceFrame K) : List (K × K) :=
  let k1 := f.m11 * f.Sb.get f.a1
  let k2 := f.m21 * f.Sb.get f.a1
  let k3 := f.m12 * f.Sb.get f.a2
  let k4 := f.m22 * f.Sb.get f.a2
  [(f.c1 - k1 - k3, f.c2 - k2 - k4), (f.c1 - k1 + k3, f.c2 - k2 + k4),
   (f.c1 + k1 + k3, f.c2 + k2 + k4), (f.c1 + k1 - k3, f.c2 + k2 - k4)]

/-- The array `rect`: the size of the reference face. -/
def faceRect (f : FaceFrame K) : K × K := (f.Sa.get f.code1, f.Sa.get f.code2)

/-- One clipped point that survived the depth test: its 2-D coordinates kept in
`ret`, its position `points[k]` and its depth `dep[k]`. -/
structure Candidate (K : Type) where
  ret : K × K
  point : Vec3 K
  dep : K

/-- The loop `for(int j = 0; j < n_intersect; ++j)`: every clipped point is
lifted to 3-D with the inverse of `m` (`det1 = 1.f/(m11*m22 - m12*m21)`) and
kept when `dep >= 0`. -/
def faceCandidates (f : FaceFrame K) (ret : List (K × K)) : List (Candidate K) :=
  let det1 := 1 / (f.m11 * f.m22 - f.m12 * f.m21)
  let m11 := f.m11 * det1
  let m12 := f.m12 * det1
  let m21 := f.m21 * det1
  let m22 := f.m22 * det1
  ret.filterMap (fun q =>
    let k1 := m22 * (q.1 - f.c1) - m12 * (q.2 - f.c2)
    let k2 := -m21 * (q.1 - f.c1) + m11 * (q.2 - f.c2)
    let point := (f.center.add ((f.Tb.linear.col f.a1).smul k1)).add
      ((f.Tb.linear.col f.a2).smul k2)
    let dep := f.Sa.get f.codeN - f.normal2.dot point
    if dep ≥ 0 then some ⟨q, point, dep⟩ else none)

/-- The contact emitted for a kept point: `points[j] + Ta->translation()` when
`code < 4`, that point less `normal * dep[j]` otherwise, with `-dep[j]` as third
argument. -/
def faceEmit (f : FaceFrame K) (normal : Vec3 K) (code : Nat) (c : Candidate K) :
    ContactPoint K :=
  if code < 4 then ⟨normal, c.point.add f.Ta.translation, -c.dep⟩
  else ⟨normal, (c.point.add f.Ta.translation).sub (normal.smul c.dep), -c.dep⟩

/-- The search for the deepest point: `i1 = 0`, `maxdepth = dep[0]`, then
`for(int i = 1; i < cnum; ++i) if(dep[i] > maxdepth) ...`; the result is `i1`. -/
def deepest (cs : List (Candidate K)) : Nat :=
  ((List.range (cs.length - 1)).foldl
    (fun (acc : Nat × K) k =>
      let i := k + 1
      let d := (cs.map Candidate.dep).getD i 0
      if d > acc.2 then (i, d) else acc)
    (0, (cs.map Candidate.dep).getD 0 0)).1

/-- The value of `maxc` after `if(maxc > cnum) maxc = cnum; if(maxc < 1) maxc = 1;`. -/
def clampMaxc (maxc : Int) (cnum : Nat) : Int :=
  if (if maxc > cnum then (cnum : Int) else maxc) < 1 then 1
  else (if maxc > cnum then (cnum : Int) else maxc)

/-- The function `boxBox2(side1, tf1, side2, tf2, normal, depth, return_code, maxc,
contacts)`.  The arguments `normal`, `depth`, `contacts` are the values the
references hold on entry. -/
def boxBox2 (cfg : Scalar K) (side1 : Vec3 K) (tf1 : Transform3 K) (side2 : Vec3 K)
    (tf2 : Transform3 K) (normal : Vec3 K) (depth : K) (maxc : Int)
    (contacts : List (ContactPoint K)) : BoxBoxResult K :=
  let A := side1.smul (1 / 2)
  let B := side2.smul (1 / 2)
  match satPhase cfg A B tf1 tf2 with
  | none => ⟨0, normal, depth, 0, contacts⟩
  | some st =>
    if st.code = 0 then ⟨0, normal, depth, st.code, contacts⟩
    else
      let normal := satNormal tf1 tf2 st
      let depth := -st.s
      if st.code > 6 then
        ⟨1, normal, depth, st.code, contacts ++ [edgeContact A B tf1 tf2 normal depth st.code]⟩
      else
        let f := faceFrame A B tf1 tf2 normal st.code
        let ret := intersectRectQuad2 (faceRect f) (faceQuad f)
        if ret.length < 1 then ⟨0, normal, depth, st.code, contacts⟩
        else
          let cs := faceCandidates f ret
          let cnum := cs.length
          if cnum < 1 then ⟨0, normal, depth, st.code, contacts⟩
          else
            let maxc := clampMaxc maxc cnum
            if (cnum : Int) ≤ maxc then
              ⟨cnum, normal, depth, st.code, contacts ++ cs.map (faceEmit f normal st.code)⟩
            else
              let i1 := deepest cs
              let iret := cullPoints2 cfg cnum (cs.map Candidate.ret) maxc.toNat i1
              let picked := (List.range maxc.toNat).map
                (fun j => cs.getD (iret.getD j 0) ⟨(0, 0), ⟨0, 0, 0⟩, 0⟩)
              ⟨maxc.toNat, normal, depth, st.code,
                contacts ++ picked.map (faceEmit f normal st.code)⟩

/-! ## Vocabulary of the statements -/

/-- The solid box with full side lengths `side` and pose `tf` contains the
world point `x`: every body-frame coordinate of `x` is within the half extent. -/
def inBox (side : Vec3 K) (tf : Transform3 K) (x : Vec3 K) : Prop :=
  |(tf.linear.col 0).dot (x.sub tf.translation)| ≤ side.x / 2 ∧
  |(tf.linear.col 1).dot (x.sub tf.translation)| ≤ side.y / 2 ∧
  |(tf.linear.col 2).dot (x.sub tf.translation)| ≤ side.z / 2

/-- The world point `x` lies on the surface of the box: it belongs to the box
and one body-frame coordinate equals the half extent in absolute value. -/
def onSurface (side : Vec3 K) (tf : Transform3 K) (x : Vec3 K) : Prop :=
  inBox side tf x ∧
  (|(tf.linear.col 0).dot (x.sub tf.translation)| = side.x / 2 ∨
   |(tf.linear.col 1).dot (x.sub tf.translation)| = side.y / 2 ∨
   |(tf.linear.col 2).dot (x.sub tf.translation)| = side.z / 2)

/-- The running variables `st` are those the block of candidate `ax` writes
when it wins. -/
def Recorded (cfg : Scalar K) (ax : Axis K) (st : SatState K) : Prop :=
  |ax.tmp| - ax.r ≤ 0 ∧ st.invert_normal = decide (ax.tmp < 0) ∧ st.code = ax.code ∧
  match ax.edge with
  | none => st.s = |ax.tmp| - ax.r ∧ st.best_col_id = ax.colId ∧ st.normalT = ax.T
  | some n =>
    cfg.epsilon < n.norm cfg ∧ st.s = (|ax.tmp| - ax.r) / n.norm cfg ∧
    st.best_col_id = -1 ∧ st.normalC = n.sdiv (n.norm cfg)

/-- The square root of the platform is the exact non-negative root. -/
def ExactSqrt (cfg : Scalar K) : Prop :=
  ∀ x, 0 ≤ x → 0 ≤ cfg.sqrt x ∧ cfg.sqrt x * cfg.sqrt x = x

/-- The constants of IEEE binary64 (`double`) around the given library
functions. -/
def binary64 (sqrt : K → K) (atan2 : K → K → K) (pi : K) : Scalar K :=
  ⟨2 ^ 1024 - 2 ^ 971, 1 / 2 ^ 52, sqrt, atan2, pi⟩

/-- The identity rotation. -/
def Mat3.identity : Mat3 K := ⟨1, 0, 0, 0, 1, 0, 0, 0, 1⟩

/-- Rotation about the x axis with cosine `c` and sine `s`. -/
def Mat3.rotX (c s : K) : Mat3 K := ⟨1, 0, 0, 0, c, -s, 0, s, c⟩

/-- Rotation about the y axis with cosine `c` and sine `s`. -/
def Mat3.rotY (c s : K) : Mat3 K := ⟨c, 0, s, 0, 1, 0, -s, 0, c⟩

/-- Rotation about the z axis with cosine `c` and sine `s`. -/
def Mat3.rotZ (c s : K) : Mat3 K := ⟨c, -s, 0, s, c, 0, 0, 0, 1⟩

/-- The face set-up `boxBox2` builds from the state `st` left by the axis
search. -/
def frameOf (side1 : Vec3 K) (tf1 : Transform3 K) (side2 : Vec3 K) (tf2 : Transform3 K)
    (st : SatState K) : FaceFrame K :=
  faceFrame (side1.smul (1 / 2)) (side2.smul (1 / 2)) tf1 tf2 (satNormal tf1 tf2 st) st.code

/-- The clipped points that pass the depth test in the face branch of `boxBox2`
(`cnum` is the length of this list). -/
def survivors (side1 : Vec3 K) (tf1 : Transform3 K) (side2 : Vec3 K) (tf2 : Transform3 K)
    (st : SatState K) : List (Candidate K) :=
  faceCandidates (frameOf side1 tf1 side2 tf2 st)
    (intersectRectQuad2 (faceRect (frameOf side1 tf1 side2 tf2 st))
      (faceQuad (frameOf side1 tf1 side2 tf2 st)))

/-- Some direction `L` strictly separates the projections of the two boxes:
every point of the first projects strictly below every point of the second. -/
def StrictlySeparated (side1 : Vec3 K) (tf1 : Transform3 K) (side2 : Vec3 K)
    (tf2 : Transform3 K) : Prop :=
  ∃ L : Vec3 K, ∀ x y, inBox side1 tf1 x → inBox side2 tf2 y → L.dot x < L.dot y

/-- The two solid boxes have no point in common. -/
def Disjoint (side1 : Vec3 K) (tf1 : Transform3 K) (side2 : Vec3 K) (tf2 : Transform3 K) :
    Prop :=
  ∀ x, ¬ (inBox side1 tf1 x ∧ inBox side2 tf2 x)

/-- The world direction of a face candidate: the column `colId` of the
rotation of the body `T` names. -/
def faceDir (tf1 tf2 : Transform3 K) (ax : Axis K) : Vec3 K :=
  (if ax.T = 2 then tf2 else tf1).linear.col ax.colId.toNat

/-- The points one chop writes when the buffer of eight never fills: for each
point of `q` in turn, the point itself when it is inside, then the crossing
with the chopping line when the edge to the next point changes side. -/
def chopIdeal (h : K × K) (dir : Nat) (sign : K) (q0 : K × K) :
    List (K × K) → List (K × K)
  | [] => []
  | pq :: rest =>
    let inside := decide (sign * coord dir pq < coord dir h)
    let nextq := rest.headD q0
    (if inside then [pq] else []) ++
      ((if xor inside (decide (sign * coord dir nextq < coord dir h)) then
          [crossing h dir sign pq nextq] else []) ++
        chopIdeal h dir sign q0 rest)

/-- The number of changes of value along `e :: l`. -/
def flips : Bool → List Bool → Nat
  | _, [] => 0
  | e, x :: l => (if e = x then 0 else 1) + flips x l

/-- The point `p` lies strictly on the lower side of the line
`g1 * x + g2 * y = c`. -/
def below (g1 g2 c : K) (p : K × K) : Bool := decide (g1 * p.1 + g2 * p.2 < c)

/-- Going once around the polygon `q`, no line is crossed more than twice (as
for the boundary of a convex polygon). -/
def TwoCross (q : List (K × K)) : Prop :=
  ∀ g1 g2 c : K,
    flips (below g1 g2 c (q.headD (0, 0))) ((q ++ [q.headD (0, 0)]).map (below g1 g2 c)) ≤ 2
/-- The quadrilateral `a b c d`, corners in boundary order, is convex: its
diagonals `a c` and `b d` have a point in common. -/
def ConvexQuad (a b c d : K × K) : Prop :=
  ∃ s t : K, 0 ≤ s ∧ s ≤ 1 ∧ 0 ≤ t ∧ t ≤ 1 ∧
    a.1 + s * (c.1 - a.1) = b.1 + t * (d.1 - b.1) ∧
    a.2 + s * (c.2 - a.2) = b.2 + t * (d.2 - b.2)

/-- The point `x` is a convex combination of `a`, `b`, `c`, `d`. -/
def InHull4 (a b c d x : K × K) : Prop :=
  ∃ w1 w2 w3 w4 : K, 0 ≤ w1 ∧ 0 ≤ w2 ∧ 0 ≤ w3 ∧ 0 ≤ w4 ∧ w1 + w2 + w3 + w4 = 1 ∧
    x.1 = w1 * a.1 + w2 * b.1 + w3 * c.1 + w4 * d.1 ∧
    x.2 = w1 * a.2 + w2 * b.2 + w3 * c.2 + w4 * d.2

/-! ## `continuous_collision.h` -/

/-- Modelled from the spec: the enumeration `CCDMotionType`, declared outside
the sources at hand (`ccd_motion_type` is one of Translation, Linear, Screw,
Spline). -/
inductive CCDMotionType where
  | CCDM_TRANS
  | CCDM_LINEAR
  | CCDM_SCREW
  | CCDM_SPLINE
  deriving DecidableEq

/-- Modelled from the spec: the enumeration `CCDSolverType`, declared outside
the sources at hand (`ccd_solver_type` is one of Naive,
ConservativeAdvancement, RayShooting, PolynomialSolver).  `unrecognised` stands
for any other value, the one the `default:` label of the dispatcher catches. -/
inductive CCDSolverType where
  | CCDC_NAIVE
  | CCDC_CONSERVATIVE_ADVANCEMENT
  | CCDC_RAY_SHOOTING
  | CCDC_POLYNOMIAL_SOLVER
  | unrecognised
  deriving DecidableEq

/-- Modelled from the spec: the enumeration `GJKSolverType`, declared outside
the sources at hand (`gjk_solver_type` is LibCCD or Indep).  `unrecognised`
stands for any other value. -/
inductive GJKSolverType where
  | GST_LIBCCD
  | GST_INDEP
  | unrecognised
  deriving DecidableEq

/-- Modelled from the spec: the enumeration `OBJECT_TYPE` that `getObjectType()`
returns, declared outside the sources at hand: a geometry leaf (`OT_GEOM`), a
triangle mesh (`OT_BVH`), or anything else. -/
inductive ObjectType where
  | OT_GEOM
  | OT_BVH
  | other
  deriving DecidableEq

/-- Modelled from the spec: the record `ContinuousCollisionRequest`, declared
outside the sources at hand, with the fields the functions read. -/
structure ContinuousCollisionRequest (K : Type) where
  num_max_iterations : Nat
  toc_err : K
  ccd_motion_type : CCDMotionType
  gjk_solver_type : GJKSolverType
  ccd_solver_type : CCDSolverType

/-- Modelled from the spec: the record `ContinuousCollisionResult`, declared
outside the sources at hand, with the fields the functions write. -/
structure ContinuousCollisionResult (K : Type) where
  is_collide : Bool
  time_of_contact : K
  contact_tf1 : Transform3 K
  contact_tf2 : Transform3 K

/-- What the continuous-collision functions take from outside
`continuous_collision.h` for one pair of objects and motions:
`motion1 t` is what `getCurrentTransform` gives after `integrate(t)`, `collide`
the value the discrete `collide(o1, tf1, o2, tf2, ...)` returns, the object and
node types of `o1` and `o2`, the two conservative-advancement lookup tables
(one per GJK solver; `none` is an empty entry), the polynomial solver
`continuousCollideBVHPolynomial`, and the conversion `(std::size_t)ceil(x)`. -/
structure Scene (K : Type) where
  motion1 : K → Transform3 K
  motion2 : K → Transform3 K
  collide : Transform3 K → Transform3 K → Nat
  objectType1 : ObjectType
  objectType2 : ObjectType
  nodeType1 : Nat
  nodeType2 : Nat
  tableLibccd : Nat → Nat →
    Option (ContinuousCollisionRequest K → ContinuousCollisionResult K →
      K × ContinuousCollisionResult K)
  tableIndep : Nat → Nat →
    Option (ContinuousCollisionRequest K → ContinuousCollisionResult K →
      K × ContinuousCollisionResult K)
  polynomial : ContinuousCollisionRequest K → ContinuousCollisionResult K →
    K × ContinuousCollisionResult K
  ceilToSize : K → Nat

/-- The sample time `S t = i / (S) (n_iter - 1)`. -/
def naiveSample (n_iter i : Nat) : K := (i : K) / ((n_iter - 1 : Nat) : K)

/-- The loop `for(std::size_t i = 0; i < n_iter; ++i)` of `continuousCollideNaive`
from `i` on, with `fuel = n_iter - i` rounds left: the time and the two
transforms at the first sample where `collide` returns non-zero. -/
def naiveLoop (sc : Scene K) (n_iter : Nat) :
    Nat → Nat → Option (K × Transform3 K × Transform3 K)
  | _, 0 => none
  | i, fuel + 1 =>
    let t : K := naiveSample n_iter i
    let cur_tf1 := sc.motion1 t
    let cur_tf2 := sc.motion2 t
    if sc.collide cur_tf1 cur_tf2 ≠ 0 then some (t, cur_tf1, cur_tf2)
    else naiveLoop sc n_iter (i + 1) fuel

/-- The function `continuousCollideNaive`: the returned value and the result
record after the call. -/
def continuousCollideNaive (sc : Scene K) (request : ContinuousCollisionRequest K)
    (result : ContinuousCollisionResult K) : K × ContinuousCollisionResult K :=
  let n_iter := min request.num_max_iterations (sc.ceilToSize (1 / request.toc_err))
  match naiveLoop sc n_iter 0 n_iter with
  | some (t, cur_tf1, cur_tf2) => (t, ⟨true, t, cur_tf1, cur_tf2⟩)
  | none => (1, ⟨false, 1, result.contact_tf1, result.contact_tf2⟩)

/-- The function `details::continuousCollideConservativeAdvancement` for the
lookup table `table`: `res` starts at `-1`, the table entry is called when it
is not empty, and `contact_tf1`, `contact_tf2` are written whenever
`result.is_collide` holds afterwards. -/
def continuousCollideConservativeAdvancementImpl (sc : Scene K)
    (table : Nat → Nat →
      Option (ContinuousCollisionRequest K → ContinuousCollisionResult K →
        K × ContinuousCollisionResult K))
    (request : ContinuousCollisionRequest K) (result : ContinuousCollisionResult K) :
    K × ContinuousCollisionResult K :=
  let step : K × ContinuousCollisionResult K :=
    match table sc.nodeType1 sc.nodeType2 with
    | none => (-1, result)
    | some f => f request result
  let res := step.1
  let result := step.2
  if result.is_collide then
    (res, ⟨result.is_collide, result.time_of_contact, sc.motion1 result.time_of_contact,
      sc.motion2 result.time_of_contact⟩)
  else (res, result)

/-- The function `continuousCollideConservativeAdvancement`: the switch on
`request.gjk_solver_type`. -/
def continuousCollideConservativeAdvancement (sc : Scene K)
    (request : ContinuousCollisionRequest K) (result : ContinuousCollisionResult K) :
    K × ContinuousCollisionResult K :=
  match request.gjk_solver_type with
  | GJKSolverType.GST_LIBCCD =>
    continuousCollideConservativeAdvancementImpl sc sc.tableLibccd request result
  | GJKSolverType.GST_INDEP =>
    continuousCollideConservativeAdvancementImpl sc sc.tableIndep request result
  | GJKSolverType.unrecognised => (-1, result)

/-- The function `continuousCollide(o1, motion1, o2, motion2, request, result)`:
the switch on `request.ccd_solver_type`; every path that leaves the switch
through `break` returns `-1`. -/
def continuousCollide (sc : Scene K) (request : ContinuousCollisionRequest K)
    (result : ContinuousCollisionResult K) : K × ContinuousCollisionResult K :=
  match request.ccd_solver_type with
  | CCDSolverType.CCDC_NAIVE => continuousCollideNaive sc request result
  | CCDSolverType.CCDC_CONSERVATIVE_ADVANCEMENT =>
    continuousCollideConservativeAdvancement sc request result
  | CCDSolverType.CCDC_RAY_SHOOTING =>
    if sc.objectType1 = ObjectType.OT_GEOM ∧ sc.objectType2 = ObjectType.OT_GEOM ∧
        request.ccd_motion_type = CCDMotionType.CCDM_TRANS then (-1, result)
    else (-1, result)
  | CCDSolverType.CCDC_POLYNOMIAL_SOLVER =>
    if sc.objectType1 = ObjectType.OT_BVH ∧ sc.objectType2 = ObjectType.OT_BVH ∧
        request.ccd_motion_type = CCDMotionType.CCDM_TRANS then sc.polynomial request result
    else (-1, result)
  | CCDSolverType.unrecognised => (-1, result)

/-- A scene of two unit boxes: the first rests at the origin, the second slides
along the x axis from 3 to 0; `collide` counts one contact when the centres are
at most 1 apart along x. -/
def slideScene : Scene ℚ where
  motion1 := fun _ => ⟨Mat3.identity, ⟨0, 0, 0⟩⟩
  motion2 := fun t => ⟨Mat3.identity, ⟨3 - 3 * t, 0, 0⟩⟩
  collide := fun a b => if |b.translation.x - a.translation.x| ≤ 1 then 1 else 0
  objectType1 := ObjectType.OT_GEOM
  objectType2 := ObjectType.OT_GEOM
  nodeType1 := 9
  nodeType2 := 9
  tableLibccd := fun _ _ => none
  tableIndep := fun _ _ => none
  polynomial := fun _ r => (-1, r)
  ceilToSize := fun x => ⌈x⌉.toNat

/-- The pose `tf` moved by the vector `d`: same rotation, translation `T + d`. -/
def Transform3.shift (tf : Transform3 K) (d : Vec3 K) : Transform3 K :=
  ⟨tf.linear, tf.translation.add d⟩

/-- The pose `tf` turned by the matrix `g` about the world origin: `(g * R, g * T)`. -/
def Transform3.rotate (g : Mat3 K) (tf : Transform3 K) : Transform3 K :=
  ⟨g.mul tf.linear, g.mulVec tf.translation⟩

/-- A contact with its position moved by `d`; normal and depth are kept. -/
def ContactPoint.shift (d : Vec3 K) (c : ContactPoint K) : ContactPoint K :=
  ⟨c.normal, c.pos.add d, c.penetration_depth⟩

/-- A contact with its normal and position turned by `g`; the depth is kept. -/
def ContactPoint.rotate (g : Mat3 K) (c : ContactPoint K) : ContactPoint K :=
  ⟨g.mulVec c.normal, g.mulVec c.pos, c.penetration_depth⟩

/-- The three ways `boxBox2` splits the axes `0, 1, 2` of a box into the axis
`n` of a face normal and the two axes `i < j` spanning the face. -/
def AxisSplit (n i j : Nat) : Prop :=
  (n = 0 ∧ i = 1 ∧ j = 2) ∨ (n = 1 ∧ i = 0 ∧ j = 2) ∨ (n = 2 ∧ i = 0 ∧ j = 1)

/-- The first face coordinate `k1` the lifting loop of the face branch computes
for the clipped point `q`. -/
def FaceFrame.k1 (f : FaceFrame K) (q : K × K) : K :=
  f.m22 * (1 / (f.m11 * f.m22 - f.m12 * f.m21)) * (q.1 - f.c1)
    - f.m12 * (1 / (f.m11 * f.m22 - f.m12 * f.m21)) * (q.2 - f.c2)

/-- The second face coordinate `k2` the lifting loop of the face branch
computes for the clipped point `q`. -/
def FaceFrame.k2 (f : FaceFrame K) (q : K × K) : K :=
  -(f.m21 * (1 / (f.m11 * f.m22 - f.m12 * f.m21))) * (q.1 - f.c1)
    + f.m11 * (1 / (f.m11 * f.m22 - f.m12 * f.m21)) * (q.2 - f.c2)

/-! ## `boxBoxIntersect` -/

/-- The function `boxBoxIntersect(s1, tf1, s2, tf2, contacts_)`: the returned
flag and what `*contacts_` holds afterwards (`none` stands for a null pointer).
The locals `normal` and `depth` are declared without a value; `normal0` and
`depth0` stand for what they hold when `boxBox2` is entered. -/
def boxBoxIntersect (cfg : Scalar K) (side1 : Vec3 K) (tf1 : Transform3 K) (side2 : Vec3 K)
    (tf2 : Transform3 K) (normal0 : Vec3 K) (depth0 : K)
    (contacts_ : Option (List (ContactPoint K))) : Bool × Option (List (ContactPoint K)) :=
  let r := boxBox2 cfg side1 tf1 side2 tf2 normal0 depth0 4 []
  (decide (r.return_code ≠ 0), contacts_.map (fun _ => r.contacts))

/-- Modelled from the spec: the translation motion model, whose class is
declared outside the sources at hand: the rotation stays that of `tf_beg`, the
translation at time `t` is `tf_beg.t + t * (tf_end.t - tf_beg.t)`. -/
def translationMotion (tf_beg tf_end : Transform3 K) (t : K) : Transform3 K :=
  ⟨tf_beg.linear,
    tf_beg.translation.add ((tf_end.translation.sub tf_beg.translation).smul t)⟩

/-- Modelled from the spec: the scene of two boxes with sides `side1`, `side2`
moving along `motion1`, `motion2`, whose narrow-phase test is
`boxBoxIntersect`: `collide` counts one contact when it returns `true`, none
otherwise.  No conservative-advancement entry is filled in. -/
def boxScene (cfg : Scalar K) (side1 side2 : Vec3 K) (motion1 motion2 : K → Transform3 K)
    (normal0 : Vec3 K) (depth0 : K) (ceilToSize : K → Nat) : Scene K where
  motion1 := motion1
  motion2 := motion2
  collide := fun a b =>
    if (boxBoxIntersect cfg side1 a side2 b normal0 depth0 none).1 then 1 else 0
  objectType1 := ObjectType.OT_GEOM
  objectType2 := ObjectType.OT_GEOM
  nodeType1 := 9
  nodeType2 := 9
  tableLibccd := fun _ _ => none
  tableIndep := fun _ _ => none
  polynomial := fun _ r => (-1, r)
  ceilToSize := ceilToSize

/-- The world point with body-frame coordinates `c` in the frame `tf`:
`tf.translation + tf.linear * c`. -/
def boxPoint (tf : Transform3 K) (c : Vec3 K) : Vec3 K :=
  tf.translation.add (tf.linear.mulVec c)

/-- The body-frame coordinates `c` name a vertex of the box with full side
lengths `side` and pose `tf`, and no point of that box lies further along the
direction `d` than this vertex. -/
def IsExtremalVertex (side : Vec3 K) (tf : Transform3 K) (d c : Vec3 K) : Prop :=
  (c.x = side.x / 2 ∨ c.x = -(side.x / 2)) ∧ (c.y = side.y / 2 ∨ c.y = -(side.y / 2)) ∧
  (c.z = side.z / 2 ∨ c.z = -(side.z / 2)) ∧
  ∀ c2 : Vec3 K, |c2.x| ≤ side.x / 2 → |c2.y| ≤ side.y / 2 → |c2.z| ≤ side.z / 2 →
    d.dot (boxPoint tf c2) ≤ d.dot (boxPoint tf c)

/-- The cross product `a × b`. -/
def Vec3.cross (a b : Vec3 K) : Vec3 K :=
  ⟨a.y * b.z - a.z * b.y, a.z * b.x - a.x * b.z, a.x * b.y - a.y * b.x⟩

/-! ## `Capsule` -/

/-- The data members of `Capsule`: `radius` and the length `lz` along the z
axis. -/
structure Capsule (K : Type) where
  radius : K
  lz : K

/-- The function `Capsule::computeVolume`; `cfg.pi` is `constants<S>::pi()`. -/
def Capsule.computeVolume (cfg : Scalar K) (c : Capsule K) : K :=
  cfg.pi * c.radius * c.radius * (c.lz + c.radius * 4 / 3)

/-- The function `Capsule::computeMomentofInertia`: the diagonal matrix of
`(ix, ix, iz)`.  The literals `0.25`, `0.4`, `0.5` are the exact fractions. -/
def Capsule.computeMomentofInertia (cfg : Scalar K) (c : Capsule K) : Mat3 K :=
  let v_cyl := c.radius * c.radius * c.lz * cfg.pi
  let v_sph := c.radius * c.radius * c.radius * cfg.pi * 4 / 3
  let ix := v_cyl * c.lz * c.lz / 12 + 25 / 100 * v_cyl * c.radius
    + 4 / 10 * v_sph * c.radius * c.radius + 25 / 100 * v_sph * c.lz * c.lz
  let iz := (5 / 10 * v_cyl + 4 / 10 * v_sph) * c.radius * c.radius
  ⟨ix, 0, 0, 0, ix, 0, 0, 0, iz⟩
/-! ## The overload of `boxBox2` on rotation matrices and translations -/

/-- The six face candidates of the overload of `boxBox2` that takes
`(R1, T1, R2, T2)`, in source order. -/
def faceAxesRT (A B : Vec3 K) (R1 : Mat3 K) (T1 : Vec3 K) (R2 : Mat3 K) (T2 : Vec3 K) :
    List (Axis K) :=
  let p := T2.sub T1
  let pp := R1.transpose.mulVec p
  let R := R1.transpose.mul R2
  let Q := R.cwiseAbs
  [ ⟨pp.get 0, (Q.row 0).dot B + A.get 0, none, 0, 1, 1⟩,
    ⟨pp.get 1, (Q.row 1).dot B + A.get 1, none, 1, 1, 2⟩,
    ⟨pp.get 2, (Q.row 2).dot B + A.get 2, none, 2, 1, 3⟩,
    ⟨(R2.col 0).dot p, (Q.col 0).dot A + B.get 0, none, 0, 2, 4⟩,
    ⟨(R2.col 1).dot p, (Q.col 1).dot A + B.get 1, none, 1, 2, 5⟩,
    ⟨(R2.col 2).dot p, (Q.col 2).dot A + B.get 2, none, 2, 2, 6⟩ ]

/-- The nine edge candidates of the `(R1, T1, R2, T2)` overload, in source
order, evaluated after `Q.array() += fudge2`. -/
def edgeAxesRT (A B : Vec3 K) (R1 : Mat3 K) (T1 : Vec3 K) (R2 : Mat3 K) (T2 : Vec3 K) :
    List (Axis K) :=
  let p := T2.sub T1
  let pp := R1.transpose.mulVec p
  let R := R1.transpose.mul R2
  let Qf := R.cwiseAbs.addScalar fudge2
  [ ⟨pp.get 2 * R.coeff 1 0 - pp.get 1 * R.coeff 2 0,
      A.get 1 * Qf.coeff 2 0 + A.get 2 * Qf.coeff 1 0 + B.get 1 * Qf.coeff 0 2
        + B.get 2 * Qf.coeff 0 1,
      some ⟨0, -R.coeff 2 0, R.coeff 1 0⟩, -1, 0, 7⟩,
    ⟨pp.get 2 * R.coeff 1 1 - pp.get 1 * R.coeff 2 1,
      A.get 1 * Qf.coeff 2 1 + A.get 2 * Qf.coeff 1 1 + B.get 0 * Qf.coeff 0 2
        + B.get 2 * Qf.coeff 0 0,
      some ⟨0, -R.coeff 2 1, R.coeff 1 1⟩, -1, 0, 8⟩,
    ⟨pp.get 2 * R.coeff 1 2 - pp.get 1 * R.coeff 2 2,
      A.get 1 * Qf.coeff 2 2 + A.get 2 * Qf.coeff 1 2 + B.get 0 * Qf.coeff 0 1
        + B.get 1 * Qf.coeff 0 0,
      some ⟨0, -R.coeff 2 2, R.coeff 1 2⟩, -1, 0, 9⟩,
    ⟨pp.get 0 * R.coeff 2 0 - pp.get 2 * R.coeff 0 0,
      A.get 0 * Qf.coeff 2 0 + A.get 2 * Qf.coeff 0 0 + B.get 1 * Qf.coeff 1 2
        + B.get 2 * Qf.coeff 1 1,
      some ⟨R.coeff 2 0, 0, -R.coeff 0 0⟩, -1, 0, 10⟩,
    ⟨pp.get 0 * R.coeff 2 1 - pp.get 2 * R.coeff 0 1,
      A.get 0 * Qf.coeff 2 1 + A.get 2 * Qf.coeff 0 1 + B.get 0 * Qf.coeff 1 2
        + B.get 2 * Qf.coeff 1 0,
      some ⟨R.coeff 2 1, 0, -R.coeff 0 1⟩, -1, 0, 11⟩,
    ⟨pp.get 0 * R.coeff 2 2 - pp.get 2 * R.coeff 0 2,
      A.get 0 * Qf.coeff 2 2 + A.get 2 * Qf.coeff 0 2 + B.get 0 * Qf.coeff 1 1
        + B.get 1 * Qf.coeff 1 0,
      some ⟨R.coeff 2 2, 0, -R.coeff 0 2⟩, -1, 0, 12⟩,
    ⟨pp.get 1 * R.coeff 0 0 - pp.get 0 * R.coeff 1 0,
      A.get 0 * Qf.coeff 1 0 + A.get 1 * Qf.coeff 0 0 + B.get 1 * Qf.coeff 2 2
        + B.get 2 * Qf.coeff 2 1,
      some ⟨-R.coeff 1 0, R.coeff 0 0, 0⟩, -1, 0, 13⟩,
    ⟨pp.get 1 * R.coeff 0 1 - pp.get 0 * R.coeff 1 1,
      A.get 0 * Qf.coeff 1 1 + A.get 1 * Qf.coeff 0 1 + B.get 0 * Qf.coeff 2 2
        + B.get 2 * Qf.coeff 2 0,
      some ⟨-R.coeff 1 1, R.coeff 0 1, 0⟩, -1, 0, 14⟩,
    ⟨pp.get 1 * R.coeff 0 2 - pp.get 0 * R.coeff 1 2,
      A.get 0 * Qf.coeff 1 2 + A.get 1 * Qf.coeff 0 2 + B.get 0 * Qf.coeff 2 1
        + B.get 1 * Qf.coeff 2 0,
      some ⟨-R.coeff 1 2, R.coeff 0 2, 0⟩, -1, 0, 15⟩ ]

/-- The fifteen candidates of the `(R1, T1, R2, T2)` overload. -/
def axesRT (A B : Vec3 K) (R1 : Mat3 K) (T1 : Vec3 K) (R2 : Mat3 K) (T2 : Vec3 K) :
    List (Axis K) :=
  faceAxesRT A B R1 T1 R2 T2 ++ edgeAxesRT A B R1 T1 R2 T2

/-- The whole axis search of the `(R1, T1, R2, T2)` overload.  The pointer
`normalR` is kept in the field `normalT`: `0` for a null pointer, `1` for `&R1`,
`2` for `&R2`. -/
def satPhaseRT (cfg : Scalar K) (A B : Vec3 K) (R1 : Mat3 K) (T1 : Vec3 K) (R2 : Mat3 K)
    (T2 : Vec3 K) : Option (SatState K) :=
  satFold cfg (SatState.init cfg) (axesRT A B R1 T1 R2 T2)

/-- The world-space normal of the `(R1, T1, R2, T2)` overload: the winning
column of `*normalR` or `R1 * normalC`, negated when `invert_normal` is set. -/
def satNormalRT (R1 R2 : Mat3 K) (st : SatState K) : Vec3 K :=
  let n := if st.best_col_id ≠ -1 then
      (if st.normalT = 2 then R2 else R1).col st.best_col_id.toNat
    else R1.mulVec st.normalC
  if st.invert_normal then n.neg else n

/-- The corner walk of the `(R1, T1, R2, T2)` overload, from the centre `T`
along the columns of `R`. -/
def cornerWalkRT (R : Mat3 K) (T : Vec3 K) (half normal : Vec3 K) (pos : K) : Vec3 K :=
  [0, 1, 2].foldl
    (fun pt j =>
      let sign := if (R.col j).dot normal > 0 then pos else -pos
      pt.add ((R.col j).smul (half.get j * sign)))
    T

/-- The branch `if(code > 6)` of the `(R1, T1, R2, T2)` overload. -/
def edgeContactRT (A B : Vec3 K) (R1 : Mat3 K) (T1 : Vec3 K) (R2 : Mat3 K) (T2 : Vec3 K)
    (normal : Vec3 K) (depth : K) (code : Nat) : ContactPoint K :=
  let pa := cornerWalkRT R1 T1 A normal 1
  let pb := cornerWalkRT R2 T2 B normal (-1)
  let ua := R1.col ((code - 7) / 3)
  let ub := R2.col ((code - 7) % 3)
  let ab := lineClosestApproach pa ua pb ub
  let pb := pb.add (ub.smul ab.2)
  ⟨normal, pb, -depth⟩

/-- The values the `(R1, T1, R2, T2)` overload fixes before the clip in the
face branch: the pointers `Ra, Rb, pa, pb, Sa, Sb`, then `normal2`, `nr`, the
axis numbers, `center` and the 2-D data. -/
structure FaceFrameRT (K : Type) where
  Ra : Mat3 K
  Rb : Mat3 K
  pa : Vec3 K
  pb : Vec3 K
  Sa : Vec3 K
  Sb : Vec3 K
  normal2 : Vec3 K
  nr : Vec3 K
  lanr : Nat
  a1 : Nat
  a2 : Nat
  center : Vec3 K
  codeN : Nat
  code1 : Nat
  code2 : Nat
  c1 : K
  c2 : K
  m11 : K
  m12 : K
  m21 : K
  m22 : K

/-- The set-up of the face branch of the `(R1, T1, R2, T2)` overload. -/
def faceFrameRT (A B : Vec3 K) (R1 : Mat3 K) (T1 : Vec3 K) (R2 : Mat3 K) (T2 : Vec3 K)
    (normal : Vec3 K) (code : Nat) : FaceFrameRT K :=
  let Ra := if code ≤ 3 then R1 else R2
  let Rb := if code ≤ 3 then R2 else R1
  let pa := if code ≤ 3 then T1 else T2
  let pb := if code ≤ 3 then T2 else T1
  let Sa := if code ≤ 3 then A else B
  let Sb := if code ≤ 3 then B else A
  let normal2 := if code ≤ 3 then normal else normal.neg
  let nr := Rb.transpose.mulVec normal2
  let anr := nr.cwiseAbs
  let sel : Nat × Nat × Nat :=
    if anr.get 1 > anr.get 0 then
      (if anr.get 1 > anr.get 2 then (1, 0, 2) else (2, 0, 1))
    else
      (if anr.get 0 > anr.get 2 then (0, 1, 2) else (2, 0, 1))
  let lanr := sel.1
  let a1 := sel.2.1
  let a2 := sel.2.2
  let center :=
    if nr.get lanr < 0 then
      (pb.sub pa).add ((Rb.col lanr).smul (Sb.get lanr))
    else
      (pb.sub pa).sub ((Rb.col lanr).smul (Sb.get lanr))
  let codeN := if code ≤ 3 then code - 1 else code - 4
  let code1 := if codeN = 0 then 1 else 0
  let code2 := if codeN = 0 then 2 else if codeN = 1 then 2 else 1
  let c1 := (Ra.col code1).dot center
  let c2 := (Ra.col code2).dot center
  let m11 := (Rb.col a1).dot (Ra.col code1)
  let m12 := (Rb.col a2).dot (Ra.col code1)
  let m21 := (Rb.col a1).dot (Ra.col code2)
  let m22 := (Rb.col a2).dot (Ra.col code2)
  ⟨Ra, Rb, pa, pb, Sa, Sb, normal2, nr, lanr, a1, a2, center, codeN, code1, code2,
    c1, c2, m11, m12, m21, m22⟩

/-- The array `quad` of the `(R1, T1, R2, T2)` overload. -/
def faceQuadRT (f : FaceFrameRT K) : List (K × K) :=
  let k1 := f.m11 * f.Sb.get f.a1
  let k2 := f.m21 * f.Sb.get f.a1
  let k3 := f.m12 * f.Sb.get f.a2
  let k4 := f.m22 * f.Sb.get f.a2
  [(f.c1 - k1 - k3, f.c2 - k2 - k4), (f.c1 - k1 + k3, f.c2 - k2 + k4),
   (f.c1 + k1 + k3, f.c2 + k2 + k4), (f.c1 + k1 - k3, f.c2 + k2 - k4)]

/-- The array `rect` of the `(R1, T1, R2, T2)` overload. -/
def faceRectRT (f : FaceFrameRT K) : K × K := (f.Sa.get f.code1, f.Sa.get f.code2)

/-- The lifting loop of the `(R1, T1, R2, T2)` overload. -/
def faceCandidatesRT (f : FaceFrameRT K) (ret : List (K × K)) : List (Candidate K) :=
  let det1 := 1 / (f.m11 * f.m22 - f.m12 * f.m21)
  let m11 := f.m11 * det1
  let m12 := f.m12 * det1
  let m21 := f.m21 * det1
  let m22 := f.m22 * det1
  ret.filterMap (fun q =>
    let k1 := m22 * (q.1 - f.c1) - m12 * (q.2 - f.c2)
    let k2 := -m21 * (q.1 - f.c1) + m11 * (q.2 - f.c2)
    let point := (f.center.add ((f.Rb.col f.a1).smul k1)).add
      ((f.Rb.col f.a2).smul k2)
    let dep := f.Sa.get f.codeN - f.normal2.dot point
    if dep ≥ 0 then some ⟨q, point, dep⟩ else none)

/-- The contact the `(R1, T1, R2, T2)` overload emits for a kept point:
`points[j] + (*pa)` when `code < 4`, that point less `normal * dep[j]`
otherwise. -/
def faceEmitRT (f : FaceFrameRT K) (normal : Vec3 K) (code : Nat) (c : Candidate K) :
    ContactPoint K :=
  if code < 4 then ⟨normal, c.point.add f.pa, -c.dep⟩
  else ⟨normal, (c.point.add f.pa).sub (normal.smul c.dep), -c.dep⟩

/-- The overload `boxBox2(side1, R1, T1, side2, R2, T2, normal, depth,
return_code, maxc, contacts)`. -/
def boxBox2RT (cfg : Scalar K) (side1 : Vec3 K) (R1 : Mat3 K) (T1 : Vec3 K)
    (side2 : Vec3 K) (R2 : Mat3 K) (T2 : Vec3 K) (normal : Vec3 K) (depth : K) (maxc : Int)
    (contacts : List (ContactPoint K)) : BoxBoxResult K :=
  let A := side1.smul (1 / 2)
  let B := side2.smul (1 / 2)
  match satPhaseRT cfg A B R1 T1 R2 T2 with
  | none => ⟨0, normal, depth, 0, contacts⟩
  | some st =>
    if st.code = 0 then ⟨0, normal, depth, st.code, contacts⟩
    else
      let normal := satNormalRT R1 R2 st
      let depth := -st.s
      if st.code > 6 then
        ⟨1, normal, depth, st.code,
          contacts ++ [edgeContactRT A B R1 T1 R2 T2 normal depth st.code]⟩
      else
        let f := faceFrameRT A B R1 T1 R2 T2 normal st.code
        let ret := intersectRectQuad2 (faceRectRT f) (faceQuadRT f)
        if ret.length < 1 then ⟨0, normal, depth, st.code, contacts⟩
        else
          let cs := faceCandidatesRT f ret
          let cnum := cs.length
          if cnum < 1 then ⟨0, normal, depth, st.code, contacts⟩
          else
            let maxc := clampMaxc maxc cnum
            if (cnum : Int) ≤ maxc then
              ⟨cnum, normal, depth, st.code, contacts ++ cs.map (faceEmitRT f normal st.code)⟩
            else
              let i1 := deepest cs
              let iret := cullPoints2 cfg cnum (cs.map Candidate.ret) maxc.toNat i1
              let picked := (List.range maxc.toNat).map
                (fun j => cs.getD (iret.getD j 0) ⟨(0, 0), ⟨0, 0, 0⟩, 0⟩)
              ⟨maxc.toNat, normal, depth, st.code,
                contacts ++ picked.map (faceEmitRT f normal st.code)⟩
/-- A pose with a rational rotation (the unit quaternion `(6, -1, -6, 6)/sqrt 109`)
centred at `(0.5, 0.6, 0.7)`. -/
def skewPose : Transform3 K :=
  ⟨⟨-(35 / 109), -(60 / 109), -(84 / 109), 84 / 109, 35 / 109, -(60 / 109),
      60 / 109, -(84 / 109), 35 / 109⟩, ⟨1 / 2, 3 / 5, 7 / 10⟩⟩

/-- Along the direction `L` the two solid boxes are apart by more than `m`:
every point of one projects more than `m` below every point of the other. -/
def SeparatedAlong (side1 : Vec3 K) (tf1 : Transform3 K) (side2 : Vec3 K) (tf2 : Transform3 K)
    (L : Vec3 K) (m : K) : Prop :=
  (∀ x y, inBox side1 tf1 x → inBox side2 tf2 y → L.dot x + m < L.dot y) ∨
  (∀ x y, inBox side1 tf1 x → inBox side2 tf2 y → L.dot y + m < L.dot x)

/-! ## Facts about the axis search -/

theorem satStep_eq_none (cfg : Scalar K) (st : SatState K) (ax : Axis K) :
    satStep cfg st ax = none ↔ |ax.tmp| - ax.r > 0 := by
  unfold satStep
  by_cases h : |ax.tmp| - ax.r > 0
  · simp [h]
  · simp only [h, if_false, iff_false]
    cases ax.edge with
    | none => dsimp only; split <;> simp
    | some n => dsimp only; split <;> [split; skip] <;> simp

theorem satStep_some {cfg : Scalar K} {st st1 : SatState K} {ax : Axis K}
    (h : satStep cfg st ax = some st1) : st1 = st ∨ Recorded cfg ax st1 := by
  unfold satStep at h
  by_cases h0 : |ax.tmp| - ax.r > 0
  · simp [h0] at h
  · simp only [h0, if_false] at h
    have hle : |ax.tmp| - ax.r ≤ 0 := not_lt.mp h0
    cases hedge : ax.edge with
    | none =>
      rw [hedge] at h
      dsimp only at h
      split at h
      · right
        cases h
        simp [Recorded, hedge, hle]
      · left
        cases h
        rfl
    | some n =>
      rw [hedge] at h
      dsimp only at h
      split at h
      · rename_i hl
        split at h
        · right
          cases h
          simp only [Recorded, hedge]
          exact ⟨hle, trivial, trivial, hl, trivial, trivial, trivial⟩
        · left
          cases h
          rfl
      · left
        cases h
        rfl

theorem satFold_eq_none (cfg : Scalar K) (l : List (Axis K)) (st : SatState K) :
    satFold cfg st l = none ↔ ∃ ax ∈ l, |ax.tmp| - ax.r > 0 := by
  induction l generalizing st with
  | nil => simp [satFold]
  | cons a rest ih =>
    unfold satFold
    cases hs : satStep cfg st a with
    | none =>
      have := (satStep_eq_none cfg st a).mp hs
      simp only [List.mem_cons, exists_eq_or_imp, this, true_or]
    | some st1 =>
      have hn : ¬ (|a.tmp| - a.r > 0) := by
        intro hc
        have := (satStep_eq_none cfg st a).mpr hc
        rw [hs] at this
        cases this
      simp only [ih st1, List.mem_cons, exists_eq_or_imp, hn, false_or]

theorem satFold_some {cfg : Scalar K} {l : List (Axis K)} {st st1 : SatState K}
    (h : satFold cfg st l = some st1) : st1 = st ∨ ∃ ax ∈ l, Recorded cfg ax st1 := by
  induction l generalizing st with
  | nil =>
    simp only [satFold, Option.some.injEq] at h
    exact Or.inl h.symm
  | cons a rest ih =>
    unfold satFold at h
    cases hs : satStep cfg st a with
    | none => rw [hs] at h; cases h
    | some st2 =>
      rw [hs] at h
      dsimp only at h
      rcases ih h with h1 | ⟨ax, hax, hrec⟩
      · rcases satStep_some hs with h2 | h2
        · exact Or.inl (h1.trans h2)
        · exact Or.inr ⟨a, List.mem_cons_self _ _, h1 ▸ h2⟩
      · exact Or.inr ⟨ax, List.mem_cons_of_mem _ hax, hrec⟩

theorem satFold_append (cfg : Scalar K) (l1 l2 : List (Axis K)) (st : SatState K) :
    satFold cfg st (l1 ++ l2) = (satFold cfg st l1).bind (fun st1 => satFold cfg st1 l2) := by
  induction l1 generalizing st with
  | nil => simp [satFold]
  | cons a rest ih =>
    simp only [List.cons_append, satFold]
    cases satStep cfg st a with
    | none => rfl
    | some st1 => exact ih st1

/-! ## The shape of a `boxBox2` result -/

theorem boxBox2_of_none (cfg : Scalar K) (side1 side2 : Vec3 K) (tf1 tf2 : Transform3 K)
    (normal : Vec3 K) (depth : K) (maxc : Int) (contacts : List (ContactPoint K))
    (h : satPhase cfg (side1.smul (1 / 2)) (side2.smul (1 / 2)) tf1 tf2 = none) :
    boxBox2 cfg side1 tf1 side2 tf2 normal depth maxc contacts
      = ⟨0, normal, depth, 0, contacts⟩ := by
  unfold boxBox2
  simp only [h]

theorem boxBox2_of_code_zero (cfg : Scalar K) (side1 side2 : Vec3 K) (tf1 tf2 : Transform3 K)
    (normal : Vec3 K) (depth : K) (maxc : Int) (contacts : List (ContactPoint K))
    (st : SatState K)
    (h : satPhase cfg (side1.smul (1 / 2)) (side2.smul (1 / 2)) tf1 tf2 = some st)
    (hc : st.code = 0) :
    boxBox2 cfg side1 tf1 side2 tf2 normal depth maxc contacts
      = ⟨0, normal, depth, 0, contacts⟩ := by
  unfold boxBox2
  simp only [h, hc, if_true]

theorem boxBox2_of_edge (cfg : Scalar K) (side1 side2 : Vec3 K) (tf1 tf2 : Transform3 K)
    (normal : Vec3 K) (depth : K) (maxc : Int) (contacts : List (ContactPoint K))
    (st : SatState K)
    (h : satPhase cfg (side1.smul (1 / 2)) (side2.smul (1 / 2)) tf1 tf2 = some st)
    (hc : st.code ≠ 0) (h6 : st.code > 6) :
    boxBox2 cfg side1 tf1 side2 tf2 normal depth maxc contacts
      = ⟨1, satNormal tf1 tf2 st, -st.s, st.code,
          contacts ++ [edgeContact (side1.smul (1 / 2)) (side2.smul (1 / 2)) tf1 tf2
            (satNormal tf1 tf2 st) (-st.s) st.code]⟩ := by
  unfold boxBox2
  simp only [h, hc, if_false, h6, if_true]

/-- The candidates whose contacts the face branch emits, in order. -/
theorem boxBox2_of_face (cfg : Scalar K) (side1 side2 : Vec3 K) (tf1 tf2 : Transform3 K)
    (normal : Vec3 K) (depth : K) (maxc : Int) (contacts : List (ContactPoint K))
    (st : SatState K)
    (h : satPhase cfg (side1.smul (1 / 2)) (side2.smul (1 / 2)) tf1 tf2 = some st)
    (hc : st.code ≠ 0) (h6 : ¬ st.code > 6) :
    ∃ picked : List (Candidate K),
      boxBox2 cfg side1 tf1 side2 tf2 normal depth maxc contacts
        = ⟨picked.length, satNormal tf1 tf2 st, -st.s, st.code,
            contacts ++ picked.map
              (faceEmit (frameOf side1 tf1 side2 tf2 st) (satNormal tf1 tf2 st) st.code)⟩ ∧
      (picked = [] ∨
       (picked = survivors side1 tf1 side2 tf2 st ∧
          ((survivors side1 tf1 side2 tf2 st).length : Int)
            ≤ clampMaxc maxc (survivors side1 tf1 side2 tf2 st).length) ∨
       (clampMaxc maxc (survivors side1 tf1 side2 tf2 st).length
            < ((survivors side1 tf1 side2 tf2 st).length : Int) ∧
        picked = (List.range (clampMaxc maxc (survivors side1 tf1 side2 tf2 st).length).toNat).map
          (fun j => (survivors side1 tf1 side2 tf2 st).getD
            ((cullPoints2 cfg (survivors side1 tf1 side2 tf2 st).length
              ((survivors side1 tf1 side2 tf2 st).map Candidate.ret)
              (clampMaxc maxc (survivors side1 tf1 side2 tf2 st).length).toNat
              (deepest (survivors side1 tf1 side2 tf2 st))).getD j 0)
            ⟨(0, 0), ⟨0, 0, 0⟩, 0⟩))) := by
  unfold boxBox2 survivors frameOf
  simp only [h, hc, if_false, h6]
  by_cases h1 : (intersectRectQuad2
      (faceRect (faceFrame (side1.smul (1 / 2)) (side2.smul (1 / 2)) tf1 tf2
        (satNormal tf1 tf2 st) st.code))
      (faceQuad (faceFrame (side1.smul (1 / 2)) (side2.smul (1 / 2)) tf1 tf2
        (satNormal tf1 tf2 st) st.code))).length < 1
  · exact ⟨[], by rw [if_pos h1]; simp only [List.length_nil, List.map_nil, List.append_nil],
      Or.inl rfl⟩
  · simp only [h1, if_false]
    by_cases h2 : (faceCandidates (faceFrame (side1.smul (1 / 2)) (side2.smul (1 / 2)) tf1 tf2
        (satNormal tf1 tf2 st) st.code)
        (intersectRectQuad2
          (faceRect (faceFrame (side1.smul (1 / 2)) (side2.smul (1 / 2)) tf1 tf2
            (satNormal tf1 tf2 st) st.code))
          (faceQuad (faceFrame (side1.smul (1 / 2)) (side2.smul (1 / 2)) tf1 tf2
            (satNormal tf1 tf2 st) st.code)))).length < 1
    · exact ⟨[], by rw [if_pos h2]; simp only [List.length_nil, List.map_nil, List.append_nil],
        Or.inl rfl⟩
    · simp only [h2, if_false]
      split
      · rename_i hle
        exact ⟨_, rfl, Or.inr (Or.inl ⟨rfl, hle⟩)⟩
      · rename_i hgt
        refine ⟨_, ?_, Or.inr (Or.inr ⟨not_le.mp hgt, rfl⟩)⟩
        simp only [List.length_map, List.length_range]

theorem satPhase_recorded {cfg : Scalar K} {A B : Vec3 K} {tf1 tf2 : Transform3 K}
    {st : SatState K} (h : satPhase cfg A B tf1 tf2 = some st) (hc : st.code ≠ 0) :
    ∃ ax ∈ axes A B tf1 tf2, Recorded cfg ax st := by
  rcases satFold_some h with h1 | h1
  · exact absurd (by rw [h1]; rfl) hc
  · exact h1

theorem boxBox2_hit {cfg : Scalar K} {side1 side2 : Vec3 K} {tf1 tf2 : Transform3 K}
    {normal : Vec3 K} {depth : K} {maxc : Int} {contacts : List (ContactPoint K)}
    (hrc : (boxBox2 cfg side1 tf1 side2 tf2 normal depth maxc contacts).return_code ≠ 0) :
    ∃ st, satPhase cfg (side1.smul (1 / 2)) (side2.smul (1 / 2)) tf1 tf2 = some st ∧
      st.code ≠ 0 ∧
      (boxBox2 cfg side1 tf1 side2 tf2 normal depth maxc contacts).normal = satNormal tf1 tf2 st ∧
      (boxBox2 cfg side1 tf1 side2 tf2 normal depth maxc contacts).depth = -st.s ∧
      (boxBox2 cfg side1 tf1 side2 tf2 normal depth maxc contacts).return_code = st.code := by
  cases h : satPhase cfg (side1.smul (1 / 2)) (side2.smul (1 / 2)) tf1 tf2 with
  | none =>
    rw [boxBox2_of_none cfg side1 side2 tf1 tf2 normal depth maxc contacts h] at hrc
    exact absurd rfl hrc
  | some st =>
    by_cases hc : st.code = 0
    · rw [boxBox2_of_code_zero cfg side1 side2 tf1 tf2 normal depth maxc contacts st h hc] at hrc
      exact absurd rfl hrc
    · refine ⟨st, rfl, hc, ?_⟩
      by_cases h6 : st.code > 6
      · rw [boxBox2_of_edge cfg side1 side2 tf1 tf2 normal depth maxc contacts st h hc h6]
        exact ⟨rfl, rfl, rfl⟩
      · obtain ⟨picked, hp, _⟩ :=
          boxBox2_of_face cfg side1 side2 tf1 tf2 normal depth maxc contacts st h hc h6
        rw [hp]
        exact ⟨rfl, rfl, rfl⟩

theorem recorded_s_nonpos {cfg : Scalar K} (heps : 0 ≤ cfg.epsilon) {ax : Axis K}
    {st : SatState K} (h : Recorded cfg ax st) : st.s ≤ 0 := by
  obtain ⟨hle, -, -, hm⟩ := h
  cases he : ax.edge with
  | none =>
    rw [he] at hm
    rw [hm.1]
    exact hle
  | some n =>
    rw [he] at hm
    rw [hm.2.1]
    exact div_nonpos_of_nonpos_of_nonneg hle (le_trans heps (le_of_lt hm.1))

theorem axes_face {A B : Vec3 K} {tf1 tf2 : Transform3 K} {ax : Axis K}
    (hmem : ax ∈ axes A B tf1 tf2) (he : ax.edge = none) :
    (ax.T = 1 ∨ ax.T = 2) ∧ (ax.colId = 0 ∨ ax.colId = 1 ∨ ax.colId = 2) ∧
    ax.tmp = ((if ax.T = 2 then tf2 else tf1).linear.col ax.colId.toNat).dot
      (tf2.translation.sub tf1.translation) ∧ 1 ≤ ax.code ∧ ax.code ≤ 6 := by
  simp only [axes, faceAxes, edgeAxes, List.mem_append, List.mem_cons, List.mem_singleton,
    List.not_mem_nil, or_false] at hmem
  rcases hmem with (h | h | h | h | h | h) | (h | h | h | h | h | h | h | h | h) <;>
    subst h <;> first
    | (exfalso; simp at he; done)
    | (refine ⟨by simp, by simp, ?_, by simp, by simp⟩
       simp [Mat3.mulVec, Mat3.transpose, Mat3.row, Mat3.col, Mat3.coeff, Vec3.dot, Vec3.get,
         Vec3.sub]
       try ring)

theorem axes_edge {A B : Vec3 K} {tf1 tf2 : Transform3 K} {ax : Axis K} {n : Vec3 K}
    (hmem : ax ∈ axes A B tf1 tf2) (he : ax.edge = some n) :
    ax.tmp = (tf1.linear.transpose.mulVec (tf2.translation.sub tf1.translation)).dot n ∧
    7 ≤ ax.code ∧ ax.code ≤ 15 := by
  simp only [axes, faceAxes, edgeAxes, List.mem_append, List.mem_cons, List.mem_singleton,
    List.not_mem_nil, or_false] at hmem
  rcases hmem with (h | h | h | h | h | h) | (h | h | h | h | h | h | h | h | h) <;>
    subst h <;> first
    | (exfalso; simp at he; done)
    | (simp only [Option.some.injEq] at he
       subst he
       refine ⟨?_, by simp, by simp⟩
       simp [Mat3.mulVec, Mat3.transpose, Mat3.row, Mat3.col, Mat3.coeff, Vec3.dot, Vec3.get,
         Vec3.sub, Mat3.mul]
       try ring)

theorem satNormal_face {cfg : Scalar K} {tf1 tf2 : Transform3 K} {ax : Axis K}
    {st : SatState K} (h : Recorded cfg ax st) (he : ax.edge = none)
    (hcol : ax.colId = 0 ∨ ax.colId = 1 ∨ ax.colId = 2) :
    satNormal tf1 tf2 st =
      if ax.tmp < 0 then ((if ax.T = 2 then tf2 else tf1).linear.col ax.colId.toNat).neg
      else (if ax.T = 2 then tf2 else tf1).linear.col ax.colId.toNat := by
  obtain ⟨-, hinv, -, hm⟩ := h
  rw [he] at hm
  obtain ⟨-, hb, hT⟩ := hm
  have hne : st.best_col_id ≠ -1 := by
    rw [hb]
    rcases hcol with h | h | h <;> rw [h] <;> decide
  have hne2 : ¬ ax.colId = -1 := hb ▸ hne
  unfold satNormal
  simp only [ne_eq, hinv, decide_eq_true_eq, hb, hT, hne2, not_false_eq_true, if_true]

theorem satNormal_edge {cfg : Scalar K} {tf1 tf2 : Transform3 K} {ax : Axis K}
    {st : SatState K} {n : Vec3 K} (h : Recorded cfg ax st) (he : ax.edge = some n) :
    satNormal tf1 tf2 st =
      if ax.tmp < 0 then (tf1.linear.mulVec (n.sdiv (n.norm cfg))).neg
      else tf1.linear.mulVec (n.sdiv (n.norm cfg)) := by
  obtain ⟨-, hinv, -, hm⟩ := h
  rw [he] at hm
  obtain ⟨-, -, hb, hC⟩ := hm
  unfold satNormal
  simp only [hb, ne_eq, not_true_eq_false, if_false, hinv, decide_eq_true_eq, hC]

theorem dot_neg_right (a b : Vec3 K) : a.dot b.neg = -(a.dot b) := by
  simp only [Vec3.dot, Vec3.neg]
  ring

theorem dot_comm (a b : Vec3 K) : a.dot b = b.dot a := by
  simp only [Vec3.dot]
  ring

theorem dot_mulVec (m : Mat3 K) (p v : Vec3 K) :
    p.dot (m.mulVec v) = (m.transpose.mulVec p).dot v := by
  simp only [Vec3.dot, Mat3.mulVec, Mat3.row, Mat3.transpose, Mat3.coeff]
  simp
  ring

theorem dot_sdiv (p v : Vec3 K) (l : K) : p.dot (v.sdiv l) = p.dot v / l := by
  simp only [Vec3.dot, Vec3.sdiv]
  ring

/-- The centre offset has a non-negative component along the normal recorded by
any candidate. -/
theorem recorded_normal_dot {cfg : Scalar K} (heps : 0 ≤ cfg.epsilon) {A B : Vec3 K}
    {tf1 tf2 : Transform3 K} {ax : Axis K} {st : SatState K}
    (hmem : ax ∈ axes A B tf1 tf2) (h : Recorded cfg ax st) :
    0 ≤ (tf2.translation.sub tf1.translation).dot (satNormal tf1 tf2 st) := by
  cases he : ax.edge with
  | none =>
    obtain ⟨-, hcol, htmp, -, -⟩ := axes_face hmem he
    rw [satNormal_face h he hcol]
    by_cases hneg : ax.tmp < 0
    · rw [if_pos hneg, dot_neg_right, dot_comm, ← htmp]
      linarith
    · rw [if_neg hneg, dot_comm, ← htmp]
      exact not_lt.mp hneg
  | some n =>
    obtain ⟨htmp, -, -⟩ := axes_edge hmem he
    rw [satNormal_edge h he]
    have hl : 0 < n.norm cfg := by
      have := h.2.2.2
      rw [he] at this
      exact lt_of_le_of_lt heps this.1
    by_cases hneg : ax.tmp < 0
    · rw [if_pos hneg, dot_neg_right, dot_mulVec, dot_sdiv, ← htmp]
      have : ax.tmp / n.norm cfg ≤ 0 := div_nonpos_of_nonpos_of_nonneg (le_of_lt hneg) (le_of_lt hl)
      linarith
    · rw [if_neg hneg, dot_mulVec, dot_sdiv, ← htmp]
      exact div_nonneg (not_lt.mp hneg) (le_of_lt hl)

/-- C6. Whenever `boxBox2` reports a collision (`return_code != 0`, any of the
fifteen codes), the normal it writes points from body 1 toward body 2:
`(tf2.translation - tf1.translation) . normal >= 0`. -/
theorem boxBox2_normal_toward_body2 (cfg : Scalar K) (heps : 0 ≤ cfg.epsilon)
    (side1 side2 : Vec3 K) (tf1 tf2 : Transform3 K) (normal : Vec3 K) (depth : K)
    (maxc : Int) (contacts : List (ContactPoint K))
    (hrc : (boxBox2 cfg side1 tf1 side2 tf2 normal depth maxc contacts).return_code ≠ 0) :
    0 ≤ (tf2.translation.sub tf1.translation).dot
      (boxBox2 cfg side1 tf1 side2 tf2 normal depth maxc contacts).normal := by
  obtain ⟨st, hst, hc, hn, -, -⟩ := boxBox2_hit hrc
  obtain ⟨ax, hmem, hrec⟩ := satPhase_recorded hst hc
  rw [hn]
  exact recorded_normal_dot heps hmem hrec

/-- C7. Whenever `boxBox2` reports a collision, the value written to `*depth` is
the negation of the final running best overlap `s` of the axis search, and it
is non-negative. -/
theorem boxBox2_depth_eq_neg_s (cfg : Scalar K) (heps : 0 ≤ cfg.epsilon)
    (side1 side2 : Vec3 K) (tf1 tf2 : Transform3 K) (normal : Vec3 K) (depth : K)
    (maxc : Int) (contacts : List (ContactPoint K))
    (hrc : (boxBox2 cfg side1 tf1 side2 tf2 normal depth maxc contacts).return_code ≠ 0) :
    ∃ st, satPhase cfg (side1.smul (1 / 2)) (side2.smul (1 / 2)) tf1 tf2 = some st ∧
      (boxBox2 cfg side1 tf1 side2 tf2 normal depth maxc contacts).depth = -st.s ∧
      0 ≤ (boxBox2 cfg side1 tf1 side2 tf2 normal depth maxc contacts).depth := by
  obtain ⟨st, hst, hc, -, hd, -⟩ := boxBox2_hit hrc
  obtain ⟨ax, -, hrec⟩ := satPhase_recorded hst hc
  refine ⟨st, hst, hd, ?_⟩
  rw [hd]
  have := recorded_s_nonpos heps hrec
  linarith

theorem land_eight_of_lt (n : Nat) (h : n < 8) : n &&& 8 = 0 := by
  interval_cases n <;> rfl

theorem land_eight_self : (8 : Nat) &&& 8 = 8 := rfl

theorem boxBox2_return_code (cfg : Scalar K) (side1 side2 : Vec3 K) (tf1 tf2 : Transform3 K)
    (normal : Vec3 K) (depth : K) (maxc : Int) (contacts : List (ContactPoint K)) :
    (boxBox2 cfg side1 tf1 side2 tf2 normal depth maxc contacts).return_code
      = match satPhase cfg (side1.smul (1 / 2)) (side2.smul (1 / 2)) tf1 tf2 with
        | none => 0
        | some st => st.code := by
  cases h : satPhase cfg (side1.smul (1 / 2)) (side2.smul (1 / 2)) tf1 tf2 with
  | none => rw [boxBox2_of_none cfg side1 side2 tf1 tf2 normal depth maxc contacts h]
  | some st =>
    by_cases hc : st.code = 0
    · rw [boxBox2_of_code_zero cfg side1 side2 tf1 tf2 normal depth maxc contacts st h hc]
      exact hc.symm
    · by_cases h6 : st.code > 6
      · rw [boxBox2_of_edge cfg side1 side2 tf1 tf2 normal depth maxc contacts st h hc h6]
      · obtain ⟨picked, hp, _⟩ :=
          boxBox2_of_face cfg side1 side2 tf1 tf2 normal depth maxc contacts st h hc h6
        rw [hp]

theorem scenario1_satPhase :
    satPhase (binary64 Real.sqrt (fun y x => Complex.arg ⟨x, y⟩) Real.pi)
      ((⟨1, 1, 1⟩ : Vec3 ℝ).smul (1 / 2)) ((⟨1, 1, 1⟩ : Vec3 ℝ).smul (1 / 2))
      ⟨Mat3.identity, ⟨0, 0, 0⟩⟩ ⟨Mat3.identity, ⟨9 / 10, 0, 0⟩⟩
      = some ⟨-(1 / 10), 0, 1, ⟨0, 0, 0⟩, false, 1⟩ := by
  norm_num [satPhase, axes, faceAxes, edgeAxes, satFold, satStep, SatState.init, binary64,
    Mat3.identity, Mat3.transpose, Mat3.mul, Mat3.mulVec, Mat3.row, Mat3.col, Mat3.coeff,
    Mat3.cwiseAbs, Mat3.addScalar, Vec3.dot, Vec3.get, Vec3.sub, Vec3.norm, Vec3.sdiv,
    Vec3.smul, fudge2, fudge_factor, abs_of_pos, abs_of_neg, abs_of_nonneg]

theorem scenario1_frame :
    frameOf (⟨1, 1, 1⟩ : Vec3 ℝ) ⟨Mat3.identity, ⟨0, 0, 0⟩⟩ ⟨1, 1, 1⟩
      ⟨Mat3.identity, ⟨9 / 10, 0, 0⟩⟩ ⟨-(1 / 10), 0, 1, ⟨0, 0, 0⟩, false, 1⟩
      = ⟨⟨Mat3.identity, ⟨0, 0, 0⟩⟩, ⟨Mat3.identity, ⟨9 / 10, 0, 0⟩⟩, ⟨1 / 2, 1 / 2, 1 / 2⟩,
          ⟨1 / 2, 1 / 2, 1 / 2⟩, ⟨1, 0, 0⟩, ⟨1, 0, 0⟩, 0, 1, 2, ⟨2 / 5, 0, 0⟩, 0, 1, 2,
          0, 0, 1, 0, 0, 1⟩ := by
  norm_num [frameOf, faceFrame, satNormal,
    Mat3.identity, Mat3.transpose, Mat3.mulVec, Mat3.row, Mat3.col, Mat3.coeff,
    Vec3.dot, Vec3.get, Vec3.sub, Vec3.add, Vec3.neg, Vec3.smul, Vec3.cwiseAbs]

theorem scenario1_clip :
    intersectRectQuad2 ((1 / 2, 1 / 2) : ℝ × ℝ)
      [(-(1 / 2), -(1 / 2)), (-(1 / 2), 1 / 2), (1 / 2, 1 / 2), (1 / 2, -(1 / 2))]
      = [(1 / 2, 1 / 2), (1 / 2, -(1 / 2)), (-(1 / 2), -(1 / 2)), (-(1 / 2), 1 / 2)] := by
  norm_num [intersectRectQuad2, chopAll, chop, chopLoop, crossing, coord, land_eight_of_lt]

theorem scenario1_survivors :
    survivors (⟨1, 1, 1⟩ : Vec3 ℝ) ⟨Mat3.identity, ⟨0, 0, 0⟩⟩ ⟨1, 1, 1⟩
      ⟨Mat3.identity, ⟨9 / 10, 0, 0⟩⟩ ⟨-(1 / 10), 0, 1, ⟨0, 0, 0⟩, false, 1⟩
      = [⟨(1 / 2, 1 / 2), ⟨2 / 5, 1 / 2, 1 / 2⟩, 1 / 10⟩,
         ⟨(1 / 2, -(1 / 2)), ⟨2 / 5, 1 / 2, -(1 / 2)⟩, 1 / 10⟩,
         ⟨(-(1 / 2), -(1 / 2)), ⟨2 / 5, -(1 / 2), -(1 / 2)⟩, 1 / 10⟩,
         ⟨(-(1 / 2), 1 / 2), ⟨2 / 5, -(1 / 2), 1 / 2⟩, 1 / 10⟩] := by
  unfold survivors
  rw [scenario1_frame]
  have hq : faceQuad (⟨⟨Mat3.identity, ⟨0, 0, 0⟩⟩, ⟨Mat3.identity, ⟨9 / 10, 0, 0⟩⟩,
      ⟨1 / 2, 1 / 2, 1 / 2⟩, ⟨1 / 2, 1 / 2, 1 / 2⟩, ⟨1, 0, 0⟩, ⟨1, 0, 0⟩, 0, 1, 2,
      ⟨2 / 5, 0, 0⟩, 0, 1, 2, 0, 0, 1, 0, 0, 1⟩ : FaceFrame ℝ)
      = [(-(1 / 2), -(1 / 2)), (-(1 / 2), 1 / 2), (1 / 2, 1 / 2), (1 / 2, -(1 / 2))] := by
    norm_num [faceQuad, Vec3.get]
  have hr : faceRect (⟨⟨Mat3.identity, ⟨0, 0, 0⟩⟩, ⟨Mat3.identity, ⟨9 / 10, 0, 0⟩⟩,
      ⟨1 / 2, 1 / 2, 1 / 2⟩, ⟨1 / 2, 1 / 2, 1 / 2⟩, ⟨1, 0, 0⟩, ⟨1, 0, 0⟩, 0, 1, 2,
      ⟨2 / 5, 0, 0⟩, 0, 1, 2, 0, 0, 1, 0, 0, 1⟩ : FaceFrame ℝ) = (1 / 2, 1 / 2) := by
    norm_num [faceRect, Vec3.get]
  rw [hq, hr, scenario1_clip]
  norm_num [faceCandidates, Mat3.identity, Mat3.col, Mat3.coeff, Vec3.dot, Vec3.get,
    Vec3.add, Vec3.smul]
  rfl

/-! ## Normal and depth of what `boxBox2` appends -/

theorem faceEmit_normal (f : FaceFrame K) (normal : Vec3 K) (code : Nat) (c : Candidate K) :
    (faceEmit f normal code c).normal = normal ∧
    (faceEmit f normal code c).penetration_depth = -c.dep := by
  unfold faceEmit
  split <;> exact ⟨rfl, rfl⟩

theorem faceCandidates_dep_nonneg (f : FaceFrame K) (ret : List (K × K)) (c : Candidate K)
    (hc : c ∈ faceCandidates f ret) : 0 ≤ c.dep := by
  unfold faceCandidates at hc
  simp only [List.mem_filterMap] at hc
  obtain ⟨q, -, hq⟩ := hc
  split at hq
  · rename_i hdep
    simp only [Option.some.injEq] at hq
    rw [← hq]
    exact hdep
  · cases hq

theorem getD_mem_or_default {α : Type} (l : List α) (i : Nat) (d : α) :
    l.getD i d ∈ l ∨ l.getD i d = d := by
  by_cases h : i < l.length
  · left
    rw [List.getD_eq_getElem l d h]
    exact List.getElem_mem h
  · right
    exact List.getD_eq_default l d (not_lt.mp h)

/-- Every candidate the face branch emits passed the depth test (or is the
zero-depth filler an out-of-range index reads). -/
theorem picked_dep_nonneg (cfg : Scalar K) (side1 side2 : Vec3 K) (tf1 tf2 : Transform3 K)
    (normal : Vec3 K) (depth : K) (maxc : Int) (contacts : List (ContactPoint K))
    (st : SatState K)
    (h : satPhase cfg (side1.smul (1 / 2)) (side2.smul (1 / 2)) tf1 tf2 = some st)
    (hc : st.code ≠ 0) (h6 : ¬ st.code > 6) :
    ∃ picked : List (Candidate K),
      boxBox2 cfg side1 tf1 side2 tf2 normal depth maxc contacts
        = ⟨picked.length, satNormal tf1 tf2 st, -st.s, st.code,
            contacts ++ picked.map
              (faceEmit (frameOf side1 tf1 side2 tf2 st) (satNormal tf1 tf2 st) st.code)⟩ ∧
      ∀ c ∈ picked, 0 ≤ c.dep := by
  obtain ⟨picked, hp, hcase⟩ :=
    boxBox2_of_face cfg side1 side2 tf1 tf2 normal depth maxc contacts st h hc h6
  refine ⟨picked, hp, ?_⟩
  have hsurv : ∀ c ∈ survivors side1 tf1 side2 tf2 st, 0 ≤ c.dep :=
    fun c hc => faceCandidates_dep_nonneg _ _ c hc
  rcases hcase with h0 | ⟨h1, -⟩ | ⟨-, h2⟩
  · rw [h0]
    intro c hc
    cases hc
  · rw [h1]
    exact hsurv
  · rw [h2]
    intro c hc
    simp only [List.mem_map, List.mem_range] at hc
    obtain ⟨j, -, hj⟩ := hc
    rw [← hj]
    rcases getD_mem_or_default (survivors side1 tf1 side2 tf2 st)
      ((cullPoints2 cfg (survivors side1 tf1 side2 tf2 st).length
        ((survivors side1 tf1 side2 tf2 st).map Candidate.ret)
        (clampMaxc maxc (survivors side1 tf1 side2 tf2 st).length).toNat
        (deepest (survivors side1 tf1 side2 tf2 st))).getD j 0)
      ⟨(0, 0), ⟨0, 0, 0⟩, 0⟩ with hm | hd
    · exact hsurv _ hm
    · rw [hd]

/-- What `boxBox2` appends: every new contact carries the output normal and a
third constructor argument that is at most zero. -/
theorem boxBox2_appended (cfg : Scalar K) (heps : 0 ≤ cfg.epsilon)
    (side1 side2 : Vec3 K) (tf1 tf2 : Transform3 K) (normal : Vec3 K) (depth : K)
    (maxc : Int) (contacts : List (ContactPoint K)) :
    ∃ new : List (ContactPoint K),
      (boxBox2 cfg side1 tf1 side2 tf2 normal depth maxc contacts).contacts = contacts ++ new ∧
      (boxBox2 cfg side1 tf1 side2 tf2 normal depth maxc contacts).ret = new.length ∧
      ∀ c ∈ new,
        c.normal = (boxBox2 cfg side1 tf1 side2 tf2 normal depth maxc contacts).normal ∧
        c.penetration_depth ≤ 0 := by
  cases h : satPhase cfg (side1.smul (1 / 2)) (side2.smul (1 / 2)) tf1 tf2 with
  | none =>
    rw [boxBox2_of_none cfg side1 side2 tf1 tf2 normal depth maxc contacts h]
    exact ⟨[], by simp, rfl, by simp⟩
  | some st =>
    by_cases hc : st.code = 0
    · rw [boxBox2_of_code_zero cfg side1 side2 tf1 tf2 normal depth maxc contacts st h hc]
      exact ⟨[], by simp, rfl, by simp⟩
    · by_cases h6 : st.code > 6
      · rw [boxBox2_of_edge cfg side1 side2 tf1 tf2 normal depth maxc contacts st h hc h6]
        refine ⟨[_], rfl, rfl, ?_⟩
        intro c hcm
        simp only [List.mem_singleton] at hcm
        rw [hcm]
        obtain ⟨ax, -, hrec⟩ := satPhase_recorded h hc
        refine ⟨rfl, ?_⟩
        show -(-st.s) ≤ 0
        have := recorded_s_nonpos heps hrec
        linarith
      · obtain ⟨picked, hp, hdep⟩ :=
          picked_dep_nonneg cfg side1 side2 tf1 tf2 normal depth maxc contacts st h hc h6
        rw [hp]
        refine ⟨_, rfl, by simp, ?_⟩
        intro c hcm
        simp only [List.mem_map] at hcm
        obtain ⟨cand, hcand, hce⟩ := hcm
        rw [← hce]
        obtain ⟨hn, hd⟩ := faceEmit_normal (frameOf side1 tf1 side2 tf2 st)
          (satNormal tf1 tf2 st) st.code cand
        refine ⟨hn, ?_⟩
        rw [hd]
        have := hdep cand hcand
        linarith

theorem faceCandidates_nil (f : FaceFrame K) : faceCandidates f [] = [] := rfl

theorem clampMaxc_ge_one (maxc : Int) (cnum : Nat) : 1 ≤ clampMaxc maxc cnum := by
  unfold clampMaxc
  split_ifs <;> omega

theorem clampMaxc_le (maxc : Int) (cnum : Nat) (h : 1 ≤ cnum) :
    clampMaxc maxc cnum ≤ cnum := by
  unfold clampMaxc
  split_ifs <;> omega

/-- The face branch when no clipped point passes the depth test: the code is
kept and nothing is appended. -/
theorem boxBox2_face_none (cfg : Scalar K) (side1 side2 : Vec3 K) (tf1 tf2 : Transform3 K)
    (normal : Vec3 K) (depth : K) (maxc : Int) (contacts : List (ContactPoint K))
    (st : SatState K)
    (h : satPhase cfg (side1.smul (1 / 2)) (side2.smul (1 / 2)) tf1 tf2 = some st)
    (hc : st.code ≠ 0) (h6 : ¬ st.code > 6)
    (hs : survivors side1 tf1 side2 tf2 st = []) :
    boxBox2 cfg side1 tf1 side2 tf2 normal depth maxc contacts
      = ⟨0, satNormal tf1 tf2 st, -st.s, st.code, contacts⟩ := by
  unfold survivors frameOf at hs
  unfold boxBox2
  simp only [h, hc, if_false, h6, hs, List.length_nil, Nat.lt_one_iff, if_true, ite_self]

/-- The face branch when the surviving points fit under `maxc`: all of them are
emitted, in clip order. -/
theorem boxBox2_face_all (cfg : Scalar K) (side1 side2 : Vec3 K) (tf1 tf2 : Transform3 K)
    (normal : Vec3 K) (depth : K) (maxc : Int) (contacts : List (ContactPoint K))
    (st : SatState K)
    (h : satPhase cfg (side1.smul (1 / 2)) (side2.smul (1 / 2)) tf1 tf2 = some st)
    (hc : st.code ≠ 0) (h6 : ¬ st.code > 6)
    (hs : 1 ≤ (survivors side1 tf1 side2 tf2 st).length)
    (hm : ((survivors side1 tf1 side2 tf2 st).length : Int)
      ≤ clampMaxc maxc (survivors side1 tf1 side2 tf2 st).length) :
    boxBox2 cfg side1 tf1 side2 tf2 normal depth maxc contacts
      = ⟨(survivors side1 tf1 side2 tf2 st).length, satNormal tf1 tf2 st, -st.s, st.code,
          contacts ++ (survivors side1 tf1 side2 tf2 st).map
            (faceEmit (frameOf side1 tf1 side2 tf2 st) (satNormal tf1 tf2 st) st.code)⟩ := by
  have hclip : ¬ (intersectRectQuad2 (faceRect (frameOf side1 tf1 side2 tf2 st))
      (faceQuad (frameOf side1 tf1 side2 tf2 st))).length < 1 := by
    intro hlt
    have hnil : intersectRectQuad2 (faceRect (frameOf side1 tf1 side2 tf2 st))
        (faceQuad (frameOf side1 tf1 side2 tf2 st)) = [] :=
      List.length_eq_zero.mp (Nat.lt_one_iff.mp hlt)
    unfold survivors at hs
    rw [hnil, faceCandidates_nil] at hs
    simp at hs
  have hs2 : ¬ (survivors side1 tf1 side2 tf2 st).length < 1 := not_lt.mpr hs
  unfold survivors frameOf at hm hs2
  unfold frameOf at hclip
  unfold boxBox2 survivors frameOf
  simp only [h, hc, if_false, h6, hclip, hs2, hm, if_true]

/-- The face branch when more points survive than `maxc` allows: `maxc` of them
are emitted, chosen by `cullPoints2` around the deepest one. -/
theorem boxBox2_face_cull (cfg : Scalar K) (side1 side2 : Vec3 K) (tf1 tf2 : Transform3 K)
    (normal : Vec3 K) (depth : K) (maxc : Int) (contacts : List (ContactPoint K))
    (st : SatState K)
    (h : satPhase cfg (side1.smul (1 / 2)) (side2.smul (1 / 2)) tf1 tf2 = some st)
    (hc : st.code ≠ 0) (h6 : ¬ st.code > 6)
    (hm : clampMaxc maxc (survivors side1 tf1 side2 tf2 st).length
      < ((survivors side1 tf1 side2 tf2 st).length : Int)) :
    boxBox2 cfg side1 tf1 side2 tf2 normal depth maxc contacts
      = ⟨(clampMaxc maxc (survivors side1 tf1 side2 tf2 st).length).toNat,
          satNormal tf1 tf2 st, -st.s, st.code,
          contacts ++ ((List.range (clampMaxc maxc (survivors side1 tf1 side2 tf2 st).length).toNat).map
            (fun j => (survivors side1 tf1 side2 tf2 st).getD
              ((cullPoints2 cfg (survivors side1 tf1 side2 tf2 st).length
                ((survivors side1 tf1 side2 tf2 st).map Candidate.ret)
                (clampMaxc maxc (survivors side1 tf1 side2 tf2 st).length).toNat
                (deepest (survivors side1 tf1 side2 tf2 st))).getD j 0)
              ⟨(0, 0), ⟨0, 0, 0⟩, 0⟩)).map
            (faceEmit (frameOf side1 tf1 side2 tf2 st) (satNormal tf1 tf2 st) st.code)⟩ := by
  have hs : 1 ≤ (survivors side1 tf1 side2 tf2 st).length := by
    have h1 := clampMaxc_ge_one maxc (survivors side1 tf1 side2 tf2 st).length
    omega
  have hclip : ¬ (intersectRectQuad2 (faceRect (frameOf side1 tf1 side2 tf2 st))
      (faceQuad (frameOf side1 tf1 side2 tf2 st))).length < 1 := by
    intro hlt
    have hnil : intersectRectQuad2 (faceRect (frameOf side1 tf1 side2 tf2 st))
        (faceQuad (frameOf side1 tf1 side2 tf2 st)) = [] :=
      List.length_eq_zero.mp (Nat.lt_one_iff.mp hlt)
    unfold survivors at hs
    rw [hnil, faceCandidates_nil] at hs
    simp at hs
  have hs2 : ¬ (survivors side1 tf1 side2 tf2 st).length < 1 := not_lt.mpr hs
  have hm2 := not_le.mpr hm
  unfold survivors frameOf at hm2 hs2
  unfold frameOf at hclip
  unfold boxBox2 survivors frameOf
  simp only [h, hc, if_false, h6, hclip, hs2, hm2]

/-! ## Rotations -/

theorem rotation_col_unit {m : Mat3 K} (h : m.IsRotation) (j : Nat) :
    (m.col j).dot (m.col j) = 1 := by
  obtain ⟨h0, h1, h2, -⟩ := h
  by_cases hj0 : j = 0
  · subst hj0; exact h0
  · by_cases hj1 : j = 1
    · subst hj1; exact h1
    · have : m.col j = m.col 2 := by
        simp [Mat3.col, Mat3.coeff, hj0, hj1]
      rw [this]
      exact h2

theorem rotation_mulVec_dot {m : Mat3 K} (h : m.IsRotation) (v : Vec3 K) :
    (m.mulVec v).dot (m.mulVec v) = v.dot v := by
  obtain ⟨h0, h1, h2, h01, h02, h12, -⟩ := h
  simp only [Mat3.col, Mat3.coeff, Vec3.dot] at h0 h1 h2 h01 h02 h12
  simp at h0 h1 h2 h01 h02 h12
  simp only [Mat3.mulVec, Mat3.row, Mat3.coeff, Vec3.dot]
  simp
  linear_combination v.x ^ 2 * h0 + v.y ^ 2 * h1 + v.z ^ 2 * h2 + 2 * v.x * v.y * h01
    + 2 * v.x * v.z * h02 + 2 * v.y * v.z * h12

theorem neg_dot_neg (a : Vec3 K) : a.neg.dot a.neg = a.dot a := by
  simp only [Vec3.dot, Vec3.neg]
  ring

theorem dot_self_nonneg (a : Vec3 K) : 0 ≤ a.dot a := by
  simp only [Vec3.dot]
  nlinarith [mul_self_nonneg a.x, mul_self_nonneg a.y, mul_self_nonneg a.z]

theorem sdiv_norm_unit {cfg : Scalar K} (hsqrt : ExactSqrt cfg) (n : Vec3 K)
    (hl : 0 < n.norm cfg) : (n.sdiv (n.norm cfg)).dot (n.sdiv (n.norm cfg)) = 1 := by
  have hsq : n.norm cfg * n.norm cfg = n.dot n := (hsqrt _ (dot_self_nonneg n)).2
  have hne : n.norm cfg ≠ 0 := ne_of_gt hl
  have : (n.sdiv (n.norm cfg)).dot (n.sdiv (n.norm cfg)) = n.dot n / (n.norm cfg * n.norm cfg) := by
    simp only [Vec3.dot, Vec3.sdiv]
    field_simp
  rw [this, hsq]
  have hpos : n.dot n ≠ 0 := by
    rw [← hsq]
    exact mul_ne_zero hne hne
  exact div_self hpos

/-- The normal recorded by any candidate has unit length. -/
theorem recorded_normal_unit {cfg : Scalar K} (heps : 0 ≤ cfg.epsilon) (hsqrt : ExactSqrt cfg)
    {A B : Vec3 K} {tf1 tf2 : Transform3 K} (h1 : tf1.linear.IsRotation)
    (h2 : tf2.linear.IsRotation) {ax : Axis K} {st : SatState K}
    (hmem : ax ∈ axes A B tf1 tf2) (h : Recorded cfg ax st) :
    (satNormal tf1 tf2 st).dot (satNormal tf1 tf2 st) = 1 := by
  cases he : ax.edge with
  | none =>
    obtain ⟨-, hcol, -, -, -⟩ := axes_face hmem he
    rw [satNormal_face h he hcol]
    have hu : ((if ax.T = 2 then tf2 else tf1).linear.col ax.colId.toNat).dot
        ((if ax.T = 2 then tf2 else tf1).linear.col ax.colId.toNat) = 1 := by
      split
      · exact rotation_col_unit h2 _
      · exact rotation_col_unit h1 _
    split
    · rw [neg_dot_neg]; exact hu
    · exact hu
  | some n =>
    rw [satNormal_edge h he]
    have hl : 0 < n.norm cfg := by
      have := h.2.2.2
      rw [he] at this
      exact lt_of_le_of_lt heps this.1
    split
    · rw [neg_dot_neg, rotation_mulVec_dot h1]; exact sdiv_norm_unit hsqrt n hl
    · rw [rotation_mulVec_dot h1]; exact sdiv_norm_unit hsqrt n hl

/-- C5. With orthonormal rotations, an exact square root and a non-negative
machine epsilon, whenever `boxBox2` reports a collision (face codes 1..6 and
edge codes 7..15 alike) the output normal has Euclidean length exactly 1, and
every appended contact carries that normal. -/
theorem boxBox2_normal_unit (cfg : Scalar K) (heps : 0 ≤ cfg.epsilon) (hsqrt : ExactSqrt cfg)
    (side1 side2 : Vec3 K) (tf1 tf2 : Transform3 K) (h1 : tf1.linear.IsRotation)
    (h2 : tf2.linear.IsRotation) (normal : Vec3 K) (depth : K)
    (maxc : Int) (contacts : List (ContactPoint K))
    (hrc : (boxBox2 cfg side1 tf1 side2 tf2 normal depth maxc contacts).return_code ≠ 0) :
    (boxBox2 cfg side1 tf1 side2 tf2 normal depth maxc contacts).normal.norm cfg = 1 ∧
    (boxBox2 cfg side1 tf1 side2 tf2 normal depth maxc contacts).normal.dot
      (boxBox2 cfg side1 tf1 side2 tf2 normal depth maxc contacts).normal = 1 ∧
    ∃ new : List (ContactPoint K),
      (boxBox2 cfg side1 tf1 side2 tf2 normal depth maxc contacts).contacts = contacts ++ new ∧
      ∀ c ∈ new, c.normal.norm cfg = 1 ∧ c.normal.dot c.normal = 1 := by
  obtain ⟨st, hst, hc, hn, -, -⟩ := boxBox2_hit hrc
  obtain ⟨ax, hmem, hrec⟩ := satPhase_recorded hst hc
  have hdot := recorded_normal_unit heps hsqrt h1 h2 hmem hrec
  rw [← hn] at hdot
  have hnorm : (boxBox2 cfg side1 tf1 side2 tf2 normal depth maxc contacts).normal.norm cfg
      = 1 := by
    unfold Vec3.norm
    rw [hdot]
    obtain ⟨h0, hs⟩ := hsqrt 1 zero_le_one
    have : (cfg.sqrt 1 - 1) * (cfg.sqrt 1 + 1) = 0 := by linear_combination hs
    rcases mul_eq_zero.mp this with h | h
    · linarith
    · linarith
  refine ⟨hnorm, hdot, ?_⟩
  obtain ⟨new, hnew, -, hall⟩ :=
    boxBox2_appended cfg heps side1 side2 tf1 tf2 normal depth maxc contacts
  refine ⟨new, hnew, ?_⟩
  intro c hcm
  rw [(hall c hcm).1]
  exact ⟨hnorm, hdot⟩

/-! ## Two unit cubes, the second shifted by 0.9 along x -/

theorem binary64_epsilon_nonneg (sq : ℝ → ℝ) (at2 : ℝ → ℝ → ℝ) (p : ℝ) :
    0 ≤ (binary64 sq at2 p).epsilon := by
  norm_num [binary64]

theorem real_exactSqrt (at2 : ℝ → ℝ → ℝ) (p : ℝ) : ExactSqrt (binary64 Real.sqrt at2 p) :=
  fun x hx => ⟨Real.sqrt_nonneg x, Real.mul_self_sqrt hx⟩

theorem identity_isRotation : (Mat3.identity : Mat3 ℝ).IsRotation := by
  norm_num [Mat3.IsRotation, Mat3.identity, Mat3.col, Mat3.coeff, Vec3.dot, Mat3.det]

theorem scenario1_return_code (maxc : Int) :
    (boxBox2 (binary64 Real.sqrt (fun y x => Complex.arg ⟨x, y⟩) Real.pi)
      (⟨1, 1, 1⟩ : Vec3 ℝ) ⟨Mat3.identity, ⟨0, 0, 0⟩⟩ ⟨1, 1, 1⟩
      ⟨Mat3.identity, ⟨9 / 10, 0, 0⟩⟩ ⟨0, 0, 0⟩ 0 maxc []).return_code ≠ 0 := by
  rw [boxBox2_return_code, scenario1_satPhase]
  decide

theorem boxBox2_normal_unit_witness :
    (boxBox2 (binary64 Real.sqrt (fun y x => Complex.arg ⟨x, y⟩) Real.pi)
      (⟨1, 1, 1⟩ : Vec3 ℝ) ⟨Mat3.identity, ⟨0, 0, 0⟩⟩ ⟨1, 1, 1⟩
      ⟨Mat3.identity, ⟨9 / 10, 0, 0⟩⟩ ⟨0, 0, 0⟩ 0 4 []).return_code ≠ 0 ∧
    (boxBox2 (binary64 Real.sqrt (fun y x => Complex.arg ⟨x, y⟩) Real.pi)
      (⟨1, 1, 1⟩ : Vec3 ℝ) ⟨Mat3.identity, ⟨0, 0, 0⟩⟩ ⟨1, 1, 1⟩
      ⟨Mat3.identity, ⟨9 / 10, 0, 0⟩⟩ ⟨0, 0, 0⟩ 0 4 []).normal.dot
      (boxBox2 (binary64 Real.sqrt (fun y x => Complex.arg ⟨x, y⟩) Real.pi)
      (⟨1, 1, 1⟩ : Vec3 ℝ) ⟨Mat3.identity, ⟨0, 0, 0⟩⟩ ⟨1, 1, 1⟩
      ⟨Mat3.identity, ⟨9 / 10, 0, 0⟩⟩ ⟨0, 0, 0⟩ 0 4 []).normal = 1 :=
  ⟨scenario1_return_code 4,
    (boxBox2_normal_unit _ (binary64_epsilon_nonneg _ _ _) (real_exactSqrt _ _) _ _ _ _
      identity_isRotation identity_isRotation _ _ _ _ (scenario1_return_code 4)).2.1⟩

theorem boxBox2_normal_toward_body2_witness :
    (boxBox2 (binary64 Real.sqrt (fun y x => Complex.arg ⟨x, y⟩) Real.pi)
      (⟨1, 1, 1⟩ : Vec3 ℝ) ⟨Mat3.identity, ⟨0, 0, 0⟩⟩ ⟨1, 1, 1⟩
      ⟨Mat3.identity, ⟨9 / 10, 0, 0⟩⟩ ⟨0, 0, 0⟩ 0 4 []).return_code ≠ 0 ∧
    0 ≤ ((⟨9 / 10, 0, 0⟩ : Vec3 ℝ).sub ⟨0, 0, 0⟩).dot
      (boxBox2 (binary64 Real.sqrt (fun y x => Complex.arg ⟨x, y⟩) Real.pi)
      (⟨1, 1, 1⟩ : Vec3 ℝ) ⟨Mat3.identity, ⟨0, 0, 0⟩⟩ ⟨1, 1, 1⟩
      ⟨Mat3.identity, ⟨9 / 10, 0, 0⟩⟩ ⟨0, 0, 0⟩ 0 4 []).normal :=
  ⟨scenario1_return_code 4,
    boxBox2_normal_toward_body2 _ (binary64_epsilon_nonneg _ _ _) _ _ _ _ _ _ _ _
      (scenario1_return_code 4)⟩

theorem boxBox2_depth_eq_neg_s_witness :
    (boxBox2 (binary64 Real.sqrt (fun y x => Complex.arg ⟨x, y⟩) Real.pi)
      (⟨1, 1, 1⟩ : Vec3 ℝ) ⟨Mat3.identity, ⟨0, 0, 0⟩⟩ ⟨1, 1, 1⟩
      ⟨Mat3.identity, ⟨9 / 10, 0, 0⟩⟩ ⟨0, 0, 0⟩ 0 4 []).return_code ≠ 0 ∧
    ∃ st, satPhase (binary64 Real.sqrt (fun y x => Complex.arg ⟨x, y⟩) Real.pi)
        ((⟨1, 1, 1⟩ : Vec3 ℝ).smul (1 / 2)) ((⟨1, 1, 1⟩ : Vec3 ℝ).smul (1 / 2))
        ⟨Mat3.identity, ⟨0, 0, 0⟩⟩ ⟨Mat3.identity, ⟨9 / 10, 0, 0⟩⟩ = some st ∧
      (boxBox2 (binary64 Real.sqrt (fun y x => Complex.arg ⟨x, y⟩) Real.pi)
        (⟨1, 1, 1⟩ : Vec3 ℝ) ⟨Mat3.identity, ⟨0, 0, 0⟩⟩ ⟨1, 1, 1⟩
        ⟨Mat3.identity, ⟨9 / 10, 0, 0⟩⟩ ⟨0, 0, 0⟩ 0 4 []).depth = -st.s ∧
      0 ≤ (boxBox2 (binary64 Real.sqrt (fun y x => Complex.arg ⟨x, y⟩) Real.pi)
        (⟨1, 1, 1⟩ : Vec3 ℝ) ⟨Mat3.identity, ⟨0, 0, 0⟩⟩ ⟨1, 1, 1⟩
        ⟨Mat3.identity, ⟨9 / 10, 0, 0⟩⟩ ⟨0, 0, 0⟩ 0 4 []).depth :=
  ⟨scenario1_return_code 4,
    boxBox2_depth_eq_neg_s _ (binary64_epsilon_nonneg _ _ _) _ _ _ _ _ _ _ _
      (scenario1_return_code 4)⟩


theorem scenario1_result :
    boxBox2 (binary64 Real.sqrt (fun y x => Complex.arg ⟨x, y⟩) Real.pi)
      (⟨1, 1, 1⟩ : Vec3 ℝ) ⟨Mat3.identity, ⟨0, 0, 0⟩⟩ ⟨1, 1, 1⟩
      ⟨Mat3.identity, ⟨9 / 10, 0, 0⟩⟩ ⟨0, 0, 0⟩ 0 4 []
      = ⟨4, ⟨1, 0, 0⟩, 1 / 10, 1,
          [⟨⟨1, 0, 0⟩, ⟨2 / 5, 1 / 2, 1 / 2⟩, -(1 / 10)⟩,
           ⟨⟨1, 0, 0⟩, ⟨2 / 5, 1 / 2, -(1 / 2)⟩, -(1 / 10)⟩,
           ⟨⟨1, 0, 0⟩, ⟨2 / 5, -(1 / 2), -(1 / 2)⟩, -(1 / 10)⟩,
           ⟨⟨1, 0, 0⟩, ⟨2 / 5, -(1 / 2), 1 / 2⟩, -(1 / 10)⟩]⟩ := by
  rw [boxBox2_face_all _ _ _ _ _ _ _ _ _ _ scenario1_satPhase (by decide) (by decide)
    (by rw [scenario1_survivors]; decide)
    (by rw [scenario1_survivors]; decide)]
  rw [scenario1_survivors, scenario1_frame]
  norm_num [satNormal, faceEmit, Mat3.identity, Mat3.col, Mat3.coeff, Vec3.add]

/-- C4, as stated, fails: for two unit cubes 0.9 apart along x (a face contact
with penetration 0.1) `boxBox2` reports a collision and every contact it
appends stores the penetration depth `-0.1`. -/
theorem boxBox2_contact_depth_negative :
    (boxBox2 (binary64 Real.sqrt (fun y x => Complex.arg ⟨x, y⟩) Real.pi)
      (⟨1, 1, 1⟩ : Vec3 ℝ) ⟨Mat3.identity, ⟨0, 0, 0⟩⟩ ⟨1, 1, 1⟩
      ⟨Mat3.identity, ⟨9 / 10, 0, 0⟩⟩ ⟨0, 0, 0⟩ 0 4 []).return_code = 1 ∧
    (boxBox2 (binary64 Real.sqrt (fun y x => Complex.arg ⟨x, y⟩) Real.pi)
      (⟨1, 1, 1⟩ : Vec3 ℝ) ⟨Mat3.identity, ⟨0, 0, 0⟩⟩ ⟨1, 1, 1⟩
      ⟨Mat3.identity, ⟨9 / 10, 0, 0⟩⟩ ⟨0, 0, 0⟩ 0 4 []).contacts.length = 4 ∧
    ∀ c ∈ (boxBox2 (binary64 Real.sqrt (fun y x => Complex.arg ⟨x, y⟩) Real.pi)
      (⟨1, 1, 1⟩ : Vec3 ℝ) ⟨Mat3.identity, ⟨0, 0, 0⟩⟩ ⟨1, 1, 1⟩
      ⟨Mat3.identity, ⟨9 / 10, 0, 0⟩⟩ ⟨0, 0, 0⟩ 0 4 []).contacts,
      c.penetration_depth = -(1 / 10) ∧ ¬ 0 ≤ c.penetration_depth := by
  rw [scenario1_result]
  refine ⟨rfl, rfl, ?_⟩
  intro c hc
  simp only [List.mem_cons, List.mem_singleton, List.not_mem_nil, or_false] at hc
  rcases hc with h | h | h | h <;> subst h <;> norm_num

/-- C4, amended. Every `ContactPoint` that `boxBox2` appends stores a third
constructor argument that is at most zero: it is the negated penetration,
`-*depth` in the edge/edge case and `-dep[j]` with `dep[j] >= 0` in both face
cases. -/
theorem boxBox2_contact_depth_nonpos (cfg : Scalar K) (heps : 0 ≤ cfg.epsilon)
    (side1 side2 : Vec3 K) (tf1 tf2 : Transform3 K) (normal : Vec3 K) (depth : K)
    (maxc : Int) (contacts : List (ContactPoint K)) :
    ∃ new : List (ContactPoint K),
      (boxBox2 cfg side1 tf1 side2 tf2 normal depth maxc contacts).contacts = contacts ++ new ∧
      (∀ c ∈ new, c.penetration_depth ≤ 0) ∧
      ((boxBox2 cfg side1 tf1 side2 tf2 normal depth maxc contacts).return_code > 6 →
        ∀ c ∈ new, c.penetration_depth
          = -(boxBox2 cfg side1 tf1 side2 tf2 normal depth maxc contacts).depth) := by
  obtain ⟨new, hnew, -, hall⟩ :=
    boxBox2_appended cfg heps side1 side2 tf1 tf2 normal depth maxc contacts
  refine ⟨new, hnew, fun c hc => (hall c hc).2, ?_⟩
  intro h6 c hc
  have hrc : (boxBox2 cfg side1 tf1 side2 tf2 normal depth maxc contacts).return_code ≠ 0 := by
    omega
  obtain ⟨st, hst, hcode, -, -, hrcst⟩ := boxBox2_hit hrc
  rw [hrcst] at h6
  rw [boxBox2_of_edge cfg side1 side2 tf1 tf2 normal depth maxc contacts st hst hcode h6]
    at hnew ⊢
  have hsingle := List.append_cancel_left hnew
  rw [← hsingle] at hc
  simp only [List.mem_singleton] at hc
  rw [hc]
  rfl

theorem boxBox2_contact_depth_nonpos_witness :
    (0 : ℝ) ≤ (binary64 Real.sqrt (fun y x => Complex.arg ⟨x, y⟩) Real.pi).epsilon ∧
    ∃ new : List (ContactPoint ℝ),
      (boxBox2 (binary64 Real.sqrt (fun y x => Complex.arg ⟨x, y⟩) Real.pi)
        (⟨1, 1, 1⟩ : Vec3 ℝ) ⟨Mat3.identity, ⟨0, 0, 0⟩⟩ ⟨1, 1, 1⟩
        ⟨Mat3.identity, ⟨9 / 10, 0, 0⟩⟩ ⟨0, 0, 0⟩ 0 4 []).contacts = [] ++ new ∧
      (∀ c ∈ new, c.penetration_depth ≤ 0) ∧
      ((boxBox2 (binary64 Real.sqrt (fun y x => Complex.arg ⟨x, y⟩) Real.pi)
        (⟨1, 1, 1⟩ : Vec3 ℝ) ⟨Mat3.identity, ⟨0, 0, 0⟩⟩ ⟨1, 1, 1⟩
        ⟨Mat3.identity, ⟨9 / 10, 0, 0⟩⟩ ⟨0, 0, 0⟩ 0 4 []).return_code > 6 →
        ∀ c ∈ new, c.penetration_depth
          = -(boxBox2 (binary64 Real.sqrt (fun y x => Complex.arg ⟨x, y⟩) Real.pi)
            (⟨1, 1, 1⟩ : Vec3 ℝ) ⟨Mat3.identity, ⟨0, 0, 0⟩⟩ ⟨1, 1, 1⟩
            ⟨Mat3.identity, ⟨9 / 10, 0, 0⟩⟩ ⟨0, 0, 0⟩ 0 4 []).depth) :=
  ⟨binary64_epsilon_nonneg _ _ _,
    boxBox2_contact_depth_nonpos _ (binary64_epsilon_nonneg _ _ _) _ _ _ _ _ _ _ _⟩

/-! ## Two unit cubes touching along an edge -/

theorem edgeTouch_satPhase :
    satPhase (binary64 Real.sqrt (fun y x => Complex.arg ⟨x, y⟩) Real.pi)
      ((⟨1, 1, 1⟩ : Vec3 ℝ).smul (1 / 2)) ((⟨1, 1, 1⟩ : Vec3 ℝ).smul (1 / 2))
      ⟨Mat3.identity, ⟨0, 0, 0⟩⟩ ⟨Mat3.identity, ⟨1, 1, 0⟩⟩
      = some ⟨0, 0, 1, ⟨0, 0, 0⟩, false, 1⟩ := by
  norm_num [satPhase, axes, faceAxes, edgeAxes, satFold, satStep, SatState.init, binary64,
    Mat3.identity, Mat3.transpose, Mat3.mul, Mat3.mulVec, Mat3.row, Mat3.col, Mat3.coeff,
    Mat3.cwiseAbs, Mat3.addScalar, Vec3.dot, Vec3.get, Vec3.sub, Vec3.norm, Vec3.sdiv,
    Vec3.smul, fudge2, fudge_factor, abs_of_pos, abs_of_neg, abs_of_nonneg]

theorem edgeTouch_frame :
    frameOf (⟨1, 1, 1⟩ : Vec3 ℝ) ⟨Mat3.identity, ⟨0, 0, 0⟩⟩ ⟨1, 1, 1⟩
      ⟨Mat3.identity, ⟨1, 1, 0⟩⟩ ⟨0, 0, 1, ⟨0, 0, 0⟩, false, 1⟩
      = ⟨⟨Mat3.identity, ⟨0, 0, 0⟩⟩, ⟨Mat3.identity, ⟨1, 1, 0⟩⟩, ⟨1 / 2, 1 / 2, 1 / 2⟩,
          ⟨1 / 2, 1 / 2, 1 / 2⟩, ⟨1, 0, 0⟩, ⟨1, 0, 0⟩, 0, 1, 2, ⟨1 / 2, 1, 0⟩, 0, 1, 2,
          1, 0, 1, 0, 0, 1⟩ := by
  norm_num [frameOf, faceFrame, satNormal,
    Mat3.identity, Mat3.transpose, Mat3.mulVec, Mat3.row, Mat3.col, Mat3.coeff,
    Vec3.dot, Vec3.get, Vec3.sub, Vec3.add, Vec3.neg, Vec3.smul, Vec3.cwiseAbs]

theorem edgeTouch_clip :
    intersectRectQuad2 ((1 / 2, 1 / 2) : ℝ × ℝ)
      [(1 / 2, -(1 / 2)), (1 / 2, 1 / 2), (3 / 2, 1 / 2), (3 / 2, -(1 / 2))] = [] := by
  norm_num [intersectRectQuad2, chopAll, chop, chopLoop, crossing, coord, land_eight_of_lt]

theorem edgeTouch_survivors :
    survivors (⟨1, 1, 1⟩ : Vec3 ℝ) ⟨Mat3.identity, ⟨0, 0, 0⟩⟩ ⟨1, 1, 1⟩
      ⟨Mat3.identity, ⟨1, 1, 0⟩⟩ ⟨0, 0, 1, ⟨0, 0, 0⟩, false, 1⟩ = [] := by
  unfold survivors
  rw [edgeTouch_frame]
  have hq : faceQuad (⟨⟨Mat3.identity, ⟨0, 0, 0⟩⟩, ⟨Mat3.identity, ⟨1, 1, 0⟩⟩,
      ⟨1 / 2, 1 / 2, 1 / 2⟩, ⟨1 / 2, 1 / 2, 1 / 2⟩, ⟨1, 0, 0⟩, ⟨1, 0, 0⟩, 0, 1, 2,
      ⟨1 / 2, 1, 0⟩, 0, 1, 2, 1, 0, 1, 0, 0, 1⟩ : FaceFrame ℝ)
      = [(1 / 2, -(1 / 2)), (1 / 2, 1 / 2), (3 / 2, 1 / 2), (3 / 2, -(1 / 2))] := by
    norm_num [faceQuad, Vec3.get]
  have hr : faceRect (⟨⟨Mat3.identity, ⟨0, 0, 0⟩⟩, ⟨Mat3.identity, ⟨1, 1, 0⟩⟩,
      ⟨1 / 2, 1 / 2, 1 / 2⟩, ⟨1 / 2, 1 / 2, 1 / 2⟩, ⟨1, 0, 0⟩, ⟨1, 0, 0⟩, 0, 1, 2,
      ⟨1 / 2, 1, 0⟩, 0, 1, 2, 1, 0, 1, 0, 0, 1⟩ : FaceFrame ℝ) = (1 / 2, 1 / 2) := by
    norm_num [faceRect, Vec3.get]
  rw [hq, hr, edgeTouch_clip]
  rfl

/-- C3, the code at the failing input: for two unit cubes with identity
rotations centred at `(0,0,0)` and `(1,1,0)` (they share an edge) and
`maxc = 4`, the clip `intersectRectQuad2` returns no point, `boxBox2` leaves
through `if(n_intersect < 1)`, and the call ends with `return_code = 1`
although it returns 0 and appends no contact. -/
theorem boxBox2_edge_touch_no_contact :
    (Mat3.identity : Mat3 ℝ).IsRotation ∧
    inBox (⟨1, 1, 1⟩ : Vec3 ℝ) ⟨Mat3.identity, ⟨0, 0, 0⟩⟩ ⟨1 / 2, 1 / 2, 0⟩ ∧
    inBox (⟨1, 1, 1⟩ : Vec3 ℝ) ⟨Mat3.identity, ⟨1, 1, 0⟩⟩ ⟨1 / 2, 1 / 2, 0⟩ ∧
    intersectRectQuad2
      (faceRect (frameOf (⟨1, 1, 1⟩ : Vec3 ℝ) ⟨Mat3.identity, ⟨0, 0, 0⟩⟩ ⟨1, 1, 1⟩
        ⟨Mat3.identity, ⟨1, 1, 0⟩⟩ ⟨0, 0, 1, ⟨0, 0, 0⟩, false, 1⟩))
      (faceQuad (frameOf (⟨1, 1, 1⟩ : Vec3 ℝ) ⟨Mat3.identity, ⟨0, 0, 0⟩⟩ ⟨1, 1, 1⟩
        ⟨Mat3.identity, ⟨1, 1, 0⟩⟩ ⟨0, 0, 1, ⟨0, 0, 0⟩, false, 1⟩)) = [] ∧
    boxBox2 (binary64 Real.sqrt (fun y x => Complex.arg ⟨x, y⟩) Real.pi)
      (⟨1, 1, 1⟩ : Vec3 ℝ) ⟨Mat3.identity, ⟨0, 0, 0⟩⟩ ⟨1, 1, 1⟩
      ⟨Mat3.identity, ⟨1, 1, 0⟩⟩ ⟨0, 0, 0⟩ 0 4 []
      = ⟨0, ⟨1, 0, 0⟩, 0, 1, []⟩ := by
  refine ⟨identity_isRotation, ?_, ?_, ?_, ?_⟩
  · norm_num [inBox, Mat3.identity, Mat3.col, Mat3.coeff, Vec3.dot, Vec3.sub, abs_of_pos,
      abs_of_nonneg]
  · norm_num [inBox, Mat3.identity, Mat3.col, Mat3.coeff, Vec3.dot, Vec3.sub, abs_of_pos,
      abs_of_neg, abs_of_nonneg]
  · rw [edgeTouch_frame]
    have hq : faceQuad (⟨⟨Mat3.identity, ⟨0, 0, 0⟩⟩, ⟨Mat3.identity, ⟨1, 1, 0⟩⟩,
        ⟨1 / 2, 1 / 2, 1 / 2⟩, ⟨1 / 2, 1 / 2, 1 / 2⟩, ⟨1, 0, 0⟩, ⟨1, 0, 0⟩, 0, 1, 2,
        ⟨1 / 2, 1, 0⟩, 0, 1, 2, 1, 0, 1, 0, 0, 1⟩ : FaceFrame ℝ)
        = [(1 / 2, -(1 / 2)), (1 / 2, 1 / 2), (3 / 2, 1 / 2), (3 / 2, -(1 / 2))] := by
      norm_num [faceQuad, Vec3.get]
    have hr : faceRect (⟨⟨Mat3.identity, ⟨0, 0, 0⟩⟩, ⟨Mat3.identity, ⟨1, 1, 0⟩⟩,
        ⟨1 / 2, 1 / 2, 1 / 2⟩, ⟨1 / 2, 1 / 2, 1 / 2⟩, ⟨1, 0, 0⟩, ⟨1, 0, 0⟩, 0, 1, 2,
        ⟨1 / 2, 1, 0⟩, 0, 1, 2, 1, 0, 1, 0, 0, 1⟩ : FaceFrame ℝ) = (1 / 2, 1 / 2) := by
      norm_num [faceRect, Vec3.get]
    rw [hq, hr, edgeTouch_clip]
  · rw [boxBox2_face_none _ _ _ _ _ _ _ _ _ _ edgeTouch_satPhase (by decide) (by decide)
      edgeTouch_survivors]
    norm_num [satNormal, Mat3.identity, Mat3.col, Mat3.coeff]


/-! ## Culling -/

theorem cullLoop_extends (cfg : Scalar K) (n m i0 : Nat) (ang : List (Flt K)) (fuel j : Nat)
    (avail : List Bool) (iret : List Nat) :
    ∃ tail, cullLoop cfg n m i0 ang fuel j avail iret = iret ++ tail ∧ tail.length = fuel := by
  induction fuel generalizing j avail iret with
  | zero => exact ⟨[], by simp [cullLoop], rfl⟩
  | succ k ih =>
    unfold cullLoop
    obtain ⟨tail, ht, hl⟩ := ih (j + 1)
      (avail.set (cullPick cfg n ang avail (cullAim cfg m (ang.getD i0 (Flt.fin 0)) j) i0) false)
      (iret ++ [cullPick cfg n ang avail (cullAim cfg m (ang.getD i0 (Flt.fin 0)) j) i0])
    refine ⟨cullPick cfg n ang avail (cullAim cfg m (ang.getD i0 (Flt.fin 0)) j) i0 :: tail,
      ?_, by simp [hl]⟩
    simp only [] at ht ⊢
    rw [ht]
    simp

/-- The first index `cullPoints2` writes is `i0`, and it writes `m` indices. -/
theorem cullPoints2_head (cfg : Scalar K) (n : Nat) (p : List (K × K)) (m i0 : Nat) :
    ∃ tail, cullPoints2 cfg n p m i0 = i0 :: tail ∧ tail.length = m - 1 := by
  unfold cullPoints2
  obtain ⟨tail, ht, hl⟩ := cullLoop_extends cfg n m i0 (cullAngles cfg n p)
    (m - 1) 1 (((List.range n).map (fun _ => true)).set i0 false) [i0]
  exact ⟨tail, by simpa using ht, hl⟩

/-! ## The indices `cullPoints2` writes are in range -/

theorem cullPick_lt (cfg : Scalar K) (n : Nat) (ang : List (Flt K)) (avail : List Bool)
    (a : Flt K) (i0 : Nat) (hi : i0 < n) : cullPick cfg n ang avail a i0 < n := by
  have key : ∀ (d : Nat → Flt K) (l : List Nat), (∀ i ∈ l, i < n) →
      ∀ acc : Flt K × Nat, acc.2 < n →
      (l.foldl
        (fun (acc : Flt K × Nat) i =>
          if avail.getD i false then (if Flt.lt (d i) acc.1 then (d i, i) else acc) else acc)
        acc).2 < n := by
    intro d l
    induction l with
    | nil =>
      intro _ acc hacc
      exact hacc
    | cons x rest ih =>
      intro hl acc hacc
      rw [List.foldl_cons]
      apply ih (fun i hi => hl i (List.mem_cons_of_mem _ hi))
      by_cases hav : avail.getD x false = true
      · rw [if_pos hav]
        by_cases hlt : Flt.lt (d x) acc.1 = true
        · rw [if_pos hlt]
          exact hl x (List.mem_cons_self _ _)
        · rw [if_neg hlt]
          exact hacc
      · rw [if_neg hav]
        exact hacc
  exact key (fun i => cullDiff cfg (ang.getD i (Flt.fin 0)) a)
    (List.range n) (fun i hi => List.mem_range.mp hi) (Flt.fin 1000000000, i0) hi

theorem cullLoop_lt (cfg : Scalar K) (n m i0 : Nat) (ang : List (Flt K)) (hi : i0 < n) :
    ∀ (fuel j : Nat) (avail : List Bool) (iret : List Nat), (∀ x ∈ iret, x < n) →
      ∀ x ∈ cullLoop cfg n m i0 ang fuel j avail iret, x < n := by
  intro fuel
  induction fuel with
  | zero =>
    intro j avail iret h x hx
    exact h x hx
  | succ fuel ih =>
    intro j avail iret h
    unfold cullLoop
    simp only []
    apply ih
    intro x hx
    rcases List.mem_append.mp hx with h1 | h1
    · exact h x h1
    · rw [List.mem_singleton] at h1
      rw [h1]
      exact cullPick_lt cfg n ang avail _ i0 hi

theorem cullPoints2_lt (cfg : Scalar K) (n : Nat) (p : List (K × K)) (m i0 : Nat)
    (hi : i0 < n) : ∀ x ∈ cullPoints2 cfg n p m i0, x < n := by
  unfold cullPoints2
  simp only []
  apply cullLoop_lt cfg n m i0 _ hi
  intro x hx
  rw [List.mem_singleton] at hx
  rw [hx]
  exact hi

/-- The index `deepest` returns is in range and no candidate is deeper. -/
theorem deepest_spec (cs : List (Candidate K)) (hne : 1 ≤ cs.length) :
    deepest cs < cs.length ∧
    ∀ c ∈ cs, c.dep ≤ (cs.getD (deepest cs) ⟨(0, 0), ⟨0, 0, 0⟩, 0⟩).dep := by
  have key : ∀ k, k + 1 ≤ cs.length →
      ((List.range k).foldl
        (fun (acc : Nat × K) k =>
          if (cs.map Candidate.dep).getD (k + 1) 0 > acc.2
            then (k + 1, (cs.map Candidate.dep).getD (k + 1) 0) else acc)
        (0, (cs.map Candidate.dep).getD 0 0)).1 < cs.length ∧
      ((List.range k).foldl
        (fun (acc : Nat × K) k =>
          if (cs.map Candidate.dep).getD (k + 1) 0 > acc.2
            then (k + 1, (cs.map Candidate.dep).getD (k + 1) 0) else acc)
        (0, (cs.map Candidate.dep).getD 0 0)).2 =
        (cs.map Candidate.dep).getD ((List.range k).foldl
        (fun (acc : Nat × K) k =>
          if (cs.map Candidate.dep).getD (k + 1) 0 > acc.2
            then (k + 1, (cs.map Candidate.dep).getD (k + 1) 0) else acc)
        (0, (cs.map Candidate.dep).getD 0 0)).1 0 ∧
      ∀ j, j < k + 1 → (cs.map Candidate.dep).getD j 0 ≤ ((List.range k).foldl
        (fun (acc : Nat × K) k =>
          if (cs.map Candidate.dep).getD (k + 1) 0 > acc.2
            then (k + 1, (cs.map Candidate.dep).getD (k + 1) 0) else acc)
        (0, (cs.map Candidate.dep).getD 0 0)).2 := by
    intro k
    induction k with
    | zero =>
      intro _
      refine ⟨by simpa using hne, by simp, ?_⟩
      intro j hj
      have : j = 0 := by omega
      subst this
      simp
    | succ k ih =>
      intro hk
      obtain ⟨h1, h2, h3⟩ := ih (by omega)
      rw [List.range_succ, List.foldl_append]
      simp only [List.foldl_cons, List.foldl_nil]
      split
      · rename_i hgt
        refine ⟨by simpa using hk, rfl, ?_⟩
        intro j hj
        by_cases hjk : j < k + 1
        · exact le_trans (h3 j hjk) (le_of_lt hgt)
        · have : j = k + 1 := by omega
          subst this
          exact le_refl _
      · rename_i hgt
        refine ⟨h1, h2, ?_⟩
        intro j hj
        by_cases hjk : j < k + 1
        · exact h3 j hjk
        · have : j = k + 1 := by omega
          subst this
          exact not_lt.mp hgt
  obtain ⟨h1, h2, h3⟩ := key (cs.length - 1) (by omega)
  have hd : deepest cs = ((List.range (cs.length - 1)).foldl
        (fun (acc : Nat × K) k =>
          if (cs.map Candidate.dep).getD (k + 1) 0 > acc.2
            then (k + 1, (cs.map Candidate.dep).getD (k + 1) 0) else acc)
        (0, (cs.map Candidate.dep).getD 0 0)).1 := rfl
  rw [← hd] at h1 h2
  refine ⟨h1, ?_⟩
  intro c hc
  obtain ⟨j, hj, hcj⟩ := List.getElem_of_mem hc
  have hle := h3 j (by omega)
  rw [h2] at hle
  have e1 : (cs.map Candidate.dep).getD j 0 = c.dep := by
    rw [List.getD_eq_getElem _ _ (by simpa using hj)]
    simp [hcj]
  have e2 : (cs.map Candidate.dep).getD (deepest cs) 0
      = (cs.getD (deepest cs) ⟨(0, 0), ⟨0, 0, 0⟩, 0⟩).dep := by
    rw [List.getD_eq_getElem _ _ (by simpa using h1), List.getD_eq_getElem _ _ h1]
    simp
  rw [e1, e2] at hle
  exact hle

/-- C9. When culling occurs in `boxBox2` (more clipped points survive the depth
test than the clamped `maxc`), the first contact emitted is the deepest
surviving point: its penetration `dep` is at least the `dep` of every
surviving point, hence of every other emitted contact. -/
theorem boxBox2_cull_deepest_first (cfg : Scalar K) (side1 side2 : Vec3 K)
    (tf1 tf2 : Transform3 K) (normal : Vec3 K) (depth : K) (maxc : Int)
    (contacts : List (ContactPoint K)) (st : SatState K)
    (h : satPhase cfg (side1.smul (1 / 2)) (side2.smul (1 / 2)) tf1 tf2 = some st)
    (hc : st.code ≠ 0) (h6 : ¬ st.code > 6)
    (hm : clampMaxc maxc (survivors side1 tf1 side2 tf2 st).length
      < ((survivors side1 tf1 side2 tf2 st).length : Int)) :
    ∃ (first : ContactPoint K) (rest : List (ContactPoint K)),
      (boxBox2 cfg side1 tf1 side2 tf2 normal depth maxc contacts).contacts
        = contacts ++ first :: rest ∧
      first = faceEmit (frameOf side1 tf1 side2 tf2 st) (satNormal tf1 tf2 st) st.code
        ((survivors side1 tf1 side2 tf2 st).getD (deepest (survivors side1 tf1 side2 tf2 st))
          ⟨(0, 0), ⟨0, 0, 0⟩, 0⟩) ∧
      deepest (survivors side1 tf1 side2 tf2 st) < (survivors side1 tf1 side2 tf2 st).length ∧
      (∀ c ∈ survivors side1 tf1 side2 tf2 st, c.dep ≤ -first.penetration_depth) ∧
      (∀ c ∈ rest, -c.penetration_depth ≤ -first.penetration_depth) := by
  have hge := clampMaxc_ge_one maxc (survivors side1 tf1 side2 tf2 st).length
  have hlen : 1 ≤ (survivors side1 tf1 side2 tf2 st).length := by omega
  obtain ⟨hd1, hd2⟩ := deepest_spec (survivors side1 tf1 side2 tf2 st) hlen
  obtain ⟨k, hk⟩ : ∃ k, (clampMaxc maxc (survivors side1 tf1 side2 tf2 st).length).toNat
      = k + 1 := ⟨(clampMaxc maxc (survivors side1 tf1 side2 tf2 st).length).toNat - 1, by omega⟩
  obtain ⟨tail, htail, -⟩ := cullPoints2_head cfg (survivors side1 tf1 side2 tf2 st).length
    ((survivors side1 tf1 side2 tf2 st).map Candidate.ret)
    (clampMaxc maxc (survivors side1 tf1 side2 tf2 st).length).toNat
    (deepest (survivors side1 tf1 side2 tf2 st))
  rw [boxBox2_face_cull cfg side1 side2 tf1 tf2 normal depth maxc contacts st h hc h6 hm]
  simp only []
  rw [htail, hk, List.range_succ_eq_map]
  simp only [List.map_cons, List.map_map, List.getD_cons_zero]
  have hfirst : -(faceEmit (frameOf side1 tf1 side2 tf2 st) (satNormal tf1 tf2 st) st.code
      ((survivors side1 tf1 side2 tf2 st).getD (deepest (survivors side1 tf1 side2 tf2 st))
        ⟨(0, 0), ⟨0, 0, 0⟩, 0⟩)).penetration_depth
      = ((survivors side1 tf1 side2 tf2 st).getD (deepest (survivors side1 tf1 side2 tf2 st))
        ⟨(0, 0), ⟨0, 0, 0⟩, 0⟩).dep := by
    rw [(faceEmit_normal _ _ _ _).2, neg_neg]
  refine ⟨_, _, rfl, rfl, hd1, ?_, ?_⟩
  · intro c hcm
    rw [hfirst]
    exact hd2 c hcm
  · intro c hcm
    simp only [List.mem_map, List.mem_range, Function.comp] at hcm
    obtain ⟨j, -, hj⟩ := hcm
    rw [← hj, hfirst, (faceEmit_normal _ _ _ _).2, neg_neg]
    rcases getD_mem_or_default (survivors side1 tf1 side2 tf2 st)
      ((deepest (survivors side1 tf1 side2 tf2 st) :: tail).getD (j + 1) 0)
      ⟨(0, 0), ⟨0, 0, 0⟩, 0⟩ with hmem | hdef
    · exact hd2 _ hmem
    · rw [hdef]
      have h0 : 0 ≤ ((survivors side1 tf1 side2 tf2 st).getD
          (deepest (survivors side1 tf1 side2 tf2 st)) ⟨(0, 0), ⟨0, 0, 0⟩, 0⟩).dep := by
        rw [List.getD_eq_getElem _ _ hd1]
        exact faceCandidates_dep_nonneg _ _ _ (List.getElem_mem hd1)
      exact h0

theorem boxBox2_cull_deepest_first_witness :
    clampMaxc 2 (survivors (⟨1, 1, 1⟩ : Vec3 ℝ) ⟨Mat3.identity, ⟨0, 0, 0⟩⟩ ⟨1, 1, 1⟩
        ⟨Mat3.identity, ⟨9 / 10, 0, 0⟩⟩ ⟨-(1 / 10), 0, 1, ⟨0, 0, 0⟩, false, 1⟩).length
      < ((survivors (⟨1, 1, 1⟩ : Vec3 ℝ) ⟨Mat3.identity, ⟨0, 0, 0⟩⟩ ⟨1, 1, 1⟩
        ⟨Mat3.identity, ⟨9 / 10, 0, 0⟩⟩ ⟨-(1 / 10), 0, 1, ⟨0, 0, 0⟩, false, 1⟩).length : Int) ∧
    ∃ (first : ContactPoint ℝ) (rest : List (ContactPoint ℝ)),
      (boxBox2 (binary64 Real.sqrt (fun y x => Complex.arg ⟨x, y⟩) Real.pi)
        (⟨1, 1, 1⟩ : Vec3 ℝ) ⟨Mat3.identity, ⟨0, 0, 0⟩⟩ ⟨1, 1, 1⟩
        ⟨Mat3.identity, ⟨9 / 10, 0, 0⟩⟩ ⟨0, 0, 0⟩ 0 2 []).contacts = [] ++ first :: rest ∧
      first = faceEmit (frameOf (⟨1, 1, 1⟩ : Vec3 ℝ) ⟨Mat3.identity, ⟨0, 0, 0⟩⟩ ⟨1, 1, 1⟩
          ⟨Mat3.identity, ⟨9 / 10, 0, 0⟩⟩ ⟨-(1 / 10), 0, 1, ⟨0, 0, 0⟩, false, 1⟩)
        (satNormal ⟨Mat3.identity, ⟨0, 0, 0⟩⟩ ⟨Mat3.identity, ⟨9 / 10, 0, 0⟩⟩
          ⟨-(1 / 10), 0, 1, ⟨0, 0, 0⟩, false, 1⟩) 1
        ((survivors (⟨1, 1, 1⟩ : Vec3 ℝ) ⟨Mat3.identity, ⟨0, 0, 0⟩⟩ ⟨1, 1, 1⟩
          ⟨Mat3.identity, ⟨9 / 10, 0, 0⟩⟩ ⟨-(1 / 10), 0, 1, ⟨0, 0, 0⟩, false, 1⟩).getD
          (deepest (survivors (⟨1, 1, 1⟩ : Vec3 ℝ) ⟨Mat3.identity, ⟨0, 0, 0⟩⟩ ⟨1, 1, 1⟩
            ⟨Mat3.identity, ⟨9 / 10, 0, 0⟩⟩ ⟨-(1 / 10), 0, 1, ⟨0, 0, 0⟩, false, 1⟩))
          ⟨(0, 0), ⟨0, 0, 0⟩, 0⟩) ∧
      deepest (survivors (⟨1, 1, 1⟩ : Vec3 ℝ) ⟨Mat3.identity, ⟨0, 0, 0⟩⟩ ⟨1, 1, 1⟩
          ⟨Mat3.identity, ⟨9 / 10, 0, 0⟩⟩ ⟨-(1 / 10), 0, 1, ⟨0, 0, 0⟩, false, 1⟩)
        < (survivors (⟨1, 1, 1⟩ : Vec3 ℝ) ⟨Mat3.identity, ⟨0, 0, 0⟩⟩ ⟨1, 1, 1⟩
          ⟨Mat3.identity, ⟨9 / 10, 0, 0⟩⟩ ⟨-(1 / 10), 0, 1, ⟨0, 0, 0⟩, false, 1⟩).length ∧
      (∀ c ∈ survivors (⟨1, 1, 1⟩ : Vec3 ℝ) ⟨Mat3.identity, ⟨0, 0, 0⟩⟩ ⟨1, 1, 1⟩
          ⟨Mat3.identity, ⟨9 / 10, 0, 0⟩⟩ ⟨-(1 / 10), 0, 1, ⟨0, 0, 0⟩, false, 1⟩,
        c.dep ≤ -first.penetration_depth) ∧
      (∀ c ∈ rest, -c.penetration_depth ≤ -first.penetration_depth) :=
  have hm : clampMaxc 2 (survivors (⟨1, 1, 1⟩ : Vec3 ℝ) ⟨Mat3.identity, ⟨0, 0, 0⟩⟩ ⟨1, 1, 1⟩
        ⟨Mat3.identity, ⟨9 / 10, 0, 0⟩⟩ ⟨-(1 / 10), 0, 1, ⟨0, 0, 0⟩, false, 1⟩).length
      < ((survivors (⟨1, 1, 1⟩ : Vec3 ℝ) ⟨Mat3.identity, ⟨0, 0, 0⟩⟩ ⟨1, 1, 1⟩
        ⟨Mat3.identity, ⟨9 / 10, 0, 0⟩⟩ ⟨-(1 / 10), 0, 1, ⟨0, 0, 0⟩, false, 1⟩).length : Int) := by
    rw [scenario1_survivors]
    decide
  ⟨hm, boxBox2_cull_deepest_first _ _ _ _ _ _ _ 2 [] _ scenario1_satPhase (by decide)
    (by decide) hm⟩


/-! ## More on rotations -/

theorem sum_three_sq_eq_zero {a b c : K} (h : a * a + b * b + c * c = 0) :
    a = 0 ∧ b = 0 ∧ c = 0 := by
  have ha := mul_self_nonneg a
  have hb := mul_self_nonneg b
  have hc := mul_self_nonneg c
  refine ⟨?_, ?_, ?_⟩
  · exact mul_self_eq_zero.mp (le_antisymm (by linarith) ha)
  · exact mul_self_eq_zero.mp (le_antisymm (by linarith) hb)
  · exact mul_self_eq_zero.mp (le_antisymm (by linarith) hc)

/-- The entries of a rotation, as the nine equations `m = cof(m)`: each column is
the cross product of the other two. -/
theorem rotation_cofactor {m : Mat3 K} (h : m.IsRotation) :
    (m.m10 * m.m21 - m.m20 * m.m11 = m.m02 ∧ m.m20 * m.m01 - m.m00 * m.m21 = m.m12 ∧
      m.m00 * m.m11 - m.m10 * m.m01 = m.m22) ∧
    (m.m11 * m.m22 - m.m21 * m.m12 = m.m00 ∧ m.m21 * m.m02 - m.m01 * m.m22 = m.m10 ∧
      m.m01 * m.m12 - m.m11 * m.m02 = m.m20) ∧
    (m.m12 * m.m20 - m.m22 * m.m10 = m.m01 ∧ m.m22 * m.m00 - m.m02 * m.m20 = m.m11 ∧
      m.m02 * m.m10 - m.m12 * m.m00 = m.m21) := by
  obtain ⟨h0, h1, h2, h01, h02, h12, hdet⟩ := h
  simp only [Mat3.col, Mat3.coeff, Vec3.dot, Mat3.det] at h0 h1 h2 h01 h02 h12 hdet
  simp at h0 h1 h2 h01 h02 h12
  have e1 : (m.m10 * m.m21 - m.m20 * m.m11 - m.m02) * (m.m10 * m.m21 - m.m20 * m.m11 - m.m02)
      + (m.m20 * m.m01 - m.m00 * m.m21 - m.m12) * (m.m20 * m.m01 - m.m00 * m.m21 - m.m12)
      + (m.m00 * m.m11 - m.m10 * m.m01 - m.m22) * (m.m00 * m.m11 - m.m10 * m.m01 - m.m22)
      = 0 := by
    linear_combination (m.m01 * m.m01 + m.m11 * m.m11 + m.m21 * m.m21) * h0 + h1
      - (m.m00 * m.m01 + m.m10 * m.m11 + m.m20 * m.m21) * h01 - 2 * hdet + h2
  have e2 : (m.m11 * m.m22 - m.m21 * m.m12 - m.m00) * (m.m11 * m.m22 - m.m21 * m.m12 - m.m00)
      + (m.m21 * m.m02 - m.m01 * m.m22 - m.m10) * (m.m21 * m.m02 - m.m01 * m.m22 - m.m10)
      + (m.m01 * m.m12 - m.m11 * m.m02 - m.m20) * (m.m01 * m.m12 - m.m11 * m.m02 - m.m20)
      = 0 := by
    linear_combination (m.m02 * m.m02 + m.m12 * m.m12 + m.m22 * m.m22) * h1 + h2
      - (m.m01 * m.m02 + m.m11 * m.m12 + m.m21 * m.m22) * h12 - 2 * hdet + h0
  have e3 : (m.m12 * m.m20 - m.m22 * m.m10 - m.m01) * (m.m12 * m.m20 - m.m22 * m.m10 - m.m01)
      + (m.m22 * m.m00 - m.m02 * m.m20 - m.m11) * (m.m22 * m.m00 - m.m02 * m.m20 - m.m11)
      + (m.m02 * m.m10 - m.m12 * m.m00 - m.m21) * (m.m02 * m.m10 - m.m12 * m.m00 - m.m21)
      = 0 := by
    linear_combination (m.m00 * m.m00 + m.m10 * m.m10 + m.m20 * m.m20) * h2 + h0
      - (m.m00 * m.m02 + m.m10 * m.m12 + m.m20 * m.m22) * h02 - 2 * hdet + h1
  obtain ⟨a1, a2, a3⟩ := sum_three_sq_eq_zero e1
  obtain ⟨b1, b2, b3⟩ := sum_three_sq_eq_zero e2
  obtain ⟨c1, c2, c3⟩ := sum_three_sq_eq_zero e3
  exact ⟨⟨by linarith, by linarith, by linarith⟩, ⟨by linarith, by linarith, by linarith⟩,
    ⟨by linarith, by linarith, by linarith⟩⟩

/-- The transpose of a rotation is a rotation: the rows are orthonormal too. -/
theorem rotation_transpose {m : Mat3 K} (h : m.IsRotation) : m.transpose.IsRotation := by
  obtain ⟨⟨a1, a2, a3⟩, ⟨b1, b2, b3⟩, ⟨c1, c2, c3⟩⟩ := rotation_cofactor h
  obtain ⟨h0, h1, h2, h01, h02, h12, hdet⟩ := h
  simp only [Mat3.det] at hdet
  simp only [Mat3.IsRotation, Mat3.col, Mat3.coeff, Vec3.dot, Mat3.det, Mat3.transpose]
  simp
  refine ⟨?_, ?_, ?_, ?_, ?_, ?_, ?_⟩
  · linear_combination hdet - m.m00 * b1 - m.m01 * c1 - m.m02 * a1
  · linear_combination hdet - m.m10 * b2 - m.m11 * c2 - m.m12 * a2
  · linear_combination hdet - m.m20 * b3 - m.m21 * c3 - m.m22 * a3
  · linear_combination -m.m10 * b1 - m.m11 * c1 - m.m12 * a1
  · linear_combination -m.m20 * b1 - m.m21 * c1 - m.m22 * a1
  · linear_combination -m.m20 * b2 - m.m21 * c2 - m.m22 * a2
  · linear_combination hdet

theorem rotation_mulVec_dot2 {m : Mat3 K} (h : m.IsRotation) (u v : Vec3 K) :
    (m.mulVec u).dot (m.mulVec v) = u.dot v := by
  obtain ⟨h0, h1, h2, h01, h02, h12, -⟩ := h
  simp only [Mat3.col, Mat3.coeff, Vec3.dot] at h0 h1 h2 h01 h02 h12
  simp at h0 h1 h2 h01 h02 h12
  simp only [Mat3.mulVec, Mat3.row, Mat3.coeff, Vec3.dot]
  simp
  linear_combination u.x * v.x * h0 + u.y * v.y * h1 + u.z * v.z * h2
    + (u.x * v.y + u.y * v.x) * h01 + (u.x * v.z + u.z * v.x) * h02
    + (u.y * v.z + u.z * v.y) * h12

theorem det_mul (a b : Mat3 K) : (a.mul b).det = a.det * b.det := by
  simp only [Mat3.det, Mat3.mul, Mat3.row, Mat3.col, Mat3.coeff, Vec3.dot]
  simp
  ring

theorem det_transpose (a : Mat3 K) : a.transpose.det = a.det := by
  simp only [Mat3.det, Mat3.transpose]
  ring

theorem mul_col (a b : Mat3 K) :
    (a.mul b).col 0 = a.mulVec (b.col 0) ∧ (a.mul b).col 1 = a.mulVec (b.col 1) ∧
    (a.mul b).col 2 = a.mulVec (b.col 2) := by
  simp [Mat3.mul, Mat3.col, Mat3.mulVec, Mat3.coeff]

/-- The product of two rotations is a rotation. -/
theorem rotation_mul {a b : Mat3 K} (ha : a.IsRotation) (hb : b.IsRotation) :
    (a.mul b).IsRotation := by
  obtain ⟨c0, c1, c2⟩ := mul_col a b
  obtain ⟨h0, h1, h2, h01, h02, h12, hdet⟩ := hb
  unfold Mat3.IsRotation
  rw [c0, c1, c2]
  simp only [rotation_mulVec_dot2 ha]
  exact ⟨h0, h1, h2, h01, h02, h12, by rw [det_mul, ha.2.2.2.2.2.2, hdet, one_mul]⟩

/-- The relative rotation `R = R1' * R2` of `boxBox2` is a rotation. -/
theorem relative_rotation {tf1 tf2 : Transform3 K} (h1 : tf1.linear.IsRotation)
    (h2 : tf2.linear.IsRotation) : (tf1.linear.transpose.mul tf2.linear).IsRotation :=
  rotation_mul (rotation_transpose h1) h2

/-! ## Projections of a box on a direction -/

/-- In a rotated frame every vector is the sum of its three components. -/
theorem dot_expand {m : Mat3 K} (h : m.IsRotation) (L d : Vec3 K) :
    L.dot d = (m.col 0).dot d * L.dot (m.col 0) + (m.col 1).dot d * L.dot (m.col 1)
      + (m.col 2).dot d * L.dot (m.col 2) := by
  obtain ⟨h0, h1, h2, h01, h02, h12, -⟩ := rotation_transpose h
  simp only [Mat3.col, Mat3.coeff, Vec3.dot, Mat3.transpose] at h0 h1 h2 h01 h02 h12
  simp at h0 h1 h2 h01 h02 h12
  simp only [Mat3.col, Mat3.coeff, Vec3.dot]
  simp
  linear_combination (-(L.x * d.x)) * h0 - L.y * d.y * h1 - L.z * d.z * h2
    - (L.x * d.y + L.y * d.x) * h01 - (L.x * d.z + L.z * d.x) * h02
    - (L.y * d.z + L.z * d.y) * h12

/-- The projection of a box on a direction `L` reaches at most the sum of the
projected half extents from the projected centre. -/
theorem box_proj_bound {side : Vec3 K} {tf : Transform3 K} (h : tf.linear.IsRotation)
    {x : Vec3 K} (hx : inBox side tf x) (L : Vec3 K) :
    |L.dot (x.sub tf.translation)| ≤ side.x / 2 * |L.dot (tf.linear.col 0)|
      + side.y / 2 * |L.dot (tf.linear.col 1)| + side.z / 2 * |L.dot (tf.linear.col 2)| := by
  obtain ⟨hx0, hx1, hx2⟩ := hx
  rw [dot_expand h L (x.sub tf.translation)]
  have t0 : |(tf.linear.col 0).dot (x.sub tf.translation) * L.dot (tf.linear.col 0)|
      ≤ side.x / 2 * |L.dot (tf.linear.col 0)| := by
    rw [abs_mul]
    exact mul_le_mul_of_nonneg_right hx0 (abs_nonneg _)
  have t1 : |(tf.linear.col 1).dot (x.sub tf.translation) * L.dot (tf.linear.col 1)|
      ≤ side.y / 2 * |L.dot (tf.linear.col 1)| := by
    rw [abs_mul]
    exact mul_le_mul_of_nonneg_right hx1 (abs_nonneg _)
  have t2 : |(tf.linear.col 2).dot (x.sub tf.translation) * L.dot (tf.linear.col 2)|
      ≤ side.z / 2 * |L.dot (tf.linear.col 2)| := by
    rw [abs_mul]
    exact mul_le_mul_of_nonneg_right hx2 (abs_nonneg _)
  calc |(tf.linear.col 0).dot (x.sub tf.translation) * L.dot (tf.linear.col 0)
        + (tf.linear.col 1).dot (x.sub tf.translation) * L.dot (tf.linear.col 1)
        + (tf.linear.col 2).dot (x.sub tf.translation) * L.dot (tf.linear.col 2)|
      ≤ |(tf.linear.col 0).dot (x.sub tf.translation) * L.dot (tf.linear.col 0)
        + (tf.linear.col 1).dot (x.sub tf.translation) * L.dot (tf.linear.col 1)|
        + |(tf.linear.col 2).dot (x.sub tf.translation) * L.dot (tf.linear.col 2)| :=
        abs_add _ _
    _ ≤ |(tf.linear.col 0).dot (x.sub tf.translation) * L.dot (tf.linear.col 0)|
        + |(tf.linear.col 1).dot (x.sub tf.translation) * L.dot (tf.linear.col 1)|
        + |(tf.linear.col 2).dot (x.sub tf.translation) * L.dot (tf.linear.col 2)| := by
        have := abs_add ((tf.linear.col 0).dot (x.sub tf.translation) * L.dot (tf.linear.col 0))
          ((tf.linear.col 1).dot (x.sub tf.translation) * L.dot (tf.linear.col 1))
        linarith
    _ ≤ _ := by linarith


theorem dot_sub_right (L a b : Vec3 K) : L.dot (a.sub b) = L.dot a - L.dot b := by
  simp only [Vec3.dot, Vec3.sub]
  ring

theorem strictlySeparated_disjoint {side1 side2 : Vec3 K} {tf1 tf2 : Transform3 K}
    (h : StrictlySeparated side1 tf1 side2 tf2) : Disjoint side1 tf1 side2 tf2 := by
  obtain ⟨L, hL⟩ := h
  intro x hx
  exact lt_irrefl _ (hL x x hx.1 hx.2)

/-- A direction along which the centre distance exceeds the sum of the projected
half extents strictly separates the boxes. -/
theorem separated_of_direction {side1 side2 : Vec3 K} {tf1 tf2 : Transform3 K}
    (h1 : tf1.linear.IsRotation) (h2 : tf2.linear.IsRotation) (L : Vec3 K) (r : K)
    (hr : side1.x / 2 * |L.dot (tf1.linear.col 0)| + side1.y / 2 * |L.dot (tf1.linear.col 1)|
        + side1.z / 2 * |L.dot (tf1.linear.col 2)|
        + (side2.x / 2 * |L.dot (tf2.linear.col 0)| + side2.y / 2 * |L.dot (tf2.linear.col 1)|
        + side2.z / 2 * |L.dot (tf2.linear.col 2)|) ≤ r)
    (hsep : |L.dot (tf2.translation.sub tf1.translation)| - r > 0) :
    StrictlySeparated side1 tf1 side2 tf2 := by
  by_cases hpos : 0 ≤ L.dot (tf2.translation.sub tf1.translation)
  · refine ⟨L, ?_⟩
    intro x y hx hy
    have bx := box_proj_bound h1 hx L
    have by' := box_proj_bound h2 hy L
    rw [abs_of_nonneg hpos] at hsep
    rw [dot_sub_right] at bx by' hsep
    have ux := (abs_le.mp bx).2
    have ly := (abs_le.mp by').1
    linarith
  · refine ⟨L.neg, ?_⟩
    intro x y hx hy
    have bx := box_proj_bound h1 hx L
    have by' := box_proj_bound h2 hy L
    rw [abs_of_neg (not_le.mp hpos)] at hsep
    rw [dot_sub_right] at bx by' hsep
    have lx := (abs_le.mp bx).1
    have uy := (abs_le.mp by').2
    have e1 : L.neg.dot x = -(L.dot x) := by
      simp only [Vec3.dot, Vec3.neg]; ring
    have e2 : L.neg.dot y = -(L.dot y) := by
      simp only [Vec3.dot, Vec3.neg]; ring
    rw [e1, e2]
    linarith


theorem col_dot_col (a b : Mat3 K) :
    ((a.col 0).dot (b.col 0) = (a.transpose.mul b).m00 ∧
     (a.col 0).dot (b.col 1) = (a.transpose.mul b).m01 ∧
     (a.col 0).dot (b.col 2) = (a.transpose.mul b).m02) ∧
    ((a.col 1).dot (b.col 0) = (a.transpose.mul b).m10 ∧
     (a.col 1).dot (b.col 1) = (a.transpose.mul b).m11 ∧
     (a.col 1).dot (b.col 2) = (a.transpose.mul b).m12) ∧
    ((a.col 2).dot (b.col 0) = (a.transpose.mul b).m20 ∧
     (a.col 2).dot (b.col 1) = (a.transpose.mul b).m21 ∧
     (a.col 2).dot (b.col 2) = (a.transpose.mul b).m22) := by
  simp [Mat3.mul, Mat3.col, Mat3.row, Mat3.transpose, Mat3.coeff, Vec3.dot]

theorem rotation_cols {m : Mat3 K} (h : m.IsRotation) :
    ((m.col 0).dot (m.col 0) = 1 ∧ (m.col 0).dot (m.col 1) = 0 ∧ (m.col 0).dot (m.col 2) = 0) ∧
    ((m.col 1).dot (m.col 0) = 0 ∧ (m.col 1).dot (m.col 1) = 1 ∧ (m.col 1).dot (m.col 2) = 0) ∧
    ((m.col 2).dot (m.col 0) = 0 ∧ (m.col 2).dot (m.col 1) = 0 ∧ (m.col 2).dot (m.col 2) = 1) := by
  obtain ⟨h0, h1, h2, h01, h02, h12, -⟩ := h
  refine ⟨⟨h0, h01, h02⟩, ⟨?_, h1, h12⟩, ⟨?_, ?_, h2⟩⟩
  · rw [dot_comm]; exact h01
  · rw [dot_comm]; exact h02
  · rw [dot_comm]; exact h12

theorem mulVec_dot_col {m : Mat3 K} (h : m.IsRotation) (n : Vec3 K) :
    (m.mulVec n).dot (m.col 0) = n.x ∧ (m.mulVec n).dot (m.col 1) = n.y ∧
    (m.mulVec n).dot (m.col 2) = n.z := by
  have e0 : m.col 0 = m.mulVec ⟨1, 0, 0⟩ := by
    simp [Mat3.col, Mat3.mulVec, Mat3.row, Mat3.coeff, Vec3.dot]
  have e1 : m.col 1 = m.mulVec ⟨0, 1, 0⟩ := by
    simp [Mat3.col, Mat3.mulVec, Mat3.row, Mat3.coeff, Vec3.dot]
  have e2 : m.col 2 = m.mulVec ⟨0, 0, 1⟩ := by
    simp [Mat3.col, Mat3.mulVec, Mat3.row, Mat3.coeff, Vec3.dot]
  rw [e0, e1, e2]
  simp only [rotation_mulVec_dot2 h]
  simp [Vec3.dot]

theorem mulVec_dot_col2 (a b : Mat3 K) (n : Vec3 K) :
    (a.mulVec n).dot (b.col 0) = n.dot ((a.transpose.mul b).col 0) ∧
    (a.mulVec n).dot (b.col 1) = n.dot ((a.transpose.mul b).col 1) ∧
    (a.mulVec n).dot (b.col 2) = n.dot ((a.transpose.mul b).col 2) := by
  simp only [Mat3.mul, Mat3.col, Mat3.row, Mat3.transpose, Mat3.coeff, Vec3.dot, Mat3.mulVec]
  simp
  refine ⟨?_, ?_, ?_⟩ <;> ring


/-! ## The direction behind each candidate axis -/

/-- What a candidate must offer to be a separating-axis test: a world direction
`L` whose projection of the centre offset is `tmp` and along which the two
projected half extents sum to at most `r`. -/
theorem face1_direction (side1 side2 : Vec3 K) (tf1 tf2 : Transform3 K)
    (hs1 : 0 ≤ side1.x ∧ 0 ≤ side1.y ∧ 0 ≤ side1.z)
    (hs2 : 0 ≤ side2.x ∧ 0 ≤ side2.y ∧ 0 ≤ side2.z)
    (h1 : tf1.linear.IsRotation) (h2 : tf2.linear.IsRotation) (i : Nat) (hi : i < 3) :
    ∃ L : Vec3 K, L = tf1.linear.col i ∧
      ((faceAxes (side1.smul (1 / 2)) (side2.smul (1 / 2)) tf1 tf2).getD i ⟨0, 0, none, 0, 0, 0⟩).tmp = L.dot (tf2.translation.sub tf1.translation) ∧
      side1.x / 2 * |L.dot (tf1.linear.col 0)| + side1.y / 2 * |L.dot (tf1.linear.col 1)|
        + side1.z / 2 * |L.dot (tf1.linear.col 2)|
        + (side2.x / 2 * |L.dot (tf2.linear.col 0)| + side2.y / 2 * |L.dot (tf2.linear.col 1)|
        + side2.z / 2 * |L.dot (tf2.linear.col 2)|) ≤ ((faceAxes (side1.smul (1 / 2)) (side2.smul (1 / 2)) tf1 tf2).getD i ⟨0, 0, none, 0, 0, 0⟩).r ∧
      ((faceAxes (side1.smul (1 / 2)) (side2.smul (1 / 2)) tf1 tf2).getD i ⟨0, 0, none, 0, 0, 0⟩).r
        ≤ side1.x / 2 * |L.dot (tf1.linear.col 0)| + side1.y / 2 * |L.dot (tf1.linear.col 1)|
        + side1.z / 2 * |L.dot (tf1.linear.col 2)|
        + (side2.x / 2 * |L.dot (tf2.linear.col 0)| + side2.y / 2 * |L.dot (tf2.linear.col 1)|
        + side2.z / 2 * |L.dot (tf2.linear.col 2)|) := by
  obtain ⟨⟨r00, r01, r02⟩, ⟨r10, r11, r12⟩, ⟨r20, r21, r22⟩⟩ := rotation_cols h1
  obtain ⟨⟨c00, c01, c02⟩, ⟨c10, c11, c12⟩, ⟨c20, c21, c22⟩⟩ :=
    col_dot_col tf1.linear tf2.linear
  interval_cases i
  · refine ⟨tf1.linear.col 0, rfl, ?_, ?_⟩
    · simp [faceAxes, Mat3.mulVec, Mat3.transpose, Mat3.row, Mat3.col, Mat3.coeff, Vec3.dot,
        Vec3.get, Vec3.sub]
    rw [r00, r01, r02, c00, c01, c02]
    simp only [faceAxes, List.getD_cons_zero, List.getD_cons_succ]
    generalize tf1.linear.transpose.mul tf2.linear = R
    simp only [Mat3.col, Mat3.row, Mat3.coeff, Vec3.dot, Vec3.get, Vec3.smul, Mat3.cwiseAbs,
      Mat3.addScalar, fudge2]
    simp
    constructor <;> linarith [hs1.1, hs1.2.1, hs1.2.2, hs2.1, hs2.2.1, hs2.2.2]
  · refine ⟨tf1.linear.col 1, rfl, ?_, ?_⟩
    · simp [faceAxes, Mat3.mulVec, Mat3.transpose, Mat3.row, Mat3.col, Mat3.coeff, Vec3.dot,
        Vec3.get, Vec3.sub]
    rw [r10, r11, r12, c10, c11, c12]
    simp only [faceAxes, List.getD_cons_zero, List.getD_cons_succ]
    generalize tf1.linear.transpose.mul tf2.linear = R
    simp only [Mat3.col, Mat3.row, Mat3.coeff, Vec3.dot, Vec3.get, Vec3.smul, Mat3.cwiseAbs,
      Mat3.addScalar, fudge2]
    simp
    constructor <;> linarith [hs1.1, hs1.2.1, hs1.2.2, hs2.1, hs2.2.1, hs2.2.2]
  · refine ⟨tf1.linear.col 2, rfl, ?_, ?_⟩
    · simp [faceAxes, Mat3.mulVec, Mat3.transpose, Mat3.row, Mat3.col, Mat3.coeff, Vec3.dot,
        Vec3.get, Vec3.sub]
    rw [r20, r21, r22, c20, c21, c22]
    simp only [faceAxes, List.getD_cons_zero, List.getD_cons_succ]
    generalize tf1.linear.transpose.mul tf2.linear = R
    simp only [Mat3.col, Mat3.row, Mat3.coeff, Vec3.dot, Vec3.get, Vec3.smul, Mat3.cwiseAbs,
      Mat3.addScalar, fudge2]
    simp
    constructor <;> linarith [hs1.1, hs1.2.1, hs1.2.2, hs2.1, hs2.2.1, hs2.2.2]

theorem face2_direction (side1 side2 : Vec3 K) (tf1 tf2 : Transform3 K)
    (hs1 : 0 ≤ side1.x ∧ 0 ≤ side1.y ∧ 0 ≤ side1.z)
    (hs2 : 0 ≤ side2.x ∧ 0 ≤ side2.y ∧ 0 ≤ side2.z)
    (h1 : tf1.linear.IsRotation) (h2 : tf2.linear.IsRotation) (j : Nat) (hj : j < 3) :
    ∃ L : Vec3 K, L = tf2.linear.col j ∧
      ((faceAxes (side1.smul (1 / 2)) (side2.smul (1 / 2)) tf1 tf2).getD (j + 3) ⟨0, 0, none, 0, 0, 0⟩).tmp = L.dot (tf2.translation.sub tf1.translation) ∧
      side1.x / 2 * |L.dot (tf1.linear.col 0)| + side1.y / 2 * |L.dot (tf1.linear.col 1)|
        + side1.z / 2 * |L.dot (tf1.linear.col 2)|
        + (side2.x / 2 * |L.dot (tf2.linear.col 0)| + side2.y / 2 * |L.dot (tf2.linear.col 1)|
        + side2.z / 2 * |L.dot (tf2.linear.col 2)|) ≤ ((faceAxes (side1.smul (1 / 2)) (side2.smul (1 / 2)) tf1 tf2).getD (j + 3) ⟨0, 0, none, 0, 0, 0⟩).r ∧
      ((faceAxes (side1.smul (1 / 2)) (side2.smul (1 / 2)) tf1 tf2).getD (j + 3) ⟨0, 0, none, 0, 0, 0⟩).r
        ≤ side1.x / 2 * |L.dot (tf1.linear.col 0)| + side1.y / 2 * |L.dot (tf1.linear.col 1)|
        + side1.z / 2 * |L.dot (tf1.linear.col 2)|
        + (side2.x / 2 * |L.dot (tf2.linear.col 0)| + side2.y / 2 * |L.dot (tf2.linear.col 1)|
        + side2.z / 2 * |L.dot (tf2.linear.col 2)|) := by
  obtain ⟨⟨r00, r01, r02⟩, ⟨r10, r11, r12⟩, ⟨r20, r21, r22⟩⟩ := rotation_cols h2
  obtain ⟨⟨c00, c01, c02⟩, ⟨c10, c11, c12⟩, ⟨c20, c21, c22⟩⟩ :=
    col_dot_col tf1.linear tf2.linear
  interval_cases j
  · refine ⟨tf2.linear.col 0, rfl, ?_, ?_⟩
    · simp [faceAxes]
    rw [dot_comm (tf2.linear.col 0) (tf1.linear.col 0), dot_comm (tf2.linear.col 0) (tf1.linear.col 1),
      dot_comm (tf2.linear.col 0) (tf1.linear.col 2), r00, r01, r02, c00, c10, c20]
    simp only [faceAxes, List.getD_cons_zero, List.getD_cons_succ]
    generalize tf1.linear.transpose.mul tf2.linear = R
    simp only [Mat3.col, Mat3.row, Mat3.coeff, Vec3.dot, Vec3.get, Vec3.smul, Mat3.cwiseAbs,
      Mat3.addScalar, fudge2]
    simp
    constructor <;> linarith [hs1.1, hs1.2.1, hs1.2.2, hs2.1, hs2.2.1, hs2.2.2]
  · refine ⟨tf2.linear.col 1, rfl, ?_, ?_⟩
    · simp [faceAxes]
    rw [dot_comm (tf2.linear.col 1) (tf1.linear.col 0), dot_comm (tf2.linear.col 1) (tf1.linear.col 1),
      dot_comm (tf2.linear.col 1) (tf1.linear.col 2), r10, r11, r12, c01, c11, c21]
    simp only [faceAxes, List.getD_cons_zero, List.getD_cons_succ]
    generalize tf1.linear.transpose.mul tf2.linear = R
    simp only [Mat3.col, Mat3.row, Mat3.coeff, Vec3.dot, Vec3.get, Vec3.smul, Mat3.cwiseAbs,
      Mat3.addScalar, fudge2]
    simp
    constructor <;> linarith [hs1.1, hs1.2.1, hs1.2.2, hs2.1, hs2.2.1, hs2.2.2]
  · refine ⟨tf2.linear.col 2, rfl, ?_, ?_⟩
    · simp [faceAxes]
    rw [dot_comm (tf2.linear.col 2) (tf1.linear.col 0), dot_comm (tf2.linear.col 2) (tf1.linear.col 1),
      dot_comm (tf2.linear.col 2) (tf1.linear.col 2), r20, r21, r22, c02, c12, c22]
    simp only [faceAxes, List.getD_cons_zero, List.getD_cons_succ]
    generalize tf1.linear.transpose.mul tf2.linear = R
    simp only [Mat3.col, Mat3.row, Mat3.coeff, Vec3.dot, Vec3.get, Vec3.smul, Mat3.cwiseAbs,
      Mat3.addScalar, fudge2]
    simp
    constructor <;> linarith [hs1.1, hs1.2.1, hs1.2.2, hs2.1, hs2.2.1, hs2.2.2]

theorem edge_direction_0 (side1 side2 : Vec3 K) (tf1 tf2 : Transform3 K)
    (hs1 : 0 ≤ side1.x ∧ 0 ≤ side1.y ∧ 0 ≤ side1.z)
    (hs2 : 0 ≤ side2.x ∧ 0 ≤ side2.y ∧ 0 ≤ side2.z)
    (h1 : tf1.linear.IsRotation) (h2 : tf2.linear.IsRotation) :
    ∃ L : Vec3 K, L = tf1.linear.mulVec ⟨0, -(tf1.linear.transpose.mul tf2.linear).coeff 2 0, (tf1.linear.transpose.mul tf2.linear).coeff 1 0⟩ ∧
      ((edgeAxes (side1.smul (1 / 2)) (side2.smul (1 / 2)) tf1 tf2).getD 0 ⟨0, 0, none, 0, 0, 0⟩).tmp = L.dot (tf2.translation.sub tf1.translation) ∧
      side1.x / 2 * |L.dot (tf1.linear.col 0)| + side1.y / 2 * |L.dot (tf1.linear.col 1)|
        + side1.z / 2 * |L.dot (tf1.linear.col 2)|
        + (side2.x / 2 * |L.dot (tf2.linear.col 0)| + side2.y / 2 * |L.dot (tf2.linear.col 1)|
        + side2.z / 2 * |L.dot (tf2.linear.col 2)|) ≤ ((edgeAxes (side1.smul (1 / 2)) (side2.smul (1 / 2)) tf1 tf2).getD 0 ⟨0, 0, none, 0, 0, 0⟩).r ∧
      ((edgeAxes (side1.smul (1 / 2)) (side2.smul (1 / 2)) tf1 tf2).getD 0 ⟨0, 0, none, 0, 0, 0⟩).r
        ≤ side1.x / 2 * |L.dot (tf1.linear.col 0)| + side1.y / 2 * |L.dot (tf1.linear.col 1)|
        + side1.z / 2 * |L.dot (tf1.linear.col 2)|
        + (side2.x / 2 * |L.dot (tf2.linear.col 0)| + side2.y / 2 * |L.dot (tf2.linear.col 1)|
        + side2.z / 2 * |L.dot (tf2.linear.col 2)|)
        + fudge2 * ((side1.x + side1.y + side1.z - side1.get 0) / 2
          + (side2.x + side2.y + side2.z - side2.get 0) / 2) := by
  obtain ⟨⟨a1, a2, a3⟩, ⟨b1, b2, b3⟩, ⟨c1, c2, c3⟩⟩ :=
    rotation_cofactor (relative_rotation h1 h2)
  refine ⟨tf1.linear.mulVec ⟨0, -(tf1.linear.transpose.mul tf2.linear).coeff 2 0, (tf1.linear.transpose.mul tf2.linear).coeff 1 0⟩, rfl, ?_, ?_⟩
  · rw [dot_comm, dot_mulVec]
    simp [edgeAxes, Vec3.dot, Vec3.get]
    ring
  obtain ⟨u0, u1, u2⟩ := mulVec_dot_col h1 (⟨0, -(tf1.linear.transpose.mul tf2.linear).coeff 2 0, (tf1.linear.transpose.mul tf2.linear).coeff 1 0⟩ : Vec3 K)
  obtain ⟨v0, v1, v2⟩ := mulVec_dot_col2 tf1.linear tf2.linear (⟨0, -(tf1.linear.transpose.mul tf2.linear).coeff 2 0, (tf1.linear.transpose.mul tf2.linear).coeff 1 0⟩ : Vec3 K)
  rw [u0, u1, u2, v0, v1, v2]
  simp only [edgeAxes, List.getD_cons_zero, List.getD_cons_succ]
  generalize tf1.linear.transpose.mul tf2.linear = R at *
  have w0 : (⟨0, -R.coeff 2 0, R.coeff 1 0⟩ : Vec3 K).dot (R.col 0) = 0 := by
    simp only [Mat3.col, Mat3.coeff, Vec3.dot]
    simp
    ring
  have w1 : (⟨0, -R.coeff 2 0, R.coeff 1 0⟩ : Vec3 K).dot (R.col 1) = R.m02 := by
    simp only [Mat3.col, Mat3.coeff, Vec3.dot]
    simp
    linear_combination a1
  have w2 : (⟨0, -R.coeff 2 0, R.coeff 1 0⟩ : Vec3 K).dot (R.col 2) = -R.m01 := by
    simp only [Mat3.col, Mat3.coeff, Vec3.dot]
    simp
    linear_combination -c1
  rw [w0, w1, w2]
  simp only [Mat3.col, Mat3.row, Mat3.coeff, Vec3.dot, Vec3.get, Vec3.smul, Mat3.cwiseAbs,
    Mat3.addScalar, fudge2]
  simp
  constructor <;> linarith [hs1.1, hs1.2.1, hs1.2.2, hs2.1, hs2.2.1, hs2.2.2]

theorem edge_direction_1 (side1 side2 : Vec3 K) (tf1 tf2 : Transform3 K)
    (hs1 : 0 ≤ side1.x ∧ 0 ≤ side1.y ∧ 0 ≤ side1.z)
    (hs2 : 0 ≤ side2.x ∧ 0 ≤ side2.y ∧ 0 ≤ side2.z)
    (h1 : tf1.linear.IsRotation) (h2 : tf2.linear.IsRotation) :
    ∃ L : Vec3 K, L = tf1.linear.mulVec ⟨0, -(tf1.linear.transpose.mul tf2.linear).coeff 2 1, (tf1.linear.transpose.mul tf2.linear).coeff 1 1⟩ ∧
      ((edgeAxes (side1.smul (1 / 2)) (side2.smul (1 / 2)) tf1 tf2).getD 1 ⟨0, 0, none, 0, 0, 0⟩).tmp = L.dot (tf2.translation.sub tf1.translation) ∧
      side1.x / 2 * |L.dot (tf1.linear.col 0)| + side1.y / 2 * |L.dot (tf1.linear.col 1)|
        + side1.z / 2 * |L.dot (tf1.linear.col 2)|
        + (side2.x / 2 * |L.dot (tf2.linear.col 0)| + side2.y / 2 * |L.dot (tf2.linear.col 1)|
        + side2.z / 2 * |L.dot (tf2.linear.col 2)|) ≤ ((edgeAxes (side1.smul (1 / 2)) (side2.smul (1 / 2)) tf1 tf2).getD 1 ⟨0, 0, none, 0, 0, 0⟩).r ∧
      ((edgeAxes (side1.smul (1 / 2)) (side2.smul (1 / 2)) tf1 tf2).getD 1 ⟨0, 0, none, 0, 0, 0⟩).r
        ≤ side1.x / 2 * |L.dot (tf1.linear.col 0)| + side1.y / 2 * |L.dot (tf1.linear.col 1)|
        + side1.z / 2 * |L.dot (tf1.linear.col 2)|
        + (side2.x / 2 * |L.dot (tf2.linear.col 0)| + side2.y / 2 * |L.dot (tf2.linear.col 1)|
        + side2.z / 2 * |L.dot (tf2.linear.col 2)|)
        + fudge2 * ((side1.x + side1.y + side1.z - side1.get 0) / 2
          + (side2.x + side2.y + side2.z - side2.get 1) / 2) := by
  obtain ⟨⟨a1, a2, a3⟩, ⟨b1, b2, b3⟩, ⟨c1, c2, c3⟩⟩ :=
    rotation_cofactor (relative_rotation h1 h2)
  refine ⟨tf1.linear.mulVec ⟨0, -(tf1.linear.transpose.mul tf2.linear).coeff 2 1, (tf1.linear.transpose.mul tf2.linear).coeff 1 1⟩, rfl, ?_, ?_⟩
  · rw [dot_comm, dot_mulVec]
    simp [edgeAxes, Vec3.dot, Vec3.get]
    ring
  obtain ⟨u0, u1, u2⟩ := mulVec_dot_col h1 (⟨0, -(tf1.linear.transpose.mul tf2.linear).coeff 2 1, (tf1.linear.transpose.mul tf2.linear).coeff 1 1⟩ : Vec3 K)
  obtain ⟨v0, v1, v2⟩ := mulVec_dot_col2 tf1.linear tf2.linear (⟨0, -(tf1.linear.transpose.mul tf2.linear).coeff 2 1, (tf1.linear.transpose.mul tf2.linear).coeff 1 1⟩ : Vec3 K)
  rw [u0, u1, u2, v0, v1, v2]
  simp only [edgeAxes, List.getD_cons_zero, List.getD_cons_succ]
  generalize tf1.linear.transpose.mul tf2.linear = R at *
  have w0 : (⟨0, -R.coeff 2 1, R.coeff 1 1⟩ : Vec3 K).dot (R.col 0) = -R.m02 := by
    simp only [Mat3.col, Mat3.coeff, Vec3.dot]
    simp
    linear_combination -a1
  have w1 : (⟨0, -R.coeff 2 1, R.coeff 1 1⟩ : Vec3 K).dot (R.col 1) = 0 := by
    simp only [Mat3.col, Mat3.coeff, Vec3.dot]
    simp
    ring
  have w2 : (⟨0, -R.coeff 2 1, R.coeff 1 1⟩ : Vec3 K).dot (R.col 2) = R.m00 := by
    simp only [Mat3.col, Mat3.coeff, Vec3.dot]
    simp
    linear_combination b1
  rw [w0, w1, w2]
  simp only [Mat3.col, Mat3.row, Mat3.coeff, Vec3.dot, Vec3.get, Vec3.smul, Mat3.cwiseAbs,
    Mat3.addScalar, fudge2]
  simp
  constructor <;> linarith [hs1.1, hs1.2.1, hs1.2.2, hs2.1, hs2.2.1, hs2.2.2]

theorem edge_direction_2 (side1 side2 : Vec3 K) (tf1 tf2 : Transform3 K)
    (hs1 : 0 ≤ side1.x ∧ 0 ≤ side1.y ∧ 0 ≤ side1.z)
    (hs2 : 0 ≤ side2.x ∧ 0 ≤ side2.y ∧ 0 ≤ side2.z)
    (h1 : tf1.linear.IsRotation) (h2 : tf2.linear.IsRotation) :
    ∃ L : Vec3 K, L = tf1.linear.mulVec ⟨0, -(tf1.linear.transpose.mul tf2.linear).coeff 2 2, (tf1.linear.transpose.mul tf2.linear).coeff 1 2⟩ ∧
      ((edgeAxes (side1.smul (1 / 2)) (side2.smul (1 / 2)) tf1 tf2).getD 2 ⟨0, 0, none, 0, 0, 0⟩).tmp = L.dot (tf2.translation.sub tf1.translation) ∧
      side1.x / 2 * |L.dot (tf1.linear.col 0)| + side1.y / 2 * |L.dot (tf1.linear.col 1)|
        + side1.z / 2 * |L.dot (tf1.linear.col 2)|
        + (side2.x / 2 * |L.dot (tf2.linear.col 0)| + side2.y / 2 * |L.dot (tf2.linear.col 1)|
        + side2.z / 2 * |L.dot (tf2.linear.col 2)|) ≤ ((edgeAxes (side1.smul (1 / 2)) (side2.smul (1 / 2)) tf1 tf2).getD 2 ⟨0, 0, none, 0, 0, 0⟩).r ∧
      ((edgeAxes (side1.smul (1 / 2)) (side2.smul (1 / 2)) tf1 tf2).getD 2 ⟨0, 0, none, 0, 0, 0⟩).r
        ≤ side1.x / 2 * |L.dot (tf1.linear.col 0)| + side1.y / 2 * |L.dot (tf1.linear.col 1)|
        + side1.z / 2 * |L.dot (tf1.linear.col 2)|
        + (side2.x / 2 * |L.dot (tf2.linear.col 0)| + side2.y / 2 * |L.dot (tf2.linear.col 1)|
        + side2.z / 2 * |L.dot (tf2.linear.col 2)|)
        + fudge2 * ((side1.x + side1.y + side1.z - side1.get 0) / 2
          + (side2.x + side2.y + side2.z - side2.get 2) / 2) := by
  obtain ⟨⟨a1, a2, a3⟩, ⟨b1, b2, b3⟩, ⟨c1, c2, c3⟩⟩ :=
    rotation_cofactor (relative_rotation h1 h2)
  refine ⟨tf1.linear.mulVec ⟨0, -(tf1.linear.transpose.mul tf2.linear).coeff 2 2, (tf1.linear.transpose.mul tf2.linear).coeff 1 2⟩, rfl, ?_, ?_⟩
  · rw [dot_comm, dot_mulVec]
    simp [edgeAxes, Vec3.dot, Vec3.get]
    ring
  obtain ⟨u0, u1, u2⟩ := mulVec_dot_col h1 (⟨0, -(tf1.linear.transpose.mul tf2.linear).coeff 2 2, (tf1.linear.transpose.mul tf2.linear).coeff 1 2⟩ : Vec3 K)
  obtain ⟨v0, v1, v2⟩ := mulVec_dot_col2 tf1.linear tf2.linear (⟨0, -(tf1.linear.transpose.mul tf2.linear).coeff 2 2, (tf1.linear.transpose.mul tf2.linear).coeff 1 2⟩ : Vec3 K)
  rw [u0, u1, u2, v0, v1, v2]
  simp only [edgeAxes, List.getD_cons_zero, List.getD_cons_succ]
  generalize tf1.linear.transpose.mul tf2.linear = R at *
  have w0 : (⟨0, -R.coeff 2 2, R.coeff 1 2⟩ : Vec3 K).dot (R.col 0) = R.m01 := by
    simp only [Mat3.col, Mat3.coeff, Vec3.dot]
    simp
    linear_combination c1
  have w1 : (⟨0, -R.coeff 2 2, R.coeff 1 2⟩ : Vec3 K).dot (R.col 1) = -R.m00 := by
    simp only [Mat3.col, Mat3.coeff, Vec3.dot]
    simp
    linear_combination -b1
  have w2 : (⟨0, -R.coeff 2 2, R.coeff 1 2⟩ : Vec3 K).dot (R.col 2) = 0 := by
    simp only [Mat3.col, Mat3.coeff, Vec3.dot]
    simp
    ring
  rw [w0, w1, w2]
  simp only [Mat3.col, Mat3.row, Mat3.coeff, Vec3.dot, Vec3.get, Vec3.smul, Mat3.cwiseAbs,
    Mat3.addScalar, fudge2]
  simp
  constructor <;> linarith [hs1.1, hs1.2.1, hs1.2.2, hs2.1, hs2.2.1, hs2.2.2]

theorem edge_direction_3 (side1 side2 : Vec3 K) (tf1 tf2 : Transform3 K)
    (hs1 : 0 ≤ side1.x ∧ 0 ≤ side1.y ∧ 0 ≤ side1.z)
    (hs2 : 0 ≤ side2.x ∧ 0 ≤ side2.y ∧ 0 ≤ side2.z)
    (h1 : tf1.linear.IsRotation) (h2 : tf2.linear.IsRotation) :
    ∃ L : Vec3 K, L = tf1.linear.mulVec ⟨(tf1.linear.transpose.mul tf2.linear).coeff 2 0, 0, -(tf1.linear.transpose.mul tf2.linear).coeff 0 0⟩ ∧
      ((edgeAxes (side1.smul (1 / 2)) (side2.smul (1 / 2)) tf1 tf2).getD 3 ⟨0, 0, none, 0, 0, 0⟩).tmp = L.dot (tf2.translation.sub tf1.translation) ∧
      side1.x / 2 * |L.dot (tf1.linear.col 0)| + side1.y / 2 * |L.dot (tf1.linear.col 1)|
        + side1.z / 2 * |L.dot (tf1.linear.col 2)|
        + (side2.x / 2 * |L.dot (tf2.linear.col 0)| + side2.y / 2 * |L.dot (tf2.linear.col 1)|
        + side2.z / 2 * |L.dot (tf2.linear.col 2)|) ≤ ((edgeAxes (side1.smul (1 / 2)) (side2.smul (1 / 2)) tf1 tf2).getD 3 ⟨0, 0, none, 0, 0, 0⟩).r ∧
      ((edgeAxes (side1.smul (1 / 2)) (side2.smul (1 / 2)) tf1 tf2).getD 3 ⟨0, 0, none, 0, 0, 0⟩).r
        ≤ side1.x / 2 * |L.dot (tf1.linear.col 0)| + side1.y / 2 * |L.dot (tf1.linear.col 1)|
        + side1.z / 2 * |L.dot (tf1.linear.col 2)|
        + (side2.x / 2 * |L.dot (tf2.linear.col 0)| + side2.y / 2 * |L.dot (tf2.linear.col 1)|
        + side2.z / 2 * |L.dot (tf2.linear.col 2)|)
        + fudge2 * ((side1.x + side1.y + side1.z - side1.get 1) / 2
          + (side2.x + side2.y + side2.z - side2.get 0) / 2) := by
  obtain ⟨⟨a1, a2, a3⟩, ⟨b1, b2, b3⟩, ⟨c1, c2, c3⟩⟩ :=
    rotation_cofactor (relative_rotation h1 h2)
  refine ⟨tf1.linear.mulVec ⟨(tf1.linear.transpose.mul tf2.linear).coeff 2 0, 0, -(tf1.linear.transpose.mul tf2.linear).coeff 0 0⟩, rfl, ?_, ?_⟩
  · rw [dot_comm, dot_mulVec]
    simp [edgeAxes, Vec3.dot, Vec3.get]
    ring
  obtain ⟨u0, u1, u2⟩ := mulVec_dot_col h1 (⟨(tf1.linear.transpose.mul tf2.linear).coeff 2 0, 0, -(tf1.linear.transpose.mul tf2.linear).coeff 0 0⟩ : Vec3 K)
  obtain ⟨v0, v1, v2⟩ := mulVec_dot_col2 tf1.linear tf2.linear (⟨(tf1.linear.transpose.mul tf2.linear).coeff 2 0, 0, -(tf1.linear.transpose.mul tf2.linear).coeff 0 0⟩ : Vec3 K)
  rw [u0, u1, u2, v0, v1, v2]
  simp only [edgeAxes, List.getD_cons_zero, List.getD_cons_succ]
  generalize tf1.linear.transpose.mul tf2.linear = R at *
  have w0 : (⟨R.coeff 2 0, 0, -R.coeff 0 0⟩ : Vec3 K).dot (R.col 0) = 0 := by
    simp only [Mat3.col, Mat3.coeff, Vec3.dot]
    simp
    ring
  have w1 : (⟨R.coeff 2 0, 0, -R.coeff 0 0⟩ : Vec3 K).dot (R.col 1) = R.m12 := by
    simp only [Mat3.col, Mat3.coeff, Vec3.dot]
    simp
    linear_combination a2
  have w2 : (⟨R.coeff 2 0, 0, -R.coeff 0 0⟩ : Vec3 K).dot (R.col 2) = -R.m11 := by
    simp only [Mat3.col, Mat3.coeff, Vec3.dot]
    simp
    linear_combination -c2
  rw [w0, w1, w2]
  simp only [Mat3.col, Mat3.row, Mat3.coeff, Vec3.dot, Vec3.get, Vec3.smul, Mat3.cwiseAbs,
    Mat3.addScalar, fudge2]
  simp
  constructor <;> linarith [hs1.1, hs1.2.1, hs1.2.2, hs2.1, hs2.2.1, hs2.2.2]

theorem edge_direction_4 (side1 side2 : Vec3 K) (tf1 tf2 : Transform3 K)
    (hs1 : 0 ≤ side1.x ∧ 0 ≤ side1.y ∧ 0 ≤ side1.z)
    (hs2 : 0 ≤ side2.x ∧ 0 ≤ side2.y ∧ 0 ≤ side2.z)
    (h1 : tf1.linear.IsRotation) (h2 : tf2.linear.IsRotation) :
    ∃ L : Vec3 K, L = tf1.linear.mulVec ⟨(tf1.linear.transpose.mul tf2.linear).coeff 2 1, 0, -(tf1.linear.transpose.mul tf2.linear).coeff 0 1⟩ ∧
      ((edgeAxes (side1.smul (1 / 2)) (side2.smul (1 / 2)) tf1 tf2).getD 4 ⟨0, 0, none, 0, 0, 0⟩).tmp = L.dot (tf2.translation.sub tf1.translation) ∧
      side1.x / 2 * |L.dot (tf1.linear.col 0)| + side1.y / 2 * |L.dot (tf1.linear.col 1)|
        + side1.z / 2 * |L.dot (tf1.linear.col 2)|
        + (side2.x / 2 * |L.dot (tf2.linear.col 0)| + side2.y / 2 * |L.dot (tf2.linear.col 1)|
        + side2.z / 2 * |L.dot (tf2.linear.col 2)|) ≤ ((edgeAxes (side1.smul (1 / 2)) (side2.smul (1 / 2)) tf1 tf2).getD 4 ⟨0, 0, none, 0, 0, 0⟩).r ∧
      ((edgeAxes (side1.smul (1 / 2)) (side2.smul (1 / 2)) tf1 tf2).getD 4 ⟨0, 0, none, 0, 0, 0⟩).r
        ≤ side1.x / 2 * |L.dot (tf1.linear.col 0)| + side1.y / 2 * |L.dot (tf1.linear.col 1)|
        + side1.z / 2 * |L.dot (tf1.linear.col 2)|
        + (side2.x / 2 * |L.dot (tf2.linear.col 0)| + side2.y / 2 * |L.dot (tf2.linear.col 1)|
        + side2.z / 2 * |L.dot (tf2.linear.col 2)|)
        + fudge2 * ((side1.x + side1.y + side1.z - side1.get 1) / 2
          + (side2.x + side2.y + side2.z - side2.get 1) / 2) := by
  obtain ⟨⟨a1, a2, a3⟩, ⟨b1, b2, b3⟩, ⟨c1, c2, c3⟩⟩ :=
    rotation_cofactor (relative_rotation h1 h2)
  refine ⟨tf1.linear.mulVec ⟨(tf1.linear.transpose.mul tf2.linear).coeff 2 1, 0, -(tf1.linear.transpose.mul tf2.linear).coeff 0 1⟩, rfl, ?_, ?_⟩
  · rw [dot_comm, dot_mulVec]
    simp [edgeAxes, Vec3.dot, Vec3.get]
    ring
  obtain ⟨u0, u1, u2⟩ := mulVec_dot_col h1 (⟨(tf1.linear.transpose.mul tf2.linear).coeff 2 1, 0, -(tf1.linear.transpose.mul tf2.linear).coeff 0 1⟩ : Vec3 K)
  obtain ⟨v0, v1, v2⟩ := mulVec_dot_col2 tf1.linear tf2.linear (⟨(tf1.linear.transpose.mul tf2.linear).coeff 2 1, 0, -(tf1.linear.transpose.mul tf2.linear).coeff 0 1⟩ : Vec3 K)
  rw [u0, u1, u2, v0, v1, v2]
  simp only [edgeAxes, List.getD_cons_zero, List.getD_cons_succ]
  generalize tf1.linear.transpose.mul tf2.linear = R at *
  have w0 : (⟨R.coeff 2 1, 0, -R.coeff 0 1⟩ : Vec3 K).dot (R.col 0) = -R.m12 := by
    simp only [Mat3.col, Mat3.coeff, Vec3.dot]
    simp
    linear_combination -a2
  have w1 : (⟨R.coeff 2 1, 0, -R.coeff 0 1⟩ : Vec3 K).dot (R.col 1) = 0 := by
    simp only [Mat3.col, Mat3.coeff, Vec3.dot]
    simp
    ring
  have w2 : (⟨R.coeff 2 1, 0, -R.coeff 0 1⟩ : Vec3 K).dot (R.col 2) = R.m10 := by
    simp only [Mat3.col, Mat3.coeff, Vec3.dot]
    simp
    linear_combination b2
  rw [w0, w1, w2]
  simp only [Mat3.col, Mat3.row, Mat3.coeff, Vec3.dot, Vec3.get, Vec3.smul, Mat3.cwiseAbs,
    Mat3.addScalar, fudge2]
  simp
  constructor <;> linarith [hs1.1, hs1.2.1, hs1.2.2, hs2.1, hs2.2.1, hs2.2.2]

theorem edge_direction_5 (side1 side2 : Vec3 K) (tf1 tf2 : Transform3 K)
    (hs1 : 0 ≤ side1.x ∧ 0 ≤ side1.y ∧ 0 ≤ side1.z)
    (hs2 : 0 ≤ side2.x ∧ 0 ≤ side2.y ∧ 0 ≤ side2.z)
    (h1 : tf1.linear.IsRotation) (h2 : tf2.linear.IsRotation) :
    ∃ L : Vec3 K, L = tf1.linear.mulVec ⟨(tf1.linear.transpose.mul tf2.linear).coeff 2 2, 0, -(tf1.linear.transpose.mul tf2.linear).coeff 0 2⟩ ∧
      ((edgeAxes (side1.smul (1 / 2)) (side2.smul (1 / 2)) tf1 tf2).getD 5 ⟨0, 0, none, 0, 0, 0⟩).tmp = L.dot (tf2.translation.sub tf1.translation) ∧
      side1.x / 2 * |L.dot (tf1.linear.col 0)| + side1.y / 2 * |L.dot (tf1.linear.col 1)|
        + side1.z / 2 * |L.dot (tf1.linear.col 2)|
        + (side2.x / 2 * |L.dot (tf2.linear.col 0)| + side2.y / 2 * |L.dot (tf2.linear.col 1)|
        + side2.z / 2 * |L.dot (tf2.linear.col 2)|) ≤ ((edgeAxes (side1.smul (1 / 2)) (side2.smul (1 / 2)) tf1 tf2).getD 5 ⟨0, 0, none, 0, 0, 0⟩).r ∧
      ((edgeAxes (side1.smul (1 / 2)) (side2.smul (1 / 2)) tf1 tf2).getD 5 ⟨0, 0, none, 0, 0, 0⟩).r
        ≤ side1.x / 2 * |L.dot (tf1.linear.col 0)| + side1.y / 2 * |L.dot (tf1.linear.col 1)|
        + side1.z / 2 * |L.dot (tf1.linear.col 2)|
        + (side2.x / 2 * |L.dot (tf2.linear.col 0)| + side2.y / 2 * |L.dot (tf2.linear.col 1)|
        + side2.z / 2 * |L.dot (tf2.linear.col 2)|)
        + fudge2 * ((side1.x + side1.y + side1.z - side1.get 1) / 2
          + (side2.x + side2.y + side2.z - side2.get 2) / 2) := by
  obtain ⟨⟨a1, a2, a3⟩, ⟨b1, b2, b3⟩, ⟨c1, c2, c3⟩⟩ :=
    rotation_cofactor (relative_rotation h1 h2)
  refine ⟨tf1.linear.mulVec ⟨(tf1.linear.transpose.mul tf2.linear).coeff 2 2, 0, -(tf1.linear.transpose.mul tf2.linear).coeff 0 2⟩, rfl, ?_, ?_⟩
  · rw [dot_comm, dot_mulVec]
    simp [edgeAxes, Vec3.dot, Vec3.get]
    ring
  obtain ⟨u0, u1, u2⟩ := mulVec_dot_col h1 (⟨(tf1.linear.transpose.mul tf2.linear).coeff 2 2, 0, -(tf1.linear.transpose.mul tf2.linear).coeff 0 2⟩ : Vec3 K)
  obtain ⟨v0, v1, v2⟩ := mulVec_dot_col2 tf1.linear tf2.linear (⟨(tf1.linear.transpose.mul tf2.linear).coeff 2 2, 0, -(tf1.linear.transpose.mul tf2.linear).coeff 0 2⟩ : Vec3 K)
  rw [u0, u1, u2, v0, v1, v2]
  simp only [edgeAxes, List.getD_cons_zero, List.getD_cons_succ]
  generalize tf1.linear.transpose.mul tf2.linear = R at *
  have w0 : (⟨R.coeff 2 2, 0, -R.coeff 0 2⟩ : Vec3 K).dot (R.col 0) = R.m11 := by
    simp only [Mat3.col, Mat3.coeff, Vec3.dot]
    simp
    linear_combination c2
  have w1 : (⟨R.coeff 2 2, 0, -R.coeff 0 2⟩ : Vec3 K).dot (R.col 1) = -R.m10 := by
    simp only [Mat3.col, Mat3.coeff, Vec3.dot]
    simp
    linear_combination -b2
  have w2 : (⟨R.coeff 2 2, 0, -R.coeff 0 2⟩ : Vec3 K).dot (R.col 2) = 0 := by
    simp only [Mat3.col, Mat3.coeff, Vec3.dot]
    simp
    ring
  rw [w0, w1, w2]
  simp only [Mat3.col, Mat3.row, Mat3.coeff, Vec3.dot, Vec3.get, Vec3.smul, Mat3.cwiseAbs,
    Mat3.addScalar, fudge2]
  simp
  constructor <;> linarith [hs1.1, hs1.2.1, hs1.2.2, hs2.1, hs2.2.1, hs2.2.2]

theorem edge_direction_6 (side1 side2 : Vec3 K) (tf1 tf2 : Transform3 K)
    (hs1 : 0 ≤ side1.x ∧ 0 ≤ side1.y ∧ 0 ≤ side1.z)
    (hs2 : 0 ≤ side2.x ∧ 0 ≤ side2.y ∧ 0 ≤ side2.z)
    (h1 : tf1.linear.IsRotation) (h2 : tf2.linear.IsRotation) :
    ∃ L : Vec3 K, L = tf1.linear.mulVec ⟨-(tf1.linear.transpose.mul tf2.linear).coeff 1 0, (tf1.linear.transpose.mul tf2.linear).coeff 0 0, 0⟩ ∧
      ((edgeAxes (side1.smul (1 / 2)) (side2.smul (1 / 2)) tf1 tf2).getD 6 ⟨0, 0, none, 0, 0, 0⟩).tmp = L.dot (tf2.translation.sub tf1.translation) ∧
      side1.x / 2 * |L.dot (tf1.linear.col 0)| + side1.y / 2 * |L.dot (tf1.linear.col 1)|
        + side1.z / 2 * |L.dot (tf1.linear.col 2)|
        + (side2.x / 2 * |L.dot (tf2.linear.col 0)| + side2.y / 2 * |L.dot (tf2.linear.col 1)|
        + side2.z / 2 * |L.dot (tf2.linear.col 2)|) ≤ ((edgeAxes (side1.smul (1 / 2)) (side2.smul (1 / 2)) tf1 tf2).getD 6 ⟨0, 0, none, 0, 0, 0⟩).r ∧
      ((edgeAxes (side1.smul (1 / 2)) (side2.smul (1 / 2)) tf1 tf2).getD 6 ⟨0, 0, none, 0, 0, 0⟩).r
        ≤ side1.x / 2 * |L.dot (tf1.linear.col 0)| + side1.y / 2 * |L.dot (tf1.linear.col 1)|
        + side1.z / 2 * |L.dot (tf1.linear.col 2)|
        + (side2.x / 2 * |L.dot (tf2.linear.col 0)| + side2.y / 2 * |L.dot (tf2.linear.col 1)|
        + side2.z / 2 * |L.dot (tf2.linear.col 2)|)
        + fudge2 * ((side1.x + side1.y + side1.z - side1.get 2) / 2
          + (side2.x + side2.y + side2.z - side2.get 0) / 2) := by
  obtain ⟨⟨a1, a2, a3⟩, ⟨b1, b2, b3⟩, ⟨c1, c2, c3⟩⟩ :=
    rotation_cofactor (relative_rotation h1 h2)
  refine ⟨tf1.linear.mulVec ⟨-(tf1.linear.transpose.mul tf2.linear).coeff 1 0, (tf1.linear.transpose.mul tf2.linear).coeff 0 0, 0⟩, rfl, ?_, ?_⟩
  · rw [dot_comm, dot_mulVec]
    simp [edgeAxes, Vec3.dot, Vec3.get]
    ring
  obtain ⟨u0, u1, u2⟩ := mulVec_dot_col h1 (⟨-(tf1.linear.transpose.mul tf2.linear).coeff 1 0, (tf1.linear.transpose.mul tf2.linear).coeff 0 0, 0⟩ : Vec3 K)
  obtain ⟨v0, v1, v2⟩ := mulVec_dot_col2 tf1.linear tf2.linear (⟨-(tf1.linear.transpose.mul tf2.linear).coeff 1 0, (tf1.linear.transpose.mul tf2.linear).coeff 0 0, 0⟩ : Vec3 K)
  rw [u0, u1, u2, v0, v1, v2]
  simp only [edgeAxes, List.getD_cons_zero, List.getD_cons_succ]
  generalize tf1.linear.transpose.mul tf2.linear = R at *
  have w0 : (⟨-R.coeff 1 0, R.coeff 0 0, 0⟩ : Vec3 K).dot (R.col 0) = 0 := by
    simp only [Mat3.col, Mat3.coeff, Vec3.dot]
    simp
    ring
  have w1 : (⟨-R.coeff 1 0, R.coeff 0 0, 0⟩ : Vec3 K).dot (R.col 1) = R.m22 := by
    simp only [Mat3.col, Mat3.coeff, Vec3.dot]
    simp
    linear_combination a3
  have w2 : (⟨-R.coeff 1 0, R.coeff 0 0, 0⟩ : Vec3 K).dot (R.col 2) = -R.m21 := by
    simp only [Mat3.col, Mat3.coeff, Vec3.dot]
    simp
    linear_combination -c3
  rw [w0, w1, w2]
  simp only [Mat3.col, Mat3.row, Mat3.coeff, Vec3.dot, Vec3.get, Vec3.smul, Mat3.cwiseAbs,
    Mat3.addScalar, fudge2]
  simp
  constructor <;> linarith [hs1.1, hs1.2.1, hs1.2.2, hs2.1, hs2.2.1, hs2.2.2]

theorem edge_direction_7 (side1 side2 : Vec3 K) (tf1 tf2 : Transform3 K)
    (hs1 : 0 ≤ side1.x ∧ 0 ≤ side1.y ∧ 0 ≤ side1.z)
    (hs2 : 0 ≤ side2.x ∧ 0 ≤ side2.y ∧ 0 ≤ side2.z)
    (h1 : tf1.linear.IsRotation) (h2 : tf2.linear.IsRotation) :
    ∃ L : Vec3 K, L = tf1.linear.mulVec ⟨-(tf1.linear.transpose.mul tf2.linear).coeff 1 1, (tf1.linear.transpose.mul tf2.linear).coeff 0 1, 0⟩ ∧
      ((edgeAxes (side1.smul (1 / 2)) (side2.smul (1 / 2)) tf1 tf2).getD 7 ⟨0, 0, none, 0, 0, 0⟩).tmp = L.dot (tf2.translation.sub tf1.translation) ∧
      side1.x / 2 * |L.dot (tf1.linear.col 0)| + side1.y / 2 * |L.dot (tf1.linear.col 1)|
        + side1.z / 2 * |L.dot (tf1.linear.col 2)|
        + (side2.x / 2 * |L.dot (tf2.linear.col 0)| + side2.y / 2 * |L.dot (tf2.linear.col 1)|
        + side2.z / 2 * |L.dot (tf2.linear.col 2)|) ≤ ((edgeAxes (side1.smul (1 / 2)) (side2.smul (1 / 2)) tf1 tf2).getD 7 ⟨0, 0, none, 0, 0, 0⟩).r ∧
      ((edgeAxes (side1.smul (1 / 2)) (side2.smul (1 / 2)) tf1 tf2).getD 7 ⟨0, 0, none, 0, 0, 0⟩).r
        ≤ side1.x / 2 * |L.dot (tf1.linear.col 0)| + side1.y / 2 * |L.dot (tf1.linear.col 1)|
        + side1.z / 2 * |L.dot (tf1.linear.col 2)|
        + (side2.x / 2 * |L.dot (tf2.linear.col 0)| + side2.y / 2 * |L.dot (tf2.linear.col 1)|
        + side2.z / 2 * |L.dot (tf2.linear.col 2)|)
        + fudge2 * ((side1.x + side1.y + side1.z - side1.get 2) / 2
          + (side2.x + side2.y + side2.z - side2.get 1) / 2) := by
  obtain ⟨⟨a1, a2, a3⟩, ⟨b1, b2, b3⟩, ⟨c1, c2, c3⟩⟩ :=
    rotation_cofactor (relative_rotation h1 h2)
  refine ⟨tf1.linear.mulVec ⟨-(tf1.linear.transpose.mul tf2.linear).coeff 1 1, (tf1.linear.transpose.mul tf2.linear).coeff 0 1, 0⟩, rfl, ?_, ?_⟩
  · rw [dot_comm, dot_mulVec]
    simp [edgeAxes, Vec3.dot, Vec3.get]
    ring
  obtain ⟨u0, u1, u2⟩ := mulVec_dot_col h1 (⟨-(tf1.linear.transpose.mul tf2.linear).coeff 1 1, (tf1.linear.transpose.mul tf2.linear).coeff 0 1, 0⟩ : Vec3 K)
  obtain ⟨v0, v1, v2⟩ := mulVec_dot_col2 tf1.linear tf2.linear (⟨-(tf1.linear.transpose.mul tf2.linear).coeff 1 1, (tf1.linear.transpose.mul tf2.linear).coeff 0 1, 0⟩ : Vec3 K)
  rw [u0, u1, u2, v0, v1, v2]
  simp only [edgeAxes, List.getD_cons_zero, List.getD_cons_succ]
  generalize tf1.linear.transpose.mul tf2.linear = R at *
  have w0 : (⟨-R.coeff 1 1, R.coeff 0 1, 0⟩ : Vec3 K).dot (R.col 0) = -R.m22 := by
    simp only [Mat3.col, Mat3.coeff, Vec3.dot]
    simp
    linear_combination -a3
  have w1 : (⟨-R.coeff 1 1, R.coeff 0 1, 0⟩ : Vec3 K).dot (R.col 1) = 0 := by
    simp only [Mat3.col, Mat3.coeff, Vec3.dot]
    simp
    ring
  have w2 : (⟨-R.coeff 1 1, R.coeff 0 1, 0⟩ : Vec3 K).dot (R.col 2) = R.m20 := by
    simp only [Mat3.col, Mat3.coeff, Vec3.dot]
    simp
    linear_combination b3
  rw [w0, w1, w2]
  simp only [Mat3.col, Mat3.row, Mat3.coeff, Vec3.dot, Vec3.get, Vec3.smul, Mat3.cwiseAbs,
    Mat3.addScalar, fudge2]
  simp
  constructor <;> linarith [hs1.1, hs1.2.1, hs1.2.2, hs2.1, hs2.2.1, hs2.2.2]

theorem edge_direction_8 (side1 side2 : Vec3 K) (tf1 tf2 : Transform3 K)
    (hs1 : 0 ≤ side1.x ∧ 0 ≤ side1.y ∧ 0 ≤ side1.z)
    (hs2 : 0 ≤ side2.x ∧ 0 ≤ side2.y ∧ 0 ≤ side2.z)
    (h1 : tf1.linear.IsRotation) (h2 : tf2.linear.IsRotation) :
    ∃ L : Vec3 K, L = tf1.linear.mulVec ⟨-(tf1.linear.transpose.mul tf2.linear).coeff 1 2, (tf1.linear.transpose.mul tf2.linear).coeff 0 2, 0⟩ ∧
      ((edgeAxes (side1.smul (1 / 2)) (side2.smul (1 / 2)) tf1 tf2).getD 8 ⟨0, 0, none, 0, 0, 0⟩).tmp = L.dot (tf2.translation.sub tf1.translation) ∧
      side1.x / 2 * |L.dot (tf1.linear.col 0)| + side1.y / 2 * |L.dot (tf1.linear.col 1)|
        + side1.z / 2 * |L.dot (tf1.linear.col 2)|
        + (side2.x / 2 * |L.dot (tf2.linear.col 0)| + side2.y / 2 * |L.dot (tf2.linear.col 1)|
        + side2.z / 2 * |L.dot (tf2.linear.col 2)|) ≤ ((edgeAxes (side1.smul (1 / 2)) (side2.smul (1 / 2)) tf1 tf2).getD 8 ⟨0, 0, none, 0, 0, 0⟩).r ∧
      ((edgeAxes (side1.smul (1 / 2)) (side2.smul (1 / 2)) tf1 tf2).getD 8 ⟨0, 0, none, 0, 0, 0⟩).r
        ≤ side1.x / 2 * |L.dot (tf1.linear.col 0)| + side1.y / 2 * |L.dot (tf1.linear.col 1)|
        + side1.z / 2 * |L.dot (tf1.linear.col 2)|
        + (side2.x / 2 * |L.dot (tf2.linear.col 0)| + side2.y / 2 * |L.dot (tf2.linear.col 1)|
        + side2.z / 2 * |L.dot (tf2.linear.col 2)|)
        + fudge2 * ((side1.x + side1.y + side1.z - side1.get 2) / 2
          + (side2.x + side2.y + side2.z - side2.get 2) / 2) := by
  obtain ⟨⟨a1, a2, a3⟩, ⟨b1, b2, b3⟩, ⟨c1, c2, c3⟩⟩ :=
    rotation_cofactor (relative_rotation h1 h2)
  refine ⟨tf1.linear.mulVec ⟨-(tf1.linear.transpose.mul tf2.linear).coeff 1 2, (tf1.linear.transpose.mul tf2.linear).coeff 0 2, 0⟩, rfl, ?_, ?_⟩
  · rw [dot_comm, dot_mulVec]
    simp [edgeAxes, Vec3.dot, Vec3.get]
    ring
  obtain ⟨u0, u1, u2⟩ := mulVec_dot_col h1 (⟨-(tf1.linear.transpose.mul tf2.linear).coeff 1 2, (tf1.linear.transpose.mul tf2.linear).coeff 0 2, 0⟩ : Vec3 K)
  obtain ⟨v0, v1, v2⟩ := mulVec_dot_col2 tf1.linear tf2.linear (⟨-(tf1.linear.transpose.mul tf2.linear).coeff 1 2, (tf1.linear.transpose.mul tf2.linear).coeff 0 2, 0⟩ : Vec3 K)
  rw [u0, u1, u2, v0, v1, v2]
  simp only [edgeAxes, List.getD_cons_zero, List.getD_cons_succ]
  generalize tf1.linear.transpose.mul tf2.linear = R at *
  have w0 : (⟨-R.coeff 1 2, R.coeff 0 2, 0⟩ : Vec3 K).dot (R.col 0) = R.m21 := by
    simp only [Mat3.col, Mat3.coeff, Vec3.dot]
    simp
    linear_combination c3
  have w1 : (⟨-R.coeff 1 2, R.coeff 0 2, 0⟩ : Vec3 K).dot (R.col 1) = -R.m20 := by
    simp only [Mat3.col, Mat3.coeff, Vec3.dot]
    simp
    linear_combination -b3
  have w2 : (⟨-R.coeff 1 2, R.coeff 0 2, 0⟩ : Vec3 K).dot (R.col 2) = 0 := by
    simp only [Mat3.col, Mat3.coeff, Vec3.dot]
    simp
    ring
  rw [w0, w1, w2]
  simp only [Mat3.col, Mat3.row, Mat3.coeff, Vec3.dot, Vec3.get, Vec3.smul, Mat3.cwiseAbs,
    Mat3.addScalar, fudge2]
  simp
  constructor <;> linarith [hs1.1, hs1.2.1, hs1.2.2, hs2.1, hs2.2.1, hs2.2.2]


/-- Every one of the fifteen candidates is a genuine separating-axis test: there
is a world direction whose projected centre offset is `tmp` and along which
the projected half extents of the two boxes sum to at most `r`. -/
theorem axis_direction (side1 side2 : Vec3 K) (tf1 tf2 : Transform3 K)
    (hs1 : 0 ≤ side1.x ∧ 0 ≤ side1.y ∧ 0 ≤ side1.z)
    (hs2 : 0 ≤ side2.x ∧ 0 ≤ side2.y ∧ 0 ≤ side2.z)
    (h1 : tf1.linear.IsRotation) (h2 : tf2.linear.IsRotation) {ax : Axis K}
    (hmem : ax ∈ axes (side1.smul (1 / 2)) (side2.smul (1 / 2)) tf1 tf2) :
    ∃ L : Vec3 K, ax.tmp = L.dot (tf2.translation.sub tf1.translation) ∧
      side1.x / 2 * |L.dot (tf1.linear.col 0)| + side1.y / 2 * |L.dot (tf1.linear.col 1)|
        + side1.z / 2 * |L.dot (tf1.linear.col 2)|
        + (side2.x / 2 * |L.dot (tf2.linear.col 0)| + side2.y / 2 * |L.dot (tf2.linear.col 1)|
        + side2.z / 2 * |L.dot (tf2.linear.col 2)|) ≤ ax.r := by
  simp only [axes, faceAxes, edgeAxes, List.mem_append, List.mem_cons, List.mem_singleton,
    List.not_mem_nil, or_false] at hmem
  rcases hmem with (h | h | h | h | h | h) | (h | h | h | h | h | h | h | h | h) <;> subst h
  · obtain ⟨L, -, ht, hr, -⟩ := face1_direction side1 side2 tf1 tf2 hs1 hs2 h1 h2 0 (by decide)
    exact ⟨L, ht, hr⟩
  · obtain ⟨L, -, ht, hr, -⟩ := face1_direction side1 side2 tf1 tf2 hs1 hs2 h1 h2 1 (by decide)
    exact ⟨L, ht, hr⟩
  · obtain ⟨L, -, ht, hr, -⟩ := face1_direction side1 side2 tf1 tf2 hs1 hs2 h1 h2 2 (by decide)
    exact ⟨L, ht, hr⟩
  · obtain ⟨L, -, ht, hr, -⟩ := face2_direction side1 side2 tf1 tf2 hs1 hs2 h1 h2 0 (by decide)
    exact ⟨L, ht, hr⟩
  · obtain ⟨L, -, ht, hr, -⟩ := face2_direction side1 side2 tf1 tf2 hs1 hs2 h1 h2 1 (by decide)
    exact ⟨L, ht, hr⟩
  · obtain ⟨L, -, ht, hr, -⟩ := face2_direction side1 side2 tf1 tf2 hs1 hs2 h1 h2 2 (by decide)
    exact ⟨L, ht, hr⟩
  · obtain ⟨L, -, ht, hr, -⟩ := edge_direction_0 side1 side2 tf1 tf2 hs1 hs2 h1 h2
    exact ⟨L, ht, hr⟩
  · obtain ⟨L, -, ht, hr, -⟩ := edge_direction_1 side1 side2 tf1 tf2 hs1 hs2 h1 h2
    exact ⟨L, ht, hr⟩
  · obtain ⟨L, -, ht, hr, -⟩ := edge_direction_2 side1 side2 tf1 tf2 hs1 hs2 h1 h2
    exact ⟨L, ht, hr⟩
  · obtain ⟨L, -, ht, hr, -⟩ := edge_direction_3 side1 side2 tf1 tf2 hs1 hs2 h1 h2
    exact ⟨L, ht, hr⟩
  · obtain ⟨L, -, ht, hr, -⟩ := edge_direction_4 side1 side2 tf1 tf2 hs1 hs2 h1 h2
    exact ⟨L, ht, hr⟩
  · obtain ⟨L, -, ht, hr, -⟩ := edge_direction_5 side1 side2 tf1 tf2 hs1 hs2 h1 h2
    exact ⟨L, ht, hr⟩
  · obtain ⟨L, -, ht, hr, -⟩ := edge_direction_6 side1 side2 tf1 tf2 hs1 hs2 h1 h2
    exact ⟨L, ht, hr⟩
  · obtain ⟨L, -, ht, hr, -⟩ := edge_direction_7 side1 side2 tf1 tf2 hs1 hs2 h1 h2
    exact ⟨L, ht, hr⟩
  · obtain ⟨L, -, ht, hr, -⟩ := edge_direction_8 side1 side2 tf1 tf2 hs1 hs2 h1 h2
    exact ⟨L, ht, hr⟩

/-- A candidate whose test fires (`s2 > 0`) strictly separates the two solid
boxes. -/
theorem separated_of_axis (side1 side2 : Vec3 K) (tf1 tf2 : Transform3 K)
    (hs1 : 0 ≤ side1.x ∧ 0 ≤ side1.y ∧ 0 ≤ side1.z)
    (hs2 : 0 ≤ side2.x ∧ 0 ≤ side2.y ∧ 0 ≤ side2.z)
    (h1 : tf1.linear.IsRotation) (h2 : tf2.linear.IsRotation) {ax : Axis K}
    (hmem : ax ∈ axes (side1.smul (1 / 2)) (side2.smul (1 / 2)) tf1 tf2)
    (hsep : |ax.tmp| - ax.r > 0) : StrictlySeparated side1 tf1 side2 tf2 := by
  obtain ⟨L, htmp, hr⟩ := axis_direction side1 side2 tf1 tf2 hs1 hs2 h1 h2 hmem
  rw [htmp] at hsep
  exact separated_of_direction h1 h2 L ax.r hr hsep

/-! ## When the axis search ends with a code -/

theorem satFold_code_ne_zero {cfg : Scalar K} {l : List (Axis K)} {st st1 : SatState K}
    (hst : st.code ≠ 0) (hl : ∀ ax ∈ l, ax.code ≠ 0) (h : satFold cfg st l = some st1) :
    st1.code ≠ 0 := by
  rcases satFold_some h with h1 | ⟨ax, hax, hrec⟩
  · rw [h1]; exact hst
  · rw [hrec.2.2.1]; exact hl ax hax

theorem axes_code_ne_zero {A B : Vec3 K} {tf1 tf2 : Transform3 K} :
    ∀ ax ∈ axes A B tf1 tf2, ax.code ≠ 0 := by
  intro ax hmem
  cases he : ax.edge with
  | none =>
    obtain ⟨-, -, -, hc, -⟩ := axes_face hmem he
    omega
  | some n =>
    obtain ⟨-, hc, -⟩ := axes_edge hmem he
    omega

theorem satFold_cons (cfg : Scalar K) (st : SatState K) (a : Axis K) (l : List (Axis K)) :
    satFold cfg st (a :: l) = (satStep cfg st a).bind (fun s => satFold cfg s l) := by
  cases h : satStep cfg st a <;> simp [satFold, h]

/-- If no test fires and the overlap on the first axis `u1` exceeds `-max`, the
axis search ends with a non-zero code. -/
theorem satPhase_code_of_no_sep (cfg : Scalar K) (A B : Vec3 K) (tf1 tf2 : Transform3 K)
    (hno : ∀ ax ∈ axes A B tf1 tf2, ¬ (|ax.tmp| - ax.r > 0))
    (hrange : -cfg.max < |(tf1.linear.transpose.mulVec
        (tf2.translation.sub tf1.translation)).get 0|
      - (((tf1.linear.transpose.mul tf2.linear).cwiseAbs.row 0).dot B + A.get 0)) :
    ∃ st, satPhase cfg A B tf1 tf2 = some st ∧ st.code ≠ 0 := by
  cases hs : satPhase cfg A B tf1 tf2 with
  | none =>
    obtain ⟨ax, hmem, hsep⟩ := (satFold_eq_none cfg _ _).mp hs
    exact absurd hsep (hno ax hmem)
  | some st =>
    refine ⟨st, rfl, ?_⟩
    have hall := @axes_code_ne_zero K _ A B tf1 tf2
    have hno1 := hno _ (show (⟨(tf1.linear.transpose.mulVec
        (tf2.translation.sub tf1.translation)).get 0,
        ((tf1.linear.transpose.mul tf2.linear).cwiseAbs.row 0).dot B + A.get 0,
        none, 0, 1, 1⟩ : Axis K) ∈ axes A B tf1 tf2 by simp [axes, faceAxes])
    have hax : axes A B tf1 tf2 = (⟨(tf1.linear.transpose.mulVec
        (tf2.translation.sub tf1.translation)).get 0,
        ((tf1.linear.transpose.mul tf2.linear).cwiseAbs.row 0).dot B + A.get 0,
        none, 0, 1, 1⟩ : Axis K) :: (axes A B tf1 tf2).tail := rfl
    have hstep : satStep cfg (SatState.init cfg) (⟨(tf1.linear.transpose.mulVec
        (tf2.translation.sub tf1.translation)).get 0,
        ((tf1.linear.transpose.mul tf2.linear).cwiseAbs.row 0).dot B + A.get 0,
        none, 0, 1, 1⟩ : Axis K)
        = some ⟨|(tf1.linear.transpose.mulVec (tf2.translation.sub tf1.translation)).get 0|
            - (((tf1.linear.transpose.mul tf2.linear).cwiseAbs.row 0).dot B + A.get 0),
          0, 1, ⟨0, 0, 0⟩,
          decide ((tf1.linear.transpose.mulVec (tf2.translation.sub tf1.translation)).get 0 < 0),
          1⟩ := by
      unfold satStep
      simp only [hno1, if_false]
      have : |(tf1.linear.transpose.mulVec (tf2.translation.sub tf1.translation)).get 0|
          - (((tf1.linear.transpose.mul tf2.linear).cwiseAbs.row 0).dot B + A.get 0)
          > (SatState.init cfg).s := hrange
      simp only [this, if_true]
      rfl
    unfold satPhase at hs
    rw [hax, satFold_cons, hstep, Option.some_bind] at hs
    refine satFold_code_ne_zero (show (1 : Nat) ≠ 0 by decide) ?_ hs
    intro ax hax2
    apply hall ax
    rw [hax]
    exact List.mem_cons_of_mem _ hax2

theorem rotation_abs_le_one {m : Mat3 K} (h : m.IsRotation) :
    (|m.m00| ≤ 1 ∧ |m.m01| ≤ 1 ∧ |m.m02| ≤ 1) ∧ (|m.m10| ≤ 1 ∧ |m.m11| ≤ 1 ∧ |m.m12| ≤ 1) ∧
    (|m.m20| ≤ 1 ∧ |m.m21| ≤ 1 ∧ |m.m22| ≤ 1) := by
  obtain ⟨h0, h1, h2, -⟩ := h
  simp only [Mat3.col, Mat3.coeff, Vec3.dot] at h0 h1 h2
  simp at h0 h1 h2
  have key : ∀ a b c : K, a * a + b * b + c * c = 1 → |a| ≤ 1 := by
    intro a b c habc
    rw [abs_le_one_iff_mul_self_le_one]
    nlinarith [mul_self_nonneg b, mul_self_nonneg c]
  exact ⟨⟨key m.m00 m.m10 m.m20 h0, key m.m01 m.m11 m.m21 h1, key m.m02 m.m12 m.m22 h2⟩,
    ⟨key m.m10 m.m00 m.m20 (by linarith), key m.m11 m.m01 m.m21 (by linarith),
      key m.m12 m.m02 m.m22 (by linarith)⟩,
    ⟨key m.m20 m.m00 m.m10 (by linarith), key m.m21 m.m01 m.m11 (by linarith),
      key m.m22 m.m02 m.m12 (by linarith)⟩⟩

/-- With half extents whose sum `A[0] + B[0] + B[1] + B[2]` stays below
`max`, the overlap on the first axis exceeds `-max`. -/
theorem first_axis_in_range (cfg : Scalar K) (side1 side2 : Vec3 K) (tf1 tf2 : Transform3 K)
    (hs2 : 0 ≤ side2.x ∧ 0 ≤ side2.y ∧ 0 ≤ side2.z)
    (h1 : tf1.linear.IsRotation) (h2 : tf2.linear.IsRotation)
    (hmax : side1.x / 2 + side2.x / 2 + side2.y / 2 + side2.z / 2 < cfg.max) :
    -cfg.max < |(tf1.linear.transpose.mulVec (tf2.translation.sub tf1.translation)).get 0|
      - (((tf1.linear.transpose.mul tf2.linear).cwiseAbs.row 0).dot (side2.smul (1 / 2))
        + (side1.smul (1 / 2)).get 0) := by
  obtain ⟨⟨q0, q1, q2⟩, -, -⟩ := rotation_abs_le_one (relative_rotation h1 h2)
  generalize tf1.linear.transpose.mul tf2.linear = R at *
  simp only [Mat3.cwiseAbs, Mat3.row, Mat3.coeff, Vec3.dot, Vec3.smul, Vec3.get]
  simp
  have hp := abs_nonneg ((tf1.linear.transpose.mulVec (tf2.translation.sub tf1.translation)).x)
  have t0 := mul_le_mul_of_nonneg_right q0 (by linarith [hs2.1] : (0 : K) ≤ side2.x * 2⁻¹)
  have t1 := mul_le_mul_of_nonneg_right q1 (by linarith [hs2.2.1] : (0 : K) ≤ side2.y * 2⁻¹)
  have t2 := mul_le_mul_of_nonneg_right q2 (by linarith [hs2.2.2] : (0 : K) ≤ side2.z * 2⁻¹)
  linarith


/-! ## Separation: what return code 0 means -/

/-- C2, amended. For boxes with positive side lengths, orthonormal rotations and
half extents with `A[0] + B[0] + B[1] + B[2] < max`, if `boxBox2` sets
`return_code` to 0 then one of the fifteen tests fired (`s2 > 0`), some
direction strictly separates the projections of the two boxes, and the boxes
have no point in common. -/
theorem boxBox2_code_zero_separated (cfg : Scalar K) (side1 side2 : Vec3 K)
    (tf1 tf2 : Transform3 K) (normal : Vec3 K) (depth : K) (maxc : Int)
    (contacts : List (ContactPoint K))
    (hs1 : 0 < side1.x ∧ 0 < side1.y ∧ 0 < side1.z)
    (hs2 : 0 < side2.x ∧ 0 < side2.y ∧ 0 < side2.z)
    (h1 : tf1.linear.IsRotation) (h2 : tf2.linear.IsRotation)
    (hmax : side1.x / 2 + side2.x / 2 + side2.y / 2 + side2.z / 2 < cfg.max)
    (hrc : (boxBox2 cfg side1 tf1 side2 tf2 normal depth maxc contacts).return_code = 0) :
    (∃ ax ∈ axes (side1.smul (1 / 2)) (side2.smul (1 / 2)) tf1 tf2, |ax.tmp| - ax.r > 0) ∧
    StrictlySeparated side1 tf1 side2 tf2 ∧ Disjoint side1 tf1 side2 tf2 := by
  have hs1' : 0 ≤ side1.x ∧ 0 ≤ side1.y ∧ 0 ≤ side1.z :=
    ⟨le_of_lt hs1.1, le_of_lt hs1.2.1, le_of_lt hs1.2.2⟩
  have hs2' : 0 ≤ side2.x ∧ 0 ≤ side2.y ∧ 0 ≤ side2.z :=
    ⟨le_of_lt hs2.1, le_of_lt hs2.2.1, le_of_lt hs2.2.2⟩
  have hex : ∃ ax ∈ axes (side1.smul (1 / 2)) (side2.smul (1 / 2)) tf1 tf2,
      |ax.tmp| - ax.r > 0 := by
    by_contra hno
    have hno' : ∀ ax ∈ axes (side1.smul (1 / 2)) (side2.smul (1 / 2)) tf1 tf2,
        ¬ (|ax.tmp| - ax.r > 0) := fun ax hmem hsep => hno ⟨ax, hmem, hsep⟩
    obtain ⟨st, hst, hc⟩ := satPhase_code_of_no_sep cfg _ _ tf1 tf2 hno'
      (first_axis_in_range cfg side1 side2 tf1 tf2 hs2' h1 h2 hmax)
    rw [boxBox2_return_code, hst] at hrc
    exact hc hrc
  obtain ⟨ax, hmem, hsep⟩ := hex
  have hsepd := separated_of_axis side1 side2 tf1 tf2 hs1' hs2' h1 h2 hmem hsep
  exact ⟨⟨ax, hmem, hsep⟩, hsepd, strictlySeparated_disjoint hsepd⟩

/-! ## Two unit cubes, the second shifted by 1.1 along x -/

theorem scenario2_axis :
    ∃ ax ∈ axes ((⟨1, 1, 1⟩ : Vec3 ℝ).smul (1 / 2)) ((⟨1, 1, 1⟩ : Vec3 ℝ).smul (1 / 2))
      ⟨Mat3.identity, ⟨0, 0, 0⟩⟩ ⟨Mat3.identity, ⟨11 / 10, 0, 0⟩⟩, |ax.tmp| - ax.r > 0 := by
  refine ⟨_, List.mem_cons_self _ _, ?_⟩
  norm_num [Mat3.identity, Mat3.transpose, Mat3.mul, Mat3.mulVec, Mat3.row, Mat3.col,
    Mat3.coeff, Mat3.cwiseAbs, Vec3.dot, Vec3.get, Vec3.sub, Vec3.smul, abs_of_pos]

theorem scenario2_return_code :
    (boxBox2 (binary64 Real.sqrt (fun y x => Complex.arg ⟨x, y⟩) Real.pi)
      (⟨1, 1, 1⟩ : Vec3 ℝ) ⟨Mat3.identity, ⟨0, 0, 0⟩⟩ ⟨1, 1, 1⟩
      ⟨Mat3.identity, ⟨11 / 10, 0, 0⟩⟩ ⟨0, 0, 0⟩ 0 4 []).return_code = 0 := by
  rw [boxBox2_of_none _ _ _ _ _ _ _ _ _ ((satFold_eq_none _ _ _).mpr scenario2_axis)]

theorem binary64_max_gt_two (sq : ℝ → ℝ) (at2 : ℝ → ℝ → ℝ) (p : ℝ) :
    (1 : ℝ) / 2 + 1 / 2 + 1 / 2 + 1 / 2 < (binary64 sq at2 p).max := by
  norm_num [binary64]

theorem boxBox2_code_zero_separated_witness :
    (boxBox2 (binary64 Real.sqrt (fun y x => Complex.arg ⟨x, y⟩) Real.pi)
      (⟨1, 1, 1⟩ : Vec3 ℝ) ⟨Mat3.identity, ⟨0, 0, 0⟩⟩ ⟨1, 1, 1⟩
      ⟨Mat3.identity, ⟨11 / 10, 0, 0⟩⟩ ⟨0, 0, 0⟩ 0 4 []).return_code = 0 ∧
    (∃ ax ∈ axes ((⟨1, 1, 1⟩ : Vec3 ℝ).smul (1 / 2)) ((⟨1, 1, 1⟩ : Vec3 ℝ).smul (1 / 2))
      ⟨Mat3.identity, ⟨0, 0, 0⟩⟩ ⟨Mat3.identity, ⟨11 / 10, 0, 0⟩⟩, |ax.tmp| - ax.r > 0) ∧
    StrictlySeparated (⟨1, 1, 1⟩ : Vec3 ℝ) ⟨Mat3.identity, ⟨0, 0, 0⟩⟩ ⟨1, 1, 1⟩
      ⟨Mat3.identity, ⟨11 / 10, 0, 0⟩⟩ ∧
    Disjoint (⟨1, 1, 1⟩ : Vec3 ℝ) ⟨Mat3.identity, ⟨0, 0, 0⟩⟩ ⟨1, 1, 1⟩
      ⟨Mat3.identity, ⟨11 / 10, 0, 0⟩⟩ :=
  ⟨scenario2_return_code,
    boxBox2_code_zero_separated _ _ _ _ _ ⟨0, 0, 0⟩ 0 4 []
      ⟨one_pos, one_pos, one_pos⟩ ⟨one_pos, one_pos, one_pos⟩
      identity_isRotation identity_isRotation (binary64_max_gt_two _ _ _) scenario2_return_code⟩

/-! ## Two coincident cubes of side `max` -/

theorem hugeCubes_satPhase :
    satPhase (binary64 Real.sqrt (fun y x => Complex.arg ⟨x, y⟩) Real.pi)
      ((⟨2 ^ 1024 - 2 ^ 971, 2 ^ 1024 - 2 ^ 971, 2 ^ 1024 - 2 ^ 971⟩ : Vec3 ℝ).smul (1 / 2))
      ((⟨2 ^ 1024 - 2 ^ 971, 2 ^ 1024 - 2 ^ 971, 2 ^ 1024 - 2 ^ 971⟩ : Vec3 ℝ).smul (1 / 2))
      ⟨Mat3.identity, ⟨0, 0, 0⟩⟩ ⟨Mat3.identity, ⟨0, 0, 0⟩⟩
      = some (SatState.init (binary64 Real.sqrt (fun y x => Complex.arg ⟨x, y⟩) Real.pi)) := by
  norm_num [satPhase, axes, faceAxes, edgeAxes, satFold, satStep, SatState.init, binary64,
    Mat3.identity, Mat3.transpose, Mat3.mul, Mat3.mulVec, Mat3.row, Mat3.col, Mat3.coeff,
    Mat3.cwiseAbs, Mat3.addScalar, Vec3.dot, Vec3.get, Vec3.sub, Vec3.norm, Vec3.sdiv,
    Vec3.smul, fudge2, fudge_factor, abs_of_pos, abs_of_neg, abs_of_nonneg]

/-- C2, as stated, fails: two coincident cubes whose side is the largest finite
`double` have positive sides and identity rotations and share their centre,
yet no test records an axis (`s2 = -max` is not greater than `s = -max`) and
`boxBox2` sets `return_code` to 0. -/
theorem boxBox2_code_zero_overlapping :
    (0 : ℝ) < 2 ^ 1024 - 2 ^ 971 ∧ (Mat3.identity : Mat3 ℝ).IsRotation ∧
    (boxBox2 (binary64 Real.sqrt (fun y x => Complex.arg ⟨x, y⟩) Real.pi)
      (⟨2 ^ 1024 - 2 ^ 971, 2 ^ 1024 - 2 ^ 971, 2 ^ 1024 - 2 ^ 971⟩ : Vec3 ℝ)
      ⟨Mat3.identity, ⟨0, 0, 0⟩⟩
      ⟨2 ^ 1024 - 2 ^ 971, 2 ^ 1024 - 2 ^ 971, 2 ^ 1024 - 2 ^ 971⟩
      ⟨Mat3.identity, ⟨0, 0, 0⟩⟩ ⟨0, 0, 0⟩ 0 4 []).return_code = 0 ∧
    ¬ Disjoint (⟨2 ^ 1024 - 2 ^ 971, 2 ^ 1024 - 2 ^ 971, 2 ^ 1024 - 2 ^ 971⟩ : Vec3 ℝ)
      ⟨Mat3.identity, ⟨0, 0, 0⟩⟩
      ⟨2 ^ 1024 - 2 ^ 971, 2 ^ 1024 - 2 ^ 971, 2 ^ 1024 - 2 ^ 971⟩
      ⟨Mat3.identity, ⟨0, 0, 0⟩⟩ := by
  refine ⟨by norm_num, identity_isRotation, ?_, ?_⟩
  · rw [boxBox2_return_code, hugeCubes_satPhase]
    rfl
  · intro hd
    apply hd ⟨0, 0, 0⟩
    constructor <;>
      norm_num [inBox, Mat3.identity, Mat3.col, Mat3.coeff, Vec3.dot, Vec3.sub]

/-! ## Two tilted unit cubes whose upper and lower ridges miss by `1e-6` -/

theorem rotX_isRotation : (Mat3.rotX (3 / 5) (4 / 5) : Mat3 ℝ).IsRotation := by
  norm_num [Mat3.IsRotation, Mat3.rotX, Mat3.col, Mat3.coeff, Vec3.dot, Mat3.det]

theorem rotY_isRotation : (Mat3.rotY (3 / 5) (4 / 5) : Mat3 ℝ).IsRotation := by
  norm_num [Mat3.IsRotation, Mat3.rotY, Mat3.col, Mat3.coeff, Vec3.dot, Mat3.det]

set_option maxHeartbeats 4000000 in
theorem ridges_no_test_fires :
    ∀ ax ∈ axes ((⟨1, 1, 1⟩ : Vec3 ℝ).smul (1 / 2)) ((⟨1, 1, 1⟩ : Vec3 ℝ).smul (1 / 2))
      ⟨Mat3.rotX (3 / 5) (4 / 5), ⟨0, 0, 0⟩⟩
      ⟨Mat3.rotY (3 / 5) (4 / 5), ⟨0, 0, 1400001 / 1000000⟩⟩, ¬ (|ax.tmp| - ax.r > 0) := by
  intro ax hmem
  norm_num [axes, faceAxes, edgeAxes, Mat3.rotX, Mat3.rotY, Mat3.transpose, Mat3.mul,
    Mat3.mulVec, Mat3.row, Mat3.col,
    Mat3.coeff, Mat3.cwiseAbs, Mat3.addScalar, Vec3.dot, Vec3.get, Vec3.sub, Vec3.smul,
    fudge2, abs_of_pos, abs_of_neg, abs_of_nonneg] at hmem
  rcases hmem with h | h | h | h | h | h | h | h | h | h | h | h | h | h | h <;>
    subst h <;> norm_num [abs_of_pos, abs_of_neg, abs_of_nonneg]

/-- C1, as stated, fails: two unit cubes, the first turned about x and the
second about y (cosine 3/5, sine 4/5), the second centred 1.400001 above the
first, are disjoint (the plane z = 0.7000005 lies strictly between them), yet
no test of `boxBox2` fires and it ends with a non-zero `return_code`. -/
theorem boxBox2_reports_disjoint_pair :
    (Mat3.rotX (3 / 5) (4 / 5) : Mat3 ℝ).IsRotation ∧
    (Mat3.rotY (3 / 5) (4 / 5) : Mat3 ℝ).IsRotation ∧
    Disjoint (⟨1, 1, 1⟩ : Vec3 ℝ) ⟨Mat3.rotX (3 / 5) (4 / 5), ⟨0, 0, 0⟩⟩ ⟨1, 1, 1⟩
      ⟨Mat3.rotY (3 / 5) (4 / 5), ⟨0, 0, 1400001 / 1000000⟩⟩ ∧
    (boxBox2 (binary64 Real.sqrt (fun y x => Complex.arg ⟨x, y⟩) Real.pi)
      (⟨1, 1, 1⟩ : Vec3 ℝ) ⟨Mat3.rotX (3 / 5) (4 / 5), ⟨0, 0, 0⟩⟩ ⟨1, 1, 1⟩
      ⟨Mat3.rotY (3 / 5) (4 / 5), ⟨0, 0, 1400001 / 1000000⟩⟩ ⟨0, 0, 0⟩ 0 4 []).return_code
      ≠ 0 := by
  refine ⟨rotX_isRotation, rotY_isRotation, ?_, ?_⟩
  · apply strictlySeparated_disjoint
    refine separated_of_direction rotX_isRotation rotY_isRotation ⟨0, 0, 1⟩ (7 / 5) ?_ ?_
    · norm_num [Mat3.rotX, Mat3.rotY, Mat3.col, Mat3.coeff, Vec3.dot, abs_of_pos, abs_of_neg]
    · norm_num [Vec3.dot, Vec3.sub, abs_of_pos]
  · obtain ⟨st, hst, hc⟩ := satPhase_code_of_no_sep
      (binary64 Real.sqrt (fun y x => Complex.arg ⟨x, y⟩) Real.pi)
      ((⟨1, 1, 1⟩ : Vec3 ℝ).smul (1 / 2)) ((⟨1, 1, 1⟩ : Vec3 ℝ).smul (1 / 2))
      ⟨Mat3.rotX (3 / 5) (4 / 5), ⟨0, 0, 0⟩⟩
      ⟨Mat3.rotY (3 / 5) (4 / 5), ⟨0, 0, 1400001 / 1000000⟩⟩ ridges_no_test_fires
      (first_axis_in_range _ _ _ _ _ ⟨zero_le_one, zero_le_one, zero_le_one⟩
        rotX_isRotation rotY_isRotation (binary64_max_gt_two _ _ _))
    rw [boxBox2_return_code, hst]
    exact hc


/-! ## Two unit cubes, the second turned a quarter about z and shifted by (0.9, 0.9, 0) -/

theorem quarterTurn_satPhase :
    satPhase (binary64 Real.sqrt (fun y x => Complex.arg ⟨x, y⟩) Real.pi)
      ((⟨1, 1, 1⟩ : Vec3 ℝ).smul (1 / 2)) ((⟨1, 1, 1⟩ : Vec3 ℝ).smul (1 / 2))
      ⟨Mat3.identity, ⟨0, 0, 0⟩⟩ ⟨Mat3.rotZ 0 1, ⟨9 / 10, 9 / 10, 0⟩⟩
      = some ⟨-(1 / 10), 0, 1, ⟨0, 0, 0⟩, false, 1⟩ := by
  norm_num [satPhase, axes, faceAxes, edgeAxes, satFold, satStep, SatState.init, binary64,
    Mat3.identity, Mat3.rotZ, Mat3.transpose, Mat3.mul, Mat3.mulVec, Mat3.row, Mat3.col,
    Mat3.coeff, Mat3.cwiseAbs, Mat3.addScalar, Vec3.dot, Vec3.get, Vec3.sub, Vec3.norm,
    Vec3.sdiv, Vec3.smul, fudge2, fudge_factor, abs_of_pos, abs_of_neg, abs_of_nonneg]

theorem quarterTurn_swapped_satPhase :
    satPhase (binary64 Real.sqrt (fun y x => Complex.arg ⟨x, y⟩) Real.pi)
      ((⟨1, 1, 1⟩ : Vec3 ℝ).smul (1 / 2)) ((⟨1, 1, 1⟩ : Vec3 ℝ).smul (1 / 2))
      ⟨Mat3.rotZ 0 1, ⟨9 / 10, 9 / 10, 0⟩⟩ ⟨Mat3.identity, ⟨0, 0, 0⟩⟩
      = some ⟨-(1 / 10), 0, 1, ⟨0, 0, 0⟩, true, 1⟩ := by
  norm_num [satPhase, axes, faceAxes, edgeAxes, satFold, satStep, SatState.init, binary64,
    Mat3.identity, Mat3.rotZ, Mat3.transpose, Mat3.mul, Mat3.mulVec, Mat3.row, Mat3.col,
    Mat3.coeff, Mat3.cwiseAbs, Mat3.addScalar, Vec3.dot, Vec3.get, Vec3.sub, Vec3.norm,
    Vec3.sdiv, Vec3.smul, fudge2, fudge_factor, abs_of_pos, abs_of_neg, abs_of_nonneg]

theorem rotZ_quarter_isRotation : (Mat3.rotZ 0 1 : Mat3 ℝ).IsRotation := by
  norm_num [Mat3.IsRotation, Mat3.rotZ, Mat3.col, Mat3.coeff, Vec3.dot, Mat3.det]

/-- C10, as stated, fails: for two unit cubes, the second turned a quarter turn
about z and centred at (0.9, 0.9, 0), both call orders report a collision
(code 1, depth 0.1), yet `boxBox2(side1, tf1, side2, tf2)` writes the normal
(1, 0, 0) and `boxBox2(side2, tf2, side1, tf1)` writes (0, -1, 0), which is not
its negation. -/
theorem boxBox2_swap_normal_not_opposite :
    (Mat3.identity : Mat3 ℝ).IsRotation ∧ (Mat3.rotZ 0 1 : Mat3 ℝ).IsRotation ∧
    (boxBox2 (binary64 Real.sqrt (fun y x => Complex.arg ⟨x, y⟩) Real.pi)
      (⟨1, 1, 1⟩ : Vec3 ℝ) ⟨Mat3.identity, ⟨0, 0, 0⟩⟩ ⟨1, 1, 1⟩
      ⟨Mat3.rotZ 0 1, ⟨9 / 10, 9 / 10, 0⟩⟩ ⟨0, 0, 0⟩ 0 4 []).return_code = 1 ∧
    (boxBox2 (binary64 Real.sqrt (fun y x => Complex.arg ⟨x, y⟩) Real.pi)
      (⟨1, 1, 1⟩ : Vec3 ℝ) ⟨Mat3.rotZ 0 1, ⟨9 / 10, 9 / 10, 0⟩⟩ ⟨1, 1, 1⟩
      ⟨Mat3.identity, ⟨0, 0, 0⟩⟩ ⟨0, 0, 0⟩ 0 4 []).return_code = 1 ∧
    (boxBox2 (binary64 Real.sqrt (fun y x => Complex.arg ⟨x, y⟩) Real.pi)
      (⟨1, 1, 1⟩ : Vec3 ℝ) ⟨Mat3.identity, ⟨0, 0, 0⟩⟩ ⟨1, 1, 1⟩
      ⟨Mat3.rotZ 0 1, ⟨9 / 10, 9 / 10, 0⟩⟩ ⟨0, 0, 0⟩ 0 4 []).normal = ⟨1, 0, 0⟩ ∧
    (boxBox2 (binary64 Real.sqrt (fun y x => Complex.arg ⟨x, y⟩) Real.pi)
      (⟨1, 1, 1⟩ : Vec3 ℝ) ⟨Mat3.rotZ 0 1, ⟨9 / 10, 9 / 10, 0⟩⟩ ⟨1, 1, 1⟩
      ⟨Mat3.identity, ⟨0, 0, 0⟩⟩ ⟨0, 0, 0⟩ 0 4 []).normal = ⟨0, -1, 0⟩ ∧
    (boxBox2 (binary64 Real.sqrt (fun y x => Complex.arg ⟨x, y⟩) Real.pi)
      (⟨1, 1, 1⟩ : Vec3 ℝ) ⟨Mat3.rotZ 0 1, ⟨9 / 10, 9 / 10, 0⟩⟩ ⟨1, 1, 1⟩
      ⟨Mat3.identity, ⟨0, 0, 0⟩⟩ ⟨0, 0, 0⟩ 0 4 []).normal ≠
    (boxBox2 (binary64 Real.sqrt (fun y x => Complex.arg ⟨x, y⟩) Real.pi)
      (⟨1, 1, 1⟩ : Vec3 ℝ) ⟨Mat3.identity, ⟨0, 0, 0⟩⟩ ⟨1, 1, 1⟩
      ⟨Mat3.rotZ 0 1, ⟨9 / 10, 9 / 10, 0⟩⟩ ⟨0, 0, 0⟩ 0 4 []).normal.neg := by
  have hc1 : (boxBox2 (binary64 Real.sqrt (fun y x => Complex.arg ⟨x, y⟩) Real.pi)
      (⟨1, 1, 1⟩ : Vec3 ℝ) ⟨Mat3.identity, ⟨0, 0, 0⟩⟩ ⟨1, 1, 1⟩
      ⟨Mat3.rotZ 0 1, ⟨9 / 10, 9 / 10, 0⟩⟩ ⟨0, 0, 0⟩ 0 4 []).return_code = 1 := by
    rw [boxBox2_return_code, quarterTurn_satPhase]
  have hc2 : (boxBox2 (binary64 Real.sqrt (fun y x => Complex.arg ⟨x, y⟩) Real.pi)
      (⟨1, 1, 1⟩ : Vec3 ℝ) ⟨Mat3.rotZ 0 1, ⟨9 / 10, 9 / 10, 0⟩⟩ ⟨1, 1, 1⟩
      ⟨Mat3.identity, ⟨0, 0, 0⟩⟩ ⟨0, 0, 0⟩ 0 4 []).return_code = 1 := by
    rw [boxBox2_return_code, quarterTurn_swapped_satPhase]
  have hn1 : (boxBox2 (binary64 Real.sqrt (fun y x => Complex.arg ⟨x, y⟩) Real.pi)
      (⟨1, 1, 1⟩ : Vec3 ℝ) ⟨Mat3.identity, ⟨0, 0, 0⟩⟩ ⟨1, 1, 1⟩
      ⟨Mat3.rotZ 0 1, ⟨9 / 10, 9 / 10, 0⟩⟩ ⟨0, 0, 0⟩ 0 4 []).normal = ⟨1, 0, 0⟩ := by
    obtain ⟨st, hst, -, hn, -, -⟩ := boxBox2_hit (by rw [hc1]; decide :
      (boxBox2 (binary64 Real.sqrt (fun y x => Complex.arg ⟨x, y⟩) Real.pi)
      (⟨1, 1, 1⟩ : Vec3 ℝ) ⟨Mat3.identity, ⟨0, 0, 0⟩⟩ ⟨1, 1, 1⟩
      ⟨Mat3.rotZ 0 1, ⟨9 / 10, 9 / 10, 0⟩⟩ ⟨0, 0, 0⟩ 0 4 []).return_code ≠ 0)
    rw [quarterTurn_satPhase] at hst
    cases hst
    rw [hn]
    norm_num [satNormal, Mat3.identity, Mat3.col, Mat3.coeff]
  have hn2 : (boxBox2 (binary64 Real.sqrt (fun y x => Complex.arg ⟨x, y⟩) Real.pi)
      (⟨1, 1, 1⟩ : Vec3 ℝ) ⟨Mat3.rotZ 0 1, ⟨9 / 10, 9 / 10, 0⟩⟩ ⟨1, 1, 1⟩
      ⟨Mat3.identity, ⟨0, 0, 0⟩⟩ ⟨0, 0, 0⟩ 0 4 []).normal = ⟨0, -1, 0⟩ := by
    obtain ⟨st, hst, -, hn, -, -⟩ := boxBox2_hit (by rw [hc2]; decide :
      (boxBox2 (binary64 Real.sqrt (fun y x => Complex.arg ⟨x, y⟩) Real.pi)
      (⟨1, 1, 1⟩ : Vec3 ℝ) ⟨Mat3.rotZ 0 1, ⟨9 / 10, 9 / 10, 0⟩⟩ ⟨1, 1, 1⟩
      ⟨Mat3.identity, ⟨0, 0, 0⟩⟩ ⟨0, 0, 0⟩ 0 4 []).return_code ≠ 0)
    rw [quarterTurn_swapped_satPhase] at hst
    cases hst
    rw [hn]
    norm_num [satNormal, Mat3.rotZ, Mat3.col, Mat3.coeff, Vec3.neg]
  refine ⟨identity_isRotation, rotZ_quarter_isRotation, hc1, hc2, hn1, hn2, ?_⟩
  rw [hn1, hn2]
  norm_num [Vec3.neg]

/-! ## Swapping the two boxes -/

theorem faceAxes_edge_none {A B : Vec3 K} {tf1 tf2 : Transform3 K} :
    ∀ ax ∈ faceAxes A B tf1 tf2, ax.edge = none := by
  simp [faceAxes]

theorem edgeAxes_code_ge {A B : Vec3 K} {tf1 tf2 : Transform3 K} :
    ∀ ax ∈ edgeAxes A B tf1 tf2, 7 ≤ ax.code := by
  simp [edgeAxes]

theorem coeff_literals (m : Mat3 K) :
    m.coeff 0 0 = m.m00 ∧ m.coeff 0 1 = m.m01 ∧ m.coeff 0 2 = m.m02 ∧
    m.coeff 1 0 = m.m10 ∧ m.coeff 1 1 = m.m11 ∧ m.coeff 1 2 = m.m12 ∧
    m.coeff 2 0 = m.m20 ∧ m.coeff 2 1 = m.m21 ∧ m.coeff 2 2 = m.m22 :=
  ⟨rfl, rfl, rfl, rfl, rfl, rfl, rfl, rfl, rfl⟩

theorem get_literals (v : Vec3 K) : v.get 0 = v.x ∧ v.get 1 = v.y ∧ v.get 2 = v.z :=
  ⟨rfl, rfl, rfl⟩

theorem faceAxes_swap (A B : Vec3 K) (tf1 tf2 : Transform3 K) :
    ∀ ax ∈ faceAxes B A tf2 tf1, ∃ ax' ∈ faceAxes A B tf1 tf2,
      ax'.tmp = -ax.tmp ∧ ax'.r = ax.r ∧ faceDir tf1 tf2 ax' = faceDir tf2 tf1 ax := by
  have m0 : ∀ (a b c d e f : Axis K), a ∈ [a, b, c, d, e, f] := by intros; simp
  have m1 : ∀ (a b c d e f : Axis K), b ∈ [a, b, c, d, e, f] := by intros; simp
  have m2 : ∀ (a b c d e f : Axis K), c ∈ [a, b, c, d, e, f] := by intros; simp
  have m3 : ∀ (a b c d e f : Axis K), d ∈ [a, b, c, d, e, f] := by intros; simp
  have m4 : ∀ (a b c d e f : Axis K), e ∈ [a, b, c, d, e, f] := by intros; simp
  have m5 : ∀ (a b c d e f : Axis K), f ∈ [a, b, c, d, e, f] := by intros; simp
  intro ax hax
  simp only [faceAxes, List.mem_cons, List.mem_singleton, List.not_mem_nil, or_false] at hax
  rcases hax with h | h | h | h | h | h <;> subst h
  · refine ⟨_, m3 _ _ _ _ _ _, ?_, ?_, ?_⟩
    · simp only [Mat3.mulVec, Mat3.transpose, Mat3.mul, Mat3.row, Mat3.col, coeff_literals,
        Mat3.cwiseAbs, Vec3.dot, get_literals, Vec3.sub]
      ring
    · simp only [Mat3.mulVec, Mat3.transpose, Mat3.mul, Mat3.row, Mat3.col, coeff_literals,
        Mat3.cwiseAbs, Vec3.dot, get_literals, Vec3.sub]
      ring_nf
    · simp [faceDir]
  · refine ⟨_, m4 _ _ _ _ _ _, ?_, ?_, ?_⟩
    · simp only [Mat3.mulVec, Mat3.transpose, Mat3.mul, Mat3.row, Mat3.col, coeff_literals,
        Mat3.cwiseAbs, Vec3.dot, get_literals, Vec3.sub]
      ring
    · simp only [Mat3.mulVec, Mat3.transpose, Mat3.mul, Mat3.row, Mat3.col, coeff_literals,
        Mat3.cwiseAbs, Vec3.dot, get_literals, Vec3.sub]
      ring_nf
    · simp [faceDir]
  · refine ⟨_, m5 _ _ _ _ _ _, ?_, ?_, ?_⟩
    · simp only [Mat3.mulVec, Mat3.transpose, Mat3.mul, Mat3.row, Mat3.col, coeff_literals,
        Mat3.cwiseAbs, Vec3.dot, get_literals, Vec3.sub]
      ring
    · simp only [Mat3.mulVec, Mat3.transpose, Mat3.mul, Mat3.row, Mat3.col, coeff_literals,
        Mat3.cwiseAbs, Vec3.dot, get_literals, Vec3.sub]
      ring_nf
    · simp [faceDir]
  · refine ⟨_, m0 _ _ _ _ _ _, ?_, ?_, ?_⟩
    · simp only [Mat3.mulVec, Mat3.transpose, Mat3.mul, Mat3.row, Mat3.col, coeff_literals,
        Mat3.cwiseAbs, Vec3.dot, get_literals, Vec3.sub]
      ring
    · simp only [Mat3.mulVec, Mat3.transpose, Mat3.mul, Mat3.row, Mat3.col, coeff_literals,
        Mat3.cwiseAbs, Vec3.dot, get_literals, Vec3.sub]
      ring_nf
    · simp [faceDir]
  · refine ⟨_, m1 _ _ _ _ _ _, ?_, ?_, ?_⟩
    · simp only [Mat3.mulVec, Mat3.transpose, Mat3.mul, Mat3.row, Mat3.col, coeff_literals,
        Mat3.cwiseAbs, Vec3.dot, get_literals, Vec3.sub]
      ring
    · simp only [Mat3.mulVec, Mat3.transpose, Mat3.mul, Mat3.row, Mat3.col, coeff_literals,
        Mat3.cwiseAbs, Vec3.dot, get_literals, Vec3.sub]
      ring_nf
    · simp [faceDir]
  · refine ⟨_, m2 _ _ _ _ _ _, ?_, ?_, ?_⟩
    · simp only [Mat3.mulVec, Mat3.transpose, Mat3.mul, Mat3.row, Mat3.col, coeff_literals,
        Mat3.cwiseAbs, Vec3.dot, get_literals, Vec3.sub]
      ring
    · simp only [Mat3.mulVec, Mat3.transpose, Mat3.mul, Mat3.row, Mat3.col, coeff_literals,
        Mat3.cwiseAbs, Vec3.dot, get_literals, Vec3.sub]
      ring_nf
    · simp [faceDir]

theorem satStep_face_max {cfg : Scalar K} {st st1 : SatState K} {ax : Axis K}
    (he : ax.edge = none) (h : satStep cfg st ax = some st1) :
    st.s ≤ st1.s ∧ |ax.tmp| - ax.r ≤ st1.s := by
  unfold satStep at h
  by_cases h0 : |ax.tmp| - ax.r > 0
  · simp [h0] at h
  · simp only [h0, if_false, he] at h
    split at h
    · rename_i hgt
      cases h
      exact ⟨le_of_lt hgt, le_refl _⟩
    · rename_i hgt
      cases h
      exact ⟨le_refl _, not_lt.mp hgt⟩

theorem satFold_face_max {cfg : Scalar K} {l : List (Axis K)} {st st1 : SatState K}
    (hl : ∀ ax ∈ l, ax.edge = none) (h : satFold cfg st l = some st1) :
    st.s ≤ st1.s ∧ ∀ ax ∈ l, |ax.tmp| - ax.r ≤ st1.s := by
  induction l generalizing st with
  | nil =>
    simp only [satFold, Option.some.injEq] at h
    subst h
    exact ⟨le_refl _, fun ax hax => absurd hax (List.not_mem_nil _)⟩
  | cons a rest ih =>
    rw [satFold_cons] at h
    cases hs : satStep cfg st a with
    | none => rw [hs] at h; cases h
    | some st2 =>
      rw [hs] at h
      obtain ⟨h1, h2⟩ := satStep_face_max (hl a (List.mem_cons_self _ _)) hs
      obtain ⟨h3, h4⟩ := ih (fun ax hax => hl ax (List.mem_cons_of_mem _ hax)) h
      refine ⟨le_trans h1 h3, ?_⟩
      intro ax hax
      rcases List.mem_cons.mp hax with rfl | hmem
      · exact le_trans h2 h3
      · exact h4 ax hmem

/-- When the axis search ends with a face code, the edge blocks changed
nothing and the winner is the face candidate of greatest overlap. -/
theorem satPhase_face {cfg : Scalar K} {A B : Vec3 K} {tf1 tf2 : Transform3 K}
    {st : SatState K} (h : satPhase cfg A B tf1 tf2 = some st) (hc : st.code ≠ 0)
    (h6 : st.code ≤ 6) :
    (∃ ax ∈ faceAxes A B tf1 tf2, Recorded cfg ax st) ∧
    ∀ ax ∈ faceAxes A B tf1 tf2, |ax.tmp| - ax.r ≤ st.s := by
  unfold satPhase axes at h
  rw [satFold_append] at h
  cases hf : satFold cfg (SatState.init cfg) (faceAxes A B tf1 tf2) with
  | none => rw [hf] at h; cases h
  | some stF =>
    rw [hf] at h
    simp only [Option.bind] at h
    have hst : st = stF := by
      rcases satFold_some h with h1 | ⟨ax, hax, hrec⟩
      · exact h1
      · exfalso
        have := edgeAxes_code_ge ax hax
        have hcode := hrec.2.2.1
        omega
    subst hst
    refine ⟨?_, (satFold_face_max faceAxes_edge_none hf).2⟩
    rcases satFold_some hf with h1 | h1
    · exact absurd (by rw [h1]; rfl) hc
    · exact h1

theorem mem_axes_of_face {A B : Vec3 K} {tf1 tf2 : Transform3 K} {ax : Axis K}
    (h : ax ∈ faceAxes A B tf1 tf2) : ax ∈ axes A B tf1 tf2 :=
  List.mem_append_left _ h

theorem neg_neg_vec (a : Vec3 K) : a.neg.neg = a := by
  simp [Vec3.neg]

/-- C10, amended. When both call orders end with a face code (1..6), the call
`boxBox2(side2, tf2, side1, tf1)` writes the same depth as
`boxBox2(side1, tf1, side2, tf2)`; and when moreover every face axis whose
overlap reaches the greatest one is parallel to the normal and the centre
offset is not orthogonal to the normal, it writes the opposite normal. -/
theorem boxBox2_swap_face (cfg : Scalar K) (side1 side2 : Vec3 K) (tf1 tf2 : Transform3 K)
    (normal normal' : Vec3 K) (depth depth' : K) (maxc maxc' : Int)
    (contacts contacts' : List (ContactPoint K))
    (hc1 : (boxBox2 cfg side1 tf1 side2 tf2 normal depth maxc contacts).return_code ≠ 0)
    (h61 : (boxBox2 cfg side1 tf1 side2 tf2 normal depth maxc contacts).return_code ≤ 6)
    (hc2 : (boxBox2 cfg side2 tf2 side1 tf1 normal' depth' maxc' contacts').return_code ≠ 0)
    (h62 : (boxBox2 cfg side2 tf2 side1 tf1 normal' depth' maxc' contacts').return_code ≤ 6) :
    (boxBox2 cfg side2 tf2 side1 tf1 normal' depth' maxc' contacts').depth
      = (boxBox2 cfg side1 tf1 side2 tf2 normal depth maxc contacts).depth ∧
    ((∀ ax ∈ faceAxes (side1.smul (1 / 2)) (side2.smul (1 / 2)) tf1 tf2,
        -(boxBox2 cfg side1 tf1 side2 tf2 normal depth maxc contacts).depth ≤ |ax.tmp| - ax.r →
        faceDir tf1 tf2 ax = (boxBox2 cfg side1 tf1 side2 tf2 normal depth maxc contacts).normal ∨
        faceDir tf1 tf2 ax
          = (boxBox2 cfg side1 tf1 side2 tf2 normal depth maxc contacts).normal.neg) →
      (tf2.translation.sub tf1.translation).dot
        (boxBox2 cfg side1 tf1 side2 tf2 normal depth maxc contacts).normal ≠ 0 →
      (boxBox2 cfg side2 tf2 side1 tf1 normal' depth' maxc' contacts').normal
        = (boxBox2 cfg side1 tf1 side2 tf2 normal depth maxc contacts).normal.neg) := by
  obtain ⟨st1, hst1, hz1, hn1, hd1, hr1⟩ := boxBox2_hit hc1
  obtain ⟨st2, hst2, hz2, hn2, hd2, hr2⟩ := boxBox2_hit hc2
  rw [hr1] at h61
  rw [hr2] at h62
  obtain ⟨⟨ax1, hax1, hrec1⟩, hmax1⟩ := satPhase_face hst1 hz1 h61
  obtain ⟨⟨ax2, hax2, hrec2⟩, hmax2⟩ := satPhase_face hst2 hz2 h62
  have he1 := faceAxes_edge_none ax1 hax1
  have he2 := faceAxes_edge_none ax2 hax2
  have hs1 : st1.s = |ax1.tmp| - ax1.r := by
    have := hrec1.2.2.2
    rw [he1] at this
    exact this.1
  have hs2 : st2.s = |ax2.tmp| - ax2.r := by
    have := hrec2.2.2.2
    rw [he2] at this
    exact this.1
  obtain ⟨a, ha, hat, har, hadir⟩ := faceAxes_swap _ _ tf1 tf2 ax2 hax2
  obtain ⟨b, hb, hbt, hbr, -⟩ := faceAxes_swap _ _ tf2 tf1 ax1 hax1
  have hsa : |a.tmp| - a.r = st2.s := by rw [hat, har, abs_neg, hs2]
  have hsb : |b.tmp| - b.r = st1.s := by rw [hbt, hbr, abs_neg, hs1]
  have hle1 : st2.s ≤ st1.s := hsa ▸ hmax1 a ha
  have hle2 : st1.s ≤ st2.s := hsb ▸ hmax2 b hb
  have hseq : st2.s = st1.s := le_antisymm hle1 hle2
  rw [hd1, hd2, hn1, hn2]
  refine ⟨by rw [hseq], ?_⟩
  intro htie hne
  have hdir := htie a ha (by rw [hsa, hseq]; linarith)
  obtain ⟨-, hcola, htmpa, -, -⟩ := axes_face (mem_axes_of_face ha) (faceAxes_edge_none a ha)
  obtain ⟨-, hcol2, -, -, -⟩ := axes_face (mem_axes_of_face hax2) he2
  obtain ⟨-, hcol1, htmp1, -, -⟩ := axes_face (mem_axes_of_face hax1) he1
  have hpos : 0 < (tf2.translation.sub tf1.translation).dot (satNormal tf1 tf2 st1) := by
    refine lt_of_le_of_ne ?_ (Ne.symm hne)
    rw [satNormal_face hrec1 he1 hcol1]
    by_cases hneg : ax1.tmp < 0
    · rw [if_pos hneg, dot_neg_right, dot_comm, ← htmp1]
      linarith
    · rw [if_neg hneg, dot_comm, ← htmp1]
      exact not_lt.mp hneg
  have hn2' : satNormal tf2 tf1 st2
      = if ax2.tmp < 0 then (faceDir tf2 tf1 ax2).neg else faceDir tf2 tf1 ax2 :=
    satNormal_face hrec2 he2 hcol2
  rw [hn2', ← hadir]
  have htmpa' : a.tmp = (faceDir tf1 tf2 a).dot (tf2.translation.sub tf1.translation) := htmpa
  have h2a : ax2.tmp = -a.tmp := by rw [hat]; ring
  rcases hdir with hd | hd
  · have : 0 < a.tmp := by
      rw [htmpa', hd, dot_comm]
      exact hpos
    rw [if_pos (by rw [h2a]; linarith), hd]
  · have : a.tmp < 0 := by
      rw [htmpa', hd, dot_comm, dot_neg_right]
      linarith
    rw [if_neg (by rw [h2a]; linarith), hd]

theorem scenario1_swapped_satPhase :
    satPhase (binary64 Real.sqrt (fun y x => Complex.arg ⟨x, y⟩) Real.pi)
      ((⟨1, 1, 1⟩ : Vec3 ℝ).smul (1 / 2)) ((⟨1, 1, 1⟩ : Vec3 ℝ).smul (1 / 2))
      ⟨Mat3.identity, ⟨9 / 10, 0, 0⟩⟩ ⟨Mat3.identity, ⟨0, 0, 0⟩⟩
      = some ⟨-(1 / 10), 0, 1, ⟨0, 0, 0⟩, true, 1⟩ := by
  norm_num [satPhase, axes, faceAxes, edgeAxes, satFold, satStep, SatState.init, binary64,
    Mat3.identity, Mat3.transpose, Mat3.mul, Mat3.mulVec, Mat3.row, Mat3.col, Mat3.coeff,
    Mat3.cwiseAbs, Mat3.addScalar, Vec3.dot, Vec3.get, Vec3.sub, Vec3.norm, Vec3.sdiv,
    Vec3.smul, fudge2, fudge_factor, abs_of_pos, abs_of_neg, abs_of_nonneg]

theorem scenario1_swapped_code :
    (boxBox2 (binary64 Real.sqrt (fun y x => Complex.arg ⟨x, y⟩) Real.pi)
      (⟨1, 1, 1⟩ : Vec3 ℝ) ⟨Mat3.identity, ⟨9 / 10, 0, 0⟩⟩ ⟨1, 1, 1⟩
      ⟨Mat3.identity, ⟨0, 0, 0⟩⟩ ⟨0, 0, 0⟩ 0 4 []).return_code = 1 := by
  rw [boxBox2_return_code, scenario1_swapped_satPhase]

theorem scenario1_ties_parallel :
    ∀ ax ∈ faceAxes ((⟨1, 1, 1⟩ : Vec3 ℝ).smul (1 / 2)) ((⟨1, 1, 1⟩ : Vec3 ℝ).smul (1 / 2))
      ⟨Mat3.identity, ⟨0, 0, 0⟩⟩ ⟨Mat3.identity, ⟨9 / 10, 0, 0⟩⟩,
      -(1 / 10 : ℝ) ≤ |ax.tmp| - ax.r →
      faceDir ⟨Mat3.identity, ⟨0, 0, 0⟩⟩ ⟨Mat3.identity, ⟨9 / 10, 0, 0⟩⟩ ax = ⟨1, 0, 0⟩ ∨
      faceDir ⟨Mat3.identity, ⟨0, 0, 0⟩⟩ ⟨Mat3.identity, ⟨9 / 10, 0, 0⟩⟩ ax
        = (⟨1, 0, 0⟩ : Vec3 ℝ).neg := by
  intro ax hax hle
  simp only [faceAxes, List.mem_cons, List.mem_singleton, List.not_mem_nil, or_false] at hax
  rcases hax with h | h | h | h | h | h <;> subst h <;>
    norm_num [faceDir, Mat3.identity, Mat3.transpose, Mat3.mul, Mat3.mulVec, Mat3.row, Mat3.col,
      Mat3.coeff, Mat3.cwiseAbs, Vec3.dot, Vec3.get, Vec3.sub, Vec3.smul, Vec3.neg,
      abs_of_pos, abs_of_neg, abs_of_nonneg] at hle ⊢

theorem boxBox2_swap_face_witness :
    (boxBox2 (binary64 Real.sqrt (fun y x => Complex.arg ⟨x, y⟩) Real.pi)
      (⟨1, 1, 1⟩ : Vec3 ℝ) ⟨Mat3.identity, ⟨0, 0, 0⟩⟩ ⟨1, 1, 1⟩
      ⟨Mat3.identity, ⟨9 / 10, 0, 0⟩⟩ ⟨0, 0, 0⟩ 0 4 []).return_code ≠ 0 ∧
    (boxBox2 (binary64 Real.sqrt (fun y x => Complex.arg ⟨x, y⟩) Real.pi)
      (⟨1, 1, 1⟩ : Vec3 ℝ) ⟨Mat3.identity, ⟨0, 0, 0⟩⟩ ⟨1, 1, 1⟩
      ⟨Mat3.identity, ⟨9 / 10, 0, 0⟩⟩ ⟨0, 0, 0⟩ 0 4 []).return_code ≤ 6 ∧
    (boxBox2 (binary64 Real.sqrt (fun y x => Complex.arg ⟨x, y⟩) Real.pi)
      (⟨1, 1, 1⟩ : Vec3 ℝ) ⟨Mat3.identity, ⟨9 / 10, 0, 0⟩⟩ ⟨1, 1, 1⟩
      ⟨Mat3.identity, ⟨0, 0, 0⟩⟩ ⟨0, 0, 0⟩ 0 4 []).return_code ≠ 0 ∧
    (boxBox2 (binary64 Real.sqrt (fun y x => Complex.arg ⟨x, y⟩) Real.pi)
      (⟨1, 1, 1⟩ : Vec3 ℝ) ⟨Mat3.identity, ⟨9 / 10, 0, 0⟩⟩ ⟨1, 1, 1⟩
      ⟨Mat3.identity, ⟨0, 0, 0⟩⟩ ⟨0, 0, 0⟩ 0 4 []).return_code ≤ 6 ∧
    (boxBox2 (binary64 Real.sqrt (fun y x => Complex.arg ⟨x, y⟩) Real.pi)
      (⟨1, 1, 1⟩ : Vec3 ℝ) ⟨Mat3.identity, ⟨9 / 10, 0, 0⟩⟩ ⟨1, 1, 1⟩
      ⟨Mat3.identity, ⟨0, 0, 0⟩⟩ ⟨0, 0, 0⟩ 0 4 []).depth
      = (boxBox2 (binary64 Real.sqrt (fun y x => Complex.arg ⟨x, y⟩) Real.pi)
      (⟨1, 1, 1⟩ : Vec3 ℝ) ⟨Mat3.identity, ⟨0, 0, 0⟩⟩ ⟨1, 1, 1⟩
      ⟨Mat3.identity, ⟨9 / 10, 0, 0⟩⟩ ⟨0, 0, 0⟩ 0 4 []).depth ∧
    (boxBox2 (binary64 Real.sqrt (fun y x => Complex.arg ⟨x, y⟩) Real.pi)
      (⟨1, 1, 1⟩ : Vec3 ℝ) ⟨Mat3.identity, ⟨9 / 10, 0, 0⟩⟩ ⟨1, 1, 1⟩
      ⟨Mat3.identity, ⟨0, 0, 0⟩⟩ ⟨0, 0, 0⟩ 0 4 []).normal
      = (boxBox2 (binary64 Real.sqrt (fun y x => Complex.arg ⟨x, y⟩) Real.pi)
      (⟨1, 1, 1⟩ : Vec3 ℝ) ⟨Mat3.identity, ⟨0, 0, 0⟩⟩ ⟨1, 1, 1⟩
      ⟨Mat3.identity, ⟨9 / 10, 0, 0⟩⟩ ⟨0, 0, 0⟩ 0 4 []).normal.neg := by
  have hc1 := scenario1_return_code 4
  have h61 : (boxBox2 (binary64 Real.sqrt (fun y x => Complex.arg ⟨x, y⟩) Real.pi)
      (⟨1, 1, 1⟩ : Vec3 ℝ) ⟨Mat3.identity, ⟨0, 0, 0⟩⟩ ⟨1, 1, 1⟩
      ⟨Mat3.identity, ⟨9 / 10, 0, 0⟩⟩ ⟨0, 0, 0⟩ 0 4 []).return_code ≤ 6 := by
    rw [scenario1_result]
    decide
  have hc2 : (boxBox2 (binary64 Real.sqrt (fun y x => Complex.arg ⟨x, y⟩) Real.pi)
      (⟨1, 1, 1⟩ : Vec3 ℝ) ⟨Mat3.identity, ⟨9 / 10, 0, 0⟩⟩ ⟨1, 1, 1⟩
      ⟨Mat3.identity, ⟨0, 0, 0⟩⟩ ⟨0, 0, 0⟩ 0 4 []).return_code ≠ 0 := by
    rw [scenario1_swapped_code]
    decide
  have h62 : (boxBox2 (binary64 Real.sqrt (fun y x => Complex.arg ⟨x, y⟩) Real.pi)
      (⟨1, 1, 1⟩ : Vec3 ℝ) ⟨Mat3.identity, ⟨9 / 10, 0, 0⟩⟩ ⟨1, 1, 1⟩
      ⟨Mat3.identity, ⟨0, 0, 0⟩⟩ ⟨0, 0, 0⟩ 0 4 []).return_code ≤ 6 := by
    rw [scenario1_swapped_code]
    decide
  have h := boxBox2_swap_face _ _ _ _ _ _ _ _ _ _ _ _ _ hc1 h61 hc2 h62
  refine ⟨hc1, h61, hc2, h62, h.1, h.2 ?_ ?_⟩
  · rw [scenario1_result]
    exact scenario1_ties_parallel
  · rw [scenario1_result]
    norm_num [Vec3.dot, Vec3.sub]


/-! ## A cube of side 2 and a tilted unit cube resting against its corner edge -/

theorem sqrt_squares :
    Real.sqrt 9 = 3 ∧ Real.sqrt 16 = 4 ∧ Real.sqrt 25 = 5 := by
  refine ⟨?_, ?_, ?_⟩
  · rw [show (9 : ℝ) = 3 ^ 2 by norm_num]
    exact Real.sqrt_sq (by norm_num)
  · rw [show (16 : ℝ) = 4 ^ 2 by norm_num]
    exact Real.sqrt_sq (by norm_num)
  · rw [show (25 : ℝ) = 5 ^ 2 by norm_num]
    exact Real.sqrt_sq (by norm_num)

theorem rotZ_isRotation : (Mat3.rotZ (3 / 5) (4 / 5) : Mat3 ℝ).IsRotation := by
  norm_num [Mat3.IsRotation, Mat3.rotZ, Mat3.col, Mat3.coeff, Vec3.dot, Mat3.det]

set_option maxHeartbeats 1000000 in
theorem cornerRest_satPhase :
    satPhase (binary64 Real.sqrt (fun y x => Complex.arg ⟨x, y⟩) Real.pi)
      ((⟨2, 2, 2⟩ : Vec3 ℝ).smul (1 / 2)) ((⟨1, 1, 1⟩ : Vec3 ℝ).smul (1 / 2))
      ⟨Mat3.identity, ⟨0, 0, 0⟩⟩ ⟨Mat3.rotZ (3 / 5) (4 / 5), ⟨31 / 25, 33 / 25, 0⟩⟩
      = some ⟨-(1 / 10), 0, 2, ⟨0, 0, 0⟩, false, 4⟩ := by
  norm_num [satPhase, axes, faceAxes, edgeAxes, satFold, satStep, SatState.init, binary64,
    Mat3.identity, Mat3.rotZ, Mat3.transpose, Mat3.mul, Mat3.mulVec, Mat3.row, Mat3.col,
    Mat3.coeff, Mat3.cwiseAbs, Mat3.addScalar, Vec3.dot, Vec3.get, Vec3.sub, Vec3.norm,
    Vec3.sdiv, Vec3.smul, fudge2, fudge_factor, abs_of_pos, abs_of_neg, abs_of_nonneg,
    sqrt_squares]

theorem cornerRest_frame :
    frameOf (⟨2, 2, 2⟩ : Vec3 ℝ) ⟨Mat3.identity, ⟨0, 0, 0⟩⟩ ⟨1, 1, 1⟩
      ⟨Mat3.rotZ (3 / 5) (4 / 5), ⟨31 / 25, 33 / 25, 0⟩⟩
      ⟨-(1 / 10), 0, 2, ⟨0, 0, 0⟩, false, 4⟩
      = ⟨⟨Mat3.rotZ (3 / 5) (4 / 5), ⟨31 / 25, 33 / 25, 0⟩⟩, ⟨Mat3.identity, ⟨0, 0, 0⟩⟩,
          ⟨1 / 2, 1 / 2, 1 / 2⟩, ⟨1, 1, 1⟩, ⟨-(3 / 5), -(4 / 5), 0⟩, ⟨-(3 / 5), -(4 / 5), 0⟩,
          1, 0, 2, ⟨-(31 / 25), -(8 / 25), 0⟩, 0, 1, 2, 4 / 5, 0, -(4 / 5), 0, 0, 1⟩ := by
  norm_num [frameOf, faceFrame, satNormal,
    Mat3.identity, Mat3.rotZ, Mat3.transpose, Mat3.mulVec, Mat3.row, Mat3.col, Mat3.coeff,
    Vec3.dot, Vec3.get, Vec3.sub, Vec3.add, Vec3.neg, Vec3.smul, Vec3.cwiseAbs,
    abs_of_pos, abs_of_neg, abs_of_nonneg]

theorem cornerRest_clip :
    intersectRectQuad2 ((1 / 2, 1 / 2) : ℝ × ℝ)
      [(8 / 5, -1), (8 / 5, 1), (0, 1), (0, -1)]
      = [(0, 1 / 2), (0, -(1 / 2)), (1 / 2, -(1 / 2)), (1 / 2, 1 / 2)] := by
  norm_num [intersectRectQuad2, chopAll, chop, chopLoop, crossing, coord, land_eight_of_lt]

theorem cornerRest_survivors :
    survivors (⟨2, 2, 2⟩ : Vec3 ℝ) ⟨Mat3.identity, ⟨0, 0, 0⟩⟩ ⟨1, 1, 1⟩
      ⟨Mat3.rotZ (3 / 5) (4 / 5), ⟨31 / 25, 33 / 25, 0⟩⟩
      ⟨-(1 / 10), 0, 2, ⟨0, 0, 0⟩, false, 4⟩
      = [⟨(0, 1 / 2), ⟨-(6 / 25), -(8 / 25), 1 / 2⟩, 1 / 10⟩,
         ⟨(0, -(1 / 2)), ⟨-(6 / 25), -(8 / 25), -(1 / 2)⟩, 1 / 10⟩] := by
  unfold survivors
  rw [cornerRest_frame]
  have hq : faceQuad (⟨⟨Mat3.rotZ (3 / 5) (4 / 5), ⟨31 / 25, 33 / 25, 0⟩⟩,
      ⟨Mat3.identity, ⟨0, 0, 0⟩⟩,
      ⟨1 / 2, 1 / 2, 1 / 2⟩, ⟨1, 1, 1⟩, ⟨-(3 / 5), -(4 / 5), 0⟩, ⟨-(3 / 5), -(4 / 5), 0⟩,
      1, 0, 2, ⟨-(31 / 25), -(8 / 25), 0⟩, 0, 1, 2, 4 / 5, 0, -(4 / 5), 0, 0, 1⟩ : FaceFrame ℝ)
      = [(8 / 5, -1), (8 / 5, 1), (0, 1), (0, -1)] := by
    norm_num [faceQuad, Vec3.get]
  have hr : faceRect (⟨⟨Mat3.rotZ (3 / 5) (4 / 5), ⟨31 / 25, 33 / 25, 0⟩⟩,
      ⟨Mat3.identity, ⟨0, 0, 0⟩⟩,
      ⟨1 / 2, 1 / 2, 1 / 2⟩, ⟨1, 1, 1⟩, ⟨-(3 / 5), -(4 / 5), 0⟩, ⟨-(3 / 5), -(4 / 5), 0⟩,
      1, 0, 2, ⟨-(31 / 25), -(8 / 25), 0⟩, 0, 1, 2, 4 / 5, 0, -(4 / 5), 0, 0, 1⟩ : FaceFrame ℝ)
      = (1 / 2, 1 / 2) := by
    norm_num [faceRect, Vec3.get]
  rw [hq, hr, cornerRest_clip]
  norm_num [faceCandidates, Mat3.identity, Mat3.col, Mat3.coeff, Vec3.dot, Vec3.get,
    Vec3.add, Vec3.smul, List.filterMap_cons]

theorem cornerRest_result :
    boxBox2 (binary64 Real.sqrt (fun y x => Complex.arg ⟨x, y⟩) Real.pi)
      (⟨2, 2, 2⟩ : Vec3 ℝ) ⟨Mat3.identity, ⟨0, 0, 0⟩⟩ ⟨1, 1, 1⟩
      ⟨Mat3.rotZ (3 / 5) (4 / 5), ⟨31 / 25, 33 / 25, 0⟩⟩ ⟨0, 0, 0⟩ 0 4 []
      = ⟨2, ⟨3 / 5, 4 / 5, 0⟩, 1 / 10, 4,
          [⟨⟨3 / 5, 4 / 5, 0⟩, ⟨47 / 50, 23 / 25, 1 / 2⟩, -(1 / 10)⟩,
           ⟨⟨3 / 5, 4 / 5, 0⟩, ⟨47 / 50, 23 / 25, -(1 / 2)⟩, -(1 / 10)⟩]⟩ := by
  rw [boxBox2_face_all _ _ _ _ _ _ _ _ _ _ cornerRest_satPhase (by decide) (by decide)
    (by rw [cornerRest_survivors]; decide)
    (by rw [cornerRest_survivors]; decide)]
  rw [cornerRest_survivors, cornerRest_frame]
  norm_num [satNormal, faceEmit, Mat3.rotZ, Mat3.col, Mat3.coeff, Vec3.add, Vec3.sub,
    Vec3.smul]

/-- C8, as stated, fails: a cube of side 2 at the origin and a unit cube turned
about z (cosine 3/5, sine 4/5) centred at (1.24, 1.32, 0) give code 4 (the
reference face belongs to body 2, the incident body is body 1), and both
contacts, at (0.94, 0.92, 0.5) and (0.94, 0.92, -0.5), lie strictly inside
body 1, not on its surface. -/
theorem boxBox2_face_contact_off_incident :
    (Mat3.identity : Mat3 ℝ).IsRotation ∧ (Mat3.rotZ (3 / 5) (4 / 5) : Mat3 ℝ).IsRotation ∧
    (boxBox2 (binary64 Real.sqrt (fun y x => Complex.arg ⟨x, y⟩) Real.pi)
      (⟨2, 2, 2⟩ : Vec3 ℝ) ⟨Mat3.identity, ⟨0, 0, 0⟩⟩ ⟨1, 1, 1⟩
      ⟨Mat3.rotZ (3 / 5) (4 / 5), ⟨31 / 25, 33 / 25, 0⟩⟩ ⟨0, 0, 0⟩ 0 4 []).return_code = 4 ∧
    (boxBox2 (binary64 Real.sqrt (fun y x => Complex.arg ⟨x, y⟩) Real.pi)
      (⟨2, 2, 2⟩ : Vec3 ℝ) ⟨Mat3.identity, ⟨0, 0, 0⟩⟩ ⟨1, 1, 1⟩
      ⟨Mat3.rotZ (3 / 5) (4 / 5), ⟨31 / 25, 33 / 25, 0⟩⟩ ⟨0, 0, 0⟩ 0 4 []).contacts ≠ [] ∧
    ∀ c ∈ (boxBox2 (binary64 Real.sqrt (fun y x => Complex.arg ⟨x, y⟩) Real.pi)
      (⟨2, 2, 2⟩ : Vec3 ℝ) ⟨Mat3.identity, ⟨0, 0, 0⟩⟩ ⟨1, 1, 1⟩
      ⟨Mat3.rotZ (3 / 5) (4 / 5), ⟨31 / 25, 33 / 25, 0⟩⟩ ⟨0, 0, 0⟩ 0 4 []).contacts,
      ¬ onSurface (⟨2, 2, 2⟩ : Vec3 ℝ) ⟨Mat3.identity, ⟨0, 0, 0⟩⟩ c.pos := by
  refine ⟨identity_isRotation, rotZ_isRotation, ?_, ?_, ?_⟩
  · rw [cornerRest_result]
  · rw [cornerRest_result]
    simp
  · rw [cornerRest_result]
    intro c hc
    simp only [List.mem_cons, List.mem_singleton, List.not_mem_nil, or_false] at hc
    rcases hc with rfl | rfl <;>
      norm_num [onSurface, inBox, Mat3.identity, Mat3.col, Mat3.coeff, Vec3.dot, Vec3.sub,
        abs_of_pos, abs_of_neg]


/-! ## One chop of the clipper -/

theorem chopLoop_mem (h : K × K) (dir : Nat) (sign : K) (q0 : K × K) :
    ∀ (q r : List (K × K)), ∀ x ∈ (chopLoop h dir sign q0 q r).1,
      x ∈ r ∨ x ∈ chopIdeal h dir sign q0 q := by
  intro q
  induction q with
  | nil =>
    intro r x hx
    simp only [chopLoop] at hx
    exact Or.inl hx
  | cons pq rest ih =>
    intro r x hx
    rcases rest with _ | ⟨nx, rest⟩ <;>
    · unfold chopLoop at hx
      unfold chopIdeal
      simp only [List.headD_nil, List.headD_cons] at hx ⊢
      split_ifs at hx ⊢ <;>
        first
        | (simp_all; done)
        | (simp only [List.mem_append, List.mem_singleton] at hx ⊢; tauto)
        | (have h1 := ih _ x hx
           simp only [List.mem_append, List.mem_singleton, List.nil_append] at h1 ⊢
           tauto)

theorem chopLoop_ideal (h : K × K) (dir : Nat) (sign : K) (q0 : K × K) :
    ∀ (q r : List (K × K)), (r ++ chopIdeal h dir sign q0 q).length < 8 →
      chopLoop h dir sign q0 q r = (r ++ chopIdeal h dir sign q0 q, false) := by
  intro q
  induction q with
  | nil =>
    intro r _
    simp [chopLoop, chopIdeal]
  | cons pq rest ih =>
    intro r hlen
    have H : ∀ n : Nat, n < 8 → n &&& 8 = 0 := land_eight_of_lt
    rcases rest with _ | ⟨nx, rest⟩ <;>
    · unfold chopIdeal at hlen ⊢
      unfold chopLoop
      simp only [List.headD_nil, List.headD_cons] at hlen ⊢
      split_ifs at hlen ⊢ <;>
        simp only [List.length_append, List.length_cons, List.length_nil] at hlen <;>
        first
        | (rw [ih _ (by simp only [List.length_append, List.length_cons, List.length_nil]; omega)]
           simp)
        | (exfalso
           simp_all
           done)
        | (exfalso
           rename_i hx
           simp only [List.length_append, List.length_cons, List.length_nil] at hx
           rw [H _ (by omega)] at hx
           simp at hx
           done)
        | (exfalso
           rename_i hx _
           simp only [List.length_append, List.length_cons, List.length_nil,
             Bool.and_eq_true, decide_eq_true_eq] at hx
           rw [H _ (by omega)] at hx
           simp at hx
           done)

/-- Where an edge changes side, the point written is on the segment from `pq`
to `nextq`. -/
theorem crossing_on_segment (h : K × K) {dir : Nat} {sign : K} (pq nextq : K × K)
    (hdir : dir = 0 ∨ dir = 1) (hsign : sign = 1 ∨ sign = -1)
    (hx : xor (decide (sign * coord dir pq < coord dir h))
      (decide (sign * coord dir nextq < coord dir h)) = true) :
    ∃ t : K, 0 ≤ t ∧ t ≤ 1 ∧
      crossing h dir sign pq nextq
        = (pq.1 + t * (nextq.1 - pq.1), pq.2 + t * (nextq.2 - pq.2)) := by
  have key : ∀ a b c : K, (a < c ∧ ¬ b < c) ∨ (¬ a < c ∧ b < c) →
      b - a ≠ 0 ∧ 0 ≤ (c - a) / (b - a) ∧ (c - a) / (b - a) ≤ 1 := by
    intro a b c hc
    rcases hc with ⟨h1, h2⟩ | ⟨h1, h2⟩
    · have hb : 0 < b - a := by linarith [not_lt.mp h2]
      refine ⟨ne_of_gt hb, div_nonneg (by linarith) (le_of_lt hb), ?_⟩
      rw [div_le_one hb]
      linarith [not_lt.mp h2]
    · have hb : b - a < 0 := by linarith [not_lt.mp h1]
      refine ⟨ne_of_lt hb, div_nonneg_of_nonpos (by linarith [not_lt.mp h1]) (le_of_lt hb), ?_⟩
      rw [div_le_one_of_neg hb]
      linarith
  have hx' : (sign * coord dir pq < coord dir h ∧ ¬ sign * coord dir nextq < coord dir h) ∨
      (¬ sign * coord dir pq < coord dir h ∧ sign * coord dir nextq < coord dir h) := by
    by_cases h1 : sign * coord dir pq < coord dir h <;>
      by_cases h2 : sign * coord dir nextq < coord dir h <;> simp [h1, h2] at hx ⊢
  have hkey := key (sign * coord dir pq) (sign * coord dir nextq) (coord dir h) hx'
  have hss : sign * sign = 1 := by rcases hsign with rfl | rfl <;> norm_num
  obtain ⟨hne, h0, h1⟩ := hkey
  have hden : coord dir nextq - coord dir pq ≠ 0 := by
    intro hz
    apply hne
    rw [← mul_sub, hz, mul_zero]
  have ht : (sign * coord dir h - coord dir pq) / (coord dir nextq - coord dir pq)
      = (coord dir h - sign * coord dir pq) / (sign * coord dir nextq - sign * coord dir pq) := by
    rw [div_eq_div_iff hden hne]
    linear_combination (coord dir h * coord dir nextq - coord dir h * coord dir pq) * hss
  refine ⟨(sign * coord dir h - coord dir pq) / (coord dir nextq - coord dir pq),
    by rw [ht]; exact h0, by rw [ht]; exact h1, ?_⟩
  rcases hdir with rfl | rfl
  · simp only [coord, if_true] at hden
    simp only [crossing, coord, if_true]
    refine Prod.ext ?_ ?_
    · simp only []
      field_simp
    · simp only [show (1 - 0 : Nat) = 0 ↔ False by decide, if_false]
      field_simp
      ring
  · simp only [coord, show (1 : Nat) = 0 ↔ False by decide, if_false] at hden
    simp only [crossing, coord, show (1 : Nat) = 0 ↔ False by decide, if_false]
    refine Prod.ext ?_ ?_
    · simp only [show (1 - 1 : Nat) = 0 by decide, if_true]
      field_simp
      ring
    · simp only []
      field_simp

/-- A point of a segment is on the side of a line on which one of the two
end points is. -/
theorem below_segment (g1 g2 c : K) (a b : K × K) (t : K) (h0 : 0 ≤ t) (h1 : t ≤ 1) :
    below g1 g2 c (a.1 + t * (b.1 - a.1), a.2 + t * (b.2 - a.2)) = below g1 g2 c a ∨
    below g1 g2 c (a.1 + t * (b.1 - a.1), a.2 + t * (b.2 - a.2)) = below g1 g2 c b := by
  have e : g1 * (a.1 + t * (b.1 - a.1)) + g2 * (a.2 + t * (b.2 - a.2))
      = (g1 * a.1 + g2 * a.2) + t * ((g1 * b.1 + g2 * b.2) - (g1 * a.1 + g2 * a.2)) := by ring
  simp only [below, e]
  generalize g1 * a.1 + g2 * a.2 = u
  generalize g1 * b.1 + g2 * b.2 = v
  by_cases hu : u < c <;> by_cases hv : v < c
  · left
    have : u + t * (v - u) < c := by
      rcases le_total u v with huv | huv
      · nlinarith [mul_le_mul_of_nonneg_right h1 (sub_nonneg.mpr huv)]
      · nlinarith [mul_nonneg h0 (sub_nonneg.mpr huv)]
    simp [hu, this]
  · by_cases hw : u + t * (v - u) < c
    · left; simp [hu, hw]
    · right; simp [hv, hw]
  · by_cases hw : u + t * (v - u) < c
    · right; simp [hv, hw]
    · left; simp [hu, hw]
  · left
    have : ¬ u + t * (v - u) < c := by
      rw [not_lt] at hu hv ⊢
      rcases le_total u v with huv | huv
      · nlinarith [mul_nonneg h0 (sub_nonneg.mpr huv)]
      · nlinarith [mul_le_mul_of_nonneg_right h1 (sub_nonneg.mpr huv)]
    simp [hu, this]

theorem chopIdeal_cons (h : K × K) (dir : Nat) (sign : K) (q0 pq : K × K)
    (rest : List (K × K)) :
    chopIdeal h dir sign q0 (pq :: rest)
      = (if sign * coord dir pq < coord dir h then [pq] else []) ++
        ((if xor (decide (sign * coord dir pq < coord dir h))
            (decide (sign * coord dir (rest.headD q0) < coord dir h)) = true then
            [crossing h dir sign pq (rest.headD q0)] else []) ++
          chopIdeal h dir sign q0 rest) := by
  simp [chopIdeal]

theorem headD_mem_or (rest : List (K × K)) (q0 : K × K) :
    rest.headD q0 = q0 ∨ rest.headD q0 ∈ rest := by
  cases rest with
  | nil => exact Or.inl rfl
  | cons a l => exact Or.inr (List.mem_cons_self _ _)

/-- A chop keeps every property that holds at the points of the polygon and
passes to the points of a segment from its end points. -/
theorem chopIdeal_pred (P : K × K → Prop)
    (hconv : ∀ (a b : K × K) (t : K), P a → P b → 0 ≤ t → t ≤ 1 →
      P (a.1 + t * (b.1 - a.1), a.2 + t * (b.2 - a.2)))
    (h : K × K) {dir : Nat} {sign : K} (hdir : dir = 0 ∨ dir = 1)
    (hsign : sign = 1 ∨ sign = -1) (q0 : K × K) (hq0 : P q0) :
    ∀ q : List (K × K), (∀ x ∈ q, P x) → ∀ x ∈ chopIdeal h dir sign q0 q, P x := by
  intro q
  induction q with
  | nil =>
    intro _ x hx
    simp [chopIdeal] at hx
  | cons pq rest ih =>
    intro hq x hx
    rw [chopIdeal_cons] at hx
    have hpq : P pq := hq pq (List.mem_cons_self _ _)
    have hrest : ∀ y ∈ rest, P y := fun y hy => hq y (List.mem_cons_of_mem _ hy)
    have hnext : P (rest.headD q0) := by
      rcases headD_mem_or rest q0 with e | e
      · rw [e]; exact hq0
      · exact hrest _ e
    rcases List.mem_append.mp hx with h1 | h1
    · split at h1
      · rw [List.mem_singleton.mp h1]; exact hpq
      · cases h1
    · rcases List.mem_append.mp h1 with h2 | h2
      · split at h2
        · rename_i hxor
          rw [List.mem_singleton.mp h2]
          obtain ⟨t, t0, t1, ht⟩ := crossing_on_segment h pq (rest.headD q0) hdir hsign hxor
          rw [ht]
          exact hconv _ _ t hpq hnext t0 t1
        · cases h2
      · exact ih hrest x h2

theorem crossing_coord (h : K × K) {dir : Nat} (sign : K) (pq nextq : K × K)
    (hdir : dir = 0 ∨ dir = 1) :
    coord dir (crossing h dir sign pq nextq) = sign * coord dir h := by
  rcases hdir with rfl | rfl <;> simp [crossing, coord]

/-- Every point a chop writes is on the inner side of the chopping line, or
on it. -/
theorem chopIdeal_within (h : K × K) {dir : Nat} {sign : K} (hdir : dir = 0 ∨ dir = 1)
    (hsign : sign = 1 ∨ sign = -1) (q0 : K × K) :
    ∀ q : List (K × K), ∀ x ∈ chopIdeal h dir sign q0 q, sign * coord dir x ≤ coord dir h := by
  intro q
  induction q with
  | nil =>
    intro x hx
    simp [chopIdeal] at hx
  | cons pq rest ih =>
    intro x hx
    rw [chopIdeal_cons] at hx
    rcases List.mem_append.mp hx with h1 | h1
    · split at h1
      · rename_i hin
        rw [List.mem_singleton.mp h1]
        exact le_of_lt hin
      · cases h1
    · rcases List.mem_append.mp h1 with h2 | h2
      · split at h2
        · rw [List.mem_singleton.mp h2, crossing_coord h sign pq _ hdir, ← mul_assoc]
          have hss : sign * sign = 1 := by rcases hsign with rfl | rfl <;> norm_num
          rw [hss, one_mul]
        · cases h2
      · exact ih x h2

/-! ## Crossings of a line along a polygon -/

theorem flips_self (e : Bool) (l : List Bool) : flips e (e :: l) = flips e l := by
  simp [flips]

theorem flips_cons (e x : Bool) (l : List Bool) :
    flips e (x :: l) = (if e = x then 0 else 1) + flips x l := rfl

theorem flips_cons_le (e x : Bool) (l : List Bool) : flips x l ≤ flips e (x :: l) := by
  simp [flips]

theorem flips_triangle (e e' : Bool) (l : List Bool) :
    flips e l ≤ (if e = e' then 0 else 1) + flips e' l := by
  cases l with
  | nil => simp [flips]
  | cons x l =>
    simp only [flips]
    cases e <;> cases e' <;> cases x <;> simp <;> omega

theorem flips_const (e : Bool) (l : List Bool) (h : ∀ x ∈ l, x = e) : flips e l = 0 := by
  induction l with
  | nil => rfl
  | cons x l ih =>
    have hx : x = e := h x (List.mem_cons_self _ _)
    subst hx
    rw [flips_self]
    exact ih (fun y hy => h y (List.mem_cons_of_mem _ hy))

/-- The value at the end of `e :: l`, and the parity of the number of changes:
the end value is `e` exactly when the number of changes is even. -/
theorem flips_snoc (e : Bool) (l : List Bool) :
    ∃ z : Bool, (∀ f, flips e (l ++ [f]) = flips e l + (if z = f then 0 else 1)) ∧
      (z = e ↔ Even (flips e l)) := by
  induction l generalizing e with
  | nil =>
    refine ⟨e, ?_, ?_⟩
    · intro f
      simp [flips]
    · simp [flips]
  | cons x l ih =>
    obtain ⟨z, hz1, hz2⟩ := ih x
    refine ⟨z, ?_, ?_⟩
    · intro f
      show (if e = x then 0 else 1) + flips x (l ++ [f])
        = (if e = x then 0 else 1) + flips x l + (if z = f then 0 else 1)
      rw [hz1 f]
      ring
    · simp only [flips]
      by_cases hex : e = x
      · subst hex
        simp [hz2]
      · simp only [hex, if_false]
        rw [Nat.even_add, ← hz2]
        cases e <;> cases x <;> cases z <;> simp at hex ⊢

/-- Closing a sequence with at most two changes back to its start gives at
most two changes. -/
theorem flips_close (e : Bool) (l : List Bool) (h : flips e l ≤ 2) :
    flips e (l ++ [e]) ≤ 2 := by
  obtain ⟨z, hz1, hz2⟩ := flips_snoc e l
  rw [hz1 e]
  by_cases hze : z = e
  · simp [hze, h]
  · simp only [hze, if_false]
    have hodd : ¬ Even (flips e l) := fun hev => hze (hz2.mpr hev)
    have : flips e l ≠ 0 := fun h0 => hodd (by rw [h0]; exact even_zero)
    have : flips e l ≠ 2 := fun h2 => hodd (by rw [h2]; exact even_two)
    omega

/-- Along the points one chop writes, a line changes side no more often than
along the closed polygon. -/
theorem chopIdeal_flips (g1 g2 c : K) (h : K × K) {dir : Nat} {sign : K}
    (hdir : dir = 0 ∨ dir = 1) (hsign : sign = 1 ∨ sign = -1) (q0 : K × K) :
    ∀ (q : List (K × K)) (e : Bool),
      flips e ((chopIdeal h dir sign q0 q).map (below g1 g2 c))
        ≤ flips e ((q ++ [q0]).map (below g1 g2 c)) := by
  intro q
  induction q with
  | nil =>
    intro e
    simp [chopIdeal, flips]
  | cons pq rest ih =>
    intro e
    rw [chopIdeal_cons]
    obtain ⟨tl, htl⟩ : ∃ tl, (rest ++ [q0]).map (below g1 g2 c)
        = below g1 g2 c (rest.headD q0) :: tl := by
      cases rest with
      | nil => exact ⟨[], rfl⟩
      | cons a l => exact ⟨_, rfl⟩
    have ih' : ∀ e', flips e' ((chopIdeal h dir sign q0 rest).map (below g1 g2 c))
        ≤ (if e' = below g1 g2 c (rest.headD q0) then 0 else 1)
          + flips (below g1 g2 c (rest.headD q0)) tl := by
      intro e'
      have := ih e'
      rw [htl] at this
      simpa [flips] using this
    have hR : flips e (((pq :: rest) ++ [q0]).map (below g1 g2 c))
        = (if e = below g1 g2 c pq then 0 else 1)
          + ((if below g1 g2 c pq = below g1 g2 c (rest.headD q0) then 0 else 1)
            + flips (below g1 g2 c (rest.headD q0)) tl) := by
      have e1 : ((pq :: rest) ++ [q0]).map (below g1 g2 c)
          = below g1 g2 c pq :: (rest ++ [q0]).map (below g1 g2 c) := rfl
      rw [e1, htl]
      rfl
    rw [hR]
    generalize flips (below g1 g2 c (rest.headD q0)) tl = F at ih' ⊢
    by_cases hin : sign * coord dir pq < coord dir h <;>
      by_cases hnx : sign * coord dir (rest.headD q0) < coord dir h
    · have hxv : xor (decide (sign * coord dir pq < coord dir h))
          (decide (sign * coord dir (rest.headD q0) < coord dir h)) = false := by
        rw [decide_eq_true hin, decide_eq_true hnx]
        rfl
      rw [if_pos hin, hxv]
      show flips e (below g1 g2 c pq :: (chopIdeal h dir sign q0 rest).map (below g1 g2 c)) ≤ _
      rw [flips_cons]
      have := ih' (below g1 g2 c pq)
      omega
    · have hxv : xor (decide (sign * coord dir pq < coord dir h))
          (decide (sign * coord dir (rest.headD q0) < coord dir h)) = true := by
        rw [decide_eq_true hin, decide_eq_false hnx]
        rfl
      obtain ⟨t, t0, t1, ht⟩ := crossing_on_segment h pq (rest.headD q0) hdir hsign hxv
      have hb := below_segment g1 g2 c pq (rest.headD q0) t t0 t1
      rw [← ht] at hb
      rw [if_pos hin, hxv]
      show flips e (below g1 g2 c pq :: below g1 g2 c (crossing h dir sign pq (rest.headD q0))
        :: (chopIdeal h dir sign q0 rest).map (below g1 g2 c)) ≤ _
      rw [flips_cons, flips_cons]
      have := ih' (below g1 g2 c (crossing h dir sign pq (rest.headD q0)))
      revert this hb
      generalize flips (below g1 g2 c (crossing h dir sign pq (rest.headD q0)))
        ((chopIdeal h dir sign q0 rest).map (below g1 g2 c)) = G
      generalize below g1 g2 c (crossing h dir sign pq (rest.headD q0)) = bx
      generalize below g1 g2 c pq = bp
      generalize below g1 g2 c (rest.headD q0) = bn
      intro hb this
      cases e <;> cases bx <;> cases bp <;> cases bn <;> simp at hb this ⊢ <;> omega
    · have hxv : xor (decide (sign * coord dir pq < coord dir h))
          (decide (sign * coord dir (rest.headD q0) < coord dir h)) = true := by
        rw [decide_eq_false hin, decide_eq_true hnx]
        rfl
      obtain ⟨t, t0, t1, ht⟩ := crossing_on_segment h pq (rest.headD q0) hdir hsign hxv
      have hb := below_segment g1 g2 c pq (rest.headD q0) t t0 t1
      rw [← ht] at hb
      rw [if_neg hin, hxv]
      show flips e (below g1 g2 c (crossing h dir sign pq (rest.headD q0))
        :: (chopIdeal h dir sign q0 rest).map (below g1 g2 c)) ≤ _
      rw [flips_cons]
      have := ih' (below g1 g2 c (crossing h dir sign pq (rest.headD q0)))
      revert this hb
      generalize flips (below g1 g2 c (crossing h dir sign pq (rest.headD q0)))
        ((chopIdeal h dir sign q0 rest).map (below g1 g2 c)) = G
      generalize below g1 g2 c (crossing h dir sign pq (rest.headD q0)) = bx
      generalize below g1 g2 c pq = bp
      generalize below g1 g2 c (rest.headD q0) = bn
      intro hb this
      cases e <;> cases bx <;> cases bp <;> cases bn <;> simp at hb this ⊢ <;> omega
    · have hxv : xor (decide (sign * coord dir pq < coord dir h))
          (decide (sign * coord dir (rest.headD q0) < coord dir h)) = false := by
        rw [decide_eq_false hin, decide_eq_false hnx]
        rfl
      rw [if_neg hin, hxv]
      show flips e ((chopIdeal h dir sign q0 rest).map (below g1 g2 c)) ≤ _
      have := ih' e
      revert this
      generalize flips e ((chopIdeal h dir sign q0 rest).map (below g1 g2 c)) = G
      generalize below g1 g2 c pq = bp
      generalize below g1 g2 c (rest.headD q0) = bn
      intro this
      cases e <;> cases bp <;> cases bn <;> simp at this ⊢ <;> omega

/-- The number of points one chop writes: the points inside, and one more for
every change of side along the closed polygon. -/
theorem chopIdeal_length (h : K × K) (dir : Nat) (sign : K) (q0 : K × K) :
    ∀ q : List (K × K), ∃ tl : List Bool,
      (q ++ [q0]).map (fun p => decide (sign * coord dir p < coord dir h))
        = decide (sign * coord dir (q.headD q0) < coord dir h) :: tl ∧
      (chopIdeal h dir sign q0 q).length
        ≤ (q.filter (fun p => decide (sign * coord dir p < coord dir h))).length
          + flips (decide (sign * coord dir (q.headD q0) < coord dir h)) tl := by
  intro q
  induction q with
  | nil => exact ⟨[], rfl, by simp [chopIdeal, flips]⟩
  | cons pq rest ih =>
    obtain ⟨tl, h1, h2⟩ := ih
    refine ⟨decide (sign * coord dir (rest.headD q0) < coord dir h) :: tl, ?_, ?_⟩
    · have e1 : ((pq :: rest) ++ [q0]).map (fun p => decide (sign * coord dir p < coord dir h))
          = decide (sign * coord dir pq < coord dir h)
            :: (rest ++ [q0]).map (fun p => decide (sign * coord dir p < coord dir h)) := rfl
      rw [e1, h1]
      rfl
    · rw [chopIdeal_cons, flips_cons]
      simp only [List.headD_cons, List.length_append]
      generalize flips (decide (sign * coord dir (rest.headD q0) < coord dir h)) tl = F at h2 ⊢
      generalize (chopIdeal h dir sign q0 rest).length = n at h2 ⊢
      have hfil : ((pq :: rest).filter (fun p => decide (sign * coord dir p < coord dir h))).length
          = (if sign * coord dir pq < coord dir h then 1 else 0)
            + (rest.filter (fun p => decide (sign * coord dir p < coord dir h))).length := by
        by_cases hin : sign * coord dir pq < coord dir h
        · simp [List.filter_cons, hin]
          omega
        · simp [List.filter_cons, hin]
      rw [hfil]
      generalize (rest.filter (fun p => decide (sign * coord dir p < coord dir h))).length
        = m at h2 ⊢
      by_cases hin : sign * coord dir pq < coord dir h <;>
        by_cases hnx : sign * coord dir (rest.headD q0) < coord dir h
      · simp only [if_pos hin, decide_eq_true hin, decide_eq_true hnx, Bool.xor_self,
          Bool.false_eq_true, if_false, if_true, List.length_cons, List.length_nil]
        omega
      · simp only [if_pos hin, decide_eq_true hin, decide_eq_false hnx, Bool.xor_false,
          if_true, List.length_cons, List.length_nil, Bool.true_eq_false, if_false]
        omega
      · simp only [if_neg hin, decide_eq_false hin, decide_eq_true hnx, Bool.false_xor,
          if_true, List.length_cons, List.length_nil, Bool.false_eq_true, if_false]
        omega
      · simp only [if_neg hin, decide_eq_false hin, decide_eq_false hnx, Bool.xor_self,
          Bool.false_eq_true, if_false, if_true, List.length_cons, List.length_nil]
        omega

theorem inside_eq_below (h : K × K) {dir : Nat} (sign : K) (hdir : dir = 0 ∨ dir = 1) :
    ∃ g1 g2 c : K, ∀ p : K × K,
      decide (sign * coord dir p < coord dir h) = below g1 g2 c p := by
  rcases hdir with rfl | rfl
  · exact ⟨sign, 0, h.1, fun p => by simp [below, coord]⟩
  · exact ⟨0, sign, h.2, fun p => by simp [below, coord]⟩

theorem headD_headD (q : List (K × K)) (d : K × K) : q.headD (q.headD d) = q.headD d := by
  cases q <;> rfl

/-- One chop of a polygon no line crosses more than twice writes at most one
point more than the polygon has. -/
theorem chopIdeal_length_le (h : K × K) {dir : Nat} (sign : K) (hdir : dir = 0 ∨ dir = 1)
    (q : List (K × K)) (hq : TwoCross q) :
    (chopIdeal h dir sign (q.headD (0, 0)) q).length ≤ q.length + 1 := by
  obtain ⟨tl, h1, h2⟩ := chopIdeal_length h dir sign (q.headD (0, 0)) q
  obtain ⟨g1, g2, c, hg⟩ := inside_eq_below h sign hdir
  have hfun : (fun p => decide (sign * coord dir p < coord dir h)) = below g1 g2 c :=
    funext hg
  rw [headD_headD] at h1 h2
  have hF : flips (decide (sign * coord dir (q.headD (0, 0)) < coord dir h)) tl ≤ 2 := by
    have := hq g1 g2 c
    rw [← hfun, h1, flips_self] at this
    exact this
  by_cases hall : ∀ p ∈ q, decide (sign * coord dir p < coord dir h) = true
  · have hq0 : decide (sign * coord dir (q.headD (0, 0)) < coord dir h) = true ∨ q = [] := by
      cases q with
      | nil => exact Or.inr rfl
      | cons a l => exact Or.inl (hall a (List.mem_cons_self _ _))
    rcases hq0 with hq0 | hq0
    · have hz : flips (decide (sign * coord dir (q.headD (0, 0)) < coord dir h)) tl = 0 := by
        apply flips_const
        intro x hx
        have hx' : x ∈ (q ++ [q.headD (0, 0)]).map
            (fun p => decide (sign * coord dir p < coord dir h)) := by
          rw [h1]
          exact List.mem_cons_of_mem _ hx
        rw [List.mem_map] at hx'
        obtain ⟨p, hp, hpx⟩ := hx'
        rw [hq0, ← hpx]
        rcases List.mem_append.mp hp with hp1 | hp1
        · exact hall p hp1
        · rw [List.mem_singleton.mp hp1]
          exact hq0
      rw [hz] at h2
      have := List.length_filter_le (fun p => decide (sign * coord dir p < coord dir h)) q
      omega
    · subst hq0
      simp [chopIdeal]
  · have hlt : (q.filter (fun p => decide (sign * coord dir p < coord dir h))).length
        < q.length := by
      rw [List.length_filter_lt_length_iff_exists]
      push_neg at hall
      obtain ⟨p, hp, hpn⟩ := hall
      exact ⟨p, hp, by simpa using hpn⟩
    omega

/-- A chop keeps the property that no line is crossed more than twice. -/
theorem chopIdeal_twoCross (h : K × K) {dir : Nat} {sign : K} (hdir : dir = 0 ∨ dir = 1)
    (hsign : sign = 1 ∨ sign = -1) (q : List (K × K)) (hq : TwoCross q) :
    TwoCross (chopIdeal h dir sign (q.headD (0, 0)) q) := by
  intro g1 g2 c
  have hle := chopIdeal_flips g1 g2 c h hdir hsign (q.headD (0, 0)) q
    (below g1 g2 c (q.headD (0, 0)))
  have h2 := le_trans hle (hq g1 g2 c)
  generalize chopIdeal h dir sign (q.headD (0, 0)) q = out at h2 ⊢
  cases out with
  | nil => simp [flips]
  | cons a l =>
    have e1 : ((a :: l) ++ [(a :: l).headD (0, 0)]).map (below g1 g2 c)
        = below g1 g2 c a :: (l.map (below g1 g2 c) ++ [below g1 g2 c a]) := by
      simp
    rw [e1]
    show flips (below g1 g2 c a) (below g1 g2 c a :: (l.map (below g1 g2 c) ++ [below g1 g2 c a]))
      ≤ 2
    rw [flips_self]
    apply flips_close
    have h3 : flips (below g1 g2 c a) (l.map (below g1 g2 c))
        ≤ flips (below g1 g2 c (q.headD (0, 0))) ((a :: l).map (below g1 g2 c)) :=
      flips_cons_le _ _ _
    exact le_trans h3 h2

/-! ## The four chops of `intersectRectQuad2` -/

theorem chop_mem (h : K × K) (dir : Nat) (sign : K) (q : List (K × K)) :
    ∀ x ∈ (chop h dir sign q).1, x ∈ chopIdeal h dir sign (q.headD (0, 0)) q := by
  intro x hx
  rcases chopLoop_mem h dir sign (q.headD (0, 0)) q [] x hx with h1 | h1
  · cases h1
  · exact h1

theorem chop_ideal (h : K × K) (dir : Nat) (sign : K) (q : List (K × K))
    (hlen : (chopIdeal h dir sign (q.headD (0, 0)) q).length < 8) :
    chop h dir sign q = (chopIdeal h dir sign (q.headD (0, 0)) q, false) := by
  have := chopLoop_ideal h dir sign (q.headD (0, 0)) q [] (by simpa using hlen)
  simpa [chop] using this

theorem chopIdeal_pred_head (P : K × K → Prop)
    (hconv : ∀ (a b : K × K) (t : K), P a → P b → 0 ≤ t → t ≤ 1 →
      P (a.1 + t * (b.1 - a.1), a.2 + t * (b.2 - a.2)))
    (h : K × K) {dir : Nat} {sign : K} (hdir : dir = 0 ∨ dir = 1)
    (hsign : sign = 1 ∨ sign = -1) (q : List (K × K)) (hq : ∀ x ∈ q, P x) :
    ∀ x ∈ chopIdeal h dir sign (q.headD (0, 0)) q, P x := by
  cases q with
  | nil =>
    intro x hx
    simp [chopIdeal] at hx
  | cons a l =>
    exact chopIdeal_pred P hconv h hdir hsign a (hq a (List.mem_cons_self _ _)) (a :: l) hq

/-- Whatever the chops and wherever the clipper stops, a property of the input
points that passes to the points of segments holds of every output point. -/
theorem chopAll_pred (P : K × K → Prop)
    (hconv : ∀ (a b : K × K) (t : K), P a → P b → 0 ≤ t → t ≤ 1 →
      P (a.1 + t * (b.1 - a.1), a.2 + t * (b.2 - a.2)))
    (h : K × K) :
    ∀ (passes : List (Nat × K)),
      (∀ ps ∈ passes, (ps.1 = 0 ∨ ps.1 = 1) ∧ (ps.2 = 1 ∨ ps.2 = -1)) →
      ∀ q : List (K × K), (∀ x ∈ q, P x) → ∀ x ∈ chopAll h passes q, P x := by
  intro passes
  induction passes with
  | nil =>
    intro _ q hq x hx
    exact hq x hx
  | cons ps rest ih =>
    intro hps q hq x hx
    obtain ⟨dir, sign⟩ := ps
    obtain ⟨hdir, hsign⟩ := hps (dir, sign) (List.mem_cons_self _ _)
    have hr : ∀ y ∈ (chop h dir sign q).1, P y := fun y hy =>
      chopIdeal_pred_head P hconv h hdir hsign q hq y (chop_mem h dir sign q y hy)
    unfold chopAll at hx
    rcases hc : chop h dir sign q with ⟨r, flag⟩
    rw [hc] at hx hr
    cases flag with
    | true => exact hr x hx
    | false =>
      exact ih (fun p hp => hps p (List.mem_cons_of_mem _ hp)) r hr x hx

theorem inHull4_segment (p0 p1 p2 p3 : K × K) (a b : K × K) (t : K)
    (ha : InHull4 p0 p1 p2 p3 a) (hb : InHull4 p0 p1 p2 p3 b) (h0 : 0 ≤ t) (h1 : t ≤ 1) :
    InHull4 p0 p1 p2 p3 (a.1 + t * (b.1 - a.1), a.2 + t * (b.2 - a.2)) := by
  obtain ⟨w1, w2, w3, w4, hw1, hw2, hw3, hw4, hw, hx, hy⟩ := ha
  obtain ⟨v1, v2, v3, v4, hv1, hv2, hv3, hv4, hv, hx', hy'⟩ := hb
  have h1t : 0 ≤ 1 - t := by linarith
  refine ⟨(1 - t) * w1 + t * v1, (1 - t) * w2 + t * v2, (1 - t) * w3 + t * v3,
    (1 - t) * w4 + t * v4, ?_, ?_, ?_, ?_, ?_, ?_, ?_⟩
  · exact add_nonneg (mul_nonneg h1t hw1) (mul_nonneg h0 hv1)
  · exact add_nonneg (mul_nonneg h1t hw2) (mul_nonneg h0 hv2)
  · exact add_nonneg (mul_nonneg h1t hw3) (mul_nonneg h0 hv3)
  · exact add_nonneg (mul_nonneg h1t hw4) (mul_nonneg h0 hv4)
  · linear_combination (1 - t) * hw + t * hv
  · simp only []
    linear_combination (1 - t) * hx + t * hx'
  · simp only []
    linear_combination (1 - t) * hy + t * hy'

/-- C15. Every vertex `intersectRectQuad2` returns is a convex combination of
the four vertices of the input quadrilateral (for every input quadrilateral,
convex or not, and every `h`). -/
theorem intersectRectQuad2_in_quad (h : K × K) (a b c d : K × K) :
    ∀ x ∈ intersectRectQuad2 h [a, b, c, d], InHull4 a b c d x := by
  apply chopAll_pred (InHull4 a b c d) (inHull4_segment a b c d) h
  · intro ps hps
    simp only [List.mem_cons, List.mem_singleton, List.not_mem_nil, or_false] at hps
    rcases hps with rfl | rfl | rfl | rfl <;> simp
  · intro x hx
    simp only [List.mem_cons, List.mem_singleton, List.not_mem_nil, or_false] at hx
    rcases hx with rfl | rfl | rfl | rfl
    · exact ⟨1, 0, 0, 0, by norm_num, by norm_num, by norm_num, by norm_num, by norm_num,
        by ring, by ring⟩
    · exact ⟨0, 1, 0, 0, by norm_num, by norm_num, by norm_num, by norm_num, by norm_num,
        by ring, by ring⟩
    · exact ⟨0, 0, 1, 0, by norm_num, by norm_num, by norm_num, by norm_num, by norm_num,
        by ring, by ring⟩
    · exact ⟨0, 0, 0, 1, by norm_num, by norm_num, by norm_num, by norm_num, by norm_num,
        by ring, by ring⟩

theorem intersectRectQuad2_in_quad_witness :
    ((1 / 2, 1 / 2) : ℝ × ℝ) ∈ intersectRectQuad2 ((1 / 2, 1 / 2) : ℝ × ℝ)
      [(8 / 5, -1), (8 / 5, 1), (0, 1), (0, -1)] ∧
    InHull4 ((8 / 5, -1) : ℝ × ℝ) (8 / 5, 1) (0, 1) (0, -1) (1 / 2, 1 / 2) :=
  have hm : ((1 / 2, 1 / 2) : ℝ × ℝ) ∈ intersectRectQuad2 ((1 / 2, 1 / 2) : ℝ × ℝ)
      [(8 / 5, -1), (8 / 5, 1), (0, 1), (0, -1)] := by
    rw [cornerRest_clip]
    simp
  ⟨hm, intersectRectQuad2_in_quad _ _ _ _ _ _ hm⟩

theorem land_eight_lt (n : Nat) (h8 : n ≤ 8) (h : n &&& 8 = 0) : n < 8 := by
  rcases Nat.lt_or_ge n 8 with h1 | h1
  · exact h1
  · have : n = 8 := le_antisymm h8 h1
    subst this
    simp at h

/-- The buffer of one chop never holds more than eight points. -/
theorem chopLoop_length (h : K × K) (dir : Nat) (sign : K) (q0 : K × K) :
    ∀ (q r : List (K × K)), r.length < 8 →
      (chopLoop h dir sign q0 q r).1.length ≤ 8 := by
  intro q
  induction q with
  | nil =>
    intro r hr
    simp only [chopLoop]
    omega
  | cons pq rest ih =>
    intro r hr
    unfold chopLoop
    simp only []
    by_cases hin : sign * coord dir pq < coord dir h
    · simp only [decide_eq_true hin, if_true, Bool.true_and, Bool.true_xor]
      split
      · simp only [List.length_append, List.length_cons, List.length_nil]
        omega
      · rename_i h1
        have h1' : (r ++ [pq]).length < 8 :=
          land_eight_lt _ (by simp only [List.length_append, List.length_cons,
            List.length_nil]; omega) (by simpa using h1)
        split
        · split
          · simp only [List.length_append, List.length_cons, List.length_nil] at h1' ⊢
            omega
          · rename_i h2
            exact ih _ (land_eight_lt _ (by
              simp only [List.length_append, List.length_cons, List.length_nil] at h1' ⊢
              omega) (not_not.mp h2))
        · exact ih _ h1'
    · simp only [decide_eq_false hin, Bool.false_eq_true, if_false, Bool.false_and,
        Bool.false_xor]
      split
      · split
        · simp only [List.length_append, List.length_cons, List.length_nil]
          omega
        · rename_i h2
          exact ih _ (land_eight_lt _ (by
            simp only [List.length_append, List.length_cons, List.length_nil]
            omega) (not_not.mp h2))
      · exact ih _ hr

theorem chop_length (h : K × K) (dir : Nat) (sign : K) (q : List (K × K)) :
    (chop h dir sign q).1.length ≤ 8 :=
  chopLoop_length h dir sign _ q [] (by simp)

/-- The count `intersectRectQuad2` returns is at most 8. -/
theorem intersectRectQuad2_length (h : K × K) (p : List (K × K)) :
    (intersectRectQuad2 h p).length ≤ 8 := by
  have key : ∀ (passes : List (Nat × K)) (ps : Nat × K) (q : List (K × K)),
      (chopAll h (ps :: passes) q).length ≤ 8 := by
    intro passes
    induction passes with
    | nil =>
      intro ps q
      obtain ⟨dir, sign⟩ := ps
      have := chop_length h dir sign q
      unfold chopAll
      rcases hc : chop h dir sign q with ⟨r, flag⟩
      rw [hc] at this
      cases flag <;> simpa [chopAll] using this
    | cons ps2 rest ih =>
      intro ps q
      obtain ⟨dir, sign⟩ := ps
      have := chop_length h dir sign q
      unfold chopAll
      rcases hc : chop h dir sign q with ⟨r, flag⟩
      rw [hc] at this
      cases flag with
      | true => simpa using this
      | false => exact ih ps2 r
  exact key _ _ _

theorem convexQuad_twoCross {a b c d : K × K} (hq : ConvexQuad a b c d) :
    TwoCross [a, b, c, d] := by
  obtain ⟨s, t, s0, s1, t0, t1, hx, hy⟩ := hq
  intro g1 g2 k
  have h1 := below_segment g1 g2 k a c s s0 s1
  have h2 := below_segment g1 g2 k b d t t0 t1
  rw [hx, hy] at h1
  revert h1 h2
  generalize below g1 g2 k (b.1 + t * (d.1 - b.1), b.2 + t * (d.2 - b.2)) = bx
  have e1 : ([a, b, c, d] ++ [[a, b, c, d].headD (0, 0)]).map (below g1 g2 k)
      = [below g1 g2 k a, below g1 g2 k b, below g1 g2 k c, below g1 g2 k d,
          below g1 g2 k a] := rfl
  have e2 : [a, b, c, d].headD (0, 0) = a := rfl
  rw [e1, e2]
  generalize below g1 g2 k a = ba
  generalize below g1 g2 k b = bb
  generalize below g1 g2 k c = bc
  generalize below g1 g2 k d = bd
  intro h1 h2
  cases ba <;> cases bb <;> cases bc <;> cases bd <;> cases bx <;>
    simp [flips] at h1 h2 ⊢

theorem halfplane_segment (g1 g2 k : K) (a b : K × K) (t : K)
    (ha : g1 * a.1 + g2 * a.2 ≤ k) (hb : g1 * b.1 + g2 * b.2 ≤ k) (h0 : 0 ≤ t) (h1 : t ≤ 1) :
    g1 * (a.1 + t * (b.1 - a.1), a.2 + t * (b.2 - a.2)).1
      + g2 * (a.1 + t * (b.1 - a.1), a.2 + t * (b.2 - a.2)).2 ≤ k := by
  simp only []
  have e : g1 * (a.1 + t * (b.1 - a.1)) + g2 * (a.2 + t * (b.2 - a.2))
      = (1 - t) * (g1 * a.1 + g2 * a.2) + t * (g1 * b.1 + g2 * b.2) := by ring
  rw [e]
  nlinarith [mul_le_mul_of_nonneg_left ha (by linarith : (0 : K) ≤ 1 - t),
    mul_le_mul_of_nonneg_left hb h0]

/-- For a polygon of at most four points that no line crosses more than
twice, the first three chops never fill the buffer, all four chops run, and
every point returned lies in the rectangle. -/
theorem intersectRectQuad2_within (h : K × K) (q : List (K × K)) (hq : TwoCross q)
    (hlen : q.length ≤ 4) :
    ∀ x ∈ intersectRectQuad2 h q, -h.1 ≤ x.1 ∧ x.1 ≤ h.1 ∧ -h.2 ≤ x.2 ∧ x.2 ≤ h.2 := by
  have d0 : (0 : Nat) = 0 ∨ (0 : Nat) = 1 := Or.inl rfl
  have d1 : (1 : Nat) = 0 ∨ (1 : Nat) = 1 := Or.inr rfl
  have sp : (1 : K) = 1 ∨ (1 : K) = -1 := Or.inl rfl
  have sn : (-1 : K) = 1 ∨ (-1 : K) = -1 := Or.inr rfl
  have l1 := chopIdeal_length_le h (-1) d0 q hq
  have c1 := chop_ideal h 0 (-1) q (by omega)
  have t1 := chopIdeal_twoCross h d0 sn q hq
  have w1 := chopIdeal_within h d0 sn (q.headD (0, 0)) q
  generalize chopIdeal h 0 (-1) (q.headD (0, 0)) q = q1 at l1 c1 t1 w1
  have l2 := chopIdeal_length_le h 1 d0 q1 t1
  have c2 := chop_ideal h 0 1 q1 (by omega)
  have t2 := chopIdeal_twoCross h d0 sp q1 t1
  have w2 := chopIdeal_within h d0 sp (q1.headD (0, 0)) q1
  have p2 := chopIdeal_pred_head (fun x => (-1 : K) * x.1 + 0 * x.2 ≤ h.1)
    (halfplane_segment (-1) 0 h.1) h d0 sp q1
    (fun x hx => by have := w1 x hx; simp only [coord, if_true] at this; linarith)
  generalize chopIdeal h 0 1 (q1.headD (0, 0)) q1 = q2 at l2 c2 t2 w2 p2
  have l3 := chopIdeal_length_le h (-1) d1 q2 t2
  have c3 := chop_ideal h 1 (-1) q2 (by omega)
  have w3 := chopIdeal_within h d1 sn (q2.headD (0, 0)) q2
  have p3a := chopIdeal_pred_head (fun x => (-1 : K) * x.1 + 0 * x.2 ≤ h.1)
    (halfplane_segment (-1) 0 h.1) h d1 sn q2 p2
  have p3b := chopIdeal_pred_head (fun x => (1 : K) * x.1 + 0 * x.2 ≤ h.1)
    (halfplane_segment 1 0 h.1) h d1 sn q2
    (fun x hx => by have := w2 x hx; simp only [coord, if_true] at this; linarith)
  generalize chopIdeal h 1 (-1) (q2.headD (0, 0)) q2 = q3 at l3 c3 w3 p3a p3b
  have w4 := chopIdeal_within h d1 sp (q3.headD (0, 0)) q3
  have p4a := chopIdeal_pred_head (fun x => (-1 : K) * x.1 + 0 * x.2 ≤ h.1)
    (halfplane_segment (-1) 0 h.1) h d1 sp q3 p3a
  have p4b := chopIdeal_pred_head (fun x => (1 : K) * x.1 + 0 * x.2 ≤ h.1)
    (halfplane_segment 1 0 h.1) h d1 sp q3 p3b
  have p4c := chopIdeal_pred_head (fun x => (0 : K) * x.1 + (-1) * x.2 ≤ h.2)
    (halfplane_segment 0 (-1) h.2) h d1 sp q3
    (fun x hx => by
      have := w3 x hx
      simp only [coord, show (1 : Nat) = 0 ↔ False by decide, if_false] at this
      linarith)
  have hres : intersectRectQuad2 h q = (chop h 1 1 q3).1 := by
    unfold intersectRectQuad2
    simp only [chopAll, c1, c2, c3]
    rcases chop h 1 1 q3 with ⟨r, flag⟩
    cases flag <;> rfl
  intro x hx
  rw [hres] at hx
  have hx4 := chop_mem h 1 1 q3 x hx
  have a1 := p4a x hx4
  have a2 := p4b x hx4
  have a3 := p4c x hx4
  have a4 := w4 x hx4
  simp only [coord, show (1 : Nat) = 0 ↔ False by decide, if_false] at a4
  simp only [] at a1 a2 a3
  refine ⟨by linarith, by linarith, by linarith, by linarith⟩

/-- C14. For every convex input quadrilateral `a b c d` (and every `h`),
`intersectRectQuad2` returns at most 8 vertices and every one of them has
`-hx <= x <= hx` and `-hy <= y <= hy`. -/
theorem intersectRectQuad2_in_rect (h : K × K) (a b c d : K × K)
    (hq : ConvexQuad a b c d) :
    (intersectRectQuad2 h [a, b, c, d]).length ≤ 8 ∧
    ∀ x ∈ intersectRectQuad2 h [a, b, c, d],
      -h.1 ≤ x.1 ∧ x.1 ≤ h.1 ∧ -h.2 ≤ x.2 ∧ x.2 ≤ h.2 :=
  ⟨intersectRectQuad2_length h _,
    intersectRectQuad2_within h _ (convexQuad_twoCross hq) (le_refl _)⟩

theorem intersectRectQuad2_in_rect_witness :
    ConvexQuad ((8 / 5, -1) : ℝ × ℝ) (8 / 5, 1) (0, 1) (0, -1) ∧
    (intersectRectQuad2 ((1 / 2, 1 / 2) : ℝ × ℝ)
      [(8 / 5, -1), (8 / 5, 1), (0, 1), (0, -1)]).length ≤ 8 ∧
    ∀ x ∈ intersectRectQuad2 ((1 / 2, 1 / 2) : ℝ × ℝ)
      [(8 / 5, -1), (8 / 5, 1), (0, 1), (0, -1)],
      -(1 / 2 : ℝ) ≤ x.1 ∧ x.1 ≤ 1 / 2 ∧ -(1 / 2 : ℝ) ≤ x.2 ∧ x.2 ≤ 1 / 2 :=
  have hq : ConvexQuad ((8 / 5, -1) : ℝ × ℝ) (8 / 5, 1) (0, 1) (0, -1) :=
    ⟨1 / 2, 1 / 2, by norm_num, by norm_num, by norm_num, by norm_num, by norm_num,
      by norm_num⟩
  ⟨hq, intersectRectQuad2_in_rect (1 / 2, 1 / 2) _ _ _ _ hq⟩


/-! ## `lineClosestApproach` -/

/-- C16. For unit direction vectors `ua`, `ub`: when `1 - (ua.ub)^2 <= 1e-4`,
`lineClosestApproach` returns `alpha = beta = 0`; otherwise the vector from
`pa + alpha*ua` to `pb + beta*ub` is orthogonal to both `ua` and `ub`. -/
theorem lineClosestApproach_closest (pa ua pb ub : Vec3 K)
    (hua : ua.dot ua = 1) (hub : ub.dot ub = 1) :
    (1 - ua.dot ub * ua.dot ub ≤ 1 / 10000 → lineClosestApproach pa ua pb ub = (0, 0)) ∧
    (¬ 1 - ua.dot ub * ua.dot ub ≤ 1 / 10000 →
      ((pb.add (ub.smul (lineClosestApproach pa ua pb ub).2)).sub
        (pa.add (ua.smul (lineClosestApproach pa ua pb ub).1))).dot ua = 0 ∧
      ((pb.add (ub.smul (lineClosestApproach pa ua pb ub).2)).sub
        (pa.add (ua.smul (lineClosestApproach pa ua pb ub).1))).dot ub = 0) := by
  constructor
  · intro hd
    unfold lineClosestApproach
    simp only [hd, if_true]
  · intro hd
    have hd0 : 1 - ua.dot ub * ua.dot ub ≠ 0 := by
      intro hz
      apply hd
      rw [hz]
      norm_num
    have ea : ∀ α β : K, ((pb.add (ub.smul β)).sub (pa.add (ua.smul α))).dot ua
        = ua.dot (pb.sub pa) + β * ua.dot ub - α * ua.dot ua := by
      intro α β
      simp only [Vec3.dot, Vec3.sub, Vec3.add, Vec3.smul]
      ring
    have eb : ∀ α β : K, ((pb.add (ub.smul β)).sub (pa.add (ua.smul α))).dot ub
        = ub.dot (pb.sub pa) + β * ub.dot ub - α * ua.dot ub := by
      intro α β
      simp only [Vec3.dot, Vec3.sub, Vec3.add, Vec3.smul]
      ring
    rw [ea, eb, hua, hub]
    unfold lineClosestApproach
    simp only [hd, if_false]
    generalize ua.dot ub = c at hd0 ⊢
    generalize ua.dot (pb.sub pa) = q1
    generalize ub.dot (pb.sub pa) = q2
    constructor
    · field_simp
      ring
    · field_simp
      ring

theorem lineClosestApproach_closest_witness :
    (⟨1, 0, 0⟩ : Vec3 ℝ).dot ⟨1, 0, 0⟩ = 1 ∧ (⟨0, 1, 0⟩ : Vec3 ℝ).dot ⟨0, 1, 0⟩ = 1 ∧
    ((1 - (⟨1, 0, 0⟩ : Vec3 ℝ).dot ⟨0, 1, 0⟩ * (⟨1, 0, 0⟩ : Vec3 ℝ).dot ⟨0, 1, 0⟩ ≤ 1 / 10000 →
      lineClosestApproach (⟨0, 0, 0⟩ : Vec3 ℝ) ⟨1, 0, 0⟩ ⟨2, 3, 1⟩ ⟨0, 1, 0⟩ = (0, 0)) ∧
    (¬ 1 - (⟨1, 0, 0⟩ : Vec3 ℝ).dot ⟨0, 1, 0⟩ * (⟨1, 0, 0⟩ : Vec3 ℝ).dot ⟨0, 1, 0⟩ ≤ 1 / 10000 →
      (((⟨2, 3, 1⟩ : Vec3 ℝ).add ((⟨0, 1, 0⟩ : Vec3 ℝ).smul
          (lineClosestApproach (⟨0, 0, 0⟩ : Vec3 ℝ) ⟨1, 0, 0⟩ ⟨2, 3, 1⟩ ⟨0, 1, 0⟩).2)).sub
        ((⟨0, 0, 0⟩ : Vec3 ℝ).add ((⟨1, 0, 0⟩ : Vec3 ℝ).smul
          (lineClosestApproach (⟨0, 0, 0⟩ : Vec3 ℝ) ⟨1, 0, 0⟩ ⟨2, 3, 1⟩ ⟨0, 1, 0⟩).1))).dot
        ⟨1, 0, 0⟩ = 0 ∧
      (((⟨2, 3, 1⟩ : Vec3 ℝ).add ((⟨0, 1, 0⟩ : Vec3 ℝ).smul
          (lineClosestApproach (⟨0, 0, 0⟩ : Vec3 ℝ) ⟨1, 0, 0⟩ ⟨2, 3, 1⟩ ⟨0, 1, 0⟩).2)).sub
        ((⟨0, 0, 0⟩ : Vec3 ℝ).add ((⟨1, 0, 0⟩ : Vec3 ℝ).smul
          (lineClosestApproach (⟨0, 0, 0⟩ : Vec3 ℝ) ⟨1, 0, 0⟩ ⟨2, 3, 1⟩ ⟨0, 1, 0⟩).1))).dot
        ⟨0, 1, 0⟩ = 0)) :=
  ⟨by norm_num [Vec3.dot], by norm_num [Vec3.dot],
    lineClosestApproach_closest _ _ _ _ (by norm_num [Vec3.dot]) (by norm_num [Vec3.dot])⟩

/-! ## The search of `cullPoints2` on numbers -/

theorem Flt.atan2_nan (cfg : Scalar K) (a : Flt K) : Flt.atan2 cfg a Flt.nan = Flt.nan := by
  cases a <;> rfl

theorem naiveLoop_spec (sc : Scene K) (n_iter : Nat) :
    ∀ (fuel i : Nat),
      (∃ k, i ≤ k ∧ k < i + fuel ∧
        sc.collide (sc.motion1 (naiveSample n_iter k)) (sc.motion2 (naiveSample n_iter k)) ≠ 0 ∧
        (∀ j, i ≤ j → j < k →
          sc.collide (sc.motion1 (naiveSample n_iter j)) (sc.motion2 (naiveSample n_iter j))
            = 0) ∧
        naiveLoop sc n_iter i fuel = some (naiveSample n_iter k,
          sc.motion1 (naiveSample n_iter k), sc.motion2 (naiveSample n_iter k))) ∨
      ((∀ k, i ≤ k → k < i + fuel →
          sc.collide (sc.motion1 (naiveSample n_iter k)) (sc.motion2 (naiveSample n_iter k))
            = 0) ∧
        naiveLoop sc n_iter i fuel = none) := by
  intro fuel
  induction fuel with
  | zero =>
    intro i
    right
    exact ⟨fun k h1 h2 => by omega, rfl⟩
  | succ fuel ih =>
    intro i
    unfold naiveLoop
    simp only []
    by_cases hc : sc.collide (sc.motion1 (naiveSample n_iter i))
        (sc.motion2 (naiveSample n_iter i)) ≠ 0
    · left
      refine ⟨i, le_refl _, by omega, hc, fun j h1 h2 => by omega, ?_⟩
      rw [if_pos hc]
    · rw [if_neg hc]
      rcases ih (i + 1) with ⟨k, h1, h2, h3, h4, h5⟩ | ⟨h1, h2⟩
      · left
        refine ⟨k, by omega, by omega, h3, ?_, h5⟩
        intro j hj1 hj2
        rcases Nat.eq_or_lt_of_le hj1 with e | e
        · rw [← e]; exact not_not.mp hc
        · exact h4 j e hj2
      · right
        refine ⟨?_, h2⟩
        intro k hk1 hk2
        rcases Nat.eq_or_lt_of_le hk1 with e | e
        · rw [← e]; exact not_not.mp hc
        · exact h1 k e (by omega)

theorem naiveSample_range (n_iter : Nat) (hn : 2 ≤ n_iter) :
    (naiveSample n_iter 0 : K) = 0 ∧ (naiveSample n_iter (n_iter - 1) : K) = 1 ∧
    (∀ i, i < n_iter → (0 : K) ≤ naiveSample n_iter i ∧ (naiveSample n_iter i : K) ≤ 1) ∧
    (∀ i j, i < j → (naiveSample n_iter i : K) < naiveSample n_iter j) := by
  have hpos : (0 : K) < ((n_iter - 1 : Nat) : K) := by
    have : 0 < n_iter - 1 := by omega
    exact_mod_cast this
  refine ⟨by simp [naiveSample], ?_, ?_, ?_⟩
  · unfold naiveSample
    exact div_self (ne_of_gt hpos)
  · intro i hi
    unfold naiveSample
    refine ⟨div_nonneg (Nat.cast_nonneg _) (le_of_lt hpos), ?_⟩
    rw [div_le_one hpos]
    have : i ≤ n_iter - 1 := by omega
    exact_mod_cast this
  · intro i j hij
    unfold naiveSample
    apply div_lt_div_of_pos_right _ hpos
    exact_mod_cast hij

theorem continuousCollideNaive_cases (sc : Scene K)
    (request : ContinuousCollisionRequest K) (result : ContinuousCollisionResult K)
    (N : Nat) (hN : min request.num_max_iterations (sc.ceilToSize (1 / request.toc_err)) = N) :
    (∃ k, k < N ∧
        sc.collide (sc.motion1 (naiveSample N k)) (sc.motion2 (naiveSample N k)) ≠ 0 ∧
        (∀ j, j < k →
          sc.collide (sc.motion1 (naiveSample N j)) (sc.motion2 (naiveSample N j)) = 0) ∧
        continuousCollideNaive sc request result
          = (naiveSample N k,
            ⟨true, naiveSample N k, sc.motion1 (naiveSample N k),
              sc.motion2 (naiveSample N k)⟩)) ∨
      ((∀ k, k < N →
          sc.collide (sc.motion1 (naiveSample N k)) (sc.motion2 (naiveSample N k)) = 0) ∧
        continuousCollideNaive sc request result
          = (1, ⟨false, 1, result.contact_tf1, result.contact_tf2⟩)) := by
  unfold continuousCollideNaive
  simp only [hN]
  rcases naiveLoop_spec sc N N 0 with ⟨k, -, h2, h3, h4, h5⟩ | ⟨h1, h2⟩
  · left
    refine ⟨k, by omega, h3, fun j hj => h4 j (Nat.zero_le _) hj, ?_⟩
    rw [h5]
  · right
    refine ⟨fun k hk => h1 k (Nat.zero_le _) (by omega), ?_⟩
    rw [h2]

/-- C17. With `N = min(num_max_iterations, ceil(1/toc_err))`,
`continuousCollideNaive` tests the samples `t_i = i/(N-1)`, `i = 0 .. N-1`, in
increasing order (for `N >= 2`: `t_0 = 0`, `t_{N-1} = 1`, all in `[0,1]`,
strictly increasing).  Either some sample overlaps, and for the first such
`t_k` it returns `t_k` with `is_collide = true`, `time_of_contact = t_k` and
the transforms at `t_k`; or none does, and it returns 1 with
`is_collide = false`, `time_of_contact = 1` and the contact transforms left as
they were. -/
theorem continuousCollideNaive_first_overlap (sc : Scene K)
    (request : ContinuousCollisionRequest K) (result : ContinuousCollisionResult K) :
    (2 ≤ min request.num_max_iterations (sc.ceilToSize (1 / request.toc_err)) →
      (naiveSample (min request.num_max_iterations (sc.ceilToSize (1 / request.toc_err))) 0
        : K) = 0 ∧
      (naiveSample (min request.num_max_iterations (sc.ceilToSize (1 / request.toc_err)))
        (min request.num_max_iterations (sc.ceilToSize (1 / request.toc_err)) - 1) : K) = 1 ∧
      (∀ i, i < min request.num_max_iterations (sc.ceilToSize (1 / request.toc_err)) →
        (0 : K) ≤ naiveSample
          (min request.num_max_iterations (sc.ceilToSize (1 / request.toc_err))) i ∧
        (naiveSample (min request.num_max_iterations (sc.ceilToSize (1 / request.toc_err))) i
          : K) ≤ 1) ∧
      (∀ i j, i < j →
        (naiveSample (min request.num_max_iterations (sc.ceilToSize (1 / request.toc_err))) i
          : K) < naiveSample
            (min request.num_max_iterations (sc.ceilToSize (1 / request.toc_err))) j)) ∧
    ((∃ k, k < min request.num_max_iterations (sc.ceilToSize (1 / request.toc_err)) ∧
        sc.collide
          (sc.motion1 (naiveSample
            (min request.num_max_iterations (sc.ceilToSize (1 / request.toc_err))) k))
          (sc.motion2 (naiveSample
            (min request.num_max_iterations (sc.ceilToSize (1 / request.toc_err))) k)) ≠ 0 ∧
        (∀ j, j < k →
          sc.collide
            (sc.motion1 (naiveSample
              (min request.num_max_iterations (sc.ceilToSize (1 / request.toc_err))) j))
            (sc.motion2 (naiveSample
              (min request.num_max_iterations (sc.ceilToSize (1 / request.toc_err))) j)) = 0) ∧
        continuousCollideNaive sc request result
          = (naiveSample
              (min request.num_max_iterations (sc.ceilToSize (1 / request.toc_err))) k,
            ⟨true,
              naiveSample
                (min request.num_max_iterations (sc.ceilToSize (1 / request.toc_err))) k,
              sc.motion1 (naiveSample
                (min request.num_max_iterations (sc.ceilToSize (1 / request.toc_err))) k),
              sc.motion2 (naiveSample
                (min request.num_max_iterations (sc.ceilToSize (1 / request.toc_err))) k)⟩)) ∨
      ((∀ k, k < min request.num_max_iterations (sc.ceilToSize (1 / request.toc_err)) →
          sc.collide
            (sc.motion1 (naiveSample
              (min request.num_max_iterations (sc.ceilToSize (1 / request.toc_err))) k))
            (sc.motion2 (naiveSample
              (min request.num_max_iterations (sc.ceilToSize (1 / request.toc_err))) k)) = 0) ∧
        continuousCollideNaive sc request result
          = (1, ⟨false, 1, result.contact_tf1, result.contact_tf2⟩))) := by
  generalize hN : min request.num_max_iterations (sc.ceilToSize (1 / request.toc_err)) = N
  exact ⟨fun h2 => naiveSample_range N h2, continuousCollideNaive_cases sc request result N hN⟩

/-- C18. Whenever `continuousCollideNaive` leaves `is_collide = true`, the
value it returns is `time_of_contact`, `contact_tf1` and `contact_tf2` are the
transforms of the two motions at `time_of_contact`, and `collide` reports an
overlap there. -/
theorem continuousCollideNaive_sound (sc : Scene K)
    (request : ContinuousCollisionRequest K) (result : ContinuousCollisionResult K)
    (h : (continuousCollideNaive sc request result).2.is_collide = true) :
    (continuousCollideNaive sc request result).1
      = (continuousCollideNaive sc request result).2.time_of_contact ∧
    (continuousCollideNaive sc request result).2.contact_tf1
      = sc.motion1 (continuousCollideNaive sc request result).2.time_of_contact ∧
    (continuousCollideNaive sc request result).2.contact_tf2
      = sc.motion2 (continuousCollideNaive sc request result).2.time_of_contact ∧
    sc.collide (continuousCollideNaive sc request result).2.contact_tf1
      (continuousCollideNaive sc request result).2.contact_tf2 ≠ 0 := by
  rcases continuousCollideNaive_cases sc request result _ rfl with
    ⟨k, -, h3, -, h5⟩ | ⟨-, h2⟩
  · rw [h5]
    exact ⟨rfl, rfl, rfl, h3⟩
  · rw [h2] at h
    cases h

theorem continuousCollideNaive_sound_witness :
    (continuousCollideNaive slideScene
        ⟨4, 1 / 10, CCDMotionType.CCDM_TRANS, GJKSolverType.GST_LIBCCD,
          CCDSolverType.CCDC_NAIVE⟩
        ⟨false, 1, ⟨Mat3.identity, ⟨0, 0, 0⟩⟩, ⟨Mat3.identity, ⟨0, 0, 0⟩⟩⟩).2.is_collide = true ∧
    (continuousCollideNaive slideScene
        ⟨4, 1 / 10, CCDMotionType.CCDM_TRANS, GJKSolverType.GST_LIBCCD,
          CCDSolverType.CCDC_NAIVE⟩
        ⟨false, 1, ⟨Mat3.identity, ⟨0, 0, 0⟩⟩, ⟨Mat3.identity, ⟨0, 0, 0⟩⟩⟩).2.time_of_contact
      = 2 / 3 ∧
    slideScene.collide
      (continuousCollideNaive slideScene
        ⟨4, 1 / 10, CCDMotionType.CCDM_TRANS, GJKSolverType.GST_LIBCCD,
          CCDSolverType.CCDC_NAIVE⟩
        ⟨false, 1, ⟨Mat3.identity, ⟨0, 0, 0⟩⟩, ⟨Mat3.identity, ⟨0, 0, 0⟩⟩⟩).2.contact_tf1
      (continuousCollideNaive slideScene
        ⟨4, 1 / 10, CCDMotionType.CCDM_TRANS, GJKSolverType.GST_LIBCCD,
          CCDSolverType.CCDC_NAIVE⟩
        ⟨false, 1, ⟨Mat3.identity, ⟨0, 0, 0⟩⟩, ⟨Mat3.identity, ⟨0, 0, 0⟩⟩⟩).2.contact_tf2 ≠ 0 := by
  have hrun : continuousCollideNaive slideScene
        ⟨4, 1 / 10, CCDMotionType.CCDM_TRANS, GJKSolverType.GST_LIBCCD,
          CCDSolverType.CCDC_NAIVE⟩
        ⟨false, 1, ⟨Mat3.identity, ⟨0, 0, 0⟩⟩, ⟨Mat3.identity, ⟨0, 0, 0⟩⟩⟩
      = (2 / 3, ⟨true, 2 / 3, ⟨Mat3.identity, ⟨0, 0, 0⟩⟩, ⟨Mat3.identity, ⟨1, 0, 0⟩⟩⟩) := by
    norm_num [continuousCollideNaive, naiveLoop, naiveSample, slideScene, abs_of_pos,
      abs_of_nonneg]
  have hc : (continuousCollideNaive slideScene
        ⟨4, 1 / 10, CCDMotionType.CCDM_TRANS, GJKSolverType.GST_LIBCCD,
          CCDSolverType.CCDC_NAIVE⟩
        ⟨false, 1, ⟨Mat3.identity, ⟨0, 0, 0⟩⟩, ⟨Mat3.identity, ⟨0, 0, 0⟩⟩⟩).2.is_collide
      = true := by rw [hrun]
  refine ⟨hc, ?_, (continuousCollideNaive_sound slideScene _ _ hc).2.2.2⟩
  rw [hrun]

/-! ## The dispatchers of `continuous_collision.h` -/

/-- C19. On a request that the validity matrix rejects (PolynomialSolver
unless both objects are meshes and the motion type is Translation, RayShooting
unless both objects are geometries and the motion type is Translation, or a
solver type outside the enumeration) `continuousCollide` returns `-1` and
leaves the result record as it was. -/
theorem continuousCollide_invalid (sc : Scene K) (request : ContinuousCollisionRequest K)
    (result : ContinuousCollisionResult K)
    (h : (request.ccd_solver_type = CCDSolverType.CCDC_POLYNOMIAL_SOLVER ∧
          ¬ (sc.objectType1 = ObjectType.OT_BVH ∧ sc.objectType2 = ObjectType.OT_BVH ∧
            request.ccd_motion_type = CCDMotionType.CCDM_TRANS)) ∨
        (request.ccd_solver_type = CCDSolverType.CCDC_RAY_SHOOTING ∧
          ¬ (sc.objectType1 = ObjectType.OT_GEOM ∧ sc.objectType2 = ObjectType.OT_GEOM ∧
            request.ccd_motion_type = CCDMotionType.CCDM_TRANS)) ∨
        request.ccd_solver_type = CCDSolverType.unrecognised) :
    continuousCollide sc request result = (-1, result) := by
  unfold continuousCollide
  rcases h with ⟨h1, h2⟩ | ⟨h1, h2⟩ | h1
  · rw [h1]
    simp only []
    rw [if_neg h2]
  · rw [h1]
    simp only []
    rw [if_neg h2]
  · rw [h1]

theorem continuousCollide_invalid_witness :
    continuousCollide slideScene
        ⟨10, 1 / 10, CCDMotionType.CCDM_TRANS, GJKSolverType.GST_LIBCCD,
          CCDSolverType.CCDC_POLYNOMIAL_SOLVER⟩
        ⟨true, 1 / 3, ⟨Mat3.identity, ⟨5, 0, 0⟩⟩, ⟨Mat3.identity, ⟨7, 0, 0⟩⟩⟩
      = (-1, ⟨true, 1 / 3, ⟨Mat3.identity, ⟨5, 0, 0⟩⟩, ⟨Mat3.identity, ⟨7, 0, 0⟩⟩⟩) :=
  continuousCollide_invalid slideScene _ _
    (Or.inl ⟨rfl, fun h => by
      have h1 := h.1
      simp [slideScene] at h1⟩)

theorem conservativeAdvancement_miss_value (sc : Scene K)
    (request : ContinuousCollisionRequest K) (result : ContinuousCollisionResult K)
    (hsolver : request.ccd_solver_type = CCDSolverType.CCDC_CONSERVATIVE_ADVANCEMENT)
    (hlib : sc.tableLibccd sc.nodeType1 sc.nodeType2 = none)
    (hind : sc.tableIndep sc.nodeType1 sc.nodeType2 = none) :
    (continuousCollide sc request result).1 = -1 ∧
    (result.is_collide = false → continuousCollide sc request result = (-1, result)) ∧
    (result.is_collide = true → request.gjk_solver_type ≠ GJKSolverType.unrecognised →
      continuousCollide sc request result
        = (-1, ⟨true, result.time_of_contact, sc.motion1 result.time_of_contact,
            sc.motion2 result.time_of_contact⟩)) := by
  unfold continuousCollide
  rw [hsolver]
  simp only []
  unfold continuousCollideConservativeAdvancement
  cases hg : request.gjk_solver_type <;>
    simp only [continuousCollideConservativeAdvancementImpl, hlib, hind] <;>
    cases hc : result.is_collide <;> simp

/-- C20 (failing input). The ConservativeAdvancement solver on a pair whose
lookup entry is empty, entered with a result whose `is_collide` is already
true: `continuousCollide` returns `-1`, yet it overwrites `contact_tf1` and
`contact_tf2` with the transforms of the two motions at the incoming
`time_of_contact`, so the result is not left as it was. -/
theorem continuousCollide_miss_overwrites_contact_tf :
    continuousCollide slideScene
        ⟨10, 1 / 10, CCDMotionType.CCDM_TRANS, GJKSolverType.GST_LIBCCD,
          CCDSolverType.CCDC_CONSERVATIVE_ADVANCEMENT⟩
        ⟨true, 1 / 3, ⟨Mat3.identity, ⟨5, 0, 0⟩⟩, ⟨Mat3.identity, ⟨7, 0, 0⟩⟩⟩
      = (-1, ⟨true, 1 / 3, ⟨Mat3.identity, ⟨0, 0, 0⟩⟩, ⟨Mat3.identity, ⟨2, 0, 0⟩⟩⟩) ∧
    (continuousCollide slideScene
        ⟨10, 1 / 10, CCDMotionType.CCDM_TRANS, GJKSolverType.GST_LIBCCD,
          CCDSolverType.CCDC_CONSERVATIVE_ADVANCEMENT⟩
        ⟨true, 1 / 3, ⟨Mat3.identity, ⟨5, 0, 0⟩⟩, ⟨Mat3.identity, ⟨7, 0, 0⟩⟩⟩).2
      ≠ ⟨true, 1 / 3, ⟨Mat3.identity, ⟨5, 0, 0⟩⟩, ⟨Mat3.identity, ⟨7, 0, 0⟩⟩⟩ ∧
    slideScene.tableLibccd slideScene.nodeType1 slideScene.nodeType2 = none := by
  have hrun : continuousCollide slideScene
        ⟨10, 1 / 10, CCDMotionType.CCDM_TRANS, GJKSolverType.GST_LIBCCD,
          CCDSolverType.CCDC_CONSERVATIVE_ADVANCEMENT⟩
        ⟨true, 1 / 3, ⟨Mat3.identity, ⟨5, 0, 0⟩⟩, ⟨Mat3.identity, ⟨7, 0, 0⟩⟩⟩
      = (-1, ⟨true, 1 / 3, ⟨Mat3.identity, ⟨0, 0, 0⟩⟩, ⟨Mat3.identity, ⟨2, 0, 0⟩⟩⟩) := by
    norm_num [continuousCollide, continuousCollideConservativeAdvancement,
      continuousCollideConservativeAdvancementImpl, slideScene]
  refine ⟨hrun, ?_, rfl⟩
  rw [hrun]
  intro h
  have h1 := congrArg (fun r => r.contact_tf1.translation.x) h
  norm_num at h1


/-! ## Moving both boxes together -/

theorem deepest_map (ψ : Candidate K → Candidate K) (hdep : ∀ c, (ψ c).dep = c.dep)
    (cs : List (Candidate K)) : deepest (cs.map ψ) = deepest cs := by
  have h : (cs.map ψ).map Candidate.dep = cs.map Candidate.dep := by
    rw [List.map_map]
    exact List.map_congr_left (fun c _ => hdep c)
  unfold deepest
  rw [h, List.length_map]

/-- A change of the two poses that leaves the axis search alone and acts on
the normal by `ν`, on the lifted points by `ψ` and on the emitted contacts by
`φ` acts in the same way on the whole result of `boxBox2`. -/
theorem boxBox2_transport (cfg : Scalar K) (side1 side2 : Vec3 K)
    (tf1 tf2 tf1' tf2' : Transform3 K) (ν : Vec3 K → Vec3 K)
    (ψ : Candidate K → Candidate K) (φ : ContactPoint K → ContactPoint K)
    (hsat : satPhase cfg (side1.smul (1 / 2)) (side2.smul (1 / 2)) tf1' tf2'
      = satPhase cfg (side1.smul (1 / 2)) (side2.smul (1 / 2)) tf1 tf2)
    (hnormal : ∀ st, satNormal tf1' tf2' st = ν (satNormal tf1 tf2 st))
    (hedge : ∀ n depth code,
      edgeContact (side1.smul (1 / 2)) (side2.smul (1 / 2)) tf1' tf2' (ν n) depth code
        = φ (edgeContact (side1.smul (1 / 2)) (side2.smul (1 / 2)) tf1 tf2 n depth code))
    (hrect : ∀ n code,
      faceRect (faceFrame (side1.smul (1 / 2)) (side2.smul (1 / 2)) tf1' tf2' (ν n) code)
        = faceRect (faceFrame (side1.smul (1 / 2)) (side2.smul (1 / 2)) tf1 tf2 n code))
    (hquad : ∀ n code,
      faceQuad (faceFrame (side1.smul (1 / 2)) (side2.smul (1 / 2)) tf1' tf2' (ν n) code)
        = faceQuad (faceFrame (side1.smul (1 / 2)) (side2.smul (1 / 2)) tf1 tf2 n code))
    (hcand : ∀ n code ret,
      faceCandidates (faceFrame (side1.smul (1 / 2)) (side2.smul (1 / 2)) tf1' tf2' (ν n) code)
          ret
        = (faceCandidates
            (faceFrame (side1.smul (1 / 2)) (side2.smul (1 / 2)) tf1 tf2 n code) ret).map ψ)
    (hret : ∀ c, (ψ c).ret = c.ret) (hdep : ∀ c, (ψ c).dep = c.dep)
    (hzero : ψ ⟨(0, 0), ⟨0, 0, 0⟩, 0⟩ = ⟨(0, 0), ⟨0, 0, 0⟩, 0⟩)
    (hemit : ∀ n code c,
      faceEmit (faceFrame (side1.smul (1 / 2)) (side2.smul (1 / 2)) tf1' tf2' (ν n) code)
          (ν n) code (ψ c)
        = φ (faceEmit (faceFrame (side1.smul (1 / 2)) (side2.smul (1 / 2)) tf1 tf2 n code)
            n code c))
    (normal : Vec3 K) (depth : K) (maxc : Int) (contacts : List (ContactPoint K)) :
    (boxBox2 cfg side1 tf1' side2 tf2' normal depth maxc contacts).ret
      = (boxBox2 cfg side1 tf1 side2 tf2 normal depth maxc contacts).ret ∧
    (boxBox2 cfg side1 tf1' side2 tf2' normal depth maxc contacts).return_code
      = (boxBox2 cfg side1 tf1 side2 tf2 normal depth maxc contacts).return_code ∧
    (boxBox2 cfg side1 tf1' side2 tf2' normal depth maxc contacts).depth
      = (boxBox2 cfg side1 tf1 side2 tf2 normal depth maxc contacts).depth ∧
    ((boxBox2 cfg side1 tf1 side2 tf2 normal depth maxc contacts).return_code ≠ 0 →
      (boxBox2 cfg side1 tf1' side2 tf2' normal depth maxc contacts).normal
        = ν (boxBox2 cfg side1 tf1 side2 tf2 normal depth maxc contacts).normal) ∧
    ((boxBox2 cfg side1 tf1 side2 tf2 normal depth maxc contacts).return_code = 0 →
      (boxBox2 cfg side1 tf1' side2 tf2' normal depth maxc contacts).normal = normal ∧
      (boxBox2 cfg side1 tf1 side2 tf2 normal depth maxc contacts).normal = normal) ∧
    (boxBox2 cfg side1 tf1 side2 tf2 normal depth maxc contacts).contacts.take contacts.length
      = contacts ∧
    (boxBox2 cfg side1 tf1' side2 tf2' normal depth maxc contacts).contacts
      = contacts ++
        ((boxBox2 cfg side1 tf1 side2 tf2 normal depth maxc contacts).contacts.drop
          contacts.length).map φ := by
  have hmapret : ∀ cs : List (Candidate K), (cs.map ψ).map Candidate.ret
      = cs.map Candidate.ret := by
    intro cs
    rw [List.map_map]
    exact List.map_congr_left (fun c _ => hret c)
  have hemit2 : ∀ n code (cs : List (Candidate K)),
      (cs.map ψ).map
          (faceEmit (faceFrame (side1.smul (1 / 2)) (side2.smul (1 / 2)) tf1' tf2' (ν n) code)
            (ν n) code)
        = (cs.map (faceEmit
            (faceFrame (side1.smul (1 / 2)) (side2.smul (1 / 2)) tf1 tf2 n code) n code)).map
            φ := by
    intro n code cs
    rw [List.map_map, List.map_map]
    exact List.map_congr_left (fun c _ => hemit n code c)
  have hpick : ∀ (cs : List (Candidate K)) (m : Nat) (iret : List Nat),
      (List.range m).map (fun j => (cs.map ψ).getD (iret.getD j 0) ⟨(0, 0), ⟨0, 0, 0⟩, 0⟩)
        = ((List.range m).map
            (fun j => cs.getD (iret.getD j 0) ⟨(0, 0), ⟨0, 0, 0⟩, 0⟩)).map ψ := by
    intro cs m iret
    rw [List.map_map]
    apply List.map_congr_left
    intro j _
    have := List.getD_map (l := cs) (d := (⟨(0, 0), ⟨0, 0, 0⟩, 0⟩ : Candidate K))
      (n := iret.getD j 0) ψ
    rw [hzero] at this
    exact this
  unfold boxBox2
  simp only [hsat]
  cases hst : satPhase cfg (side1.smul (1 / 2)) (side2.smul (1 / 2)) tf1 tf2 with
  | none => simp
  | some st =>
    simp only [hnormal, hrect, hquad, hcand, List.length_map, hmapret,
      deepest_map ψ hdep, hpick, hemit2, hedge]
    by_cases hc : st.code = 0
    · simp [hc]
    · simp only [hc, if_false]
      split_ifs <;> simp [hc]

theorem vec_add_sub_add (a b d : Vec3 K) : (a.add d).sub (b.add d) = a.sub b := by
  simp only [Vec3.add, Vec3.sub, Vec3.mk.injEq]
  refine ⟨?_, ?_, ?_⟩ <;> ring

theorem vec_add_right_comm (a b d : Vec3 K) : (a.add d).add b = (a.add b).add d := by
  simp only [Vec3.add, Vec3.mk.injEq]
  refine ⟨?_, ?_, ?_⟩ <;> ring

theorem vec_add_sub_right_comm (a b d : Vec3 K) : (a.add d).sub b = (a.sub b).add d := by
  simp only [Vec3.add, Vec3.sub, Vec3.mk.injEq]
  refine ⟨?_, ?_, ?_⟩ <;> ring

theorem shift_linear (tf : Transform3 K) (d : Vec3 K) : (tf.shift d).linear = tf.linear := rfl

theorem shift_translation (tf : Transform3 K) (d : Vec3 K) :
    (tf.shift d).translation = tf.translation.add d := rfl

theorem satPhase_shift (cfg : Scalar K) (A B : Vec3 K) (tf1 tf2 : Transform3 K) (d : Vec3 K) :
    satPhase cfg A B (tf1.shift d) (tf2.shift d) = satPhase cfg A B tf1 tf2 := by
  simp only [satPhase, axes, faceAxes, edgeAxes, shift_linear, shift_translation,
    vec_add_sub_add]

theorem satNormal_shift (tf1 tf2 : Transform3 K) (d : Vec3 K) (st : SatState K) :
    satNormal (tf1.shift d) (tf2.shift d) st = satNormal tf1 tf2 st := by
  simp only [satNormal]
  split_ifs <;> rfl

theorem cornerWalk_shift (tf : Transform3 K) (d half normal : Vec3 K) (pos : K) :
    cornerWalk (tf.shift d) half normal pos = (cornerWalk tf half normal pos).add d := by
  simp only [cornerWalk, List.foldl, shift_linear, shift_translation, vec_add_right_comm]

theorem lineClosestApproach_shift (pa ua pb ub d : Vec3 K) :
    lineClosestApproach (pa.add d) ua (pb.add d) ub = lineClosestApproach pa ua pb ub := by
  simp only [lineClosestApproach, vec_add_sub_add]

theorem edgeContact_shift (A B : Vec3 K) (tf1 tf2 : Transform3 K) (d n : Vec3 K) (depth : K)
    (code : Nat) :
    edgeContact A B (tf1.shift d) (tf2.shift d) n depth code
      = ContactPoint.shift d (edgeContact A B tf1 tf2 n depth code) := by
  simp only [edgeContact, cornerWalk_shift, lineClosestApproach_shift, shift_linear,
    ContactPoint.shift, vec_add_right_comm]

theorem faceFrame_shift (A B : Vec3 K) (tf1 tf2 : Transform3 K) (d n : Vec3 K) (code : Nat) :
    faceFrame A B (tf1.shift d) (tf2.shift d) n code
      = { faceFrame A B tf1 tf2 n code with
          Ta := (faceFrame A B tf1 tf2 n code).Ta.shift d
          Tb := (faceFrame A B tf1 tf2 n code).Tb.shift d } := by
  by_cases h : code ≤ 3 <;>
    simp only [faceFrame, h, if_true, if_false, shift_linear, shift_translation,
      vec_add_sub_add]

theorem faceCandidates_shift (A B : Vec3 K) (tf1 tf2 : Transform3 K) (d n : Vec3 K)
    (code : Nat) (ret : List (K × K)) :
    faceCandidates (faceFrame A B (tf1.shift d) (tf2.shift d) n code) ret
      = faceCandidates (faceFrame A B tf1 tf2 n code) ret := by
  rw [faceFrame_shift]
  simp only [faceCandidates, shift_linear]

theorem faceEmit_shift (A B : Vec3 K) (tf1 tf2 : Transform3 K) (d n : Vec3 K)
    (code : Nat) (c : Candidate K) :
    faceEmit (faceFrame A B (tf1.shift d) (tf2.shift d) n code) n code c
      = ContactPoint.shift d (faceEmit (faceFrame A B tf1 tf2 n code) n code c) := by
  rw [faceFrame_shift]
  simp only [faceEmit, shift_translation, ContactPoint.shift]
  split_ifs
  · simp only [ContactPoint.mk.injEq, true_and, and_true]
    simp only [Vec3.add, Vec3.mk.injEq]
    refine ⟨?_, ?_, ?_⟩ <;> ring
  · simp only [ContactPoint.mk.injEq, true_and, and_true]
    simp only [Vec3.add, Vec3.sub, Vec3.mk.injEq]
    refine ⟨?_, ?_, ?_⟩ <;> ring

/-- C11. Translation invariance of `boxBox2`: with both translations moved by
the same vector `d` the call returns the same value and writes the same
`return_code`, `normal` and `depth`; it appends the same number of contacts,
and the appended contacts are those of the original call with their positions
moved by `d` (same contact normal and depth). -/
theorem boxBox2_translation_invariant (cfg : Scalar K) (side1 side2 : Vec3 K)
    (tf1 tf2 : Transform3 K) (normal : Vec3 K) (depth : K) (maxc : Int)
    (contacts : List (ContactPoint K)) (d : Vec3 K) :
    (boxBox2 cfg side1 (tf1.shift d) side2 (tf2.shift d) normal depth maxc contacts).ret
      = (boxBox2 cfg side1 tf1 side2 tf2 normal depth maxc contacts).ret ∧
    (boxBox2 cfg side1 (tf1.shift d) side2 (tf2.shift d) normal depth maxc
        contacts).return_code
      = (boxBox2 cfg side1 tf1 side2 tf2 normal depth maxc contacts).return_code ∧
    (boxBox2 cfg side1 (tf1.shift d) side2 (tf2.shift d) normal depth maxc contacts).normal
      = (boxBox2 cfg side1 tf1 side2 tf2 normal depth maxc contacts).normal ∧
    (boxBox2 cfg side1 (tf1.shift d) side2 (tf2.shift d) normal depth maxc contacts).depth
      = (boxBox2 cfg side1 tf1 side2 tf2 normal depth maxc contacts).depth ∧
    (boxBox2 cfg side1 (tf1.shift d) side2 (tf2.shift d) normal depth maxc
        contacts).contacts.length
      = (boxBox2 cfg side1 tf1 side2 tf2 normal depth maxc contacts).contacts.length ∧
    (boxBox2 cfg side1 tf1 side2 tf2 normal depth maxc contacts).contacts.take contacts.length
      = contacts ∧
    (boxBox2 cfg side1 (tf1.shift d) side2 (tf2.shift d) normal depth maxc contacts).contacts
      = contacts ++
        ((boxBox2 cfg side1 tf1 side2 tf2 normal depth maxc contacts).contacts.drop
          contacts.length).map (ContactPoint.shift d) := by
  obtain ⟨h1, h2, h3, h4, h5, h6, h7⟩ :=
    boxBox2_transport cfg side1 side2 tf1 tf2 (tf1.shift d) (tf2.shift d) id id
      (ContactPoint.shift d)
      (satPhase_shift cfg _ _ tf1 tf2 d)
      (fun st => satNormal_shift tf1 tf2 d st)
      (fun n depth code => edgeContact_shift _ _ tf1 tf2 d n depth code)
      (fun n code => by rw [id, faceFrame_shift]; rfl)
      (fun n code => by rw [id, faceFrame_shift]; rfl)
      (fun n code ret => by rw [id, faceCandidates_shift, List.map_id])
      (fun c => rfl) (fun c => rfl) rfl
      (fun n code c => faceEmit_shift _ _ tf1 tf2 d n code c)
      normal depth maxc contacts
  refine ⟨h1, h2, ?_, h3, ?_, h6, h7⟩
  · by_cases hc : (boxBox2 cfg side1 tf1 side2 tf2 normal depth maxc contacts).return_code = 0
    · rw [(h5 hc).1, (h5 hc).2]
    · exact h4 hc
  · rw [h7]
    have hlen := congrArg List.length h6
    rw [List.length_take] at hlen
    rw [List.length_append, List.length_map, List.length_drop]
    omega

/-! ## Turning both boxes together -/

theorem rot_dot {g : Mat3 K} (h : g.IsRotation) (a b : Vec3 K) :
    (g.mulVec a).dot (g.mulVec b) = a.dot b := by
  obtain ⟨h0, h1, h2, h01, h02, h12, -⟩ := h
  simp only [Mat3.col, coeff_literals, Vec3.dot] at h0 h1 h2 h01 h02 h12
  simp only [Mat3.mulVec, Mat3.row, coeff_literals, Vec3.dot]
  linear_combination (a.x * b.x) * h0 + (a.y * b.y) * h1 + (a.z * b.z) * h2
    + (a.x * b.y + a.y * b.x) * h01 + (a.x * b.z + a.z * b.x) * h02
    + (a.y * b.z + a.z * b.y) * h12

theorem mul_col_any (g m : Mat3 K) (j : Nat) : (g.mul m).col j = g.mulVec (m.col j) := by
  by_cases h0 : j = 0
  · subst h0; rfl
  · by_cases h1 : j = 1
    · subst h1; rfl
    · have e : ∀ n : Mat3 K, n.col j = n.col 2 := by
        intro n
        simp [Mat3.col, Mat3.coeff, h0, h1]
      rw [e, e]
      rfl

theorem mul_mulVec (g m : Mat3 K) (v : Vec3 K) :
    (g.mul m).mulVec v = g.mulVec (m.mulVec v) := by
  simp only [Mat3.mul, Mat3.mulVec, Mat3.row, Mat3.col, coeff_literals, Vec3.dot,
    Vec3.mk.injEq]
  refine ⟨?_, ?_, ?_⟩ <;> ring

theorem mulVec_add (g : Mat3 K) (a b : Vec3 K) :
    (g.mulVec a).add (g.mulVec b) = g.mulVec (a.add b) := by
  simp only [Mat3.mulVec, Vec3.dot, Vec3.add, Vec3.mk.injEq]
  refine ⟨?_, ?_, ?_⟩ <;> ring

theorem mulVec_sub (g : Mat3 K) (a b : Vec3 K) :
    (g.mulVec a).sub (g.mulVec b) = g.mulVec (a.sub b) := by
  simp only [Mat3.mulVec, Vec3.dot, Vec3.sub, Vec3.mk.injEq]
  refine ⟨?_, ?_, ?_⟩ <;> ring

theorem mulVec_smul (g : Mat3 K) (a : Vec3 K) (s : K) :
    (g.mulVec a).smul s = g.mulVec (a.smul s) := by
  simp only [Mat3.mulVec, Vec3.dot, Vec3.smul, Vec3.mk.injEq]
  refine ⟨?_, ?_, ?_⟩ <;> ring

theorem mulVec_neg (g : Mat3 K) (a : Vec3 K) : (g.mulVec a).neg = g.mulVec a.neg := by
  simp only [Mat3.mulVec, Vec3.dot, Vec3.neg, Vec3.mk.injEq]
  refine ⟨?_, ?_, ?_⟩ <;> ring

theorem mulVec_zero (g : Mat3 K) : g.mulVec ⟨0, 0, 0⟩ = ⟨0, 0, 0⟩ := by
  simp only [Mat3.mulVec, Vec3.dot, Vec3.mk.injEq]
  refine ⟨?_, ?_, ?_⟩ <;> ring

theorem transpose_mulVec_cols (m : Mat3 K) (v : Vec3 K) :
    m.transpose.mulVec v = ⟨(m.col 0).dot v, (m.col 1).dot v, (m.col 2).dot v⟩ := rfl

theorem transpose_mul_cols (a b : Mat3 K) :
    a.transpose.mul b
      = ⟨(a.col 0).dot (b.col 0), (a.col 0).dot (b.col 1), (a.col 0).dot (b.col 2),
         (a.col 1).dot (b.col 0), (a.col 1).dot (b.col 1), (a.col 1).dot (b.col 2),
         (a.col 2).dot (b.col 0), (a.col 2).dot (b.col 1), (a.col 2).dot (b.col 2)⟩ := rfl

theorem transpose_mulVec_rot {g : Mat3 K} (h : g.IsRotation) (m : Mat3 K) (v : Vec3 K) :
    (g.mul m).transpose.mulVec (g.mulVec v) = m.transpose.mulVec v := by
  rw [transpose_mulVec_cols, transpose_mulVec_cols]
  simp only [mul_col_any, rot_dot h]

theorem transpose_mul_rot {g : Mat3 K} (h : g.IsRotation) (a b : Mat3 K) :
    (g.mul a).transpose.mul (g.mul b) = a.transpose.mul b := by
  rw [transpose_mul_cols, transpose_mul_cols]
  simp only [mul_col_any, rot_dot h]

theorem rotate_linear (g : Mat3 K) (tf : Transform3 K) :
    (Transform3.rotate g tf).linear = g.mul tf.linear := rfl

theorem rotate_translation (g : Mat3 K) (tf : Transform3 K) :
    (Transform3.rotate g tf).translation = g.mulVec tf.translation := rfl

theorem satPhase_rotate (cfg : Scalar K) {g : Mat3 K} (h : g.IsRotation) (A B : Vec3 K)
    (tf1 tf2 : Transform3 K) :
    satPhase cfg A B (Transform3.rotate g tf1) (Transform3.rotate g tf2)
      = satPhase cfg A B tf1 tf2 := by
  simp only [satPhase, axes, faceAxes, edgeAxes, rotate_linear, rotate_translation,
    mulVec_sub, transpose_mulVec_rot h, transpose_mul_rot h, mul_col_any, rot_dot h]

theorem satNormal_rotate (g : Mat3 K) (tf1 tf2 : Transform3 K) (st : SatState K) :
    satNormal (Transform3.rotate g tf1) (Transform3.rotate g tf2) st
      = g.mulVec (satNormal tf1 tf2 st) := by
  simp only [satNormal]
  split_ifs <;> simp only [rotate_linear, mul_col_any, mul_mulVec, mulVec_neg]

theorem cornerWalk_rotate {g : Mat3 K} (h : g.IsRotation) (tf : Transform3 K)
    (half normal : Vec3 K) (pos : K) :
    cornerWalk (Transform3.rotate g tf) half (g.mulVec normal) pos
      = g.mulVec (cornerWalk tf half normal pos) := by
  simp only [cornerWalk, List.foldl, rotate_linear, rotate_translation, mul_col_any, rot_dot h,
    mulVec_smul, mulVec_add]

theorem lineClosestApproach_rotate {g : Mat3 K} (h : g.IsRotation) (pa ua pb ub : Vec3 K) :
    lineClosestApproach (g.mulVec pa) (g.mulVec ua) (g.mulVec pb) (g.mulVec ub)
      = lineClosestApproach pa ua pb ub := by
  simp only [lineClosestApproach, mulVec_sub, rot_dot h]

theorem edgeContact_rotate {g : Mat3 K} (h : g.IsRotation) (A B : Vec3 K)
    (tf1 tf2 : Transform3 K) (n : Vec3 K) (depth : K) (code : Nat) :
    edgeContact A B (Transform3.rotate g tf1) (Transform3.rotate g tf2) (g.mulVec n) depth code
      = ContactPoint.rotate g (edgeContact A B tf1 tf2 n depth code) := by
  simp only [edgeContact, cornerWalk_rotate h, rotate_linear, mul_col_any,
    lineClosestApproach_rotate h, ContactPoint.rotate, mulVec_smul, mulVec_add]

theorem faceFrame_rotate {g : Mat3 K} (h : g.IsRotation) (A B : Vec3 K)
    (tf1 tf2 : Transform3 K) (n : Vec3 K) (code : Nat) :
    faceFrame A B (Transform3.rotate g tf1) (Transform3.rotate g tf2) (g.mulVec n) code
      = { faceFrame A B tf1 tf2 n code with
          Ta := Transform3.rotate g (faceFrame A B tf1 tf2 n code).Ta
          Tb := Transform3.rotate g (faceFrame A B tf1 tf2 n code).Tb
          normal2 := g.mulVec (faceFrame A B tf1 tf2 n code).normal2
          center := g.mulVec (faceFrame A B tf1 tf2 n code).center } := by
  by_cases hc : code ≤ 3 <;>
    simp only [faceFrame, hc, if_true, if_false, rotate_linear, rotate_translation,
      mulVec_neg, transpose_mulVec_rot h, mul_col_any, rot_dot h, mulVec_sub, mulVec_smul,
      mulVec_add, ← apply_ite g.mulVec]

theorem faceCandidates_rotate {g : Mat3 K} (h : g.IsRotation) (A B : Vec3 K)
    (tf1 tf2 : Transform3 K) (n : Vec3 K) (code : Nat) (ret : List (K × K)) :
    faceCandidates (faceFrame A B (Transform3.rotate g tf1) (Transform3.rotate g tf2)
        (g.mulVec n) code) ret
      = (faceCandidates (faceFrame A B tf1 tf2 n code) ret).map
          (fun c => ⟨c.ret, g.mulVec c.point, c.dep⟩) := by
  rw [faceFrame_rotate h]
  simp only [faceCandidates, List.map_filterMap, rotate_linear, mul_col_any, mulVec_smul,
    mulVec_add, rot_dot h]
  congr 1
  funext q
  split_ifs <;> rfl

theorem faceEmit_rotate {g : Mat3 K} (h : g.IsRotation) (A B : Vec3 K)
    (tf1 tf2 : Transform3 K) (n : Vec3 K) (code : Nat) (c : Candidate K) :
    faceEmit (faceFrame A B (Transform3.rotate g tf1) (Transform3.rotate g tf2)
        (g.mulVec n) code) (g.mulVec n) code ⟨c.ret, g.mulVec c.point, c.dep⟩
      = ContactPoint.rotate g (faceEmit (faceFrame A B tf1 tf2 n code) n code c) := by
  rw [faceFrame_rotate h]
  simp only [faceEmit, rotate_translation, ContactPoint.rotate, mulVec_smul, mulVec_add,
    mulVec_sub]
  split_ifs <;> rfl

/-- C12. Rotation equivariance of `boxBox2`: for a rotation matrix `g`, the
call on the poses `(g R1, g T1)`, `(g R2, g T2)` returns the same value and
writes the same `return_code` and `depth`; it appends the same number of
contacts, the appended contacts being those of the original call with normal
and position turned by `g`; and the normal it writes (when `return_code` is
not 0; otherwise `normal` is left as the caller passed it) is `g` applied to
the normal of the original call. -/
theorem boxBox2_rotation_equivariant (cfg : Scalar K) (g : Mat3 K) (hg : g.IsRotation)
    (side1 side2 : Vec3 K) (tf1 tf2 : Transform3 K) (normal : Vec3 K) (depth : K) (maxc : Int)
    (contacts : List (ContactPoint K)) :
    (boxBox2 cfg side1 (Transform3.rotate g tf1) side2 (Transform3.rotate g tf2) normal depth
        maxc contacts).ret
      = (boxBox2 cfg side1 tf1 side2 tf2 normal depth maxc contacts).ret ∧
    (boxBox2 cfg side1 (Transform3.rotate g tf1) side2 (Transform3.rotate g tf2) normal depth
        maxc contacts).return_code
      = (boxBox2 cfg side1 tf1 side2 tf2 normal depth maxc contacts).return_code ∧
    (boxBox2 cfg side1 (Transform3.rotate g tf1) side2 (Transform3.rotate g tf2) normal depth
        maxc contacts).depth
      = (boxBox2 cfg side1 tf1 side2 tf2 normal depth maxc contacts).depth ∧
    ((boxBox2 cfg side1 tf1 side2 tf2 normal depth maxc contacts).return_code ≠ 0 →
      (boxBox2 cfg side1 (Transform3.rotate g tf1) side2 (Transform3.rotate g tf2) normal depth
          maxc contacts).normal
        = g.mulVec (boxBox2 cfg side1 tf1 side2 tf2 normal depth maxc contacts).normal) ∧
    ((boxBox2 cfg side1 tf1 side2 tf2 normal depth maxc contacts).return_code = 0 →
      (boxBox2 cfg side1 (Transform3.rotate g tf1) side2 (Transform3.rotate g tf2) normal depth
          maxc contacts).normal = normal ∧
      (boxBox2 cfg side1 tf1 side2 tf2 normal depth maxc contacts).normal = normal) ∧
    (boxBox2 cfg side1 (Transform3.rotate g tf1) side2 (Transform3.rotate g tf2) normal depth
        maxc contacts).contacts.length
      = (boxBox2 cfg side1 tf1 side2 tf2 normal depth maxc contacts).contacts.length ∧
    (boxBox2 cfg side1 tf1 side2 tf2 normal depth maxc contacts).contacts.take contacts.length
      = contacts ∧
    (boxBox2 cfg side1 (Transform3.rotate g tf1) side2 (Transform3.rotate g tf2) normal depth
        maxc contacts).contacts
      = contacts ++
        ((boxBox2 cfg side1 tf1 side2 tf2 normal depth maxc contacts).contacts.drop
          contacts.length).map (ContactPoint.rotate g) := by
  obtain ⟨h1, h2, h3, h4, h5, h6, h7⟩ :=
    boxBox2_transport cfg side1 side2 tf1 tf2 (Transform3.rotate g tf1)
      (Transform3.rotate g tf2) g.mulVec (fun c => ⟨c.ret, g.mulVec c.point, c.dep⟩)
      (ContactPoint.rotate g)
      (satPhase_rotate cfg hg _ _ tf1 tf2)
      (fun st => satNormal_rotate g tf1 tf2 st)
      (fun n depth code => edgeContact_rotate hg _ _ tf1 tf2 n depth code)
      (fun n code => by rw [faceFrame_rotate hg]; rfl)
      (fun n code => by rw [faceFrame_rotate hg]; rfl)
      (fun n code ret => faceCandidates_rotate hg _ _ tf1 tf2 n code ret)
      (fun c => rfl) (fun c => rfl) (by simp only [mulVec_zero])
      (fun n code c => faceEmit_rotate hg _ _ tf1 tf2 n code c)
      normal depth maxc contacts
  refine ⟨h1, h2, h3, h4, h5, ?_, h6, h7⟩
  rw [h7]
  have hlen := congrArg List.length h6
  rw [List.length_take] at hlen
  rw [List.length_append, List.length_map, List.length_drop]
  omega

theorem boxBox2_rotation_equivariant_witness :
    (Mat3.rotZ (3 / 5) (4 / 5) : Mat3 ℝ).IsRotation ∧
    (boxBox2 (binary64 Real.sqrt (fun y x => Complex.arg ⟨x, y⟩) Real.pi)
      (⟨1, 1, 1⟩ : Vec3 ℝ) (Transform3.rotate (Mat3.rotZ (3 / 5) (4 / 5))
        ⟨Mat3.identity, ⟨0, 0, 0⟩⟩) ⟨1, 1, 1⟩
      (Transform3.rotate (Mat3.rotZ (3 / 5) (4 / 5)) ⟨Mat3.identity, ⟨9 / 10, 0, 0⟩⟩)
      ⟨0, 0, 0⟩ 0 4 []).normal
      = (Mat3.rotZ (3 / 5) (4 / 5)).mulVec
        (boxBox2 (binary64 Real.sqrt (fun y x => Complex.arg ⟨x, y⟩) Real.pi)
          (⟨1, 1, 1⟩ : Vec3 ℝ) ⟨Mat3.identity, ⟨0, 0, 0⟩⟩ ⟨1, 1, 1⟩
          ⟨Mat3.identity, ⟨9 / 10, 0, 0⟩⟩ ⟨0, 0, 0⟩ 0 4 []).normal :=
  ⟨rotZ_isRotation,
    (boxBox2_rotation_equivariant _ _ rotZ_isRotation _ _ _ _ _ _ _ _).2.2.2.1
      (scenario1_return_code 4)⟩


/-! ## The frame of the face branch -/

theorem dot_add_right (L a b : Vec3 K) : L.dot (a.add b) = L.dot a + L.dot b := by
  simp only [Vec3.dot, Vec3.add]
  ring

theorem dot_smul_right (L a : Vec3 K) (s : K) : L.dot (a.smul s) = L.dot a * s := by
  simp only [Vec3.dot, Vec3.smul]
  ring

/-- The columns a split names are orthonormal. -/
theorem split_orthonormal {m : Mat3 K} (h : m.IsRotation) {n i j : Nat}
    (hs : AxisSplit n i j) :
    ((m.col n).dot (m.col n) = 1 ∧ (m.col n).dot (m.col i) = 0 ∧ (m.col n).dot (m.col j) = 0) ∧
    ((m.col i).dot (m.col n) = 0 ∧ (m.col i).dot (m.col i) = 1 ∧ (m.col i).dot (m.col j) = 0) ∧
    ((m.col j).dot (m.col n) = 0 ∧ (m.col j).dot (m.col i) = 0 ∧ (m.col j).dot (m.col j) = 1) := by
  obtain ⟨⟨a0, a1, a2⟩, ⟨b0, b1, b2⟩, ⟨c0, c1, c2⟩⟩ := rotation_cols h
  rcases hs with ⟨rfl, rfl, rfl⟩ | ⟨rfl, rfl, rfl⟩ | ⟨rfl, rfl, rfl⟩
  · exact ⟨⟨a0, a1, a2⟩, ⟨b0, b1, b2⟩, ⟨c0, c1, c2⟩⟩
  · exact ⟨⟨b1, b0, b2⟩, ⟨a1, a0, a2⟩, ⟨c1, c0, c2⟩⟩
  · exact ⟨⟨c2, c0, c1⟩, ⟨a2, a0, a1⟩, ⟨b2, b0, b1⟩⟩

/-- What holds of the three axes of a split holds of the axes `0`, `1`, `2`. -/
theorem split_cover {n i j : Nat} (hs : AxisSplit n i j) (P : Nat → Prop) (hn : P n)
    (hi : P i) (hj : P j) : P 0 ∧ P 1 ∧ P 2 := by
  rcases hs with ⟨rfl, rfl, rfl⟩ | ⟨rfl, rfl, rfl⟩ | ⟨rfl, rfl, rfl⟩
  · exact ⟨hn, hi, hj⟩
  · exact ⟨hi, hn, hj⟩
  · exact ⟨hi, hj, hn⟩

/-- The determinant of the 2-D map between two faces is, up to sign, the cosine
between the two face normals. -/
theorem split_det {a b : Mat3 K} (ha : a.IsRotation) (hb : b.IsRotation)
    {cN c1 c2 l a1 a2 : Nat} (hc : AxisSplit cN c1 c2) (hl : AxisSplit l a1 a2) :
    (b.col a1).dot (a.col c1) * (b.col a2).dot (a.col c2)
        - (b.col a2).dot (a.col c1) * (b.col a1).dot (a.col c2)
      = (a.col cN).dot (b.col l) ∨
    (b.col a1).dot (a.col c1) * (b.col a2).dot (a.col c2)
        - (b.col a2).dot (a.col c1) * (b.col a1).dot (a.col c2)
      = -((a.col cN).dot (b.col l)) := by
  obtain ⟨⟨e02, e12, e22⟩, ⟨e00, e10, e20⟩, ⟨e01, e11, e21⟩⟩ :=
    rotation_cofactor (rotation_mul (rotation_transpose ha) hb)
  obtain ⟨⟨d00, d01, d02⟩, ⟨d10, d11, d12⟩, ⟨d20, d21, d22⟩⟩ := col_dot_col a b
  rcases hc with ⟨rfl, rfl, rfl⟩ | ⟨rfl, rfl, rfl⟩ | ⟨rfl, rfl, rfl⟩ <;>
  rcases hl with ⟨rfl, rfl, rfl⟩ | ⟨rfl, rfl, rfl⟩ | ⟨rfl, rfl, rfl⟩ <;>
  simp only [dot_comm (b.col _) (a.col _), d00, d01, d02, d10, d11, d12, d20, d21, d22] <;>
  first
  | (left; linear_combination e00)
  | (left; linear_combination e01)
  | (left; linear_combination e02)
  | (left; linear_combination e10)
  | (left; linear_combination e11)
  | (left; linear_combination e12)
  | (left; linear_combination e20)
  | (left; linear_combination e21)
  | (left; linear_combination e22)
  | (right; linear_combination -e00)
  | (right; linear_combination -e01)
  | (right; linear_combination -e02)
  | (right; linear_combination -e10)
  | (right; linear_combination -e11)
  | (right; linear_combination -e12)
  | (right; linear_combination -e20)
  | (right; linear_combination -e21)

/-- In body coordinates a unit vector has a non-zero largest component. -/
theorem split_largest_ne_zero {b : Mat3 K} (hb : b.IsRotation) {l a1 a2 : Nat}
    (hl : AxisSplit l a1 a2) (v : Vec3 K) (hv : v.dot v = 1)
    (h1 : |(b.col a1).dot v| ≤ |(b.col l).dot v|)
    (h2 : |(b.col a2).dot v| ≤ |(b.col l).dot v|) : (b.col l).dot v ≠ 0 := by
  intro h0
  rw [h0, abs_zero] at h1 h2
  have z1 : (b.col a1).dot v = 0 := abs_eq_zero.mp (le_antisymm h1 (abs_nonneg _))
  have z2 : (b.col a2).dot v = 0 := abs_eq_zero.mp (le_antisymm h2 (abs_nonneg _))
  have hz := split_cover hl (fun k => (b.col k).dot v = 0) h0 z1 z2
  have hexp := dot_expand hb v v
  rw [hz.1, hz.2.1, hz.2.2, hv] at hexp
  simp at hexp

theorem cwiseAbs_get (v : Vec3 K) (k : Nat) : v.cwiseAbs.get k = |v.get k| := by
  simp only [Vec3.get, Vec3.cwiseAbs]
  split_ifs <;> rfl

theorem transpose_mulVec_get (m : Mat3 K) (v : Vec3 K) {k : Nat}
    (hk : k = 0 ∨ k = 1 ∨ k = 2) : (m.transpose.mulVec v).get k = (m.col k).dot v := by
  rcases hk with rfl | rfl | rfl <;> rfl

theorem split_index {n i j : Nat} (hs : AxisSplit n i j) :
    (n = 0 ∨ n = 1 ∨ n = 2) ∧ (i = 0 ∨ i = 1 ∨ i = 2) ∧ (j = 0 ∨ j = 1 ∨ j = 2) := by
  rcases hs with ⟨rfl, rfl, rfl⟩ | ⟨rfl, rfl, rfl⟩ | ⟨rfl, rfl, rfl⟩ <;> simp

/-- The incident face: `lanr` is the axis of the largest component of `nr`,
`a1 < a2` are the other two. -/
theorem faceFrame_lanr_split (A B : Vec3 K) (tf1 tf2 : Transform3 K) (normal : Vec3 K)
    (code : Nat) :
    AxisSplit (faceFrame A B tf1 tf2 normal code).lanr (faceFrame A B tf1 tf2 normal code).a1
      (faceFrame A B tf1 tf2 normal code).a2 ∧
    |(faceFrame A B tf1 tf2 normal code).nr.get (faceFrame A B tf1 tf2 normal code).a1|
      ≤ |(faceFrame A B tf1 tf2 normal code).nr.get (faceFrame A B tf1 tf2 normal code).lanr| ∧
    |(faceFrame A B tf1 tf2 normal code).nr.get (faceFrame A B tf1 tf2 normal code).a2|
      ≤ |(faceFrame A B tf1 tf2 normal code).nr.get (faceFrame A B tf1 tf2 normal code).lanr| := by
  have hsel : ((faceFrame A B tf1 tf2 normal code).lanr,
      (faceFrame A B tf1 tf2 normal code).a1, (faceFrame A B tf1 tf2 normal code).a2)
      = (if (faceFrame A B tf1 tf2 normal code).nr.cwiseAbs.get 1
            > (faceFrame A B tf1 tf2 normal code).nr.cwiseAbs.get 0 then
          (if (faceFrame A B tf1 tf2 normal code).nr.cwiseAbs.get 1
              > (faceFrame A B tf1 tf2 normal code).nr.cwiseAbs.get 2 then
            ((1 : Nat), (0 : Nat), (2 : Nat)) else (2, 0, 1))
        else
          (if (faceFrame A B tf1 tf2 normal code).nr.cwiseAbs.get 0
              > (faceFrame A B tf1 tf2 normal code).nr.cwiseAbs.get 2 then
            (0, 1, 2) else (2, 0, 1))) := rfl
  generalize (faceFrame A B tf1 tf2 normal code).lanr = l at hsel ⊢
  generalize (faceFrame A B tf1 tf2 normal code).a1 = a1 at hsel ⊢
  generalize (faceFrame A B tf1 tf2 normal code).a2 = a2 at hsel ⊢
  generalize (faceFrame A B tf1 tf2 normal code).nr = nr at hsel ⊢
  simp only [cwiseAbs_get] at hsel
  split_ifs at hsel with h1 h2 h3 <;> simp only [Prod.mk.injEq] at hsel <;>
    obtain ⟨rfl, rfl, rfl⟩ := hsel
  · exact ⟨Or.inr (Or.inl ⟨rfl, rfl, rfl⟩), le_of_lt h1, le_of_lt h2⟩
  · exact ⟨Or.inr (Or.inr ⟨rfl, rfl, rfl⟩), le_trans (le_of_lt h1) (not_lt.mp h2),
      not_lt.mp h2⟩
  · exact ⟨Or.inl ⟨rfl, rfl, rfl⟩, not_lt.mp h1, le_of_lt h3⟩
  · exact ⟨Or.inr (Or.inr ⟨rfl, rfl, rfl⟩), not_lt.mp h3,
      le_trans (not_lt.mp h1) (not_lt.mp h3)⟩

/-- The reference face: `codeN` is the axis of the normal, `code1 < code2` are
the other two. -/
theorem faceFrame_code_split (A B : Vec3 K) (tf1 tf2 : Transform3 K) (normal : Vec3 K)
    (code : Nat) (h1 : 1 ≤ code) (h6 : code ≤ 6) :
    AxisSplit (faceFrame A B tf1 tf2 normal code).codeN
      (faceFrame A B tf1 tf2 normal code).code1 (faceFrame A B tf1 tf2 normal code).code2 := by
  have hN : (faceFrame A B tf1 tf2 normal code).codeN
      = if code ≤ 3 then code - 1 else code - 4 := rfl
  have hc1 : (faceFrame A B tf1 tf2 normal code).code1
      = if (faceFrame A B tf1 tf2 normal code).codeN = 0 then 1 else 0 := rfl
  have hc2 : (faceFrame A B tf1 tf2 normal code).code2
      = if (faceFrame A B tf1 tf2 normal code).codeN = 0 then 2
        else if (faceFrame A B tf1 tf2 normal code).codeN = 1 then 2 else 1 := rfl
  rw [hc1, hc2, hN]
  have hcases : code = 1 ∨ code = 2 ∨ code = 3 ∨ code = 4 ∨ code = 5 ∨ code = 6 := by omega
  rcases hcases with rfl | rfl | rfl | rfl | rfl | rfl <;> simp [AxisSplit]

theorem axes_face_code {A B : Vec3 K} {tf1 tf2 : Transform3 K} {ax : Axis K}
    (hmem : ax ∈ axes A B tf1 tf2) (he : ax.edge = none) :
    (ax.T = 1 ∧ ax.code = ax.colId.toNat + 1) ∨ (ax.T = 2 ∧ ax.code = ax.colId.toNat + 4) := by
  simp only [axes, faceAxes, edgeAxes, List.mem_append, List.mem_cons, List.mem_singleton,
    List.not_mem_nil, or_false] at hmem
  rcases hmem with (h | h | h | h | h | h) | (h | h | h | h | h | h | h | h | h) <;>
    subst h <;> first
    | (exfalso; simp at he; done)
    | (left; exact ⟨rfl, rfl⟩)
    | (right; exact ⟨rfl, rfl⟩)

/-- After a face axis has won, `normal2` is the column `codeN` of the reference
rotation or its opposite. -/
theorem faceFrame_normal2 {cfg : Scalar K} {A B : Vec3 K} {tf1 tf2 : Transform3 K}
    {st : SatState K} (h : satPhase cfg A B tf1 tf2 = some st) (hc : st.code ≠ 0)
    (h6 : ¬ st.code > 6) :
    (1 ≤ st.code ∧ st.code ≤ 6) ∧
    ((faceFrame A B tf1 tf2 (satNormal tf1 tf2 st) st.code).normal2
        = (faceFrame A B tf1 tf2 (satNormal tf1 tf2 st) st.code).Ta.linear.col
            (faceFrame A B tf1 tf2 (satNormal tf1 tf2 st) st.code).codeN ∨
      (faceFrame A B tf1 tf2 (satNormal tf1 tf2 st) st.code).normal2
        = ((faceFrame A B tf1 tf2 (satNormal tf1 tf2 st) st.code).Ta.linear.col
            (faceFrame A B tf1 tf2 (satNormal tf1 tf2 st) st.code).codeN).neg) := by
  refine ⟨⟨Nat.one_le_iff_ne_zero.mpr hc, not_lt.mp h6⟩, ?_⟩
  obtain ⟨ax, hmem, hrec⟩ := satPhase_recorded h hc
  have hcode : st.code = ax.code := hrec.2.2.1
  cases he : ax.edge with
  | some n =>
    have := (axes_edge hmem he).2.1
    omega
  | none =>
    obtain ⟨-, hcol, -, -, -⟩ := axes_face hmem he
    have hn : satNormal tf1 tf2 st =
        if ax.tmp < 0 then ((if ax.T = 2 then tf2 else tf1).linear.col ax.colId.toNat).neg
        else (if ax.T = 2 then tf2 else tf1).linear.col ax.colId.toNat :=
      satNormal_face hrec he hcol
    have hN2 : (faceFrame A B tf1 tf2 (satNormal tf1 tf2 st) st.code).normal2
        = if st.code ≤ 3 then satNormal tf1 tf2 st else (satNormal tf1 tf2 st).neg := rfl
    have hTa : (faceFrame A B tf1 tf2 (satNormal tf1 tf2 st) st.code).Ta
        = if st.code ≤ 3 then tf1 else tf2 := rfl
    have hcN : (faceFrame A B tf1 tf2 (satNormal tf1 tf2 st) st.code).codeN
        = if st.code ≤ 3 then st.code - 1 else st.code - 4 := rfl
    rw [hN2, hTa, hcN, hn, hcode]
    have h3 : ax.colId.toNat ≤ 2 := by
      rcases hcol with e | e | e <;> rw [e] <;> decide
    rcases axes_face_code hmem he with ⟨hT, hk⟩ | ⟨hT, hk⟩
    · have hle : ax.colId.toNat + 1 ≤ 3 := by omega
      have hT2 : ¬ ax.T = 2 := by omega
      rw [hk]
      simp only [hle, if_true, hT2, if_false, Nat.add_sub_cancel]
      split_ifs
      · right; rfl
      · left; rfl
    · have hle : ¬ ax.colId.toNat + 4 ≤ 3 := by omega
      rw [hk]
      simp only [hle, if_false, hT, if_true, Nat.add_sub_cancel]
      split_ifs
      · left; exact neg_neg_vec _
      · right; rfl

/-! ## Lifting the clipped points -/

/-- What the lifting loop stores for a clipped point that passes the depth
test. -/
theorem mem_faceCandidates {f : FaceFrame K} {ret : List (K × K)} {c : Candidate K}
    (hc : c ∈ faceCandidates f ret) :
    c.ret ∈ ret ∧
    c.point = (f.center.add ((f.Tb.linear.col f.a1).smul (f.k1 c.ret))).add
      ((f.Tb.linear.col f.a2).smul (f.k2 c.ret)) ∧
    c.dep = f.Sa.get f.codeN - f.normal2.dot c.point ∧ 0 ≤ c.dep := by
  unfold faceCandidates at hc
  simp only [List.mem_filterMap] at hc
  obtain ⟨q, hq, hqc⟩ := hc
  split at hqc
  · rename_i hdep
    simp only [Option.some.injEq] at hqc
    subst hqc
    exact ⟨hq, rfl, rfl, hdep⟩
  · cases hqc

/-- The lifting inverts the map from face coordinates to the reference plane. -/
theorem lift_inverse (f : FaceFrame K) (hdet : f.m11 * f.m22 - f.m12 * f.m21 ≠ 0) (q : K × K) :
    f.c1 + f.m11 * f.k1 q + f.m12 * f.k2 q = q.1 ∧
    f.c2 + f.m21 * f.k1 q + f.m22 * f.k2 q = q.2 := by
  unfold FaceFrame.k1 FaceFrame.k2
  constructor
  · field_simp
    ring
  · field_simp
    ring

/-- Along a segment the face coordinates stay within any bound they meet at
both ends. -/
theorem lift_segment (f : FaceFrame K) (s1 s2 : K) (a b : K × K) (t : K)
    (ha : |f.k1 a| ≤ s1 ∧ |f.k2 a| ≤ s2) (hb : |f.k1 b| ≤ s1 ∧ |f.k2 b| ≤ s2)
    (t0 : 0 ≤ t) (t1 : t ≤ 1) :
    |f.k1 (a.1 + t * (b.1 - a.1), a.2 + t * (b.2 - a.2))| ≤ s1 ∧
    |f.k2 (a.1 + t * (b.1 - a.1), a.2 + t * (b.2 - a.2))| ≤ s2 := by
  have e1 : f.k1 (a.1 + t * (b.1 - a.1), a.2 + t * (b.2 - a.2))
      = (1 - t) * f.k1 a + t * f.k1 b := by
    unfold FaceFrame.k1
    ring
  have e2 : f.k2 (a.1 + t * (b.1 - a.1), a.2 + t * (b.2 - a.2))
      = (1 - t) * f.k2 a + t * f.k2 b := by
    unfold FaceFrame.k2
    ring
  rw [e1, e2]
  have h1t : 0 ≤ 1 - t := by linarith
  obtain ⟨ha1, ha2⟩ := ha
  obtain ⟨hb1, hb2⟩ := hb
  rw [abs_le] at ha1 ha2 hb1 hb2 ⊢
  rw [abs_le]
  refine ⟨⟨?_, ?_⟩, ⟨?_, ?_⟩⟩
  · nlinarith [mul_le_mul_of_nonneg_left ha1.1 h1t, mul_le_mul_of_nonneg_left hb1.1 t0]
  · nlinarith [mul_le_mul_of_nonneg_left ha1.2 h1t, mul_le_mul_of_nonneg_left hb1.2 t0]
  · nlinarith [mul_le_mul_of_nonneg_left ha2.1 h1t, mul_le_mul_of_nonneg_left hb2.1 t0]
  · nlinarith [mul_le_mul_of_nonneg_left ha2.2 h1t, mul_le_mul_of_nonneg_left hb2.2 t0]

/-- The four corners of `quad` lift to the four corners of the incident face. -/
theorem lift_corners (f : FaceFrame K) (hdet : f.m11 * f.m22 - f.m12 * f.m21 ≠ 0)
    (hs1 : 0 ≤ f.Sb.get f.a1) (hs2 : 0 ≤ f.Sb.get f.a2) :
    ∀ q ∈ faceQuad f, |f.k1 q| ≤ f.Sb.get f.a1 ∧ |f.k2 q| ≤ f.Sb.get f.a2 := by
  have k1 : ∀ s t : K, f.k1 (f.c1 + s * (f.m11 * f.Sb.get f.a1) + t * (f.m12 * f.Sb.get f.a2),
      f.c2 + s * (f.m21 * f.Sb.get f.a1) + t * (f.m22 * f.Sb.get f.a2))
      = s * f.Sb.get f.a1 := by
    intro s t
    unfold FaceFrame.k1
    field_simp
    ring
  have k2 : ∀ s t : K, f.k2 (f.c1 + s * (f.m11 * f.Sb.get f.a1) + t * (f.m12 * f.Sb.get f.a2),
      f.c2 + s * (f.m21 * f.Sb.get f.a1) + t * (f.m22 * f.Sb.get f.a2))
      = t * f.Sb.get f.a2 := by
    intro s t
    unfold FaceFrame.k2
    field_simp
    ring
  have key : ∀ s t : K, (s = 1 ∨ s = -1) → (t = 1 ∨ t = -1) →
      |f.k1 (f.c1 + s * (f.m11 * f.Sb.get f.a1) + t * (f.m12 * f.Sb.get f.a2),
        f.c2 + s * (f.m21 * f.Sb.get f.a1) + t * (f.m22 * f.Sb.get f.a2))| ≤ f.Sb.get f.a1 ∧
      |f.k2 (f.c1 + s * (f.m11 * f.Sb.get f.a1) + t * (f.m12 * f.Sb.get f.a2),
        f.c2 + s * (f.m21 * f.Sb.get f.a1) + t * (f.m22 * f.Sb.get f.a2))| ≤ f.Sb.get f.a2 := by
    intro s t hs ht
    rw [k1, k2]
    rcases hs with rfl | rfl <;> rcases ht with rfl | rfl <;>
      simp [abs_of_nonneg hs1, abs_of_nonneg hs2]
  intro q hq
  simp only [faceQuad, List.mem_cons, List.mem_singleton, List.not_mem_nil, or_false] at hq
  rcases hq with rfl | rfl | rfl | rfl
  · have := key (-1) (-1) (Or.inr rfl) (Or.inr rfl)
    convert this using 3 <;> ring_nf
  · have := key (-1) 1 (Or.inr rfl) (Or.inl rfl)
    convert this using 3 <;> ring_nf
  · have := key 1 1 (Or.inl rfl) (Or.inl rfl)
    convert this using 3 <;> ring_nf
  · have := key 1 (-1) (Or.inl rfl) (Or.inr rfl)
    convert this using 3 <;> ring_nf

/-- Every clipped point lifts to a point of the incident face. -/
theorem clip_lift_bound (f : FaceFrame K) (hdet : f.m11 * f.m22 - f.m12 * f.m21 ≠ 0)
    (hs1 : 0 ≤ f.Sb.get f.a1) (hs2 : 0 ≤ f.Sb.get f.a2) :
    ∀ q ∈ intersectRectQuad2 (faceRect f) (faceQuad f),
      |f.k1 q| ≤ f.Sb.get f.a1 ∧ |f.k2 q| ≤ f.Sb.get f.a2 := by
  apply chopAll_pred (fun q => |f.k1 q| ≤ f.Sb.get f.a1 ∧ |f.k2 q| ≤ f.Sb.get f.a2)
    (fun a b t ha hb t0 t1 => lift_segment f _ _ a b t ha hb t0 t1) (faceRect f)
  · intro ps hps
    simp only [List.mem_cons, List.mem_singleton, List.not_mem_nil, or_false] at hps
    rcases hps with rfl | rfl | rfl | rfl <;> simp
  · exact lift_corners f hdet hs1 hs2

/-- The projected incident face is a parallelogram, so no line crosses its
boundary more than twice, and every clipped point lies in the reference
rectangle. -/
theorem clip_in_rect (f : FaceFrame K) :
    ∀ q ∈ intersectRectQuad2 (faceRect f) (faceQuad f),
      |q.1| ≤ (faceRect f).1 ∧ |q.2| ≤ (faceRect f).2 := by
  have hconv : TwoCross (faceQuad f) := by
    apply convexQuad_twoCross
    refine ⟨1 / 2, 1 / 2, by norm_num, by norm_num, by norm_num, by norm_num, ?_, ?_⟩
    · simp only []
      ring
    · simp only []
      ring
  intro q hq
  have := intersectRectQuad2_within (faceRect f) (faceQuad f) hconv (by simp [faceQuad]) q hq
  exact ⟨abs_le.mpr ⟨this.1, this.2.1⟩, abs_le.mpr ⟨this.2.2.1, this.2.2.2⟩⟩

theorem faceFrame_rotations {A B : Vec3 K} {tf1 tf2 : Transform3 K}
    (h1 : tf1.linear.IsRotation) (h2 : tf2.linear.IsRotation) (normal : Vec3 K) (code : Nat) :
    (faceFrame A B tf1 tf2 normal code).Ta.linear.IsRotation ∧
    (faceFrame A B tf1 tf2 normal code).Tb.linear.IsRotation := by
  have hTa : (faceFrame A B tf1 tf2 normal code).Ta = if code ≤ 3 then tf1 else tf2 := rfl
  have hTb : (faceFrame A B tf1 tf2 normal code).Tb = if code ≤ 3 then tf2 else tf1 := rfl
  rw [hTa, hTb]
  split_ifs
  · exact ⟨h1, h2⟩
  · exact ⟨h2, h1⟩

/-- The 2-D map between the incident and the reference face is invertible: its
determinant is, up to sign, the largest component of `nr`. -/
theorem faceFrame_det_ne_zero {cfg : Scalar K} {A B : Vec3 K} {tf1 tf2 : Transform3 K}
    {st : SatState K} (h1 : tf1.linear.IsRotation) (h2 : tf2.linear.IsRotation)
    (h : satPhase cfg A B tf1 tf2 = some st) (hc : st.code ≠ 0) (h6 : ¬ st.code > 6) :
    (faceFrame A B tf1 tf2 (satNormal tf1 tf2 st) st.code).m11
        * (faceFrame A B tf1 tf2 (satNormal tf1 tf2 st) st.code).m22
      - (faceFrame A B tf1 tf2 (satNormal tf1 tf2 st) st.code).m12
        * (faceFrame A B tf1 tf2 (satNormal tf1 tf2 st) st.code).m21 ≠ 0 := by
  obtain ⟨⟨hc1, hc6⟩, hn2⟩ := faceFrame_normal2 h hc h6
  obtain ⟨hTa, hTb⟩ := faceFrame_rotations (A := A) (B := B) h1 h2 (satNormal tf1 tf2 st) st.code
  have hcs := faceFrame_code_split A B tf1 tf2 (satNormal tf1 tf2 st) st.code hc1 hc6
  obtain ⟨hls, hb1, hb2⟩ := faceFrame_lanr_split A B tf1 tf2 (satNormal tf1 tf2 st) st.code
  have hm : (faceFrame A B tf1 tf2 (satNormal tf1 tf2 st) st.code).m11
        * (faceFrame A B tf1 tf2 (satNormal tf1 tf2 st) st.code).m22
      - (faceFrame A B tf1 tf2 (satNormal tf1 tf2 st) st.code).m12
        * (faceFrame A B tf1 tf2 (satNormal tf1 tf2 st) st.code).m21
      = ((faceFrame A B tf1 tf2 (satNormal tf1 tf2 st) st.code).Tb.linear.col
            (faceFrame A B tf1 tf2 (satNormal tf1 tf2 st) st.code).a1).dot
          ((faceFrame A B tf1 tf2 (satNormal tf1 tf2 st) st.code).Ta.linear.col
            (faceFrame A B tf1 tf2 (satNormal tf1 tf2 st) st.code).code1)
        * ((faceFrame A B tf1 tf2 (satNormal tf1 tf2 st) st.code).Tb.linear.col
            (faceFrame A B tf1 tf2 (satNormal tf1 tf2 st) st.code).a2).dot
          ((faceFrame A B tf1 tf2 (satNormal tf1 tf2 st) st.code).Ta.linear.col
            (faceFrame A B tf1 tf2 (satNormal tf1 tf2 st) st.code).code2)
      - ((faceFrame A B tf1 tf2 (satNormal tf1 tf2 st) st.code).Tb.linear.col
            (faceFrame A B tf1 tf2 (satNormal tf1 tf2 st) st.code).a2).dot
          ((faceFrame A B tf1 tf2 (satNormal tf1 tf2 st) st.code).Ta.linear.col
            (faceFrame A B tf1 tf2 (satNormal tf1 tf2 st) st.code).code1)
        * ((faceFrame A B tf1 tf2 (satNormal tf1 tf2 st) st.code).Tb.linear.col
            (faceFrame A B tf1 tf2 (satNormal tf1 tf2 st) st.code).a1).dot
          ((faceFrame A B tf1 tf2 (satNormal tf1 tf2 st) st.code).Ta.linear.col
            (faceFrame A B tf1 tf2 (satNormal tf1 tf2 st) st.code).code2) := rfl
  have hnr : (faceFrame A B tf1 tf2 (satNormal tf1 tf2 st) st.code).nr
      = (faceFrame A B tf1 tf2 (satNormal tf1 tf2 st) st.code).Tb.linear.transpose.mulVec
          (faceFrame A B tf1 tf2 (satNormal tf1 tf2 st) st.code).normal2 := rfl
  rw [hm]
  rw [hnr] at hb1 hb2
  generalize faceFrame A B tf1 tf2 (satNormal tf1 tf2 st) st.code = f at *
  obtain ⟨il, i1, i2⟩ := split_index hls
  rw [transpose_mulVec_get _ _ il, transpose_mulVec_get _ _ i1] at hb1
  rw [transpose_mulVec_get _ _ il, transpose_mulVec_get _ _ i2] at hb2
  have hunit : f.normal2.dot f.normal2 = 1 := by
    rcases hn2 with e | e
    · rw [e]; exact rotation_col_unit hTa _
    · rw [e, neg_dot_neg]; exact rotation_col_unit hTa _
  have hne := split_largest_ne_zero hTb hls f.normal2 hunit hb1 hb2
  have hne2 : (f.Ta.linear.col f.codeN).dot (f.Tb.linear.col f.lanr) ≠ 0 := by
    rcases hn2 with e | e
    · rw [e, dot_comm] at hne
      exact hne
    · rw [e, dot_neg_right, dot_comm] at hne
      exact fun h0 => hne (by rw [h0, neg_zero])
  rcases split_det hTa hTb hcs hls with hd | hd
  · rw [hd]
    exact hne2
  · rw [hd]
    exact neg_ne_zero.mpr hne2

theorem onSurface_of_split {side : Vec3 K} {tf : Transform3 K} {x : Vec3 K} {n i j : Nat}
    (hs : AxisSplit n i j)
    (hn : |(tf.linear.col n).dot (x.sub tf.translation)| = side.get n / 2)
    (hi : |(tf.linear.col i).dot (x.sub tf.translation)| ≤ side.get i / 2)
    (hj : |(tf.linear.col j).dot (x.sub tf.translation)| ≤ side.get j / 2) :
    onSurface side tf x := by
  rcases hs with ⟨rfl, rfl, rfl⟩ | ⟨rfl, rfl, rfl⟩ | ⟨rfl, rfl, rfl⟩
  · exact ⟨⟨le_of_eq hn, hi, hj⟩, Or.inl hn⟩
  · exact ⟨⟨hi, le_of_eq hn, hj⟩, Or.inr (Or.inl hn)⟩
  · exact ⟨⟨hi, hj, le_of_eq hn⟩, Or.inr (Or.inr hn)⟩

theorem smul_half_get (side : Vec3 K) (k : Nat) : (side.smul (1 / 2)).get k = side.get k / 2 := by
  simp only [Vec3.get, Vec3.smul]
  split_ifs <;> ring

theorem get_nonneg {side : Vec3 K} (hs : 0 ≤ side.x ∧ 0 ≤ side.y ∧ 0 ≤ side.z) (k : Nat) :
    0 ≤ side.get k := by
  simp only [Vec3.get]
  split_ifs
  · exact hs.1
  · exact hs.2.1
  · exact hs.2.2

/-- The centre of the incident face is the centre of the incident box moved by
the half extent along the axis `lanr`, one way or the other. -/
theorem faceFrame_center (A B : Vec3 K) (tf1 tf2 : Transform3 K) (normal : Vec3 K)
    (code : Nat) :
    ∃ σ : K, (σ = 1 ∨ σ = -1) ∧
      (faceFrame A B tf1 tf2 normal code).center
        = ((faceFrame A B tf1 tf2 normal code).Tb.translation.sub
            (faceFrame A B tf1 tf2 normal code).Ta.translation).add
          (((faceFrame A B tf1 tf2 normal code).Tb.linear.col
              (faceFrame A B tf1 tf2 normal code).lanr).smul
            (σ * (faceFrame A B tf1 tf2 normal code).Sb.get
              (faceFrame A B tf1 tf2 normal code).lanr)) := by
  have hcen : (faceFrame A B tf1 tf2 normal code).center
      = if (faceFrame A B tf1 tf2 normal code).nr.get (faceFrame A B tf1 tf2 normal code).lanr
            < 0 then
          ((faceFrame A B tf1 tf2 normal code).Tb.translation.sub
              (faceFrame A B tf1 tf2 normal code).Ta.translation).add
            (((faceFrame A B tf1 tf2 normal code).Tb.linear.col
                (faceFrame A B tf1 tf2 normal code).lanr).smul
              ((faceFrame A B tf1 tf2 normal code).Sb.get
                (faceFrame A B tf1 tf2 normal code).lanr))
        else
          ((faceFrame A B tf1 tf2 normal code).Tb.translation.sub
              (faceFrame A B tf1 tf2 normal code).Ta.translation).sub
            (((faceFrame A B tf1 tf2 normal code).Tb.linear.col
                (faceFrame A B tf1 tf2 normal code).lanr).smul
              ((faceFrame A B tf1 tf2 normal code).Sb.get
                (faceFrame A B tf1 tf2 normal code).lanr)) := rfl
  rw [hcen]
  split_ifs
  · refine ⟨1, Or.inl rfl, ?_⟩
    rw [one_mul]
  · refine ⟨-1, Or.inr rfl, ?_⟩
    simp only [Vec3.add, Vec3.sub, Vec3.smul, Vec3.mk.injEq]
    refine ⟨?_, ?_, ?_⟩ <;> ring

theorem coord_incident (u T1 T2 v0 v1 v2 : Vec3 K) (s k1 k2 : K) :
    u.dot ((((((T2.sub T1).add (v0.smul s)).add (v1.smul k1)).add (v2.smul k2)).add T1).sub T2)
      = u.dot v0 * s + u.dot v1 * k1 + u.dot v2 * k2 := by
  simp only [Vec3.dot, Vec3.add, Vec3.sub, Vec3.smul]
  ring

theorem coord_reference (u p T n : Vec3 K) (d : K) :
    u.dot (((p.add T).sub (n.smul d)).sub T) = u.dot p + u.dot n.neg * d := by
  simp only [Vec3.dot, Vec3.add, Vec3.sub, Vec3.smul, Vec3.neg]
  ring

theorem coord_lift (u c v1 v2 : Vec3 K) (k1 k2 : K) :
    u.dot ((c.add (v1.smul k1)).add (v2.smul k2)) = u.dot c + v1.dot u * k1 + v2.dot u * k2 := by
  simp only [Vec3.dot, Vec3.add, Vec3.smul]
  ring

theorem dot_neg_left (a b : Vec3 K) : a.neg.dot b = -(a.dot b) := by
  simp only [Vec3.dot, Vec3.neg]
  ring

/-- A point that leaves the face branch of `boxBox2` lies on the surface of
body 2, whichever body owns the reference face. -/
theorem survivor_on_body2 {cfg : Scalar K} {side1 side2 : Vec3 K} {tf1 tf2 : Transform3 K}
    {st : SatState K} (h1 : tf1.linear.IsRotation) (h2 : tf2.linear.IsRotation)
    (hs : 0 ≤ side2.x ∧ 0 ≤ side2.y ∧ 0 ≤ side2.z)
    (h : satPhase cfg (side1.smul (1 / 2)) (side2.smul (1 / 2)) tf1 tf2 = some st)
    (hc : st.code ≠ 0) (h6 : ¬ st.code > 6) :
    ∀ c ∈ survivors side1 tf1 side2 tf2 st,
      onSurface side2 tf2
        (faceEmit (frameOf side1 tf1 side2 tf2 st) (satNormal tf1 tf2 st) st.code c).pos := by
  intro c hcm
  unfold survivors at hcm
  unfold frameOf at hcm ⊢
  obtain ⟨hq, hpt, hdep, -⟩ := mem_faceCandidates hcm
  have hdet := faceFrame_det_ne_zero h1 h2 h hc h6
  obtain ⟨hTa, hTb⟩ := faceFrame_rotations (A := side1.smul (1 / 2)) (B := side2.smul (1 / 2))
    h1 h2 (satNormal tf1 tf2 st) st.code
  obtain ⟨⟨hc1, hc6⟩, hn2⟩ := faceFrame_normal2 h hc h6
  have hcs := faceFrame_code_split (side1.smul (1 / 2)) (side2.smul (1 / 2)) tf1 tf2
    (satNormal tf1 tf2 st) st.code hc1 hc6
  obtain ⟨hls, -, -⟩ := faceFrame_lanr_split (side1.smul (1 / 2)) (side2.smul (1 / 2)) tf1 tf2
    (satNormal tf1 tf2 st) st.code
  obtain ⟨σ, hσ, hcen⟩ := faceFrame_center (side1.smul (1 / 2)) (side2.smul (1 / 2)) tf1 tf2
    (satNormal tf1 tf2 st) st.code
  have eTa : (faceFrame (side1.smul (1 / 2)) (side2.smul (1 / 2)) tf1 tf2
      (satNormal tf1 tf2 st) st.code).Ta = if st.code ≤ 3 then tf1 else tf2 := rfl
  have eTb : (faceFrame (side1.smul (1 / 2)) (side2.smul (1 / 2)) tf1 tf2
      (satNormal tf1 tf2 st) st.code).Tb = if st.code ≤ 3 then tf2 else tf1 := rfl
  have eSa : (faceFrame (side1.smul (1 / 2)) (side2.smul (1 / 2)) tf1 tf2
      (satNormal tf1 tf2 st) st.code).Sa
      = if st.code ≤ 3 then side1.smul (1 / 2) else side2.smul (1 / 2) := rfl
  have eSb : (faceFrame (side1.smul (1 / 2)) (side2.smul (1 / 2)) tf1 tf2
      (satNormal tf1 tf2 st) st.code).Sb
      = if st.code ≤ 3 then side2.smul (1 / 2) else side1.smul (1 / 2) := rfl
  have eN2 : (faceFrame (side1.smul (1 / 2)) (side2.smul (1 / 2)) tf1 tf2
      (satNormal tf1 tf2 st) st.code).normal2
      = if st.code ≤ 3 then satNormal tf1 tf2 st else (satNormal tf1 tf2 st).neg := rfl
  have ec1 : (faceFrame (side1.smul (1 / 2)) (side2.smul (1 / 2)) tf1 tf2
      (satNormal tf1 tf2 st) st.code).c1
      = ((faceFrame (side1.smul (1 / 2)) (side2.smul (1 / 2)) tf1 tf2
          (satNormal tf1 tf2 st) st.code).Ta.linear.col
          (faceFrame (side1.smul (1 / 2)) (side2.smul (1 / 2)) tf1 tf2
            (satNormal tf1 tf2 st) st.code).code1).dot
        (faceFrame (side1.smul (1 / 2)) (side2.smul (1 / 2)) tf1 tf2
          (satNormal tf1 tf2 st) st.code).center := rfl
  have ec2 : (faceFrame (side1.smul (1 / 2)) (side2.smul (1 / 2)) tf1 tf2
      (satNormal tf1 tf2 st) st.code).c2
      = ((faceFrame (side1.smul (1 / 2)) (side2.smul (1 / 2)) tf1 tf2
          (satNormal tf1 tf2 st) st.code).Ta.linear.col
          (faceFrame (side1.smul (1 / 2)) (side2.smul (1 / 2)) tf1 tf2
            (satNormal tf1 tf2 st) st.code).code2).dot
        (faceFrame (side1.smul (1 / 2)) (side2.smul (1 / 2)) tf1 tf2
          (satNormal tf1 tf2 st) st.code).center := rfl
  have em11 : (faceFrame (side1.smul (1 / 2)) (side2.smul (1 / 2)) tf1 tf2
      (satNormal tf1 tf2 st) st.code).m11
      = ((faceFrame (side1.smul (1 / 2)) (side2.smul (1 / 2)) tf1 tf2
          (satNormal tf1 tf2 st) st.code).Tb.linear.col
          (faceFrame (side1.smul (1 / 2)) (side2.smul (1 / 2)) tf1 tf2
            (satNormal tf1 tf2 st) st.code).a1).dot
        ((faceFrame (side1.smul (1 / 2)) (side2.smul (1 / 2)) tf1 tf2
          (satNormal tf1 tf2 st) st.code).Ta.linear.col
          (faceFrame (side1.smul (1 / 2)) (side2.smul (1 / 2)) tf1 tf2
            (satNormal tf1 tf2 st) st.code).code1) := rfl
  have em12 : (faceFrame (side1.smul (1 / 2)) (side2.smul (1 / 2)) tf1 tf2
      (satNormal tf1 tf2 st) st.code).m12
      = ((faceFrame (side1.smul (1 / 2)) (side2.smul (1 / 2)) tf1 tf2
          (satNormal tf1 tf2 st) st.code).Tb.linear.col
          (faceFrame (side1.smul (1 / 2)) (side2.smul (1 / 2)) tf1 tf2
            (satNormal tf1 tf2 st) st.code).a2).dot
        ((faceFrame (side1.smul (1 / 2)) (side2.smul (1 / 2)) tf1 tf2
          (satNormal tf1 tf2 st) st.code).Ta.linear.col
          (faceFrame (side1.smul (1 / 2)) (side2.smul (1 / 2)) tf1 tf2
            (satNormal tf1 tf2 st) st.code).code1) := rfl
  have em21 : (faceFrame (side1.smul (1 / 2)) (side2.smul (1 / 2)) tf1 tf2
      (satNormal tf1 tf2 st) st.code).m21
      = ((faceFrame (side1.smul (1 / 2)) (side2.smul (1 / 2)) tf1 tf2
          (satNormal tf1 tf2 st) st.code).Tb.linear.col
          (faceFrame (side1.smul (1 / 2)) (side2.smul (1 / 2)) tf1 tf2
            (satNormal tf1 tf2 st) st.code).a1).dot
        ((faceFrame (side1.smul (1 / 2)) (side2.smul (1 / 2)) tf1 tf2
          (satNormal tf1 tf2 st) st.code).Ta.linear.col
          (faceFrame (side1.smul (1 / 2)) (side2.smul (1 / 2)) tf1 tf2
            (satNormal tf1 tf2 st) st.code).code2) := rfl
  have em22 : (faceFrame (side1.smul (1 / 2)) (side2.smul (1 / 2)) tf1 tf2
      (satNormal tf1 tf2 st) st.code).m22
      = ((faceFrame (side1.smul (1 / 2)) (side2.smul (1 / 2)) tf1 tf2
          (satNormal tf1 tf2 st) st.code).Tb.linear.col
          (faceFrame (side1.smul (1 / 2)) (side2.smul (1 / 2)) tf1 tf2
            (satNormal tf1 tf2 st) st.code).a2).dot
        ((faceFrame (side1.smul (1 / 2)) (side2.smul (1 / 2)) tf1 tf2
          (satNormal tf1 tf2 st) st.code).Ta.linear.col
          (faceFrame (side1.smul (1 / 2)) (side2.smul (1 / 2)) tf1 tf2
            (satNormal tf1 tf2 st) st.code).code2) := rfl
  have erect : faceRect (faceFrame (side1.smul (1 / 2)) (side2.smul (1 / 2)) tf1 tf2
      (satNormal tf1 tf2 st) st.code)
      = ((faceFrame (side1.smul (1 / 2)) (side2.smul (1 / 2)) tf1 tf2
          (satNormal tf1 tf2 st) st.code).Sa.get
          (faceFrame (side1.smul (1 / 2)) (side2.smul (1 / 2)) tf1 tf2
            (satNormal tf1 tf2 st) st.code).code1,
        (faceFrame (side1.smul (1 / 2)) (side2.smul (1 / 2)) tf1 tf2
          (satNormal tf1 tf2 st) st.code).Sa.get
          (faceFrame (side1.smul (1 / 2)) (side2.smul (1 / 2)) tf1 tf2
            (satNormal tf1 tf2 st) st.code).code2) := rfl
  have hinv := lift_inverse _ hdet c.ret
  have hrect := clip_in_rect _ c.ret hq
  rw [erect] at hrect
  have hemit : (faceEmit (faceFrame (side1.smul (1 / 2)) (side2.smul (1 / 2)) tf1 tf2
      (satNormal tf1 tf2 st) st.code) (satNormal tf1 tf2 st) st.code c).pos
      = if st.code < 4 then
          c.point.add (faceFrame (side1.smul (1 / 2)) (side2.smul (1 / 2)) tf1 tf2
            (satNormal tf1 tf2 st) st.code).Ta.translation
        else
          (c.point.add (faceFrame (side1.smul (1 / 2)) (side2.smul (1 / 2)) tf1 tf2
            (satNormal tf1 tf2 st) st.code).Ta.translation).sub
            ((satNormal tf1 tf2 st).smul c.dep) := by
    unfold faceEmit
    split_ifs <;> rfl
  rw [hemit]
  by_cases h3 : st.code ≤ 3
  · have h4 : st.code < 4 := by omega
    rw [if_pos h3] at eTa eTb eSb
    have hS : ∀ k, 0 ≤ (faceFrame (side1.smul (1 / 2)) (side2.smul (1 / 2)) tf1 tf2
        (satNormal tf1 tf2 st) st.code).Sb.get k := by
      intro k
      rw [eSb, smul_half_get]
      exact div_nonneg (get_nonneg hs k) (by norm_num)
    obtain ⟨hk1, hk2⟩ := clip_lift_bound _ hdet (hS _) (hS _) c.ret hq
    have hSl := hS (faceFrame (side1.smul (1 / 2)) (side2.smul (1 / 2)) tf1 tf2
      (satNormal tf1 tf2 st) st.code).lanr
    rw [if_pos h4, hpt, hcen]
    rw [eSb, smul_half_get] at hk1 hk2 hSl
    rw [eSb, smul_half_get]
    rw [eTb] at hTb
    obtain ⟨⟨o00, o01, o02⟩, ⟨o10, o11, o12⟩, ⟨o20, o21, o22⟩⟩ := split_orthonormal hTb hls
    generalize faceFrame (side1.smul (1 / 2)) (side2.smul (1 / 2)) tf1 tf2
      (satNormal tf1 tf2 st) st.code = f at *
    rw [eTa, eTb]
    refine onSurface_of_split hls ?_ ?_ ?_
    · rw [coord_incident, o00, o01, o02]
      rcases hσ with rfl | rfl
      · simp only [one_mul, zero_mul, add_zero]
        exact abs_of_nonneg hSl
      · simp only [one_mul, zero_mul, add_zero, neg_mul, abs_neg]
        exact abs_of_nonneg hSl
    · rw [coord_incident, o10, o11, o12]
      simp only [one_mul, zero_mul, add_zero, zero_add]
      exact hk1
    · rw [coord_incident, o20, o21, o22]
      simp only [one_mul, zero_mul, add_zero, zero_add]
      exact hk2
  · have h4 : ¬ st.code < 4 := by omega
    rw [if_neg h3] at eTa eSa eN2
    rw [if_neg h4]
    have hS : ∀ k, 0 ≤ (faceFrame (side1.smul (1 / 2)) (side2.smul (1 / 2)) tf1 tf2
        (satNormal tf1 tf2 st) st.code).Sa.get k := by
      intro k
      rw [eSa, smul_half_get]
      exact div_nonneg (get_nonneg hs k) (by norm_num)
    have hSn := hS (faceFrame (side1.smul (1 / 2)) (side2.smul (1 / 2)) tf1 tf2
      (satNormal tf1 tf2 st) st.code).codeN
    rw [ec1, em11, em12] at hinv
    rw [ec2, em21, em22] at hinv
    rw [eSa, smul_half_get, smul_half_get] at hrect
    rw [eSa, smul_half_get] at hSn hdep
    generalize faceFrame (side1.smul (1 / 2)) (side2.smul (1 / 2)) tf1 tf2
      (satNormal tf1 tf2 st) st.code = f at *
    rw [eTa] at hTa hn2 hinv ⊢
    obtain ⟨⟨o00, o01, o02⟩, ⟨o10, o11, o12⟩, ⟨o20, o21, o22⟩⟩ := split_orthonormal hTa hcs
    refine onSurface_of_split hcs ?_ ?_ ?_
    · rw [coord_reference, ← eN2, hdep]
      rcases hn2 with e | e
      · rw [e, o00]
        have : (tf2.linear.col f.codeN).dot c.point
            + 1 * (side2.get f.codeN / 2 - (tf2.linear.col f.codeN).dot c.point)
            = side2.get f.codeN / 2 := by ring
        rw [this]
        exact abs_of_nonneg hSn
      · rw [e, dot_neg_right, dot_neg_left, o00]
        have : (tf2.linear.col f.codeN).dot c.point
            + -1 * (side2.get f.codeN / 2 - -(tf2.linear.col f.codeN).dot c.point)
            = -(side2.get f.codeN / 2) := by ring
        rw [this, abs_neg]
        exact abs_of_nonneg hSn
    · rw [coord_reference, ← eN2, hpt, coord_lift]
      have hz : (tf2.linear.col f.code1).dot f.normal2 = 0 := by
        rcases hn2 with e | e
        · rw [e, o10]
        · rw [e, dot_neg_right, o10, neg_zero]
      rw [hz, zero_mul, add_zero, hinv.1]
      exact hrect.1
    · rw [coord_reference, ← eN2, hpt, coord_lift]
      have hz : (tf2.linear.col f.code2).dot f.normal2 = 0 := by
        rcases hn2 with e | e
        · rw [e, o20]
        · rw [e, dot_neg_right, o20, neg_zero]
      rw [hz, zero_mul, add_zero, hinv.2]
      exact hrect.2

/-- C8, amended. With both poses rotations and the sides of body 2 not
negative, every contact a face code (1..6) comes with lies on the surface of
body 2: for codes 1..3 on its incident face, for codes 4..6 on its reference
face (the point of the incident face of body 1 moved back by its depth along
the normal). -/
theorem boxBox2_face_contact_on_body2 (cfg : Scalar K) (side1 side2 : Vec3 K)
    (tf1 tf2 : Transform3 K) (h1 : tf1.linear.IsRotation) (h2 : tf2.linear.IsRotation)
    (hs : 0 ≤ side2.x ∧ 0 ≤ side2.y ∧ 0 ≤ side2.z)
    (normal : Vec3 K) (depth : K) (maxc : Int) (contacts : List (ContactPoint K))
    (hlo : 1 ≤ (boxBox2 cfg side1 tf1 side2 tf2 normal depth maxc contacts).return_code)
    (hhi : (boxBox2 cfg side1 tf1 side2 tf2 normal depth maxc contacts).return_code ≤ 6) :
    ∀ c ∈ (boxBox2 cfg side1 tf1 side2 tf2 normal depth maxc contacts).contacts.drop
        contacts.length,
      onSurface side2 tf2 c.pos := by
  obtain ⟨st, hst, hc, -, -, hcode⟩ := boxBox2_hit (Nat.one_le_iff_ne_zero.mp hlo)
  rw [hcode] at hhi
  have h6 : ¬ st.code > 6 := not_lt.mpr hhi
  obtain ⟨picked, hp, hcase⟩ :=
    boxBox2_of_face cfg side1 side2 tf1 tf2 normal depth maxc contacts st hst hc h6
  rw [hp]
  simp only [List.drop_left]
  have hsurv := survivor_on_body2 h1 h2 hs hst hc h6
  intro c hcm
  rw [List.mem_map] at hcm
  obtain ⟨cand, hcand, rfl⟩ := hcm
  apply hsurv
  rcases hcase with h0 | ⟨ha, -⟩ | ⟨hlt, hcull⟩
  · rw [h0] at hcand
    cases hcand
  · rw [ha] at hcand
    exact hcand
  · rw [hcull] at hcand
    simp only [List.mem_map, List.mem_range] at hcand
    obtain ⟨j, -, rfl⟩ := hcand
    have hn : 1 ≤ (survivors side1 tf1 side2 tf2 st).length := by
      have := clampMaxc_ge_one maxc (survivors side1 tf1 side2 tf2 st).length
      omega
    have hidx : (cullPoints2 cfg (survivors side1 tf1 side2 tf2 st).length
        ((survivors side1 tf1 side2 tf2 st).map Candidate.ret)
        (clampMaxc maxc (survivors side1 tf1 side2 tf2 st).length).toNat
        (deepest (survivors side1 tf1 side2 tf2 st))).getD j 0
        < (survivors side1 tf1 side2 tf2 st).length := by
      rcases getD_mem_or_default (cullPoints2 cfg (survivors side1 tf1 side2 tf2 st).length
        ((survivors side1 tf1 side2 tf2 st).map Candidate.ret)
        (clampMaxc maxc (survivors side1 tf1 side2 tf2 st).length).toNat
        (deepest (survivors side1 tf1 side2 tf2 st))) j 0 with hm | hd
      · exact cullPoints2_lt cfg _ _ _ _ (deepest_spec _ hn).1 _ hm
      · rw [hd]
        omega
    rw [List.getD_eq_getElem _ _ hidx]
    exact List.getElem_mem hidx

theorem boxBox2_face_contact_on_body2_witness :
    (boxBox2 (binary64 Real.sqrt (fun y x => Complex.arg ⟨x, y⟩) Real.pi)
      (⟨2, 2, 2⟩ : Vec3 ℝ) ⟨Mat3.identity, ⟨0, 0, 0⟩⟩ ⟨1, 1, 1⟩
      ⟨Mat3.rotZ (3 / 5) (4 / 5), ⟨31 / 25, 33 / 25, 0⟩⟩ ⟨0, 0, 0⟩ 0 4 []).return_code = 4 ∧
    ∀ c ∈ ((boxBox2 (binary64 Real.sqrt (fun y x => Complex.arg ⟨x, y⟩) Real.pi)
      (⟨2, 2, 2⟩ : Vec3 ℝ) ⟨Mat3.identity, ⟨0, 0, 0⟩⟩ ⟨1, 1, 1⟩
      ⟨Mat3.rotZ (3 / 5) (4 / 5), ⟨31 / 25, 33 / 25, 0⟩⟩ ⟨0, 0, 0⟩ 0 4 []).contacts.drop
        ([] : List (ContactPoint ℝ)).length),
      onSurface (⟨1, 1, 1⟩ : Vec3 ℝ) ⟨Mat3.rotZ (3 / 5) (4 / 5), ⟨31 / 25, 33 / 25, 0⟩⟩ c.pos :=
  ⟨by rw [cornerRest_result],
    boxBox2_face_contact_on_body2 _ _ _ _ _ identity_isRotation rotZ_isRotation
      ⟨by norm_num, by norm_num, by norm_num⟩ _ _ _ _
      (by rw [cornerRest_result]; decide) (by rw [cornerRest_result]; decide)⟩


/-! ## The contact budget `maxc` -/

theorem clampMaxc_clamp (maxc : Int) (n : Nat) (hn : n ≤ 8) :
    clampMaxc maxc n = clampMaxc (min (max maxc 1) 8) n := by
  unfold clampMaxc
  split_ifs <;> omega

theorem faceCandidates_length_le (f : FaceFrame K) (ret : List (K × K)) :
    (faceCandidates f ret).length ≤ ret.length := by
  unfold faceCandidates
  exact List.length_filterMap_le _ _

/-- C21. For every integer `maxc` and every pair of boxes, `boxBox2` called
with `maxc` leaves exactly what it leaves when called with
`min(max(maxc, 1), 8)`: the same returned value, code, normal, depth and
contact list. -/
theorem boxBox2_maxc_clamped (cfg : Scalar K) (side1 side2 : Vec3 K) (tf1 tf2 : Transform3 K)
    (normal : Vec3 K) (depth : K) (maxc : Int) (contacts : List (ContactPoint K)) :
    boxBox2 cfg side1 tf1 side2 tf2 normal depth maxc contacts
      = boxBox2 cfg side1 tf1 side2 tf2 normal depth (min (max maxc 1) 8) contacts := by
  cases hst : satPhase cfg (side1.smul (1 / 2)) (side2.smul (1 / 2)) tf1 tf2 with
  | none => rw [boxBox2_of_none _ _ _ _ _ _ _ _ _ hst, boxBox2_of_none _ _ _ _ _ _ _ _ _ hst]
  | some st =>
    unfold boxBox2
    simp only [hst]
    have hlen : (faceCandidates
        (faceFrame (side1.smul (1 / 2)) (side2.smul (1 / 2)) tf1 tf2 (satNormal tf1 tf2 st)
          st.code)
        (intersectRectQuad2
          (faceRect (faceFrame (side1.smul (1 / 2)) (side2.smul (1 / 2)) tf1 tf2
            (satNormal tf1 tf2 st) st.code))
          (faceQuad (faceFrame (side1.smul (1 / 2)) (side2.smul (1 / 2)) tf1 tf2
            (satNormal tf1 tf2 st) st.code)))).length ≤ 8 :=
      le_trans (faceCandidates_length_le _ _) (intersectRectQuad2_length _ _)
    rw [clampMaxc_clamp maxc _ hlen]

/-! ## Seed scenarios of the specification -/

/-- C22. Seed scenario 1: two unit cubes with identity rotation centred at
`(0,0,0)` and `(0.9,0,0)`, `maxc = 4`: `boxBox2` reports a collision
(`return_code` is 1, not 0) with normal `(1,0,0)`, depth `0.1` and exactly 4
contacts, and `boxBoxIntersect` returns `true` with those 4 contacts. -/
theorem scenario1_face_contact :
    (boxBox2 (binary64 Real.sqrt (fun y x => Complex.arg ⟨x, y⟩) Real.pi)
      (⟨1, 1, 1⟩ : Vec3 ℝ) ⟨Mat3.identity, ⟨0, 0, 0⟩⟩ ⟨1, 1, 1⟩
      ⟨Mat3.identity, ⟨9 / 10, 0, 0⟩⟩ ⟨0, 0, 0⟩ 0 4 []).return_code ≠ 0 ∧
    (boxBox2 (binary64 Real.sqrt (fun y x => Complex.arg ⟨x, y⟩) Real.pi)
      (⟨1, 1, 1⟩ : Vec3 ℝ) ⟨Mat3.identity, ⟨0, 0, 0⟩⟩ ⟨1, 1, 1⟩
      ⟨Mat3.identity, ⟨9 / 10, 0, 0⟩⟩ ⟨0, 0, 0⟩ 0 4 []).normal = ⟨1, 0, 0⟩ ∧
    (boxBox2 (binary64 Real.sqrt (fun y x => Complex.arg ⟨x, y⟩) Real.pi)
      (⟨1, 1, 1⟩ : Vec3 ℝ) ⟨Mat3.identity, ⟨0, 0, 0⟩⟩ ⟨1, 1, 1⟩
      ⟨Mat3.identity, ⟨9 / 10, 0, 0⟩⟩ ⟨0, 0, 0⟩ 0 4 []).depth = 1 / 10 ∧
    (boxBox2 (binary64 Real.sqrt (fun y x => Complex.arg ⟨x, y⟩) Real.pi)
      (⟨1, 1, 1⟩ : Vec3 ℝ) ⟨Mat3.identity, ⟨0, 0, 0⟩⟩ ⟨1, 1, 1⟩
      ⟨Mat3.identity, ⟨9 / 10, 0, 0⟩⟩ ⟨0, 0, 0⟩ 0 4 []).ret = 4 ∧
    (boxBox2 (binary64 Real.sqrt (fun y x => Complex.arg ⟨x, y⟩) Real.pi)
      (⟨1, 1, 1⟩ : Vec3 ℝ) ⟨Mat3.identity, ⟨0, 0, 0⟩⟩ ⟨1, 1, 1⟩
      ⟨Mat3.identity, ⟨9 / 10, 0, 0⟩⟩ ⟨0, 0, 0⟩ 0 4 []).contacts.length = 4 ∧
    (boxBoxIntersect (binary64 Real.sqrt (fun y x => Complex.arg ⟨x, y⟩) Real.pi)
      (⟨1, 1, 1⟩ : Vec3 ℝ) ⟨Mat3.identity, ⟨0, 0, 0⟩⟩ ⟨1, 1, 1⟩
      ⟨Mat3.identity, ⟨9 / 10, 0, 0⟩⟩ ⟨0, 0, 0⟩ 0 (some [])).1 = true ∧
    (boxBoxIntersect (binary64 Real.sqrt (fun y x => Complex.arg ⟨x, y⟩) Real.pi)
      (⟨1, 1, 1⟩ : Vec3 ℝ) ⟨Mat3.identity, ⟨0, 0, 0⟩⟩ ⟨1, 1, 1⟩
      ⟨Mat3.identity, ⟨9 / 10, 0, 0⟩⟩ ⟨0, 0, 0⟩ 0 (some [])).2.map List.length = some 4 := by
  unfold boxBoxIntersect
  rw [scenario1_result]
  refine ⟨by decide, rfl, rfl, rfl, rfl, by simp, rfl⟩

/-- C23, as stated, fails: in seed scenario 1 none of the 4 contacts stores the
depth `0.1` and none lies on the plane `x = 0.5`. -/
theorem scenario1_contacts_off_half_plane :
    (boxBox2 (binary64 Real.sqrt (fun y x => Complex.arg ⟨x, y⟩) Real.pi)
      (⟨1, 1, 1⟩ : Vec3 ℝ) ⟨Mat3.identity, ⟨0, 0, 0⟩⟩ ⟨1, 1, 1⟩
      ⟨Mat3.identity, ⟨9 / 10, 0, 0⟩⟩ ⟨0, 0, 0⟩ 0 4 []).contacts.length = 4 ∧
    ∀ c ∈ (boxBox2 (binary64 Real.sqrt (fun y x => Complex.arg ⟨x, y⟩) Real.pi)
      (⟨1, 1, 1⟩ : Vec3 ℝ) ⟨Mat3.identity, ⟨0, 0, 0⟩⟩ ⟨1, 1, 1⟩
      ⟨Mat3.identity, ⟨9 / 10, 0, 0⟩⟩ ⟨0, 0, 0⟩ 0 4 []).contacts,
      c.penetration_depth ≠ 1 / 10 ∧ c.pos.x ≠ 1 / 2 := by
  rw [scenario1_result]
  refine ⟨rfl, ?_⟩
  intro c hc
  simp only [List.mem_cons, List.mem_singleton, List.not_mem_nil, or_false] at hc
  rcases hc with rfl | rfl | rfl | rfl <;> norm_num

/-- C23, amended. In seed scenario 1 each of the 4 contacts stores the depth
`-0.1` (the penetration `0.1` with the sign the code gives it) and lies on the
plane `x = 0.4`, the face of the second box (the incident body) turned towards
the first: the pairs `(position.x, depth)` are four times `(0.4, -0.1)`. -/
theorem scenario1_contact_details :
    (boxBox2 (binary64 Real.sqrt (fun y x => Complex.arg ⟨x, y⟩) Real.pi)
      (⟨1, 1, 1⟩ : Vec3 ℝ) ⟨Mat3.identity, ⟨0, 0, 0⟩⟩ ⟨1, 1, 1⟩
      ⟨Mat3.identity, ⟨9 / 10, 0, 0⟩⟩ ⟨0, 0, 0⟩ 0 4 []).contacts.map
        (fun c => (c.pos.x, c.penetration_depth))
      = [(2 / 5, -(1 / 10)), (2 / 5, -(1 / 10)), (2 / 5, -(1 / 10)), (2 / 5, -(1 / 10))] := by
  rw [scenario1_result]
  rfl

/-- C24. Seed scenario 2: two unit cubes with identity rotation centred at
`(0,0,0)` and `(1.1,0,0)`: `boxBox2` sets `return_code = 0`, returns 0 and
appends no contact (normal, depth and the contact list stay as they were),
and `boxBoxIntersect` returns `false`. -/
theorem scenario2_separated (normal : Vec3 ℝ) (depth : ℝ) (maxc : Int)
    (contacts : List (ContactPoint ℝ)) (contacts_ : Option (List (ContactPoint ℝ))) :
    boxBox2 (binary64 Real.sqrt (fun y x => Complex.arg ⟨x, y⟩) Real.pi)
      (⟨1, 1, 1⟩ : Vec3 ℝ) ⟨Mat3.identity, ⟨0, 0, 0⟩⟩ ⟨1, 1, 1⟩
      ⟨Mat3.identity, ⟨11 / 10, 0, 0⟩⟩ normal depth maxc contacts
      = ⟨0, normal, depth, 0, contacts⟩ ∧
    (boxBoxIntersect (binary64 Real.sqrt (fun y x => Complex.arg ⟨x, y⟩) Real.pi)
      (⟨1, 1, 1⟩ : Vec3 ℝ) ⟨Mat3.identity, ⟨0, 0, 0⟩⟩ ⟨1, 1, 1⟩
      ⟨Mat3.identity, ⟨11 / 10, 0, 0⟩⟩ normal depth contacts_).1 = false := by
  have h : satPhase (binary64 Real.sqrt (fun y x => Complex.arg ⟨x, y⟩) Real.pi)
      ((⟨1, 1, 1⟩ : Vec3 ℝ).smul (1 / 2)) ((⟨1, 1, 1⟩ : Vec3 ℝ).smul (1 / 2))
      ⟨Mat3.identity, ⟨0, 0, 0⟩⟩ ⟨Mat3.identity, ⟨11 / 10, 0, 0⟩⟩ = none :=
    (satFold_eq_none _ _ _).mpr scenario2_axis
  unfold boxBoxIntersect
  rw [boxBox2_of_none _ _ _ _ _ _ _ _ _ h, boxBox2_of_none _ _ _ _ _ _ _ _ _ h]
  exact ⟨rfl, by simp⟩

theorem boxBox2_of_sat (cfg : Scalar K) (side1 side2 : Vec3 K) (tf1 tf2 : Transform3 K)
    (normal : Vec3 K) (depth : K) (maxc : Int) (contacts : List (ContactPoint K))
    (st : SatState K)
    (h : satPhase cfg (side1.smul (1 / 2)) (side2.smul (1 / 2)) tf1 tf2 = some st)
    (hc : st.code ≠ 0) :
    (boxBox2 cfg side1 tf1 side2 tf2 normal depth maxc contacts).normal = satNormal tf1 tf2 st ∧
    (boxBox2 cfg side1 tf1 side2 tf2 normal depth maxc contacts).depth = -st.s ∧
    (boxBox2 cfg side1 tf1 side2 tf2 normal depth maxc contacts).return_code = st.code := by
  by_cases h6 : st.code > 6
  · rw [boxBox2_of_edge cfg side1 side2 tf1 tf2 normal depth maxc contacts st h hc h6]
    exact ⟨rfl, rfl, rfl⟩
  · obtain ⟨picked, hp, -⟩ :=
      boxBox2_of_face cfg side1 side2 tf1 tf2 normal depth maxc contacts st h hc h6
    rw [hp]
    exact ⟨rfl, rfl, rfl⟩

/-! ### Seed scenario 4: a unit cube inside a cube of side 3 -/

theorem containment_satPhase :
    satPhase (binary64 Real.sqrt (fun y x => Complex.arg ⟨x, y⟩) Real.pi)
      ((⟨3, 3, 3⟩ : Vec3 ℝ).smul (1 / 2)) ((⟨1, 1, 1⟩ : Vec3 ℝ).smul (1 / 2))
      ⟨Mat3.identity, ⟨0, 0, 0⟩⟩ ⟨Mat3.identity, ⟨1 / 5, 1 / 10, 0⟩⟩
      = some ⟨-(9 / 5), 0, 1, ⟨0, 0, 0⟩, false, 1⟩ := by
  norm_num [satPhase, axes, faceAxes, edgeAxes, satFold, satStep, SatState.init, binary64,
    Mat3.identity, Mat3.transpose, Mat3.mul, Mat3.mulVec, Mat3.row, Mat3.col, Mat3.coeff,
    Mat3.cwiseAbs, Mat3.addScalar, Vec3.dot, Vec3.get, Vec3.sub, Vec3.norm, Vec3.sdiv,
    Vec3.smul, fudge2, fudge_factor, abs_of_pos, abs_of_neg, abs_of_nonneg]

/-- C26, as stated, fails: for the cube of side 3 at the origin and the unit
cube at `(0.2, 0.1, 0)` `boxBox2` reports a collision, and the depth it writes
is not `1.3`. -/
theorem containment_depth_not_13 :
    (boxBox2 (binary64 Real.sqrt (fun y x => Complex.arg ⟨x, y⟩) Real.pi)
      (⟨3, 3, 3⟩ : Vec3 ℝ) ⟨Mat3.identity, ⟨0, 0, 0⟩⟩ ⟨1, 1, 1⟩
      ⟨Mat3.identity, ⟨1 / 5, 1 / 10, 0⟩⟩ ⟨0, 0, 0⟩ 0 4 []).return_code ≠ 0 ∧
    (boxBox2 (binary64 Real.sqrt (fun y x => Complex.arg ⟨x, y⟩) Real.pi)
      (⟨3, 3, 3⟩ : Vec3 ℝ) ⟨Mat3.identity, ⟨0, 0, 0⟩⟩ ⟨1, 1, 1⟩
      ⟨Mat3.identity, ⟨1 / 5, 1 / 10, 0⟩⟩ ⟨0, 0, 0⟩ 0 4 []).depth ≠ 13 / 10 := by
  obtain ⟨-, h2, h3⟩ := boxBox2_of_sat _ _ _ _ _ ⟨0, 0, 0⟩ 0 4 [] _
    containment_satPhase (by decide)
  rw [h2, h3]
  constructor
  · decide
  · norm_num

/-- C26, amended. For the cube of side 3 at the origin and the unit cube at
`(0.2, 0.1, 0)`, both with identity rotation, `boxBox2` reports a collision
with code 1, normal `(1,0,0)` (the X axis) and depth `1.8`: the overlap of the
two projections on the X axis, `1.5 + 0.5 - 0.2`. -/
theorem containment_normal_depth (normal : Vec3 ℝ) (depth : ℝ) (maxc : Int)
    (contacts : List (ContactPoint ℝ)) :
    (boxBox2 (binary64 Real.sqrt (fun y x => Complex.arg ⟨x, y⟩) Real.pi)
      (⟨3, 3, 3⟩ : Vec3 ℝ) ⟨Mat3.identity, ⟨0, 0, 0⟩⟩ ⟨1, 1, 1⟩
      ⟨Mat3.identity, ⟨1 / 5, 1 / 10, 0⟩⟩ normal depth maxc contacts).return_code = 1 ∧
    (boxBox2 (binary64 Real.sqrt (fun y x => Complex.arg ⟨x, y⟩) Real.pi)
      (⟨3, 3, 3⟩ : Vec3 ℝ) ⟨Mat3.identity, ⟨0, 0, 0⟩⟩ ⟨1, 1, 1⟩
      ⟨Mat3.identity, ⟨1 / 5, 1 / 10, 0⟩⟩ normal depth maxc contacts).normal = ⟨1, 0, 0⟩ ∧
    (boxBox2 (binary64 Real.sqrt (fun y x => Complex.arg ⟨x, y⟩) Real.pi)
      (⟨3, 3, 3⟩ : Vec3 ℝ) ⟨Mat3.identity, ⟨0, 0, 0⟩⟩ ⟨1, 1, 1⟩
      ⟨Mat3.identity, ⟨1 / 5, 1 / 10, 0⟩⟩ normal depth maxc contacts).depth = 9 / 5 := by
  obtain ⟨h1, h2, h3⟩ := boxBox2_of_sat _ _ _ _ _ normal depth maxc contacts _
    containment_satPhase (by decide)
  rw [h1, h2, h3]
  refine ⟨rfl, ?_, by norm_num⟩
  norm_num [satNormal, Mat3.identity, Mat3.col, Mat3.coeff]

/-! ### Seed scenario 3: the second cube turned by 45 degrees about z -/

theorem sqrt_two_bounds : 0 < Real.sqrt 2 ∧ Real.sqrt 2 < 9 / 5 := by
  constructor
  · exact Real.sqrt_pos.mpr (by norm_num)
  · rw [Real.sqrt_lt' (by norm_num)]
    norm_num

theorem diagonal_axis :
    ∃ ax ∈ axes ((⟨1, 1, 1⟩ : Vec3 ℝ).smul (1 / 2)) ((⟨1, 1, 1⟩ : Vec3 ℝ).smul (1 / 2))
      ⟨Mat3.identity, ⟨0, 0, 0⟩⟩
      ⟨Mat3.rotZ (Real.sqrt 2 / 2) (Real.sqrt 2 / 2), ⟨7 / 5, 0, 0⟩⟩, |ax.tmp| - ax.r > 0 := by
  obtain ⟨h0, h1⟩ := sqrt_two_bounds
  refine ⟨_, List.mem_cons_self _ _, ?_⟩
  norm_num [Mat3.identity, Mat3.rotZ, Mat3.transpose, Mat3.mul, Mat3.mulVec, Mat3.row,
    Mat3.col, Mat3.coeff, Mat3.cwiseAbs, Vec3.dot, Vec3.get, Vec3.sub, Vec3.smul, abs_of_pos,
    h0]
  linarith

theorem rotZ_diagonal_isRotation :
    (Mat3.rotZ (Real.sqrt 2 / 2) (Real.sqrt 2 / 2) : Mat3 ℝ).IsRotation := by
  have h : Real.sqrt 2 * Real.sqrt 2 = 2 := Real.mul_self_sqrt (by norm_num)
  simp only [Mat3.IsRotation, Mat3.rotZ, Mat3.col, coeff_literals, Vec3.dot, Mat3.det]
  refine ⟨?_, ?_, ?_, ?_, ?_, ?_, ?_⟩ <;> nlinarith [h]

/-- C25, as stated, fails: the unit cube turned by 45 degrees about z and
centred at `(1.4, 0, 0)` does not meet the unit cube at the origin (its nearest
edge is at `x = 1.4 - 0.7071 > 0.5`), and `boxBox2` reports no contact:
`return_code = 0`, returned value 0, empty contact list. -/
theorem diagonal_cube_no_contact :
    (Mat3.rotZ (Real.sqrt 2 / 2) (Real.sqrt 2 / 2) : Mat3 ℝ).IsRotation ∧
    Disjoint (⟨1, 1, 1⟩ : Vec3 ℝ) ⟨Mat3.identity, ⟨0, 0, 0⟩⟩ ⟨1, 1, 1⟩
      ⟨Mat3.rotZ (Real.sqrt 2 / 2) (Real.sqrt 2 / 2), ⟨7 / 5, 0, 0⟩⟩ ∧
    (boxBox2 (binary64 Real.sqrt (fun y x => Complex.arg ⟨x, y⟩) Real.pi)
      (⟨1, 1, 1⟩ : Vec3 ℝ) ⟨Mat3.identity, ⟨0, 0, 0⟩⟩ ⟨1, 1, 1⟩
      ⟨Mat3.rotZ (Real.sqrt 2 / 2) (Real.sqrt 2 / 2), ⟨7 / 5, 0, 0⟩⟩ ⟨0, 0, 0⟩ 0 4
      []).return_code = 0 ∧
    (boxBox2 (binary64 Real.sqrt (fun y x => Complex.arg ⟨x, y⟩) Real.pi)
      (⟨1, 1, 1⟩ : Vec3 ℝ) ⟨Mat3.identity, ⟨0, 0, 0⟩⟩ ⟨1, 1, 1⟩
      ⟨Mat3.rotZ (Real.sqrt 2 / 2) (Real.sqrt 2 / 2), ⟨7 / 5, 0, 0⟩⟩ ⟨0, 0, 0⟩ 0 4
      []).contacts.length ≠ 1 := by
  obtain ⟨h0, h1⟩ := sqrt_two_bounds
  have hsat : satPhase (binary64 Real.sqrt (fun y x => Complex.arg ⟨x, y⟩) Real.pi)
      ((⟨1, 1, 1⟩ : Vec3 ℝ).smul (1 / 2)) ((⟨1, 1, 1⟩ : Vec3 ℝ).smul (1 / 2))
      ⟨Mat3.identity, ⟨0, 0, 0⟩⟩
      ⟨Mat3.rotZ (Real.sqrt 2 / 2) (Real.sqrt 2 / 2), ⟨7 / 5, 0, 0⟩⟩ = none :=
    (satFold_eq_none _ _ _).mpr diagonal_axis
  refine ⟨rotZ_diagonal_isRotation, ?_, ?_, ?_⟩
  · apply strictlySeparated_disjoint
    refine separated_of_direction identity_isRotation rotZ_diagonal_isRotation ⟨1, 0, 0⟩
      (1 / 2 + Real.sqrt 2 / 2) ?_ ?_
    · norm_num [Mat3.identity, Mat3.rotZ, Mat3.col, Mat3.coeff, Vec3.dot, abs_of_pos, h0]
      linarith
    · norm_num [Vec3.dot, Vec3.sub, abs_of_pos]
      linarith
  · rw [boxBox2_of_none _ _ _ _ _ _ _ _ _ hsat]
  · rw [boxBox2_of_none _ _ _ _ _ _ _ _ _ hsat]
    decide

/-- C25, amended. Seed scenario 3: for two unit cubes, the first at the origin
with identity rotation and the second centred at `(1.4, 0, 0)` and turned by 45
degrees about z, the first axis test of `boxBox2` separates them: it sets
`return_code = 0`, returns 0 and appends no contact. -/
theorem diagonal_cube_separated (normal : Vec3 ℝ) (depth : ℝ) (maxc : Int)
    (contacts : List (ContactPoint ℝ)) :
    boxBox2 (binary64 Real.sqrt (fun y x => Complex.arg ⟨x, y⟩) Real.pi)
      (⟨1, 1, 1⟩ : Vec3 ℝ) ⟨Mat3.identity, ⟨0, 0, 0⟩⟩ ⟨1, 1, 1⟩
      ⟨Mat3.rotZ (Real.sqrt 2 / 2) (Real.sqrt 2 / 2), ⟨7 / 5, 0, 0⟩⟩ normal depth maxc contacts
      = ⟨0, normal, depth, 0, contacts⟩ :=
  boxBox2_of_none _ _ _ _ _ _ _ _ _ ((satFold_eq_none _ _ _).mpr diagonal_axis)


/-! ### Seed scenario 5: a unit cube sliding through another -/

theorem unitCubes_apart (x : ℝ) (hx : 1 < |x|) (normal0 : Vec3 ℝ) (depth0 : ℝ) :
    (boxBoxIntersect (binary64 Real.sqrt (fun y x => Complex.arg ⟨x, y⟩) Real.pi)
      (⟨1, 1, 1⟩ : Vec3 ℝ) ⟨Mat3.identity, ⟨x, 0, 0⟩⟩ ⟨1, 1, 1⟩
      ⟨Mat3.identity, ⟨0, 0, 0⟩⟩ normal0 depth0 none).1 = false := by
  have hax : ∃ ax ∈ axes ((⟨1, 1, 1⟩ : Vec3 ℝ).smul (1 / 2)) ((⟨1, 1, 1⟩ : Vec3 ℝ).smul (1 / 2))
      ⟨Mat3.identity, ⟨x, 0, 0⟩⟩ ⟨Mat3.identity, ⟨0, 0, 0⟩⟩, |ax.tmp| - ax.r > 0 := by
    refine ⟨_, List.mem_cons_self _ _, ?_⟩
    norm_num [Mat3.identity, Mat3.transpose, Mat3.mul, Mat3.mulVec, Mat3.row, Mat3.col,
      Mat3.coeff, Mat3.cwiseAbs, Vec3.dot, Vec3.get, Vec3.sub, Vec3.smul]
    linarith
  have hsat : satPhase (binary64 Real.sqrt (fun y x => Complex.arg ⟨x, y⟩) Real.pi)
      ((⟨1, 1, 1⟩ : Vec3 ℝ).smul (1 / 2)) ((⟨1, 1, 1⟩ : Vec3 ℝ).smul (1 / 2))
      ⟨Mat3.identity, ⟨x, 0, 0⟩⟩ ⟨Mat3.identity, ⟨0, 0, 0⟩⟩ = none :=
    (satFold_eq_none _ _ _).mpr hax
  unfold boxBoxIntersect
  rw [boxBox2_of_none _ _ _ _ _ _ _ _ _ hsat]
  simp

theorem slide25_satPhase :
    satPhase (binary64 Real.sqrt (fun y x => Complex.arg ⟨x, y⟩) Real.pi)
      ((⟨1, 1, 1⟩ : Vec3 ℝ).smul (1 / 2)) ((⟨1, 1, 1⟩ : Vec3 ℝ).smul (1 / 2))
      ⟨Mat3.identity, ⟨-(98 / 99), 0, 0⟩⟩ ⟨Mat3.identity, ⟨0, 0, 0⟩⟩
      = some ⟨-(1 / 99), 0, 1, ⟨0, 0, 0⟩, false, 1⟩ := by
  norm_num [satPhase, axes, faceAxes, edgeAxes, satFold, satStep, SatState.init, binary64,
    Mat3.identity, Mat3.transpose, Mat3.mul, Mat3.mulVec, Mat3.row, Mat3.col, Mat3.coeff,
    Mat3.cwiseAbs, Mat3.addScalar, Vec3.dot, Vec3.get, Vec3.sub, Vec3.norm, Vec3.sdiv,
    Vec3.smul, fudge2, fudge_factor, abs_of_pos, abs_of_neg, abs_of_nonneg]

theorem unitCubes_touch (normal0 : Vec3 ℝ) (depth0 : ℝ) :
    (boxBoxIntersect (binary64 Real.sqrt (fun y x => Complex.arg ⟨x, y⟩) Real.pi)
      (⟨1, 1, 1⟩ : Vec3 ℝ) ⟨Mat3.identity, ⟨-(98 / 99), 0, 0⟩⟩ ⟨1, 1, 1⟩
      ⟨Mat3.identity, ⟨0, 0, 0⟩⟩ normal0 depth0 none).1 = true := by
  unfold boxBoxIntersect
  simp only []
  rw [(boxBox2_of_sat _ _ _ _ _ normal0 depth0 4 [] _ slide25_satPhase (by decide)).2.2]
  decide

theorem slide_sample (j : Nat) :
    translationMotion (⟨Mat3.identity, ⟨-2, 0, 0⟩⟩ : Transform3 ℝ) ⟨Mat3.identity, ⟨2, 0, 0⟩⟩
      (naiveSample 100 j) = ⟨Mat3.identity, ⟨-2 + 4 * (j : ℝ) / 99, 0, 0⟩⟩ := by
  simp only [translationMotion, naiveSample, Vec3.add, Vec3.sub, Vec3.smul]
  norm_num
  ring

theorem slide_naive_result (normal0 : Vec3 ℝ) (depth0 : ℝ)
    (result : ContinuousCollisionResult ℝ) :
    continuousCollideNaive
      (boxScene (binary64 Real.sqrt (fun y x => Complex.arg ⟨x, y⟩) Real.pi)
        ⟨1, 1, 1⟩ ⟨1, 1, 1⟩
        (translationMotion ⟨Mat3.identity, ⟨-2, 0, 0⟩⟩ ⟨Mat3.identity, ⟨2, 0, 0⟩⟩)
        (translationMotion ⟨Mat3.identity, ⟨0, 0, 0⟩⟩ ⟨Mat3.identity, ⟨0, 0, 0⟩⟩)
        normal0 depth0 (fun x => ⌈x⌉.toNat))
      ⟨101, 1 / 100, CCDMotionType.CCDM_TRANS, GJKSolverType.GST_LIBCCD,
        CCDSolverType.CCDC_NAIVE⟩ result
      = (25 / 99, ⟨true, 25 / 99, ⟨Mat3.identity, ⟨-(98 / 99), 0, 0⟩⟩,
          ⟨Mat3.identity, ⟨0, 0, 0⟩⟩⟩) := by
  have hN : min (101 : Nat) (⌈(1 : ℝ) / (1 / 100)⌉.toNat) = 100 := by
    have : (1 : ℝ) / (1 / 100) = ((100 : ℤ) : ℝ) := by norm_num
    rw [this, Int.ceil_intCast]
    decide
  have hstill : ∀ t : ℝ, translationMotion (⟨Mat3.identity, ⟨0, 0, 0⟩⟩ : Transform3 ℝ)
      ⟨Mat3.identity, ⟨0, 0, 0⟩⟩ t = ⟨Mat3.identity, ⟨0, 0, 0⟩⟩ := by
    intro t
    simp [translationMotion, Vec3.add, Vec3.sub, Vec3.smul]
  have hcol : ∀ j : Nat,
      (boxScene (binary64 Real.sqrt (fun y x => Complex.arg ⟨x, y⟩) Real.pi)
        ⟨1, 1, 1⟩ ⟨1, 1, 1⟩
        (translationMotion ⟨Mat3.identity, ⟨-2, 0, 0⟩⟩ ⟨Mat3.identity, ⟨2, 0, 0⟩⟩)
        (translationMotion ⟨Mat3.identity, ⟨0, 0, 0⟩⟩ ⟨Mat3.identity, ⟨0, 0, 0⟩⟩)
        normal0 depth0 (fun x => ⌈x⌉.toNat)).collide
        (translationMotion ⟨Mat3.identity, ⟨-2, 0, 0⟩⟩ ⟨Mat3.identity, ⟨2, 0, 0⟩⟩
          (naiveSample 100 j))
        (translationMotion ⟨Mat3.identity, ⟨0, 0, 0⟩⟩ ⟨Mat3.identity, ⟨0, 0, 0⟩⟩
          (naiveSample 100 j))
      = if (boxBoxIntersect (binary64 Real.sqrt (fun y x => Complex.arg ⟨x, y⟩) Real.pi)
          (⟨1, 1, 1⟩ : Vec3 ℝ) ⟨Mat3.identity, ⟨-2 + 4 * (j : ℝ) / 99, 0, 0⟩⟩ ⟨1, 1, 1⟩
          ⟨Mat3.identity, ⟨0, 0, 0⟩⟩ normal0 depth0 none).1 then 1 else 0 := by
    intro j
    rw [slide_sample, hstill]
    rfl
  have hfar : ∀ j : Nat, j < 25 →
      (boxScene (binary64 Real.sqrt (fun y x => Complex.arg ⟨x, y⟩) Real.pi)
        ⟨1, 1, 1⟩ ⟨1, 1, 1⟩
        (translationMotion ⟨Mat3.identity, ⟨-2, 0, 0⟩⟩ ⟨Mat3.identity, ⟨2, 0, 0⟩⟩)
        (translationMotion ⟨Mat3.identity, ⟨0, 0, 0⟩⟩ ⟨Mat3.identity, ⟨0, 0, 0⟩⟩)
        normal0 depth0 (fun x => ⌈x⌉.toNat)).collide
        (translationMotion ⟨Mat3.identity, ⟨-2, 0, 0⟩⟩ ⟨Mat3.identity, ⟨2, 0, 0⟩⟩
          (naiveSample 100 j))
        (translationMotion ⟨Mat3.identity, ⟨0, 0, 0⟩⟩ ⟨Mat3.identity, ⟨0, 0, 0⟩⟩
          (naiveSample 100 j)) = 0 := by
    intro j hj
    rw [hcol]
    have hj2 : (j : ℝ) ≤ 24 := by
      have : j ≤ 24 := by omega
      exact_mod_cast this
    have hx : 1 < |(-2 + 4 * (j : ℝ) / 99)| := by
      rw [abs_of_neg (by linarith)]
      linarith
    rw [unitCubes_apart _ hx]
    simp
  have h25 : (boxScene (binary64 Real.sqrt (fun y x => Complex.arg ⟨x, y⟩) Real.pi)
        ⟨1, 1, 1⟩ ⟨1, 1, 1⟩
        (translationMotion ⟨Mat3.identity, ⟨-2, 0, 0⟩⟩ ⟨Mat3.identity, ⟨2, 0, 0⟩⟩)
        (translationMotion ⟨Mat3.identity, ⟨0, 0, 0⟩⟩ ⟨Mat3.identity, ⟨0, 0, 0⟩⟩)
        normal0 depth0 (fun x => ⌈x⌉.toNat)).collide
        (translationMotion ⟨Mat3.identity, ⟨-2, 0, 0⟩⟩ ⟨Mat3.identity, ⟨2, 0, 0⟩⟩
          (naiveSample 100 25))
        (translationMotion ⟨Mat3.identity, ⟨0, 0, 0⟩⟩ ⟨Mat3.identity, ⟨0, 0, 0⟩⟩
          (naiveSample 100 25)) ≠ 0 := by
    rw [hcol]
    have e : (-2 + 4 * ((25 : Nat) : ℝ) / 99) = -(98 / 99) := by norm_num
    rw [e, unitCubes_touch]
    simp
  rcases continuousCollideNaive_cases
      (boxScene (binary64 Real.sqrt (fun y x => Complex.arg ⟨x, y⟩) Real.pi)
        ⟨1, 1, 1⟩ ⟨1, 1, 1⟩
        (translationMotion ⟨Mat3.identity, ⟨-2, 0, 0⟩⟩ ⟨Mat3.identity, ⟨2, 0, 0⟩⟩)
        (translationMotion ⟨Mat3.identity, ⟨0, 0, 0⟩⟩ ⟨Mat3.identity, ⟨0, 0, 0⟩⟩)
        normal0 depth0 (fun x => ⌈x⌉.toNat))
      ⟨101, 1 / 100, CCDMotionType.CCDM_TRANS, GJKSolverType.GST_LIBCCD,
        CCDSolverType.CCDC_NAIVE⟩ result 100 hN with ⟨k, -, hov, hbefore, hres⟩ | ⟨hnone, -⟩
  · have hk : k = 25 := by
      rcases Nat.lt_trichotomy k 25 with h | h | h
      · exact absurd (hfar k h) hov
      · exact h
      · exact absurd (hbefore 25 h) h25
    subst hk
    rw [hres]
    have e1 : (naiveSample 100 25 : ℝ) = 25 / 99 := by
      norm_num [naiveSample]
    have e2 : (boxScene (binary64 Real.sqrt (fun y x => Complex.arg ⟨x, y⟩) Real.pi)
        ⟨1, 1, 1⟩ ⟨1, 1, 1⟩
        (translationMotion ⟨Mat3.identity, ⟨-2, 0, 0⟩⟩ ⟨Mat3.identity, ⟨2, 0, 0⟩⟩)
        (translationMotion ⟨Mat3.identity, ⟨0, 0, 0⟩⟩ ⟨Mat3.identity, ⟨0, 0, 0⟩⟩)
        normal0 depth0 (fun x => ⌈x⌉.toNat)).motion1 (naiveSample 100 25)
        = ⟨Mat3.identity, ⟨-(98 / 99), 0, 0⟩⟩ := by
      show translationMotion _ _ _ = _
      rw [slide_sample]
      norm_num
    have e3 : (boxScene (binary64 Real.sqrt (fun y x => Complex.arg ⟨x, y⟩) Real.pi)
        ⟨1, 1, 1⟩ ⟨1, 1, 1⟩
        (translationMotion ⟨Mat3.identity, ⟨-2, 0, 0⟩⟩ ⟨Mat3.identity, ⟨2, 0, 0⟩⟩)
        (translationMotion ⟨Mat3.identity, ⟨0, 0, 0⟩⟩ ⟨Mat3.identity, ⟨0, 0, 0⟩⟩)
        normal0 depth0 (fun x => ⌈x⌉.toNat)).motion2 (naiveSample 100 25)
        = ⟨Mat3.identity, ⟨0, 0, 0⟩⟩ := hstill _
    rw [e2, e3, e1]
  · exact absurd (hnone 25 (by decide)) h25

/-- C27, as stated, fails: in seed scenario 5 (Naive solver, 101 iterations,
`toc_err = 0.01`, a unit cube sliding from `(-2,0,0)` to `(2,0,0)` against a
unit cube at the origin) the result has `is_collide = true`, yet
`time_of_contact` is below `0.49`. -/
theorem slide_toc_not_half :
    (continuousCollide
      (boxScene (binary64 Real.sqrt (fun y x => Complex.arg ⟨x, y⟩) Real.pi)
        ⟨1, 1, 1⟩ ⟨1, 1, 1⟩
        (translationMotion ⟨Mat3.identity, ⟨-2, 0, 0⟩⟩ ⟨Mat3.identity, ⟨2, 0, 0⟩⟩)
        (translationMotion ⟨Mat3.identity, ⟨0, 0, 0⟩⟩ ⟨Mat3.identity, ⟨0, 0, 0⟩⟩)
        ⟨0, 0, 0⟩ 0 (fun x => ⌈x⌉.toNat))
      ⟨101, 1 / 100, CCDMotionType.CCDM_TRANS, GJKSolverType.GST_LIBCCD,
        CCDSolverType.CCDC_NAIVE⟩
      ⟨false, 1, ⟨Mat3.identity, ⟨0, 0, 0⟩⟩, ⟨Mat3.identity, ⟨0, 0, 0⟩⟩⟩).2.is_collide = true ∧
    (continuousCollide
      (boxScene (binary64 Real.sqrt (fun y x => Complex.arg ⟨x, y⟩) Real.pi)
        ⟨1, 1, 1⟩ ⟨1, 1, 1⟩
        (translationMotion ⟨Mat3.identity, ⟨-2, 0, 0⟩⟩ ⟨Mat3.identity, ⟨2, 0, 0⟩⟩)
        (translationMotion ⟨Mat3.identity, ⟨0, 0, 0⟩⟩ ⟨Mat3.identity, ⟨0, 0, 0⟩⟩)
        ⟨0, 0, 0⟩ 0 (fun x => ⌈x⌉.toNat))
      ⟨101, 1 / 100, CCDMotionType.CCDM_TRANS, GJKSolverType.GST_LIBCCD,
        CCDSolverType.CCDC_NAIVE⟩
      ⟨false, 1, ⟨Mat3.identity, ⟨0, 0, 0⟩⟩, ⟨Mat3.identity, ⟨0, 0, 0⟩⟩⟩).2.time_of_contact
      < 49 / 100 := by
  have h : continuousCollide
      (boxScene (binary64 Real.sqrt (fun y x => Complex.arg ⟨x, y⟩) Real.pi)
        ⟨1, 1, 1⟩ ⟨1, 1, 1⟩
        (translationMotion ⟨Mat3.identity, ⟨-2, 0, 0⟩⟩ ⟨Mat3.identity, ⟨2, 0, 0⟩⟩)
        (translationMotion ⟨Mat3.identity, ⟨0, 0, 0⟩⟩ ⟨Mat3.identity, ⟨0, 0, 0⟩⟩)
        ⟨0, 0, 0⟩ 0 (fun x => ⌈x⌉.toNat))
      ⟨101, 1 / 100, CCDMotionType.CCDM_TRANS, GJKSolverType.GST_LIBCCD,
        CCDSolverType.CCDC_NAIVE⟩
      ⟨false, 1, ⟨Mat3.identity, ⟨0, 0, 0⟩⟩, ⟨Mat3.identity, ⟨0, 0, 0⟩⟩⟩
      = (25 / 99, ⟨true, 25 / 99, ⟨Mat3.identity, ⟨-(98 / 99), 0, 0⟩⟩,
          ⟨Mat3.identity, ⟨0, 0, 0⟩⟩⟩) := slide_naive_result _ _ _
  rw [h]
  exact ⟨rfl, by norm_num⟩

/-- C27, amended. Seed scenario 5: with the Naive solver, translation motion,
`num_max_iterations = 101` and `toc_err = 0.01` (so 100 samples `i/99`), a unit
cube sliding from `(-2,0,0)` to `(2,0,0)` against a unit cube at the origin,
tested by `boxBoxIntersect`, gives `is_collide = true` and
`time_of_contact = 25/99` (about 0.2525): the first sample at which the cubes
meet, with the moving cube at `x = -98/99`. -/
theorem slide_toc (normal0 : Vec3 ℝ) (depth0 : ℝ) (result : ContinuousCollisionResult ℝ) :
    continuousCollide
      (boxScene (binary64 Real.sqrt (fun y x => Complex.arg ⟨x, y⟩) Real.pi)
        ⟨1, 1, 1⟩ ⟨1, 1, 1⟩
        (translationMotion ⟨Mat3.identity, ⟨-2, 0, 0⟩⟩ ⟨Mat3.identity, ⟨2, 0, 0⟩⟩)
        (translationMotion ⟨Mat3.identity, ⟨0, 0, 0⟩⟩ ⟨Mat3.identity, ⟨0, 0, 0⟩⟩)
        normal0 depth0 (fun x => ⌈x⌉.toNat))
      ⟨101, 1 / 100, CCDMotionType.CCDM_TRANS, GJKSolverType.GST_LIBCCD,
        CCDSolverType.CCDC_NAIVE⟩ result
      = (25 / 99, ⟨true, 25 / 99, ⟨Mat3.identity, ⟨-(98 / 99), 0, 0⟩⟩,
          ⟨Mat3.identity, ⟨0, 0, 0⟩⟩⟩) :=
  slide_naive_result normal0 depth0 result


/-! ## The bias of the edge tests -/

theorem edgeAxes_edge_some {A B : Vec3 K} {tf1 tf2 : Transform3 K} :
    ∀ ax ∈ edgeAxes A B tf1 tf2, ∃ n, ax.edge = some n := by
  simp [edgeAxes]

/-- One edge block either leaves the running variables alone, its biased
test having failed, or records its candidate, whose normalized overlap times
`fudge_factor` exceeded the running `s`.  The running `s` does not drop. -/
theorem satStep_edge_win {cfg : Scalar K} (heps : 0 ≤ cfg.epsilon) {st st1 : SatState K}
    {ax : Axis K} {n : Vec3 K} (he : ax.edge = some n) (h : satStep cfg st ax = some st1) :
    st.s ≤ st1.s ∧
    ((st1 = st ∧ ¬ (cfg.epsilon < n.norm cfg ∧
        st.s < (|ax.tmp| - ax.r) / n.norm cfg * fudge_factor)) ∨
     (cfg.epsilon < n.norm cfg ∧ st1.code = ax.code ∧
        st1.s = (|ax.tmp| - ax.r) / n.norm cfg ∧
        st.s < (|ax.tmp| - ax.r) / n.norm cfg * fudge_factor)) := by
  unfold satStep at h
  by_cases h0 : |ax.tmp| - ax.r > 0
  · simp [h0] at h
  · simp only [h0, if_false, he] at h
    have hle : |ax.tmp| - ax.r ≤ 0 := not_lt.mp h0
    by_cases hl : n.norm cfg > cfg.epsilon
    · have hpos : 0 < n.norm cfg := lt_of_le_of_lt heps hl
      by_cases hw : (|ax.tmp| - ax.r) / n.norm cfg * fudge_factor > st.s
      · simp only [hl, if_true, hw, Option.some.injEq] at h
        subst h
        have hq : (|ax.tmp| - ax.r) / n.norm cfg ≤ 0 :=
          div_nonpos_of_nonpos_of_nonneg hle (le_of_lt hpos)
        refine ⟨?_, Or.inr ⟨hl, rfl, rfl, hw⟩⟩
        show st.s ≤ (|ax.tmp| - ax.r) / n.norm cfg
        have hff : (|ax.tmp| - ax.r) / n.norm cfg * fudge_factor
            ≤ (|ax.tmp| - ax.r) / n.norm cfg := by
          unfold fudge_factor
          nlinarith
        exact le_of_lt (lt_of_lt_of_le hw hff)
      · simp only [hl, if_true, hw, if_false, Option.some.injEq] at h
        subst h
        exact ⟨le_refl _, Or.inl ⟨rfl, fun hc => hw hc.2⟩⟩
    · simp only [hl, if_false, Option.some.injEq] at h
      subst h
      exact ⟨le_refl _, Or.inl ⟨rfl, fun hc => hl hc.1⟩⟩

/-- Over a run of edge blocks: either nothing was recorded and every biased
test failed against the entry value of `s`, or the last recorded candidate
passed its biased test against a running `s` no smaller than the entry value. -/
theorem satFold_edge_win {cfg : Scalar K} (heps : 0 ≤ cfg.epsilon) {l : List (Axis K)}
    {st st1 : SatState K} (hl : ∀ ax ∈ l, ∃ n, ax.edge = some n)
    (h : satFold cfg st l = some st1) :
    st.s ≤ st1.s ∧
    ((st1 = st ∧ ∀ ax ∈ l, ∀ n, ax.edge = some n → ¬ (cfg.epsilon < n.norm cfg ∧
        st.s < (|ax.tmp| - ax.r) / n.norm cfg * fudge_factor)) ∨
     (∃ ax ∈ l, ∃ n, ax.edge = some n ∧ cfg.epsilon < n.norm cfg ∧ st1.code = ax.code ∧
        st1.s = (|ax.tmp| - ax.r) / n.norm cfg ∧
        st.s < (|ax.tmp| - ax.r) / n.norm cfg * fudge_factor)) := by
  induction l generalizing st with
  | nil =>
    simp only [satFold, Option.some.injEq] at h
    subst h
    exact ⟨le_refl _, Or.inl ⟨rfl, fun ax hax => absurd hax (List.not_mem_nil _)⟩⟩
  | cons a rest ih =>
    rw [satFold_cons] at h
    cases hs : satStep cfg st a with
    | none => rw [hs] at h; cases h
    | some st2 =>
      rw [hs] at h
      obtain ⟨na, hna⟩ := hl a (List.mem_cons_self _ _)
      obtain ⟨h1, h2⟩ := satStep_edge_win heps hna hs
      obtain ⟨h3, h4⟩ := ih (fun ax hax => hl ax (List.mem_cons_of_mem _ hax)) h
      refine ⟨le_trans h1 h3, ?_⟩
      rcases h4 with ⟨e1, hall⟩ | ⟨ax, hax, n, hn, hgt, hcode, hs1, hlt⟩
      · rcases h2 with ⟨e2, hfail⟩ | ⟨hgt, hcode, hs2, hlt⟩
        · left
          refine ⟨e1.trans e2, ?_⟩
          intro ax hax n hn
          rcases List.mem_cons.mp hax with rfl | hmem
          · rw [hna] at hn
            cases hn
            exact hfail
          · have := hall ax hmem n hn
            rw [e2] at this
            exact this
        · right
          exact ⟨a, List.mem_cons_self _ _, na, hna, hgt, e1 ▸ hcode, e1 ▸ hs2, hlt⟩
      · right
        exact ⟨ax, List.mem_cons_of_mem _ hax, n, hn, hgt, hcode, hs1, lt_of_le_of_lt h1 hlt⟩

/-- The axis search ends with an edge code only through an edge candidate
whose normalized overlap, times `fudge_factor`, exceeds the overlap of every
face candidate. -/
theorem satPhase_edge_beats_faces {cfg : Scalar K} (heps : 0 ≤ cfg.epsilon) {A B : Vec3 K}
    {tf1 tf2 : Transform3 K} {st : SatState K} (h : satPhase cfg A B tf1 tf2 = some st)
    (h7 : 7 ≤ st.code) :
    ∃ ax ∈ edgeAxes A B tf1 tf2, ∃ n, ax.edge = some n ∧ cfg.epsilon < n.norm cfg ∧
      st.code = ax.code ∧ st.s = (|ax.tmp| - ax.r) / n.norm cfg ∧
      ∀ f ∈ faceAxes A B tf1 tf2,
        |f.tmp| - f.r < (|ax.tmp| - ax.r) / n.norm cfg * fudge_factor := by
  unfold satPhase axes at h
  rw [satFold_append] at h
  cases hf : satFold cfg (SatState.init cfg) (faceAxes A B tf1 tf2) with
  | none => rw [hf] at h; cases h
  | some stF =>
    rw [hf] at h
    simp only [Option.bind] at h
    obtain ⟨-, hmax⟩ := satFold_face_max faceAxes_edge_none hf
    obtain ⟨-, hw⟩ := satFold_edge_win heps edgeAxes_edge_some h
    rcases hw with ⟨e, -⟩ | ⟨ax, hax, n, hn, hgt, hcode, hs, hlt⟩
    · exfalso
      subst e
      rcases satFold_some hf with h1 | ⟨ax, hax, hrec⟩
      · rw [h1] at h7
        simp [SatState.init] at h7
      · have hc := hrec.2.2.1
        have := (axes_face (List.mem_append_left _ hax) (faceAxes_edge_none ax hax)).2.2.2.2
        omega
    · exact ⟨ax, hax, n, hn, hgt, hcode, hs, fun f hfm => lt_of_le_of_lt (hmax f hfm) hlt⟩

/-- If some edge candidate passes its length test and its normalized overlap,
times `fudge_factor`, exceeds the overlap of every face candidate, a search
that finds no separating axis ends with an edge code. -/
theorem satPhase_edge_code {cfg : Scalar K} (heps : 0 ≤ cfg.epsilon) {A B : Vec3 K}
    {tf1 tf2 : Transform3 K} {st : SatState K} (h : satPhase cfg A B tf1 tf2 = some st)
    (hc : st.code ≠ 0) {ax : Axis K} {n : Vec3 K} (hax : ax ∈ edgeAxes A B tf1 tf2)
    (hn : ax.edge = some n) (hl : cfg.epsilon < n.norm cfg)
    (hbeat : ∀ f ∈ faceAxes A B tf1 tf2,
      |f.tmp| - f.r < (|ax.tmp| - ax.r) / n.norm cfg * fudge_factor) :
    7 ≤ st.code := by
  by_contra h7
  have h6 : st.code ≤ 6 := by omega
  obtain ⟨⟨f, hfm, hrec⟩, -⟩ := satPhase_face h hc h6
  have hsf : st.s = |f.tmp| - f.r := by
    have hm := hrec.2.2.2
    rw [faceAxes_edge_none f hfm] at hm
    exact hm.1
  unfold satPhase axes at h
  rw [satFold_append] at h
  cases hf : satFold cfg (SatState.init cfg) (faceAxes A B tf1 tf2) with
  | none => rw [hf] at h; cases h
  | some stF =>
    rw [hf] at h
    simp only [Option.bind] at h
    obtain ⟨hmono, hw⟩ := satFold_edge_win heps edgeAxes_edge_some h
    rcases hw with ⟨e, hall⟩ | ⟨ax2, hax2, n2, -, -, hcode, -, -⟩
    · subst e
      exact hall ax hax n hn ⟨hl, hsf ▸ hbeat f hfm⟩
    · have := edgeAxes_code_ge ax2 hax2
      omega

/-! ## The two turned cubes end with an edge code -/

theorem ridges_edge_code (normal : Vec3 ℝ) (depth : ℝ) (maxc : Int)
    (contacts : List (ContactPoint ℝ)) :
    7 ≤ (boxBox2 (binary64 Real.sqrt (fun y x => Complex.arg ⟨x, y⟩) Real.pi)
      (⟨1, 1, 1⟩ : Vec3 ℝ) ⟨Mat3.rotX (3 / 5) (4 / 5), ⟨0, 0, 0⟩⟩ ⟨1, 1, 1⟩
      ⟨Mat3.rotY (3 / 5) (4 / 5), ⟨0, 0, 1400001 / 1000000⟩⟩ normal depth maxc
      contacts).return_code := by
  obtain ⟨st, hst, hc⟩ := satPhase_code_of_no_sep
    (binary64 Real.sqrt (fun y x => Complex.arg ⟨x, y⟩) Real.pi)
    ((⟨1, 1, 1⟩ : Vec3 ℝ).smul (1 / 2)) ((⟨1, 1, 1⟩ : Vec3 ℝ).smul (1 / 2))
    ⟨Mat3.rotX (3 / 5) (4 / 5), ⟨0, 0, 0⟩⟩
    ⟨Mat3.rotY (3 / 5) (4 / 5), ⟨0, 0, 1400001 / 1000000⟩⟩ ridges_no_test_fires
    (first_axis_in_range _ _ _ _ _ ⟨zero_le_one, zero_le_one, zero_le_one⟩
      rotX_isRotation rotY_isRotation (binary64_max_gt_two _ _ _))
  rw [boxBox2_return_code, hst]
  have hax : (⟨1400001 / 1000000, 700001 / 500000, some ⟨0, 4 / 5, 3 / 5⟩, -1, 0, 8⟩ : Axis ℝ)
      ∈ edgeAxes ((⟨1, 1, 1⟩ : Vec3 ℝ).smul (1 / 2)) ((⟨1, 1, 1⟩ : Vec3 ℝ).smul (1 / 2))
        ⟨Mat3.rotX (3 / 5) (4 / 5), ⟨0, 0, 0⟩⟩
        ⟨Mat3.rotY (3 / 5) (4 / 5), ⟨0, 0, 1400001 / 1000000⟩⟩ := by
    norm_num [edgeAxes, Mat3.rotX, Mat3.rotY, Mat3.transpose, Mat3.mul,
      Mat3.mulVec, Mat3.row, Mat3.col, Mat3.coeff, Mat3.cwiseAbs, Mat3.addScalar, Vec3.dot,
      Vec3.get, Vec3.sub, Vec3.smul, fudge2, abs_of_pos, abs_of_neg, abs_of_nonneg]
  have hnorm : (⟨0, 4 / 5, 3 / 5⟩ : Vec3 ℝ).norm
      (binary64 Real.sqrt (fun y x => Complex.arg ⟨x, y⟩) Real.pi) = 1 := by
    have e : (0 : ℝ) * 0 + 4 / 5 * (4 / 5) + 3 / 5 * (3 / 5) = 1 := by norm_num
    simp only [Vec3.norm, Vec3.dot, binary64, e, Real.sqrt_one]
  refine satPhase_edge_code (binary64_epsilon_nonneg _ _ _) hst hc hax rfl ?_ ?_
  · rw [hnorm]
    norm_num [binary64]
  · intro f hfm
    rw [hnorm]
    norm_num [faceAxes, Mat3.rotX, Mat3.rotY, Mat3.transpose, Mat3.mul,
      Mat3.mulVec, Mat3.row, Mat3.col, Mat3.coeff, Mat3.cwiseAbs, Vec3.dot,
      Vec3.get, Vec3.sub, Vec3.smul, abs_of_pos, abs_of_neg, abs_of_nonneg] at hfm
    rcases hfm with h | h | h | h | h | h <;>
      subst h <;> norm_num [fudge_factor, abs_of_pos, abs_of_neg, abs_of_nonneg]

/-- When no test fires and some face candidate has an overlap above `-max`,
the axis search ends with a non-zero code. -/
theorem boxBox2_code_pos_of_no_sep (cfg : Scalar K) (heps : 0 ≤ cfg.epsilon)
    (side1 side2 : Vec3 K) (tf1 tf2 : Transform3 K) (normal : Vec3 K) (depth : K) (maxc : Int)
    (contacts : List (ContactPoint K))
    (hno : ∀ ax ∈ axes (side1.smul (1 / 2)) (side2.smul (1 / 2)) tf1 tf2,
      ¬ (|ax.tmp| - ax.r > 0))
    {f : Axis K} (hf : f ∈ faceAxes (side1.smul (1 / 2)) (side2.smul (1 / 2)) tf1 tf2)
    (hr : -cfg.max < |f.tmp| - f.r) :
    1 ≤ (boxBox2 cfg side1 tf1 side2 tf2 normal depth maxc contacts).return_code := by
  cases hst : satPhase cfg (side1.smul (1 / 2)) (side2.smul (1 / 2)) tf1 tf2 with
  | none =>
    obtain ⟨ax, hmem, hsep⟩ := (satFold_eq_none cfg _ _).mp hst
    exact absurd hsep (hno ax hmem)
  | some st =>
    rw [boxBox2_return_code, hst]
    show 1 ≤ st.code
    have hge : |f.tmp| - f.r ≤ st.s := by
      have h := hst
      unfold satPhase axes at h
      rw [satFold_append] at h
      cases hF : satFold cfg (SatState.init cfg)
          (faceAxes (side1.smul (1 / 2)) (side2.smul (1 / 2)) tf1 tf2) with
      | none => rw [hF] at h; cases h
      | some stF =>
        rw [hF] at h
        simp only [Option.bind] at h
        exact le_trans ((satFold_face_max faceAxes_edge_none hF).2 f hf)
          (satFold_edge_win heps edgeAxes_edge_some h).1
    rcases satFold_some hst with h1 | ⟨ax, hmem, hrec⟩
    · exfalso
      rw [h1] at hge
      simp only [SatState.init] at hge
      exact absurd hr (not_lt.mpr hge)
    · have hcode : st.code = ax.code := hrec.2.2.1
      cases he : ax.edge with
      | none =>
        have := (axes_face hmem he).2.2.2.1
        omega
      | some n =>
        have := (axes_edge hmem he).2.1
        omega

/-- C29: the factor `fudge_factor = 1.05` biases the axis search towards the
face normals.  With a non-negative `epsilon`: when `boxBox2` returns an edge
code (7..15), that code belongs to an edge candidate that passed its length
test, the reported depth is the opposite of its normalized overlap
`s2' = s2 / l`, which is not positive, and `1.05 * s2'` exceeds the overlap
`s2` of every one of the six face candidates.  In particular, when some face
candidate has an overlap `s2` with `1.05 * s2' ≤ s2` for every tested edge
candidate (its overlap is within the factor 1.05 of the best edge overlap), or
with `s2' ≤ s2` for every tested edge candidate (it ties the best edge
overlap), the returned code is at most 6; it is then at least 1 when no test
fires and that face overlap is above `-max`. -/
theorem boxBox2_edge_code_beats_faces (cfg : Scalar K) (heps : 0 ≤ cfg.epsilon)
    (side1 side2 : Vec3 K) (tf1 tf2 : Transform3 K) (normal : Vec3 K) (depth : K) (maxc : Int)
    (contacts : List (ContactPoint K)) :
    (7 ≤ (boxBox2 cfg side1 tf1 side2 tf2 normal depth maxc contacts).return_code →
      (boxBox2 cfg side1 tf1 side2 tf2 normal depth maxc contacts).return_code ≤ 15 ∧
      ∃ ax ∈ edgeAxes (side1.smul (1 / 2)) (side2.smul (1 / 2)) tf1 tf2, ∃ n,
        ax.edge = some n ∧
        ax.code = (boxBox2 cfg side1 tf1 side2 tf2 normal depth maxc contacts).return_code ∧
        cfg.epsilon < n.norm cfg ∧
        (boxBox2 cfg side1 tf1 side2 tf2 normal depth maxc contacts).depth
          = -((|ax.tmp| - ax.r) / n.norm cfg) ∧
        (|ax.tmp| - ax.r) / n.norm cfg ≤ 0 ∧
        ∀ f ∈ faceAxes (side1.smul (1 / 2)) (side2.smul (1 / 2)) tf1 tf2,
          |f.tmp| - f.r < (|ax.tmp| - ax.r) / n.norm cfg * fudge_factor) ∧
    (∀ f ∈ faceAxes (side1.smul (1 / 2)) (side2.smul (1 / 2)) tf1 tf2,
      ((∀ ax ∈ edgeAxes (side1.smul (1 / 2)) (side2.smul (1 / 2)) tf1 tf2, ∀ n,
          ax.edge = some n → cfg.epsilon < n.norm cfg →
          (|ax.tmp| - ax.r) / n.norm cfg * fudge_factor ≤ |f.tmp| - f.r) ∨
        (∀ ax ∈ edgeAxes (side1.smul (1 / 2)) (side2.smul (1 / 2)) tf1 tf2, ∀ n,
          ax.edge = some n → cfg.epsilon < n.norm cfg →
          (|ax.tmp| - ax.r) / n.norm cfg ≤ |f.tmp| - f.r)) →
      (boxBox2 cfg side1 tf1 side2 tf2 normal depth maxc contacts).return_code ≤ 6 ∧
      ((∀ ax ∈ axes (side1.smul (1 / 2)) (side2.smul (1 / 2)) tf1 tf2,
          ¬ (|ax.tmp| - ax.r > 0)) → -cfg.max < |f.tmp| - f.r →
        1 ≤ (boxBox2 cfg side1 tf1 side2 tf2 normal depth maxc contacts).return_code)) := by
  have key : 7 ≤ (boxBox2 cfg side1 tf1 side2 tf2 normal depth maxc contacts).return_code →
      (boxBox2 cfg side1 tf1 side2 tf2 normal depth maxc contacts).return_code ≤ 15 ∧
      ∃ ax ∈ edgeAxes (side1.smul (1 / 2)) (side2.smul (1 / 2)) tf1 tf2, ∃ n,
        ax.edge = some n ∧
        ax.code = (boxBox2 cfg side1 tf1 side2 tf2 normal depth maxc contacts).return_code ∧
        cfg.epsilon < n.norm cfg ∧
        (boxBox2 cfg side1 tf1 side2 tf2 normal depth maxc contacts).depth
          = -((|ax.tmp| - ax.r) / n.norm cfg) ∧
        (|ax.tmp| - ax.r) / n.norm cfg ≤ 0 ∧
        ∀ f ∈ faceAxes (side1.smul (1 / 2)) (side2.smul (1 / 2)) tf1 tf2,
          |f.tmp| - f.r < (|ax.tmp| - ax.r) / n.norm cfg * fudge_factor := by
    intro h7
    cases hst : satPhase cfg (side1.smul (1 / 2)) (side2.smul (1 / 2)) tf1 tf2 with
    | none =>
      rw [boxBox2_return_code, hst] at h7
      simp at h7
    | some st =>
      rw [boxBox2_return_code, hst] at h7
      have h7s : 7 ≤ st.code := h7
      have hc : st.code ≠ 0 := by omega
      obtain ⟨-, hd, hrc⟩ :=
        boxBox2_of_sat cfg side1 side2 tf1 tf2 normal depth maxc contacts st hst hc
      obtain ⟨ax, hax, n, hn, hgt, hcode, hs, hbeat⟩ := satPhase_edge_beats_faces heps hst h7s
      obtain ⟨ax2, -, hrec⟩ := satPhase_recorded hst hc
      have hnp : st.s ≤ 0 := recorded_s_nonpos heps hrec
      rw [hd, hrc]
      refine ⟨?_, ax, hax, n, hn, hcode.symm, hgt, by rw [hs], hs ▸ hnp, hbeat⟩
      have := (axes_edge (List.mem_append_right _ hax) hn).2.2
      omega
  refine ⟨key, ?_⟩
  intro f hfm hall
  refine ⟨?_, fun hno hr =>
    boxBox2_code_pos_of_no_sep cfg heps side1 side2 tf1 tf2 normal depth maxc contacts hno hfm hr⟩
  by_contra h6
  have h7 : 7 ≤ (boxBox2 cfg side1 tf1 side2 tf2 normal depth maxc contacts).return_code := by
    omega
  obtain ⟨-, ax, hax, n, hn, -, hgt, -, hnp, hbeat⟩ := key h7
  have hb := hbeat f hfm
  rcases hall with hall | hall
  · exact absurd hb (not_lt.mpr (hall ax hax n hn hgt))
  · have h2 := hall ax hax n hn hgt
    unfold fudge_factor at hb
    nlinarith

/-- C29 on two unit cubes, the first turned about x and the second about y
(cosine 3/5, sine 4/5), the second centred 1.400001 above the first: the
returned code is an edge code, and the edge candidate behind it beats every
face candidate by the factor 1.05. -/
theorem boxBox2_edge_code_beats_faces_witness :
    0 ≤ (binary64 Real.sqrt (fun y x => Complex.arg ⟨x, y⟩) Real.pi).epsilon ∧
    7 ≤ (boxBox2 (binary64 Real.sqrt (fun y x => Complex.arg ⟨x, y⟩) Real.pi)
      (⟨1, 1, 1⟩ : Vec3 ℝ) ⟨Mat3.rotX (3 / 5) (4 / 5), ⟨0, 0, 0⟩⟩ ⟨1, 1, 1⟩
      ⟨Mat3.rotY (3 / 5) (4 / 5), ⟨0, 0, 1400001 / 1000000⟩⟩ ⟨0, 0, 0⟩ 0 4 []).return_code ∧
    ((boxBox2 (binary64 Real.sqrt (fun y x => Complex.arg ⟨x, y⟩) Real.pi)
      (⟨1, 1, 1⟩ : Vec3 ℝ) ⟨Mat3.rotX (3 / 5) (4 / 5), ⟨0, 0, 0⟩⟩ ⟨1, 1, 1⟩
      ⟨Mat3.rotY (3 / 5) (4 / 5), ⟨0, 0, 1400001 / 1000000⟩⟩ ⟨0, 0, 0⟩ 0 4 []).return_code
        ≤ 15 ∧
      ∃ ax ∈ edgeAxes ((⟨1, 1, 1⟩ : Vec3 ℝ).smul (1 / 2)) ((⟨1, 1, 1⟩ : Vec3 ℝ).smul (1 / 2))
        ⟨Mat3.rotX (3 / 5) (4 / 5), ⟨0, 0, 0⟩⟩
        ⟨Mat3.rotY (3 / 5) (4 / 5), ⟨0, 0, 1400001 / 1000000⟩⟩, ∃ n,
        ax.edge = some n ∧
        ax.code = (boxBox2 (binary64 Real.sqrt (fun y x => Complex.arg ⟨x, y⟩) Real.pi)
          (⟨1, 1, 1⟩ : Vec3 ℝ) ⟨Mat3.rotX (3 / 5) (4 / 5), ⟨0, 0, 0⟩⟩ ⟨1, 1, 1⟩
          ⟨Mat3.rotY (3 / 5) (4 / 5), ⟨0, 0, 1400001 / 1000000⟩⟩ ⟨0, 0, 0⟩ 0 4
          []).return_code ∧
        (binary64 Real.sqrt (fun y x => Complex.arg ⟨x, y⟩) Real.pi).epsilon
          < n.norm (binary64 Real.sqrt (fun y x => Complex.arg ⟨x, y⟩) Real.pi) ∧
        (boxBox2 (binary64 Real.sqrt (fun y x => Complex.arg ⟨x, y⟩) Real.pi)
          (⟨1, 1, 1⟩ : Vec3 ℝ) ⟨Mat3.rotX (3 / 5) (4 / 5), ⟨0, 0, 0⟩⟩ ⟨1, 1, 1⟩
          ⟨Mat3.rotY (3 / 5) (4 / 5), ⟨0, 0, 1400001 / 1000000⟩⟩ ⟨0, 0, 0⟩ 0 4 []).depth
          = -((|ax.tmp| - ax.r)
              / n.norm (binary64 Real.sqrt (fun y x => Complex.arg ⟨x, y⟩) Real.pi)) ∧
        (|ax.tmp| - ax.r)
          / n.norm (binary64 Real.sqrt (fun y x => Complex.arg ⟨x, y⟩) Real.pi) ≤ 0 ∧
        ∀ f ∈ faceAxes ((⟨1, 1, 1⟩ : Vec3 ℝ).smul (1 / 2))
            ((⟨1, 1, 1⟩ : Vec3 ℝ).smul (1 / 2)) ⟨Mat3.rotX (3 / 5) (4 / 5), ⟨0, 0, 0⟩⟩
            ⟨Mat3.rotY (3 / 5) (4 / 5), ⟨0, 0, 1400001 / 1000000⟩⟩,
          |f.tmp| - f.r < (|ax.tmp| - ax.r)
            / n.norm (binary64 Real.sqrt (fun y x => Complex.arg ⟨x, y⟩) Real.pi)
            * fudge_factor) :=
  ⟨binary64_epsilon_nonneg _ _ _, ridges_edge_code _ _ _ _,
    (boxBox2_edge_code_beats_faces _ (binary64_epsilon_nonneg _ _ _) _ _ _ _ _ _ _ _).1
      (ridges_edge_code _ _ _ _)⟩

/-! ## The edge/edge contact -/

theorem cornerWalk_eq (tf : Transform3 K) (half normal : Vec3 K) (pos : K) :
    cornerWalk tf half normal pos = boxPoint tf
      ⟨half.x * (if (tf.linear.col 0).dot normal > 0 then pos else -pos),
       half.y * (if (tf.linear.col 1).dot normal > 0 then pos else -pos),
       half.z * (if (tf.linear.col 2).dot normal > 0 then pos else -pos)⟩ := by
  simp only [cornerWalk, List.foldl, boxPoint, Vec3.add, Vec3.smul, Mat3.mulVec, Mat3.row,
    Mat3.col, coeff_literals, get_literals, Vec3.dot, Vec3.mk.injEq]
  refine ⟨?_, ?_, ?_⟩ <;> ring

theorem dot_boxPoint (L : Vec3 K) (tf : Transform3 K) (c : Vec3 K) :
    L.dot (boxPoint tf c) = L.dot tf.translation + c.x * (tf.linear.col 0).dot L
      + c.y * (tf.linear.col 1).dot L + c.z * (tf.linear.col 2).dot L := by
  simp only [boxPoint, Vec3.add, Mat3.mulVec, Mat3.row, Mat3.col, coeff_literals, Vec3.dot]
  ring

theorem corner_term_le (h d c : K) (hc : |c| ≤ h) :
    c * d ≤ h * (if d > 0 then 1 else -1) * d := by
  obtain ⟨h1, h2⟩ := abs_le.mp hc
  split_ifs with hd
  · nlinarith
  · have : d ≤ 0 := not_lt.mp hd
    nlinarith

theorem corner_term_ge (h d c : K) (hc : |c| ≤ h) :
    h * (if d > 0 then -1 else - -1) * d ≤ c * d := by
  obtain ⟨h1, h2⟩ := abs_le.mp hc
  split_ifs with hd
  · nlinarith
  · have : d ≤ 0 := not_lt.mp hd
    nlinarith

/-- The corner reached by the walk with `sign = +1` along the columns that
point with `normal` is a vertex of the box, extremal in direction `normal`. -/
theorem cornerWalk_pos_extremal (side : Vec3 K) (tf : Transform3 K) (normal : Vec3 K) :
    IsExtremalVertex side tf normal
      ⟨(side.smul (1 / 2)).x * (if (tf.linear.col 0).dot normal > 0 then 1 else -1),
       (side.smul (1 / 2)).y * (if (tf.linear.col 1).dot normal > 0 then 1 else -1),
       (side.smul (1 / 2)).z * (if (tf.linear.col 2).dot normal > 0 then 1 else -1)⟩ := by
  have ex : (side.smul (1 / 2)).x = side.x / 2 := by simp only [Vec3.smul]; ring
  have ey : (side.smul (1 / 2)).y = side.y / 2 := by simp only [Vec3.smul]; ring
  have ez : (side.smul (1 / 2)).z = side.z / 2 := by simp only [Vec3.smul]; ring
  rw [ex, ey, ez]
  refine ⟨?_, ?_, ?_, ?_⟩
  · show side.x / 2 * _ = _ ∨ side.x / 2 * _ = _
    split_ifs
    · left; ring
    · right; ring
  · show side.y / 2 * _ = _ ∨ side.y / 2 * _ = _
    split_ifs
    · left; ring
    · right; ring
  · show side.z / 2 * _ = _ ∨ side.z / 2 * _ = _
    split_ifs
    · left; ring
    · right; ring
  · intro c2 hx hy hz
    rw [dot_boxPoint, dot_boxPoint]
    have t0 := corner_term_le _ ((tf.linear.col 0).dot normal) _ hx
    have t1 := corner_term_le _ ((tf.linear.col 1).dot normal) _ hy
    have t2 := corner_term_le _ ((tf.linear.col 2).dot normal) _ hz
    linarith

/-- The corner reached by the walk with `sign = -1` along the columns that
point with `normal` is a vertex of the box, extremal in direction `-normal`. -/
theorem cornerWalk_neg_extremal (side : Vec3 K) (tf : Transform3 K) (normal : Vec3 K) :
    IsExtremalVertex side tf normal.neg
      ⟨(side.smul (1 / 2)).x * (if (tf.linear.col 0).dot normal > 0 then -1 else - -1),
       (side.smul (1 / 2)).y * (if (tf.linear.col 1).dot normal > 0 then -1 else - -1),
       (side.smul (1 / 2)).z * (if (tf.linear.col 2).dot normal > 0 then -1 else - -1)⟩ := by
  have ex : (side.smul (1 / 2)).x = side.x / 2 := by simp only [Vec3.smul]; ring
  have ey : (side.smul (1 / 2)).y = side.y / 2 := by simp only [Vec3.smul]; ring
  have ez : (side.smul (1 / 2)).z = side.z / 2 := by simp only [Vec3.smul]; ring
  rw [ex, ey, ez]
  refine ⟨?_, ?_, ?_, ?_⟩
  · show side.x / 2 * _ = _ ∨ side.x / 2 * _ = _
    split_ifs
    · right; ring
    · left; ring
  · show side.y / 2 * _ = _ ∨ side.y / 2 * _ = _
    split_ifs
    · right; ring
    · left; ring
  · show side.z / 2 * _ = _ ∨ side.z / 2 * _ = _
    split_ifs
    · right; ring
    · left; ring
  · intro c2 hx hy hz
    rw [dot_neg_left, dot_neg_left, dot_boxPoint, dot_boxPoint]
    have t0 := corner_term_ge _ ((tf.linear.col 0).dot normal) _ hx
    have t1 := corner_term_ge _ ((tf.linear.col 1).dot normal) _ hy
    have t2 := corner_term_ge _ ((tf.linear.col 2).dot normal) _ hz
    linarith

/-- C30: whenever `boxBox2` ends with a code in 7..15 it returns 1 and appends
exactly one contact, whatever `maxc` is.  The normal of that contact is the
output normal, its depth is the opposite of the output depth, and its position
is `pb + beta * ub`: `pa` is a vertex of box 1 extremal in direction `+normal`,
`pb` a vertex of box 2 extremal in direction `-normal`,
`ub = tf2.col((code - 7) % 3)` and `(alpha, beta)` is the result of
`lineClosestApproach(pa, tf1.col((code - 7) / 3), pb, ub)`. -/
theorem boxBox2_edge_contact (cfg : Scalar K) (side1 side2 : Vec3 K) (tf1 tf2 : Transform3 K)
    (normal : Vec3 K) (depth : K) (maxc : Int) (contacts : List (ContactPoint K))
    (h7 : 7 ≤ (boxBox2 cfg side1 tf1 side2 tf2 normal depth maxc contacts).return_code) :
    (boxBox2 cfg side1 tf1 side2 tf2 normal depth maxc contacts).ret = 1 ∧
    (∀ maxc2 : Int, boxBox2 cfg side1 tf1 side2 tf2 normal depth maxc2 contacts
      = boxBox2 cfg side1 tf1 side2 tf2 normal depth maxc contacts) ∧
    ∃ ca cb : Vec3 K,
      IsExtremalVertex side1 tf1
        (boxBox2 cfg side1 tf1 side2 tf2 normal depth maxc contacts).normal ca ∧
      IsExtremalVertex side2 tf2
        (boxBox2 cfg side1 tf1 side2 tf2 normal depth maxc contacts).normal.neg cb ∧
      (boxBox2 cfg side1 tf1 side2 tf2 normal depth maxc contacts).contacts
        = contacts ++
          [⟨(boxBox2 cfg side1 tf1 side2 tf2 normal depth maxc contacts).normal,
            (boxPoint tf2 cb).add
              ((tf2.linear.col
                  (((boxBox2 cfg side1 tf1 side2 tf2 normal depth maxc contacts).return_code
                    - 7) % 3)).smul
                (lineClosestApproach (boxPoint tf1 ca)
                  (tf1.linear.col
                    (((boxBox2 cfg side1 tf1 side2 tf2 normal depth maxc contacts).return_code
                      - 7) / 3))
                  (boxPoint tf2 cb)
                  (tf2.linear.col
                    (((boxBox2 cfg side1 tf1 side2 tf2 normal depth maxc contacts).return_code
                      - 7) % 3))).2),
            -(boxBox2 cfg side1 tf1 side2 tf2 normal depth maxc contacts).depth⟩] := by
  cases hst : satPhase cfg (side1.smul (1 / 2)) (side2.smul (1 / 2)) tf1 tf2 with
  | none =>
    rw [boxBox2_return_code, hst] at h7
    simp at h7
  | some st =>
    rw [boxBox2_return_code, hst] at h7
    have h7s : 7 ≤ st.code := h7
    have hc : st.code ≠ 0 := by omega
    have h6 : st.code > 6 := by omega
    have hE := fun m : Int =>
      boxBox2_of_edge cfg side1 side2 tf1 tf2 normal depth m contacts st hst hc h6
    refine ⟨by rw [hE maxc], fun m => by rw [hE m, hE maxc], ?_⟩
    rw [hE maxc]
    refine ⟨_, _, cornerWalk_pos_extremal side1 tf1 (satNormal tf1 tf2 st),
      cornerWalk_neg_extremal side2 tf2 (satNormal tf1 tf2 st), ?_⟩
    show contacts ++ [edgeContact (side1.smul (1 / 2)) (side2.smul (1 / 2)) tf1 tf2
      (satNormal tf1 tf2 st) (-st.s) st.code] = _
    unfold edgeContact
    simp only [cornerWalk_eq]

/-- C30 on two unit cubes, the first turned about x and the second about y
(cosine 3/5, sine 4/5), the second centred 1.400001 above the first: the code
is an edge code, one contact is appended and 1 is returned for every `maxc`. -/
theorem boxBox2_edge_contact_witness :
    7 ≤ (boxBox2 (binary64 Real.sqrt (fun y x => Complex.arg ⟨x, y⟩) Real.pi)
      (⟨1, 1, 1⟩ : Vec3 ℝ) ⟨Mat3.rotX (3 / 5) (4 / 5), ⟨0, 0, 0⟩⟩ ⟨1, 1, 1⟩
      ⟨Mat3.rotY (3 / 5) (4 / 5), ⟨0, 0, 1400001 / 1000000⟩⟩ ⟨0, 0, 0⟩ 0 4 []).return_code ∧
    (boxBox2 (binary64 Real.sqrt (fun y x => Complex.arg ⟨x, y⟩) Real.pi)
      (⟨1, 1, 1⟩ : Vec3 ℝ) ⟨Mat3.rotX (3 / 5) (4 / 5), ⟨0, 0, 0⟩⟩ ⟨1, 1, 1⟩
      ⟨Mat3.rotY (3 / 5) (4 / 5), ⟨0, 0, 1400001 / 1000000⟩⟩ ⟨0, 0, 0⟩ 0 4 []).ret = 1 ∧
    ∀ maxc2 : Int,
      boxBox2 (binary64 Real.sqrt (fun y x => Complex.arg ⟨x, y⟩) Real.pi)
        (⟨1, 1, 1⟩ : Vec3 ℝ) ⟨Mat3.rotX (3 / 5) (4 / 5), ⟨0, 0, 0⟩⟩ ⟨1, 1, 1⟩
        ⟨Mat3.rotY (3 / 5) (4 / 5), ⟨0, 0, 1400001 / 1000000⟩⟩ ⟨0, 0, 0⟩ 0 maxc2 []
      = boxBox2 (binary64 Real.sqrt (fun y x => Complex.arg ⟨x, y⟩) Real.pi)
        (⟨1, 1, 1⟩ : Vec3 ℝ) ⟨Mat3.rotX (3 / 5) (4 / 5), ⟨0, 0, 0⟩⟩ ⟨1, 1, 1⟩
        ⟨Mat3.rotY (3 / 5) (4 / 5), ⟨0, 0, 1400001 / 1000000⟩⟩ ⟨0, 0, 0⟩ 0 4 [] :=
  ⟨ridges_edge_code _ _ _ _,
    (boxBox2_edge_contact _ _ _ _ _ _ _ _ _ (ridges_edge_code _ _ _ _)).1,
    (boxBox2_edge_contact _ _ _ _ _ _ _ _ _ (ridges_edge_code _ _ _ _)).2.1⟩

/-! ## The normal behind each code -/

theorem rot_cross {m : Mat3 K} (h : m.IsRotation) (a b : Vec3 K) :
    m.mulVec (a.cross b) = (m.mulVec a).cross (m.mulVec b) := by
  obtain ⟨⟨c1, c2, c3⟩, ⟨c4, c5, c6⟩, ⟨c7, c8, c9⟩⟩ := rotation_cofactor h
  simp only [Mat3.mulVec, Mat3.row, coeff_literals, Vec3.dot, Vec3.cross, Vec3.mk.injEq]
  refine ⟨?_, ?_, ?_⟩
  · linear_combination (-(a.x * b.y - a.y * b.x)) * c1 - (a.y * b.z - a.z * b.y) * c4
      - (a.z * b.x - a.x * b.z) * c7
  · linear_combination (-(a.x * b.y - a.y * b.x)) * c2 - (a.y * b.z - a.z * b.y) * c5
      - (a.z * b.x - a.x * b.z) * c8
  · linear_combination (-(a.x * b.y - a.y * b.x)) * c3 - (a.y * b.z - a.z * b.y) * c6
      - (a.z * b.x - a.x * b.z) * c9

theorem rot_mul_transpose {m : Mat3 K} (h : m.IsRotation) (v : Vec3 K) :
    m.mulVec (m.transpose.mulVec v) = v := by
  obtain ⟨h0, h1, h2, h01, h02, h12, -⟩ := rotation_transpose h
  simp only [Mat3.col, coeff_literals, Vec3.dot, Mat3.transpose] at h0 h1 h2 h01 h02 h12
  cases v with
  | mk x y z =>
    simp only [Mat3.mulVec, Mat3.row, coeff_literals, Vec3.dot, Mat3.transpose, Vec3.mk.injEq]
    refine ⟨?_, ?_, ?_⟩
    · linear_combination x * h0 + y * h01 + z * h02
    · linear_combination x * h01 + y * h1 + z * h12
    · linear_combination x * h02 + y * h12 + z * h2

theorem mulVec_unit (g : Mat3 K) (i : Nat) :
    g.mulVec ((Mat3.identity : Mat3 K).col i) = g.col i := by
  rw [← mul_col_any]
  congr 1
  simp [Mat3.mul, Mat3.identity, Mat3.row, Mat3.col, Mat3.coeff, Vec3.dot]

theorem sdiv_eq_smul (v : Vec3 K) (l : K) : v.sdiv l = v.smul l⁻¹ := by
  simp only [Vec3.sdiv, Vec3.smul, div_eq_mul_inv]

theorem mulVec_sdiv (g : Mat3 K) (a : Vec3 K) (l : K) :
    g.mulVec (a.sdiv l) = (g.mulVec a).sdiv l := by
  rw [sdiv_eq_smul, sdiv_eq_smul, mulVec_smul]

/-- The body-1 vector `n` of an edge candidate is the cross product of the
unit vector `e_i` with column `j` of `R = R1ᵀ R2`, where `code = 7 + 3 i + j`. -/
theorem edgeAxes_cross {A B : Vec3 K} {tf1 tf2 : Transform3 K} {ax : Axis K} {n : Vec3 K}
    (hmem : ax ∈ edgeAxes A B tf1 tf2) (he : ax.edge = some n) :
    n = ((Mat3.identity : Mat3 K).col ((ax.code - 7) / 3)).cross
      ((tf1.linear.transpose.mul tf2.linear).col ((ax.code - 7) % 3)) := by
  simp only [edgeAxes, List.mem_cons, List.mem_singleton, List.not_mem_nil, or_false] at hmem
  rcases hmem with h | h | h | h | h | h | h | h | h <;>
    subst h <;> simp only [Option.some.injEq] at he <;> subst he <;>
    simp [Vec3.cross, Mat3.identity, Mat3.col, Mat3.coeff]

/-- Mapped to the world by `R1`, the vector `n` of an edge candidate is the
cross product of column `i` of `tf1` with column `j` of `tf2`. -/
theorem edgeAxes_world_cross {A B : Vec3 K} {tf1 tf2 : Transform3 K}
    (h1 : tf1.linear.IsRotation) {ax : Axis K} {n : Vec3 K}
    (hmem : ax ∈ edgeAxes A B tf1 tf2) (he : ax.edge = some n) :
    tf1.linear.mulVec n = (tf1.linear.col ((ax.code - 7) / 3)).cross
      (tf2.linear.col ((ax.code - 7) % 3)) := by
  rw [edgeAxes_cross hmem he, rot_cross h1, mulVec_unit, mul_col_any, rot_mul_transpose h1]

/-- C28: for a rotation `tf1.linear()` and a result with a non-zero code, the
output normal is, up to sign: column `code - 1` of `tf1` for the codes 1..3,
column `code - 4` of `tf2` for the codes 4..6, and for the codes 7..15 the
cross product `w = tf1.col(i) × tf2.col(j)`, `i = (code - 7) / 3`,
`j = (code - 7) % 3`, divided by its length; there the body-1 vector `n` of the
winning edge candidate, mapped by `R1`, equals `w`. -/
theorem boxBox2_normal_by_code (cfg : Scalar K) (side1 side2 : Vec3 K)
    (tf1 tf2 : Transform3 K) (h1 : tf1.linear.IsRotation) (normal : Vec3 K) (depth : K)
    (maxc : Int) (contacts : List (ContactPoint K))
    (hrc : (boxBox2 cfg side1 tf1 side2 tf2 normal depth maxc contacts).return_code ≠ 0) :
    ((boxBox2 cfg side1 tf1 side2 tf2 normal depth maxc contacts).return_code ≤ 3 →
      (boxBox2 cfg side1 tf1 side2 tf2 normal depth maxc contacts).normal
          = tf1.linear.col
            ((boxBox2 cfg side1 tf1 side2 tf2 normal depth maxc contacts).return_code - 1) ∨
        (boxBox2 cfg side1 tf1 side2 tf2 normal depth maxc contacts).normal
          = (tf1.linear.col
            ((boxBox2 cfg side1 tf1 side2 tf2 normal depth maxc contacts).return_code - 1)).neg) ∧
    (4 ≤ (boxBox2 cfg side1 tf1 side2 tf2 normal depth maxc contacts).return_code →
      (boxBox2 cfg side1 tf1 side2 tf2 normal depth maxc contacts).return_code ≤ 6 →
      (boxBox2 cfg side1 tf1 side2 tf2 normal depth maxc contacts).normal
          = tf2.linear.col
            ((boxBox2 cfg side1 tf1 side2 tf2 normal depth maxc contacts).return_code - 4) ∨
        (boxBox2 cfg side1 tf1 side2 tf2 normal depth maxc contacts).normal
          = (tf2.linear.col
            ((boxBox2 cfg side1 tf1 side2 tf2 normal depth maxc contacts).return_code - 4)).neg) ∧
    (7 ≤ (boxBox2 cfg side1 tf1 side2 tf2 normal depth maxc contacts).return_code →
      (boxBox2 cfg side1 tf1 side2 tf2 normal depth maxc contacts).return_code ≤ 15 ∧
      (∃ ax ∈ edgeAxes (side1.smul (1 / 2)) (side2.smul (1 / 2)) tf1 tf2, ∃ n,
        ax.edge = some n ∧
        ax.code = (boxBox2 cfg side1 tf1 side2 tf2 normal depth maxc contacts).return_code ∧
        tf1.linear.mulVec n
          = (tf1.linear.col
              (((boxBox2 cfg side1 tf1 side2 tf2 normal depth maxc contacts).return_code
                - 7) / 3)).cross
            (tf2.linear.col
              (((boxBox2 cfg side1 tf1 side2 tf2 normal depth maxc contacts).return_code
                - 7) % 3))) ∧
      ((boxBox2 cfg side1 tf1 side2 tf2 normal depth maxc contacts).normal
          = ((tf1.linear.col
              (((boxBox2 cfg side1 tf1 side2 tf2 normal depth maxc contacts).return_code
                - 7) / 3)).cross
            (tf2.linear.col
              (((boxBox2 cfg side1 tf1 side2 tf2 normal depth maxc contacts).return_code
                - 7) % 3))).sdiv
            (((tf1.linear.col
              (((boxBox2 cfg side1 tf1 side2 tf2 normal depth maxc contacts).return_code
                - 7) / 3)).cross
            (tf2.linear.col
              (((boxBox2 cfg side1 tf1 side2 tf2 normal depth maxc contacts).return_code
                - 7) % 3))).norm cfg) ∨
        (boxBox2 cfg side1 tf1 side2 tf2 normal depth maxc contacts).normal
          = (((tf1.linear.col
              (((boxBox2 cfg side1 tf1 side2 tf2 normal depth maxc contacts).return_code
                - 7) / 3)).cross
            (tf2.linear.col
              (((boxBox2 cfg side1 tf1 side2 tf2 normal depth maxc contacts).return_code
                - 7) % 3))).sdiv
            (((tf1.linear.col
              (((boxBox2 cfg side1 tf1 side2 tf2 normal depth maxc contacts).return_code
                - 7) / 3)).cross
            (tf2.linear.col
              (((boxBox2 cfg side1 tf1 side2 tf2 normal depth maxc contacts).return_code
                - 7) % 3))).norm cfg)).neg)) := by
  cases hst : satPhase cfg (side1.smul (1 / 2)) (side2.smul (1 / 2)) tf1 tf2 with
  | none =>
    rw [boxBox2_return_code, hst] at hrc
    exact absurd rfl hrc
  | some st =>
    rw [boxBox2_return_code, hst] at hrc
    have hc : st.code ≠ 0 := hrc
    obtain ⟨hn, -, hcode⟩ :=
      boxBox2_of_sat cfg side1 side2 tf1 tf2 normal depth maxc contacts st hst hc
    rw [hn, hcode]
    obtain ⟨ax, hmem, hrec⟩ := satPhase_recorded hst hc
    have hax : st.code = ax.code := hrec.2.2.1
    cases he : ax.edge with
    | none =>
      obtain ⟨-, hcol, -, hlo, hhi⟩ := axes_face hmem he
      have hN : satNormal tf1 tf2 st =
          if ax.tmp < 0 then ((if ax.T = 2 then tf2 else tf1).linear.col ax.colId.toNat).neg
          else (if ax.T = 2 then tf2 else tf1).linear.col ax.colId.toNat :=
        satNormal_face hrec he hcol
      have hk : ax.colId.toNat ≤ 2 := by
        rcases hcol with h | h | h <;> rw [h] <;> decide
      refine ⟨?_, ?_, ?_⟩
      · intro h3
        rcases axes_face_code hmem he with ⟨hT, hcd⟩ | ⟨hT, hcd⟩
        · have e : st.code - 1 = ax.colId.toNat := by omega
          have hT2 : ¬ ax.T = 2 := by omega
          rw [hN, e]
          simp only [hT2, if_false]
          split_ifs
          · exact Or.inr rfl
          · exact Or.inl rfl
        · omega
      · intro h4 h6
        rcases axes_face_code hmem he with ⟨hT, hcd⟩ | ⟨hT, hcd⟩
        · omega
        · have e : st.code - 4 = ax.colId.toNat := by omega
          rw [hN, e]
          simp only [hT, if_true]
          split_ifs
          · exact Or.inr rfl
          · exact Or.inl rfl
      · intro h7
        omega
    | some n =>
      obtain ⟨-, hlo, hhi⟩ := axes_edge hmem he
      have hedge : ax ∈ edgeAxes (side1.smul (1 / 2)) (side2.smul (1 / 2)) tf1 tf2 := by
        rcases List.mem_append.mp hmem with hf | hf
        · rw [faceAxes_edge_none ax hf] at he
          cases he
        · exact hf
      have hw := edgeAxes_world_cross h1 hedge he
      refine ⟨fun h3 => by omega, fun h4 h6 => by omega, fun _ => ⟨by omega, ?_, ?_⟩⟩
      · exact ⟨ax, hedge, n, he, hax.symm, by rw [hax]; exact hw⟩
      · have hnorm : n.norm cfg
            = ((tf1.linear.col ((ax.code - 7) / 3)).cross
                (tf2.linear.col ((ax.code - 7) % 3))).norm cfg := by
          rw [← hw]
          simp only [Vec3.norm, rot_dot h1]
        rw [satNormal_edge hrec he, mulVec_sdiv, hw, hnorm, hax]
        split_ifs
        · exact Or.inr rfl
        · exact Or.inl rfl

/-- C28 on two unit cubes, the first turned about x and the second about y
(cosine 3/5, sine 4/5), the second centred 1.400001 above the first: the code
is an edge code and the normal is the normalized cross product of the two edge
directions, up to sign. -/
theorem boxBox2_normal_by_code_witness :
    (Mat3.rotX (3 / 5) (4 / 5) : Mat3 ℝ).IsRotation ∧
    (boxBox2 (binary64 Real.sqrt (fun y x => Complex.arg ⟨x, y⟩) Real.pi)
      (⟨1, 1, 1⟩ : Vec3 ℝ) ⟨Mat3.rotX (3 / 5) (4 / 5), ⟨0, 0, 0⟩⟩ ⟨1, 1, 1⟩
      ⟨Mat3.rotY (3 / 5) (4 / 5), ⟨0, 0, 1400001 / 1000000⟩⟩ ⟨0, 0, 0⟩ 0 4 []).return_code
      ≠ 0 ∧
    (boxBox2 (binary64 Real.sqrt (fun y x => Complex.arg ⟨x, y⟩) Real.pi)
      (⟨1, 1, 1⟩ : Vec3 ℝ) ⟨Mat3.rotX (3 / 5) (4 / 5), ⟨0, 0, 0⟩⟩ ⟨1, 1, 1⟩
      ⟨Mat3.rotY (3 / 5) (4 / 5), ⟨0, 0, 1400001 / 1000000⟩⟩ ⟨0, 0, 0⟩ 0 4 []).return_code
      ≤ 15 :=
  ⟨rotX_isRotation, Nat.ne_of_gt (lt_of_lt_of_le (by decide) (ridges_edge_code _ _ _ _)),
    ((boxBox2_normal_by_code _ _ _ _ _ rotX_isRotation _ _ _ _
      (Nat.ne_of_gt (lt_of_lt_of_le (by decide) (ridges_edge_code _ _ _ _)))).2.2
        (ridges_edge_code _ _ _ _)).1⟩


/-! ## `continuousCollide` with the ray-shooting solver -/

/-- C39: with the solver type RayShooting `continuousCollide` returns `-1` and
leaves the result record as it was, for every scene, request and result: the
branch for two geometries under a translation motion is empty, the other
branch only prints a warning. -/
theorem continuousCollide_ray_shooting (sc : Scene K) (request : ContinuousCollisionRequest K)
    (result : ContinuousCollisionResult K)
    (h : request.ccd_solver_type = CCDSolverType.CCDC_RAY_SHOOTING) :
    continuousCollide sc request result = (-1, result) := by
  unfold continuousCollide
  rw [h]
  simp only [ite_self]

/-- C39 on the combination the validity matrix lists as valid: two geometries
and a translation motion. -/
theorem continuousCollide_ray_shooting_witness :
    slideScene.objectType1 = ObjectType.OT_GEOM ∧ slideScene.objectType2 = ObjectType.OT_GEOM ∧
    continuousCollide slideScene
        ⟨10, 1 / 10, CCDMotionType.CCDM_TRANS, GJKSolverType.GST_LIBCCD,
          CCDSolverType.CCDC_RAY_SHOOTING⟩
        ⟨false, 1 / 3, ⟨Mat3.identity, ⟨5, 0, 0⟩⟩, ⟨Mat3.identity, ⟨7, 0, 0⟩⟩⟩
      = (-1, ⟨false, 1 / 3, ⟨Mat3.identity, ⟨5, 0, 0⟩⟩, ⟨Mat3.identity, ⟨7, 0, 0⟩⟩⟩) :=
  ⟨rfl, rfl, continuousCollide_ray_shooting slideScene _ _ rfl⟩

/-! ## The inertia of a capsule -/

/-- C40 (failing input). Scaling the capsule of radius 1 and length 1 by
`k = 2` multiplies the volume by `2^3` and the last diagonal entry of the
inertia matrix by `2^5`, but not the first two: they are `6 pi / 5` before
and `172 pi / 5` after, not `192 pi / 5`.  The term `0.25 * v_cyl * radius` of
`ix` has degree four in the lengths. -/
theorem capsule_inertia_not_homogeneous :
    Capsule.computeVolume (binary64 Real.sqrt (fun y x => Complex.arg ⟨x, y⟩) Real.pi) ⟨2, 2⟩
      = 2 ^ 3 * Capsule.computeVolume
          (binary64 Real.sqrt (fun y x => Complex.arg ⟨x, y⟩) Real.pi) ⟨1, 1⟩ ∧
    (Capsule.computeMomentofInertia
        (binary64 Real.sqrt (fun y x => Complex.arg ⟨x, y⟩) Real.pi) ⟨2, 2⟩).m22
      = 2 ^ 5 * (Capsule.computeMomentofInertia
          (binary64 Real.sqrt (fun y x => Complex.arg ⟨x, y⟩) Real.pi) ⟨1, 1⟩).m22 ∧
    (Capsule.computeMomentofInertia
        (binary64 Real.sqrt (fun y x => Complex.arg ⟨x, y⟩) Real.pi) ⟨1, 1⟩).m00
      = 6 * Real.pi / 5 ∧
    (Capsule.computeMomentofInertia
        (binary64 Real.sqrt (fun y x => Complex.arg ⟨x, y⟩) Real.pi) ⟨2, 2⟩).m00
      = 172 * Real.pi / 5 ∧
    (Capsule.computeMomentofInertia
        (binary64 Real.sqrt (fun y x => Complex.arg ⟨x, y⟩) Real.pi) ⟨2, 2⟩).m00
      ≠ 2 ^ 5 * (Capsule.computeMomentofInertia
          (binary64 Real.sqrt (fun y x => Complex.arg ⟨x, y⟩) Real.pi) ⟨1, 1⟩).m00 := by
  have hpi : Real.pi ≠ 0 := ne_of_gt Real.pi_pos
  refine ⟨?_, ?_, ?_, ?_, ?_⟩
  · simp only [Capsule.computeVolume, binary64]
    ring
  · simp only [Capsule.computeMomentofInertia, binary64]
    ring
  · simp only [Capsule.computeMomentofInertia, binary64]
    ring
  · simp only [Capsule.computeMomentofInertia, binary64]
    ring
  · simp only [Capsule.computeMomentofInertia, binary64]
    intro h
    apply hpi
    linear_combination (-(1 / 4 : ℝ)) * h

/-! ## What a call leaves of the caller's contacts -/

/-- C33: `boxBox2` only appends to the contact vector: the earlier elements
stay in place and in order, the returned integer is the number of contacts
the call appended, and when the call ends with code 0 nothing is appended and
`normal` and `depth` keep the values they had on entry. -/
theorem boxBox2_appends (cfg : Scalar K) (side1 side2 : Vec3 K) (tf1 tf2 : Transform3 K)
    (normal : Vec3 K) (depth : K) (maxc : Int) (contacts : List (ContactPoint K)) :
    ∃ appended : List (ContactPoint K),
      (boxBox2 cfg side1 tf1 side2 tf2 normal depth maxc contacts).contacts
        = contacts ++ appended ∧
      (boxBox2 cfg side1 tf1 side2 tf2 normal depth maxc contacts).ret = appended.length ∧
      ((boxBox2 cfg side1 tf1 side2 tf2 normal depth maxc contacts).return_code = 0 →
        appended = [] ∧
        (boxBox2 cfg side1 tf1 side2 tf2 normal depth maxc contacts).normal = normal ∧
        (boxBox2 cfg side1 tf1 side2 tf2 normal depth maxc contacts).depth = depth) := by
  cases hst : satPhase cfg (side1.smul (1 / 2)) (side2.smul (1 / 2)) tf1 tf2 with
  | none =>
    rw [boxBox2_of_none cfg side1 side2 tf1 tf2 normal depth maxc contacts hst]
    exact ⟨[], by simp, rfl, fun _ => ⟨rfl, rfl, rfl⟩⟩
  | some st =>
    by_cases hc : st.code = 0
    · rw [boxBox2_of_code_zero cfg side1 side2 tf1 tf2 normal depth maxc contacts st hst hc]
      exact ⟨[], by simp, rfl, fun _ => ⟨rfl, rfl, rfl⟩⟩
    · by_cases h6 : st.code > 6
      · rw [boxBox2_of_edge cfg side1 side2 tf1 tf2 normal depth maxc contacts st hst hc h6]
        exact ⟨_, rfl, rfl, fun h0 => absurd h0 hc⟩
      · obtain ⟨picked, hp, -⟩ :=
          boxBox2_of_face cfg side1 side2 tf1 tf2 normal depth maxc contacts st hst hc h6
        rw [hp]
        exact ⟨_, rfl, by simp, fun h0 => absurd h0 hc⟩

/-! ## The two overloads of `boxBox2` -/

theorem satPhaseRT_eq (cfg : Scalar K) (A B : Vec3 K) (tf1 tf2 : Transform3 K) :
    satPhaseRT cfg A B tf1.linear tf1.translation tf2.linear tf2.translation
      = satPhase cfg A B tf1 tf2 := rfl

theorem satNormalRT_eq (tf1 tf2 : Transform3 K) (st : SatState K) :
    satNormalRT tf1.linear tf2.linear st = satNormal tf1 tf2 st := by
  unfold satNormalRT satNormal
  split_ifs <;> rfl

theorem edgeContactRT_eq (A B : Vec3 K) (tf1 tf2 : Transform3 K) (normal : Vec3 K) (depth : K)
    (code : Nat) :
    edgeContactRT A B tf1.linear tf1.translation tf2.linear tf2.translation normal depth code
      = edgeContact A B tf1 tf2 normal depth code := rfl

theorem faceFrameRT_eq (A B : Vec3 K) (tf1 tf2 : Transform3 K) (normal : Vec3 K) (code : Nat) :
    faceRectRT (faceFrameRT A B tf1.linear tf1.translation tf2.linear tf2.translation
        normal code) = faceRect (faceFrame A B tf1 tf2 normal code) ∧
    faceQuadRT (faceFrameRT A B tf1.linear tf1.translation tf2.linear tf2.translation
        normal code) = faceQuad (faceFrame A B tf1 tf2 normal code) ∧
    (∀ ret, faceCandidatesRT (faceFrameRT A B tf1.linear tf1.translation tf2.linear
        tf2.translation normal code) ret = faceCandidates (faceFrame A B tf1 tf2 normal code) ret) ∧
    (∀ n c k, faceEmitRT (faceFrameRT A B tf1.linear tf1.translation tf2.linear
        tf2.translation normal code) n k c = faceEmit (faceFrame A B tf1 tf2 normal code) n k c) := by
  by_cases h : code ≤ 3
  · simp only [faceFrameRT, faceFrame, h, if_true, faceRectRT, faceRect, faceQuadRT, faceQuad,
      faceCandidatesRT, faceCandidates, faceEmitRT, faceEmit]
    exact ⟨trivial, trivial, fun _ => trivial, fun _ _ _ => trivial⟩
  · simp only [faceFrameRT, faceFrame, h, if_false, faceRectRT, faceRect, faceQuadRT, faceQuad,
      faceCandidatesRT, faceCandidates, faceEmitRT, faceEmit]
    exact ⟨trivial, trivial, fun _ => trivial, fun _ _ _ => trivial⟩

/-- C34: the two overloads of `boxBox2` agree.  Called with
`R_i = tf_i.linear()` and `T_i = tf_i.translation()`, the overload on
`(R1, T1, R2, T2)` leaves the same returned count, `return_code`, `normal`,
`depth` and contact list as the overload on `(tf1, tf2)`, for every input. -/
theorem boxBox2_overloads_agree (cfg : Scalar K) (side1 side2 : Vec3 K)
    (tf1 tf2 : Transform3 K) (normal : Vec3 K) (depth : K) (maxc : Int)
    (contacts : List (ContactPoint K)) :
    boxBox2RT cfg side1 tf1.linear tf1.translation side2 tf2.linear tf2.translation normal
        depth maxc contacts
      = boxBox2 cfg side1 tf1 side2 tf2 normal depth maxc contacts := by
  unfold boxBox2RT boxBox2
  simp only [satPhaseRT_eq, satNormalRT_eq, edgeContactRT_eq]
  cases satPhase cfg (side1.smul (1 / 2)) (side2.smul (1 / 2)) tf1 tf2 with
  | none => rfl
  | some st =>
    obtain ⟨e1, e2, e3, e4⟩ := faceFrameRT_eq (side1.smul (1 / 2)) (side2.smul (1 / 2)) tf1 tf2
      (satNormal tf1 tf2 st) st.code
    have e4f : faceEmitRT (faceFrameRT (side1.smul (1 / 2)) (side2.smul (1 / 2)) tf1.linear
          tf1.translation tf2.linear tf2.translation (satNormal tf1 tf2 st) st.code)
          (satNormal tf1 tf2 st) st.code
        = faceEmit (faceFrame (side1.smul (1 / 2)) (side2.smul (1 / 2)) tf1 tf2
          (satNormal tf1 tf2 st) st.code) (satNormal tf1 tf2 st) st.code := by
      funext c
      exact e4 _ _ _
    simp only [e1, e2, e3, e4f]

/-! ## The back-projection determinant of the face branch -/

/-- C32: in the face branch, with both poses rotations, `lanr` is the axis of
a largest component of `|nr|` and `a1`, `a2` are the other two axes; the
determinant `m11*m22 - m12*m21` has the absolute value `|nr[lanr]|`, whose
square is at least `1/3` (so it is at least `1/r` for every positive `r` with
`r * r = 3`), and the divisor of `1/(m11*m22 - m12*m21)` is never zero. -/
theorem faceFrame_det_bound (cfg : Scalar K) (side1 side2 : Vec3 K) (tf1 tf2 : Transform3 K)
    (h1 : tf1.linear.IsRotation) (h2 : tf2.linear.IsRotation) (st : SatState K)
    (h : satPhase cfg (side1.smul (1 / 2)) (side2.smul (1 / 2)) tf1 tf2 = some st)
    (hlo : 1 ≤ st.code) (hhi : st.code ≤ 6) :
    AxisSplit (frameOf side1 tf1 side2 tf2 st).lanr (frameOf side1 tf1 side2 tf2 st).a1
      (frameOf side1 tf1 side2 tf2 st).a2 ∧
    |(frameOf side1 tf1 side2 tf2 st).nr.get (frameOf side1 tf1 side2 tf2 st).a1|
      ≤ |(frameOf side1 tf1 side2 tf2 st).nr.get (frameOf side1 tf1 side2 tf2 st).lanr| ∧
    |(frameOf side1 tf1 side2 tf2 st).nr.get (frameOf side1 tf1 side2 tf2 st).a2|
      ≤ |(frameOf side1 tf1 side2 tf2 st).nr.get (frameOf side1 tf1 side2 tf2 st).lanr| ∧
    |(frameOf side1 tf1 side2 tf2 st).m11 * (frameOf side1 tf1 side2 tf2 st).m22
        - (frameOf side1 tf1 side2 tf2 st).m12 * (frameOf side1 tf1 side2 tf2 st).m21|
      = |(frameOf side1 tf1 side2 tf2 st).nr.get (frameOf side1 tf1 side2 tf2 st).lanr| ∧
    1 ≤ 3 * ((frameOf side1 tf1 side2 tf2 st).nr.get (frameOf side1 tf1 side2 tf2 st).lanr
      * (frameOf side1 tf1 side2 tf2 st).nr.get (frameOf side1 tf1 side2 tf2 st).lanr) ∧
    (∀ r : K, 0 < r → r * r = 3 →
      1 / r ≤ |(frameOf side1 tf1 side2 tf2 st).m11 * (frameOf side1 tf1 side2 tf2 st).m22
        - (frameOf side1 tf1 side2 tf2 st).m12 * (frameOf side1 tf1 side2 tf2 st).m21|) ∧
    (frameOf side1 tf1 side2 tf2 st).m11 * (frameOf side1 tf1 side2 tf2 st).m22
        - (frameOf side1 tf1 side2 tf2 st).m12 * (frameOf side1 tf1 side2 tf2 st).m21 ≠ 0 := by
  have hc : st.code ≠ 0 := by omega
  have h6 : ¬ st.code > 6 := by omega
  unfold frameOf
  have hdet := faceFrame_det_ne_zero h1 h2 h hc h6
  obtain ⟨⟨hc1, hc6⟩, hn2⟩ := faceFrame_normal2 h hc h6
  obtain ⟨hTa, hTb⟩ := faceFrame_rotations (A := side1.smul (1 / 2)) (B := side2.smul (1 / 2))
    h1 h2 (satNormal tf1 tf2 st) st.code
  have hcs := faceFrame_code_split (side1.smul (1 / 2)) (side2.smul (1 / 2)) tf1 tf2
    (satNormal tf1 tf2 st) st.code hc1 hc6
  obtain ⟨hls, hb1, hb2⟩ := faceFrame_lanr_split (side1.smul (1 / 2)) (side2.smul (1 / 2))
    tf1 tf2 (satNormal tf1 tf2 st) st.code
  have hm : (faceFrame (side1.smul (1 / 2)) (side2.smul (1 / 2)) tf1 tf2
        (satNormal tf1 tf2 st) st.code).m11
        * (faceFrame (side1.smul (1 / 2)) (side2.smul (1 / 2)) tf1 tf2
          (satNormal tf1 tf2 st) st.code).m22
      - (faceFrame (side1.smul (1 / 2)) (side2.smul (1 / 2)) tf1 tf2
          (satNormal tf1 tf2 st) st.code).m12
        * (faceFrame (side1.smul (1 / 2)) (side2.smul (1 / 2)) tf1 tf2
          (satNormal tf1 tf2 st) st.code).m21
      = ((faceFrame (side1.smul (1 / 2)) (side2.smul (1 / 2)) tf1 tf2
            (satNormal tf1 tf2 st) st.code).Tb.linear.col
            (faceFrame (side1.smul (1 / 2)) (side2.smul (1 / 2)) tf1 tf2
              (satNormal tf1 tf2 st) st.code).a1).dot
          ((faceFrame (side1.smul (1 / 2)) (side2.smul (1 / 2)) tf1 tf2
            (satNormal tf1 tf2 st) st.code).Ta.linear.col
            (faceFrame (side1.smul (1 / 2)) (side2.smul (1 / 2)) tf1 tf2
              (satNormal tf1 tf2 st) st.code).code1)
        * ((faceFrame (side1.smul (1 / 2)) (side2.smul (1 / 2)) tf1 tf2
            (satNormal tf1 tf2 st) st.code).Tb.linear.col
            (faceFrame (side1.smul (1 / 2)) (side2.smul (1 / 2)) tf1 tf2
              (satNormal tf1 tf2 st) st.code).a2).dot
          ((faceFrame (side1.smul (1 / 2)) (side2.smul (1 / 2)) tf1 tf2
            (satNormal tf1 tf2 st) st.code).Ta.linear.col
            (faceFrame (side1.smul (1 / 2)) (side2.smul (1 / 2)) tf1 tf2
              (satNormal tf1 tf2 st) st.code).code2)
      - ((faceFrame (side1.smul (1 / 2)) (side2.smul (1 / 2)) tf1 tf2
            (satNormal tf1 tf2 st) st.code).Tb.linear.col
            (faceFrame (side1.smul (1 / 2)) (side2.smul (1 / 2)) tf1 tf2
              (satNormal tf1 tf2 st) st.code).a2).dot
          ((faceFrame (side1.smul (1 / 2)) (side2.smul (1 / 2)) tf1 tf2
            (satNormal tf1 tf2 st) st.code).Ta.linear.col
            (faceFrame (side1.smul (1 / 2)) (side2.smul (1 / 2)) tf1 tf2
              (satNormal tf1 tf2 st) st.code).code1)
        * ((faceFrame (side1.smul (1 / 2)) (side2.smul (1 / 2)) tf1 tf2
            (satNormal tf1 tf2 st) st.code).Tb.linear.col
            (faceFrame (side1.smul (1 / 2)) (side2.smul (1 / 2)) tf1 tf2
              (satNormal tf1 tf2 st) st.code).a1).dot
          ((faceFrame (side1.smul (1 / 2)) (side2.smul (1 / 2)) tf1 tf2
            (satNormal tf1 tf2 st) st.code).Ta.linear.col
            (faceFrame (side1.smul (1 / 2)) (side2.smul (1 / 2)) tf1 tf2
              (satNormal tf1 tf2 st) st.code).code2) := rfl
  have hnr : (faceFrame (side1.smul (1 / 2)) (side2.smul (1 / 2)) tf1 tf2
        (satNormal tf1 tf2 st) st.code).nr
      = (faceFrame (side1.smul (1 / 2)) (side2.smul (1 / 2)) tf1 tf2
          (satNormal tf1 tf2 st) st.code).Tb.linear.transpose.mulVec
          (faceFrame (side1.smul (1 / 2)) (side2.smul (1 / 2)) tf1 tf2
            (satNormal tf1 tf2 st) st.code).normal2 := rfl
  rw [hm] at hdet ⊢
  rw [hnr] at hb1 hb2 ⊢
  generalize faceFrame (side1.smul (1 / 2)) (side2.smul (1 / 2)) tf1 tf2
    (satNormal tf1 tf2 st) st.code = f at *
  obtain ⟨il, i1, i2⟩ := split_index hls
  rw [transpose_mulVec_get _ _ il, transpose_mulVec_get _ _ i1] at hb1 ⊢
  rw [transpose_mulVec_get _ _ il, transpose_mulVec_get _ _ i2] at hb2
  rw [transpose_mulVec_get _ _ i2]
  have hunit : f.normal2.dot f.normal2 = 1 := by
    rcases hn2 with e | e
    · rw [e]; exact rotation_col_unit hTa _
    · rw [e, neg_dot_neg]; exact rotation_col_unit hTa _
  have habs : |(f.Tb.linear.col f.a1).dot (f.Ta.linear.col f.code1)
        * (f.Tb.linear.col f.a2).dot (f.Ta.linear.col f.code2)
      - (f.Tb.linear.col f.a2).dot (f.Ta.linear.col f.code1)
        * (f.Tb.linear.col f.a1).dot (f.Ta.linear.col f.code2)|
      = |(f.Tb.linear.col f.lanr).dot f.normal2| := by
    have e1 : |(f.Tb.linear.col f.lanr).dot f.normal2|
        = |(f.Ta.linear.col f.codeN).dot (f.Tb.linear.col f.lanr)| := by
      rcases hn2 with e | e
      · rw [e, dot_comm]
      · rw [e, dot_neg_right, abs_neg, dot_comm]
    rw [e1]
    rcases split_det hTa hTb hcs hls with hd | hd
    · rw [hd]
    · rw [hd, abs_neg]
  have hsq : 1 ≤ 3 * ((f.Tb.linear.col f.lanr).dot f.normal2
      * (f.Tb.linear.col f.lanr).dot f.normal2) := by
    have hexp := dot_expand hTb f.normal2 f.normal2
    rw [hunit] at hexp
    have s1 : (f.Tb.linear.col f.a1).dot f.normal2 * (f.Tb.linear.col f.a1).dot f.normal2
        ≤ (f.Tb.linear.col f.lanr).dot f.normal2 * (f.Tb.linear.col f.lanr).dot f.normal2 := by
      have := mul_self_le_mul_self (abs_nonneg _) hb1
      rwa [abs_mul_abs_self, abs_mul_abs_self] at this
    have s2 : (f.Tb.linear.col f.a2).dot f.normal2 * (f.Tb.linear.col f.a2).dot f.normal2
        ≤ (f.Tb.linear.col f.lanr).dot f.normal2 * (f.Tb.linear.col f.lanr).dot f.normal2 := by
      have := mul_self_le_mul_self (abs_nonneg _) hb2
      rwa [abs_mul_abs_self, abs_mul_abs_self] at this
    have hsum : (f.Tb.linear.col f.lanr).dot f.normal2 * (f.Tb.linear.col f.lanr).dot f.normal2
        + (f.Tb.linear.col f.a1).dot f.normal2 * (f.Tb.linear.col f.a1).dot f.normal2
        + (f.Tb.linear.col f.a2).dot f.normal2 * (f.Tb.linear.col f.a2).dot f.normal2 = 1 := by
      rcases hls with ⟨e0, e1, e2⟩ | ⟨e0, e1, e2⟩ | ⟨e0, e1, e2⟩ <;>
        rw [e0, e1, e2] <;> simp only [dot_comm f.normal2] at hexp <;> linarith
    linarith
  refine ⟨hls, hb1, hb2, habs, hsq, ?_, hdet⟩
  intro r hr hr3
  rw [habs]
  rw [div_le_iff hr]
  have hx := abs_nonneg ((f.Tb.linear.col f.lanr).dot f.normal2)
  have hx2 : 1 ≤ 3 * (|(f.Tb.linear.col f.lanr).dot f.normal2|
      * |(f.Tb.linear.col f.lanr).dot f.normal2|) := by
    rw [abs_mul_abs_self]
    exact hsq
  by_contra hlt
  have hlt2 := not_le.mp hlt
  have : (|(f.Tb.linear.col f.lanr).dot f.normal2| * r)
      * (|(f.Tb.linear.col f.lanr).dot f.normal2| * r) < 1 * 1 :=
    mul_self_lt_mul_self (mul_nonneg hx (le_of_lt hr)) hlt2
  nlinarith

/-! ## The depth of the clipped points -/

/-- The sum `r` of a face candidate: the half extent of the box that owns the
axis plus the projected half extents of the other box. -/
theorem axes_face_r {A B : Vec3 K} {tf1 tf2 : Transform3 K} {ax : Axis K}
    (hmem : ax ∈ axes A B tf1 tf2) (he : ax.edge = none) :
    ax.r = (if ax.T = 2 then B else A).get ax.colId.toNat
      + ((if ax.T = 2 then A else B).get 0
          * |((if ax.T = 2 then tf1 else tf2).linear.col 0).dot
              ((if ax.T = 2 then tf2 else tf1).linear.col ax.colId.toNat)|
        + (if ax.T = 2 then A else B).get 1
          * |((if ax.T = 2 then tf1 else tf2).linear.col 1).dot
              ((if ax.T = 2 then tf2 else tf1).linear.col ax.colId.toNat)|
        + (if ax.T = 2 then A else B).get 2
          * |((if ax.T = 2 then tf1 else tf2).linear.col 2).dot
              ((if ax.T = 2 then tf2 else tf1).linear.col ax.colId.toNat)|) := by
  simp only [axes, faceAxes, edgeAxes, List.mem_append, List.mem_cons, List.mem_singleton,
    List.not_mem_nil, or_false] at hmem
  rcases hmem with (h | h | h | h | h | h) | (h | h | h | h | h | h | h | h | h) <;>
    subst h <;> first
    | (exfalso; simp at he; done)
    | (simp [Mat3.mul, Mat3.transpose, Mat3.row, Mat3.col, Mat3.coeff, Mat3.cwiseAbs, Vec3.dot,
         Vec3.get]
       ring_nf)

/-- The depth written after a face candidate has won, in the variables of the
face branch: the reference half extent plus the projected half extents of the
incident box, less the projected distance of the two centres. -/
theorem faceFrame_depth {cfg : Scalar K} {A B : Vec3 K} {tf1 tf2 : Transform3 K}
    {st : SatState K} (h : satPhase cfg A B tf1 tf2 = some st) (hc : st.code ≠ 0)
    (h6 : ¬ st.code > 6) :
    -st.s = (faceFrame A B tf1 tf2 (satNormal tf1 tf2 st) st.code).Sa.get
          (faceFrame A B tf1 tf2 (satNormal tf1 tf2 st) st.code).codeN
      + ((faceFrame A B tf1 tf2 (satNormal tf1 tf2 st) st.code).Sb.get 0
          * |((faceFrame A B tf1 tf2 (satNormal tf1 tf2 st) st.code).Tb.linear.col 0).dot
              (faceFrame A B tf1 tf2 (satNormal tf1 tf2 st) st.code).normal2|
        + (faceFrame A B tf1 tf2 (satNormal tf1 tf2 st) st.code).Sb.get 1
          * |((faceFrame A B tf1 tf2 (satNormal tf1 tf2 st) st.code).Tb.linear.col 1).dot
              (faceFrame A B tf1 tf2 (satNormal tf1 tf2 st) st.code).normal2|
        + (faceFrame A B tf1 tf2 (satNormal tf1 tf2 st) st.code).Sb.get 2
          * |((faceFrame A B tf1 tf2 (satNormal tf1 tf2 st) st.code).Tb.linear.col 2).dot
              (faceFrame A B tf1 tf2 (satNormal tf1 tf2 st) st.code).normal2|)
      - (faceFrame A B tf1 tf2 (satNormal tf1 tf2 st) st.code).normal2.dot
          ((faceFrame A B tf1 tf2 (satNormal tf1 tf2 st) st.code).Tb.translation.sub
            (faceFrame A B tf1 tf2 (satNormal tf1 tf2 st) st.code).Ta.translation) := by
  obtain ⟨ax, hmem, hrec⟩ := satPhase_recorded h hc
  have hcode : st.code = ax.code := hrec.2.2.1
  cases he : ax.edge with
  | some n =>
    have := (axes_edge hmem he).2.1
    omega
  | none =>
    obtain ⟨hT, hcol, htmp, -, -⟩ := axes_face hmem he
    have hr := axes_face_r hmem he
    have hN : satNormal tf1 tf2 st =
        if ax.tmp < 0 then ((if ax.T = 2 then tf2 else tf1).linear.col ax.colId.toNat).neg
        else (if ax.T = 2 then tf2 else tf1).linear.col ax.colId.toNat :=
      satNormal_face hrec he hcol
    have hs : st.s = |ax.tmp| - ax.r := by
      have hm := hrec.2.2.2
      rw [he] at hm
      exact hm.1
    have hk : ax.colId.toNat ≤ 2 := by
      rcases hcol with e | e | e <;> rw [e] <;> decide
    have eTa : (faceFrame A B tf1 tf2 (satNormal tf1 tf2 st) st.code).Ta
        = if st.code ≤ 3 then tf1 else tf2 := rfl
    have eTb : (faceFrame A B tf1 tf2 (satNormal tf1 tf2 st) st.code).Tb
        = if st.code ≤ 3 then tf2 else tf1 := rfl
    have eSa : (faceFrame A B tf1 tf2 (satNormal tf1 tf2 st) st.code).Sa
        = if st.code ≤ 3 then A else B := rfl
    have eSb : (faceFrame A B tf1 tf2 (satNormal tf1 tf2 st) st.code).Sb
        = if st.code ≤ 3 then B else A := rfl
    have eN2 : (faceFrame A B tf1 tf2 (satNormal tf1 tf2 st) st.code).normal2
        = if st.code ≤ 3 then satNormal tf1 tf2 st else (satNormal tf1 tf2 st).neg := rfl
    have eN : (faceFrame A B tf1 tf2 (satNormal tf1 tf2 st) st.code).codeN
        = if st.code ≤ 3 then st.code - 1 else st.code - 4 := rfl
    rw [eTa, eTb, eSa, eSb, eN2, eN, hs, hr, hN, htmp]
    rcases axes_face_code hmem he with ⟨hT1, hcd⟩ | ⟨hT2, hcd⟩
    · have h3 : st.code ≤ 3 := by omega
      have hT2 : ¬ ax.T = 2 := by omega
      have e : st.code - 1 = ax.colId.toNat := by omega
      simp only [h3, if_true, hT2, if_false, e]
      by_cases hneg : (tf1.linear.col ax.colId.toNat).dot (tf2.translation.sub tf1.translation) < 0
      · simp only [hneg, if_true, dot_neg_right, dot_neg_left, abs_neg, abs_of_neg hneg]
        ring
      · simp only [hneg, if_false, abs_of_nonneg (not_lt.mp hneg)]
        ring
    · have h3 : ¬ st.code ≤ 3 := by omega
      have e : st.code - 4 = ax.colId.toNat := by omega
      have esub : tf1.translation.sub tf2.translation
          = (tf2.translation.sub tf1.translation).neg := by
        simp only [Vec3.sub, Vec3.neg, Vec3.mk.injEq]
        refine ⟨?_, ?_, ?_⟩ <;> ring
      simp only [h3, if_false, hT2, if_true, e, esub]
      by_cases hneg : (tf2.linear.col ax.colId.toNat).dot (tf2.translation.sub tf1.translation) < 0
      · simp only [hneg, if_true, dot_neg_right, dot_neg_left, abs_neg, abs_of_neg hneg,
          neg_neg_vec]
        ring
      · simp only [hneg, if_false, dot_neg_right, dot_neg_left, abs_neg,
          abs_of_nonneg (not_lt.mp hneg)]
        ring

/-! ## The contacts of the face branch, one by one -/

/-- Every contact a face code comes with is the contact emitted for one of
the clipped points that passed the depth test. -/
theorem boxBox2_face_contacts_mem (cfg : Scalar K) (side1 side2 : Vec3 K)
    (tf1 tf2 : Transform3 K) (normal : Vec3 K) (depth : K) (maxc : Int)
    (contacts : List (ContactPoint K)) (st : SatState K)
    (hst : satPhase cfg (side1.smul (1 / 2)) (side2.smul (1 / 2)) tf1 tf2 = some st)
    (hc : st.code ≠ 0) (h6 : ¬ st.code > 6) :
    ∀ c ∈ (boxBox2 cfg side1 tf1 side2 tf2 normal depth maxc contacts).contacts.drop
        contacts.length,
      ∃ cand ∈ survivors side1 tf1 side2 tf2 st,
        c = faceEmit (frameOf side1 tf1 side2 tf2 st) (satNormal tf1 tf2 st) st.code cand := by
  obtain ⟨picked, hp, hcase⟩ :=
    boxBox2_of_face cfg side1 side2 tf1 tf2 normal depth maxc contacts st hst hc h6
  rw [hp]
  simp only [List.drop_left]
  intro c hcm
  rw [List.mem_map] at hcm
  obtain ⟨cand, hcand, rfl⟩ := hcm
  refine ⟨cand, ?_, rfl⟩
  rcases hcase with h0 | ⟨ha, -⟩ | ⟨hlt, hcull⟩
  · rw [h0] at hcand
    cases hcand
  · rw [ha] at hcand
    exact hcand
  · rw [hcull] at hcand
    simp only [List.mem_map, List.mem_range] at hcand
    obtain ⟨j, -, rfl⟩ := hcand
    have hn : 1 ≤ (survivors side1 tf1 side2 tf2 st).length := by
      have := clampMaxc_ge_one maxc (survivors side1 tf1 side2 tf2 st).length
      omega
    have hidx : (cullPoints2 cfg (survivors side1 tf1 side2 tf2 st).length
        ((survivors side1 tf1 side2 tf2 st).map Candidate.ret)
        (clampMaxc maxc (survivors side1 tf1 side2 tf2 st).length).toNat
        (deepest (survivors side1 tf1 side2 tf2 st))).getD j 0
        < (survivors side1 tf1 side2 tf2 st).length := by
      rcases getD_mem_or_default (cullPoints2 cfg (survivors side1 tf1 side2 tf2 st).length
        ((survivors side1 tf1 side2 tf2 st).map Candidate.ret)
        (clampMaxc maxc (survivors side1 tf1 side2 tf2 st).length).toNat
        (deepest (survivors side1 tf1 side2 tf2 st))) j 0 with hm | hd
      · exact cullPoints2_lt cfg _ _ _ _ (deepest_spec _ hn).1 _ hm
      · rw [hd]
        omega
    rw [List.getD_eq_getElem _ _ hidx]
    exact List.getElem_mem hidx

/-- The centre of the incident face lies towards the reference box: along
`normal2` it is the centre of the incident box less the projected half extent
of the axis `lanr`. -/
theorem faceFrame_center_dot (A B : Vec3 K) (tf1 tf2 : Transform3 K) (normal : Vec3 K)
    (code : Nat) :
    (faceFrame A B tf1 tf2 normal code).normal2.dot (faceFrame A B tf1 tf2 normal code).center
      = (faceFrame A B tf1 tf2 normal code).normal2.dot
          ((faceFrame A B tf1 tf2 normal code).Tb.translation.sub
            (faceFrame A B tf1 tf2 normal code).Ta.translation)
        - (faceFrame A B tf1 tf2 normal code).Sb.get (faceFrame A B tf1 tf2 normal code).lanr
          * |((faceFrame A B tf1 tf2 normal code).Tb.linear.col
              (faceFrame A B tf1 tf2 normal code).lanr).dot
              (faceFrame A B tf1 tf2 normal code).normal2| := by
  obtain ⟨hls, -, -⟩ := faceFrame_lanr_split A B tf1 tf2 normal code
  have hcen : (faceFrame A B tf1 tf2 normal code).center
      = if (faceFrame A B tf1 tf2 normal code).nr.get (faceFrame A B tf1 tf2 normal code).lanr
            < 0 then
          ((faceFrame A B tf1 tf2 normal code).Tb.translation.sub
              (faceFrame A B tf1 tf2 normal code).Ta.translation).add
            (((faceFrame A B tf1 tf2 normal code).Tb.linear.col
                (faceFrame A B tf1 tf2 normal code).lanr).smul
              ((faceFrame A B tf1 tf2 normal code).Sb.get
                (faceFrame A B tf1 tf2 normal code).lanr))
        else
          ((faceFrame A B tf1 tf2 normal code).Tb.translation.sub
              (faceFrame A B tf1 tf2 normal code).Ta.translation).sub
            (((faceFrame A B tf1 tf2 normal code).Tb.linear.col
                (faceFrame A B tf1 tf2 normal code).lanr).smul
              ((faceFrame A B tf1 tf2 normal code).Sb.get
                (faceFrame A B tf1 tf2 normal code).lanr)) := rfl
  have hnr : (faceFrame A B tf1 tf2 normal code).nr
      = (faceFrame A B tf1 tf2 normal code).Tb.linear.transpose.mulVec
          (faceFrame A B tf1 tf2 normal code).normal2 := rfl
  rw [hcen, hnr]
  generalize faceFrame A B tf1 tf2 normal code = f at *
  obtain ⟨il, -, -⟩ := split_index hls
  rw [transpose_mulVec_get _ _ il]
  have e1 : ∀ s : K, f.normal2.dot ((f.Tb.translation.sub f.Ta.translation).add
      ((f.Tb.linear.col f.lanr).smul s))
      = f.normal2.dot (f.Tb.translation.sub f.Ta.translation)
        + s * (f.Tb.linear.col f.lanr).dot f.normal2 := by
    intro s
    simp only [Vec3.dot, Vec3.add, Vec3.smul]
    ring
  have e2 : ∀ s : K, f.normal2.dot ((f.Tb.translation.sub f.Ta.translation).sub
      ((f.Tb.linear.col f.lanr).smul s))
      = f.normal2.dot (f.Tb.translation.sub f.Ta.translation)
        - s * (f.Tb.linear.col f.lanr).dot f.normal2 := by
    intro s
    simp only [Vec3.dot, Vec3.sub, Vec3.smul]
    ring
  split_ifs with hneg
  · rw [e1, abs_of_neg hneg]
    ring
  · rw [e2, abs_of_nonneg (not_lt.mp hneg)]

theorem split_sum {n i j : Nat} (hs : AxisSplit n i j) (g : Nat → K) :
    g 0 + g 1 + g 2 = g n + g i + g j := by
  rcases hs with ⟨rfl, rfl, rfl⟩ | ⟨rfl, rfl, rfl⟩ | ⟨rfl, rfl, rfl⟩ <;> ring

/-- No clipped point that passes the depth test is deeper than the depth
written after the axis search. -/
theorem survivor_dep_le {cfg : Scalar K} {side1 side2 : Vec3 K} {tf1 tf2 : Transform3 K}
    {st : SatState K} (h1 : tf1.linear.IsRotation) (h2 : tf2.linear.IsRotation)
    (hs1 : 0 ≤ side1.x ∧ 0 ≤ side1.y ∧ 0 ≤ side1.z)
    (hs2 : 0 ≤ side2.x ∧ 0 ≤ side2.y ∧ 0 ≤ side2.z)
    (h : satPhase cfg (side1.smul (1 / 2)) (side2.smul (1 / 2)) tf1 tf2 = some st)
    (hc : st.code ≠ 0) (h6 : ¬ st.code > 6) :
    ∀ c ∈ survivors side1 tf1 side2 tf2 st, 0 ≤ c.dep ∧ c.dep ≤ -st.s := by
  intro c hcm
  unfold survivors at hcm
  unfold frameOf at hcm
  obtain ⟨hq, hpt, hdep, hnn⟩ := mem_faceCandidates hcm
  refine ⟨hnn, ?_⟩
  have hdet := faceFrame_det_ne_zero h1 h2 h hc h6
  obtain ⟨hls, -, -⟩ := faceFrame_lanr_split (side1.smul (1 / 2)) (side2.smul (1 / 2)) tf1 tf2
    (satNormal tf1 tf2 st) st.code
  have hdepth := faceFrame_depth h hc h6
  have hcd := faceFrame_center_dot (side1.smul (1 / 2)) (side2.smul (1 / 2)) tf1 tf2
    (satNormal tf1 tf2 st) st.code
  have eSb : (faceFrame (side1.smul (1 / 2)) (side2.smul (1 / 2)) tf1 tf2
      (satNormal tf1 tf2 st) st.code).Sb
      = if st.code ≤ 3 then side2.smul (1 / 2) else side1.smul (1 / 2) := rfl
  have hS : ∀ k, 0 ≤ (faceFrame (side1.smul (1 / 2)) (side2.smul (1 / 2)) tf1 tf2
      (satNormal tf1 tf2 st) st.code).Sb.get k := by
    intro k
    rw [eSb]
    split_ifs
    · rw [smul_half_get]
      exact div_nonneg (get_nonneg hs2 k) (by norm_num)
    · rw [smul_half_get]
      exact div_nonneg (get_nonneg hs1 k) (by norm_num)
  obtain ⟨hk1, hk2⟩ := clip_lift_bound _ hdet (hS _) (hS _) c.ret hq
  rw [hdepth, hdep, hpt, coord_lift, hcd]
  generalize faceFrame (side1.smul (1 / 2)) (side2.smul (1 / 2)) tf1 tf2
    (satNormal tf1 tf2 st) st.code = f at *
  rw [split_sum hls (fun k => f.Sb.get k * |(f.Tb.linear.col k).dot f.normal2|)]
  have b1 : -((f.Tb.linear.col f.a1).dot f.normal2 * f.k1 c.ret)
      ≤ f.Sb.get f.a1 * |(f.Tb.linear.col f.a1).dot f.normal2| := by
    calc -((f.Tb.linear.col f.a1).dot f.normal2 * f.k1 c.ret)
        ≤ |(f.Tb.linear.col f.a1).dot f.normal2 * f.k1 c.ret| := neg_le_abs _
      _ = |(f.Tb.linear.col f.a1).dot f.normal2| * |f.k1 c.ret| := abs_mul _ _
      _ ≤ |(f.Tb.linear.col f.a1).dot f.normal2| * f.Sb.get f.a1 :=
          mul_le_mul_of_nonneg_left hk1 (abs_nonneg _)
      _ = f.Sb.get f.a1 * |(f.Tb.linear.col f.a1).dot f.normal2| := mul_comm _ _
  have b2 : -((f.Tb.linear.col f.a2).dot f.normal2 * f.k2 c.ret)
      ≤ f.Sb.get f.a2 * |(f.Tb.linear.col f.a2).dot f.normal2| := by
    calc -((f.Tb.linear.col f.a2).dot f.normal2 * f.k2 c.ret)
        ≤ |(f.Tb.linear.col f.a2).dot f.normal2 * f.k2 c.ret| := neg_le_abs _
      _ = |(f.Tb.linear.col f.a2).dot f.normal2| * |f.k2 c.ret| := abs_mul _ _
      _ ≤ |(f.Tb.linear.col f.a2).dot f.normal2| * f.Sb.get f.a2 :=
          mul_le_mul_of_nonneg_left hk2 (abs_nonneg _)
      _ = f.Sb.get f.a2 * |(f.Tb.linear.col f.a2).dot f.normal2| := mul_comm _ _
  linarith

/-- A point that leaves the face branch lies on a face plane of body 2: the
plane of the incident face for the codes 1..3, the plane of the reference face
for the codes 4..6. -/
theorem survivor_face_plane {cfg : Scalar K} {side1 side2 : Vec3 K} {tf1 tf2 : Transform3 K}
    {st : SatState K} (h1 : tf1.linear.IsRotation) (h2 : tf2.linear.IsRotation)
    (hs : 0 ≤ side2.x ∧ 0 ≤ side2.y ∧ 0 ≤ side2.z)
    (h : satPhase cfg (side1.smul (1 / 2)) (side2.smul (1 / 2)) tf1 tf2 = some st)
    (hc : st.code ≠ 0) (h6 : ¬ st.code > 6) :
    ∀ c ∈ survivors side1 tf1 side2 tf2 st,
      (st.code ≤ 3 →
        |((faceEmit (frameOf side1 tf1 side2 tf2 st) (satNormal tf1 tf2 st) st.code c).pos.sub
            tf2.translation).dot (tf2.linear.col (frameOf side1 tf1 side2 tf2 st).lanr)|
          = (side2.smul (1 / 2)).get (frameOf side1 tf1 side2 tf2 st).lanr) ∧
      (4 ≤ st.code →
        |((faceEmit (frameOf side1 tf1 side2 tf2 st) (satNormal tf1 tf2 st) st.code c).pos.sub
            tf2.translation).dot (tf2.linear.col (st.code - 4))|
          = (side2.smul (1 / 2)).get (st.code - 4)) := by
  intro c hcm
  unfold survivors at hcm
  unfold frameOf at hcm ⊢
  obtain ⟨hq, hpt, hdep, -⟩ := mem_faceCandidates hcm
  obtain ⟨hTa, hTb⟩ := faceFrame_rotations (A := side1.smul (1 / 2)) (B := side2.smul (1 / 2))
    h1 h2 (satNormal tf1 tf2 st) st.code
  obtain ⟨⟨hc1, hc6⟩, hn2⟩ := faceFrame_normal2 h hc h6
  have hcs := faceFrame_code_split (side1.smul (1 / 2)) (side2.smul (1 / 2)) tf1 tf2
    (satNormal tf1 tf2 st) st.code hc1 hc6
  obtain ⟨hls, -, -⟩ := faceFrame_lanr_split (side1.smul (1 / 2)) (side2.smul (1 / 2)) tf1 tf2
    (satNormal tf1 tf2 st) st.code
  obtain ⟨σ, hσ, hcen⟩ := faceFrame_center (side1.smul (1 / 2)) (side2.smul (1 / 2)) tf1 tf2
    (satNormal tf1 tf2 st) st.code
  have eTa : (faceFrame (side1.smul (1 / 2)) (side2.smul (1 / 2)) tf1 tf2
      (satNormal tf1 tf2 st) st.code).Ta = if st.code ≤ 3 then tf1 else tf2 := rfl
  have eTb : (faceFrame (side1.smul (1 / 2)) (side2.smul (1 / 2)) tf1 tf2
      (satNormal tf1 tf2 st) st.code).Tb = if st.code ≤ 3 then tf2 else tf1 := rfl
  have eSa : (faceFrame (side1.smul (1 / 2)) (side2.smul (1 / 2)) tf1 tf2
      (satNormal tf1 tf2 st) st.code).Sa
      = if st.code ≤ 3 then side1.smul (1 / 2) else side2.smul (1 / 2) := rfl
  have eSb : (faceFrame (side1.smul (1 / 2)) (side2.smul (1 / 2)) tf1 tf2
      (satNormal tf1 tf2 st) st.code).Sb
      = if st.code ≤ 3 then side2.smul (1 / 2) else side1.smul (1 / 2) := rfl
  have eN2 : (faceFrame (side1.smul (1 / 2)) (side2.smul (1 / 2)) tf1 tf2
      (satNormal tf1 tf2 st) st.code).normal2
      = if st.code ≤ 3 then satNormal tf1 tf2 st else (satNormal tf1 tf2 st).neg := rfl
  have eN : (faceFrame (side1.smul (1 / 2)) (side2.smul (1 / 2)) tf1 tf2
      (satNormal tf1 tf2 st) st.code).codeN
      = if st.code ≤ 3 then st.code - 1 else st.code - 4 := rfl
  have hemit : (faceEmit (faceFrame (side1.smul (1 / 2)) (side2.smul (1 / 2)) tf1 tf2
      (satNormal tf1 tf2 st) st.code) (satNormal tf1 tf2 st) st.code c).pos
      = if st.code < 4 then
          c.point.add (faceFrame (side1.smul (1 / 2)) (side2.smul (1 / 2)) tf1 tf2
            (satNormal tf1 tf2 st) st.code).Ta.translation
        else
          (c.point.add (faceFrame (side1.smul (1 / 2)) (side2.smul (1 / 2)) tf1 tf2
            (satNormal tf1 tf2 st) st.code).Ta.translation).sub
            ((satNormal tf1 tf2 st).smul c.dep) := by
    unfold faceEmit
    split_ifs <;> rfl
  have hS2 : ∀ k, 0 ≤ (side2.smul (1 / 2)).get k := by
    intro k
    rw [smul_half_get]
    exact div_nonneg (get_nonneg hs k) (by norm_num)
  rw [hemit]
  constructor
  · intro h3
    have h4 : st.code < 4 := by omega
    rw [if_pos h3] at eTa eTb eSb
    rw [if_pos h4, hpt, hcen, eSb]
    rw [eTb] at hTb
    obtain ⟨⟨o00, o01, o02⟩, -, -⟩ := split_orthonormal hTb hls
    have hSl := hS2 (faceFrame (side1.smul (1 / 2)) (side2.smul (1 / 2)) tf1 tf2
      (satNormal tf1 tf2 st) st.code).lanr
    generalize faceFrame (side1.smul (1 / 2)) (side2.smul (1 / 2)) tf1 tf2
      (satNormal tf1 tf2 st) st.code = f at *
    rw [eTa, eTb, dot_comm, coord_incident, o00, o01, o02]
    rcases hσ with rfl | rfl
    · simp only [one_mul, zero_mul, add_zero]
      exact abs_of_nonneg hSl
    · simp only [one_mul, zero_mul, add_zero, neg_mul, abs_neg]
      exact abs_of_nonneg hSl
  · intro h4
    have h3 : ¬ st.code ≤ 3 := by omega
    have h4' : ¬ st.code < 4 := by omega
    rw [if_neg h3] at eTa eSa eN2 eN
    rw [if_neg h4']
    have hSn := hS2 (st.code - 4)
    rw [eSa, eN] at hdep
    rw [eN] at hcs hn2
    generalize faceFrame (side1.smul (1 / 2)) (side2.smul (1 / 2)) tf1 tf2
      (satNormal tf1 tf2 st) st.code = f at *
    rw [eTa] at hTa hn2 ⊢
    obtain ⟨⟨o00, -, -⟩, -, -⟩ := split_orthonormal hTa hcs
    rw [dot_comm, coord_reference, ← eN2, hdep]
    rcases hn2 with e | e
    · rw [e, o00]
      have : (tf2.linear.col (st.code - 4)).dot c.point
          + 1 * ((side2.smul (1 / 2)).get (st.code - 4)
            - (tf2.linear.col (st.code - 4)).dot c.point)
          = (side2.smul (1 / 2)).get (st.code - 4) := by ring
      rw [this]
      exact abs_of_nonneg hSn
    · rw [e, dot_neg_right, dot_neg_left, o00]
      have : (tf2.linear.col (st.code - 4)).dot c.point
          + -1 * ((side2.smul (1 / 2)).get (st.code - 4)
            - -(tf2.linear.col (st.code - 4)).dot c.point)
          = -((side2.smul (1 / 2)).get (st.code - 4)) := by ring
      rw [this, abs_neg]
      exact abs_of_nonneg hSn

/-- C36: the lift of the face branch is a right inverse of the projection on
the reference face.  With both poses rotations and a face code, for every 2-D
point `q = (x, y)` the point `center + k1 * Rb.col(a1) + k2 * Rb.col(a2)` the
lifting loop computes has `Ra.col(code1) . point = x` and
`Ra.col(code2) . point = y`, and it lies in the plane of the incident face:
`Rb.col(lanr) . (point - center) = 0`, where `center` is the centre of the
incident box moved by plus or minus the half extent along `Rb.col(lanr)`.
Every candidate kept by the loop carries this point for its own `(x, y)`. -/
theorem faceFrame_lift_right_inverse (cfg : Scalar K) (side1 side2 : Vec3 K)
    (tf1 tf2 : Transform3 K) (h1 : tf1.linear.IsRotation) (h2 : tf2.linear.IsRotation)
    (st : SatState K)
    (h : satPhase cfg (side1.smul (1 / 2)) (side2.smul (1 / 2)) tf1 tf2 = some st)
    (hlo : 1 ≤ st.code) (hhi : st.code ≤ 6) :
    (∀ q : K × K,
      ((frameOf side1 tf1 side2 tf2 st).Ta.linear.col (frameOf side1 tf1 side2 tf2 st).code1).dot
          (((frameOf side1 tf1 side2 tf2 st).center.add
            (((frameOf side1 tf1 side2 tf2 st).Tb.linear.col
              (frameOf side1 tf1 side2 tf2 st).a1).smul
                ((frameOf side1 tf1 side2 tf2 st).k1 q))).add
            (((frameOf side1 tf1 side2 tf2 st).Tb.linear.col
              (frameOf side1 tf1 side2 tf2 st).a2).smul
                ((frameOf side1 tf1 side2 tf2 st).k2 q))) = q.1 ∧
      ((frameOf side1 tf1 side2 tf2 st).Ta.linear.col (frameOf side1 tf1 side2 tf2 st).code2).dot
          (((frameOf side1 tf1 side2 tf2 st).center.add
            (((frameOf side1 tf1 side2 tf2 st).Tb.linear.col
              (frameOf side1 tf1 side2 tf2 st).a1).smul
                ((frameOf side1 tf1 side2 tf2 st).k1 q))).add
            (((frameOf side1 tf1 side2 tf2 st).Tb.linear.col
              (frameOf side1 tf1 side2 tf2 st).a2).smul
                ((frameOf side1 tf1 side2 tf2 st).k2 q))) = q.2 ∧
      ((frameOf side1 tf1 side2 tf2 st).Tb.linear.col (frameOf side1 tf1 side2 tf2 st).lanr).dot
          ((((frameOf side1 tf1 side2 tf2 st).center.add
            (((frameOf side1 tf1 side2 tf2 st).Tb.linear.col
              (frameOf side1 tf1 side2 tf2 st).a1).smul
                ((frameOf side1 tf1 side2 tf2 st).k1 q))).add
            (((frameOf side1 tf1 side2 tf2 st).Tb.linear.col
              (frameOf side1 tf1 side2 tf2 st).a2).smul
                ((frameOf side1 tf1 side2 tf2 st).k2 q))).sub
            (frameOf side1 tf1 side2 tf2 st).center) = 0) ∧
    (∃ σ : K, (σ = 1 ∨ σ = -1) ∧
      (frameOf side1 tf1 side2 tf2 st).center
        = ((frameOf side1 tf1 side2 tf2 st).Tb.translation.sub
            (frameOf side1 tf1 side2 tf2 st).Ta.translation).add
          (((frameOf side1 tf1 side2 tf2 st).Tb.linear.col
              (frameOf side1 tf1 side2 tf2 st).lanr).smul
            (σ * (frameOf side1 tf1 side2 tf2 st).Sb.get
              (frameOf side1 tf1 side2 tf2 st).lanr))) ∧
    (∀ c ∈ survivors side1 tf1 side2 tf2 st,
      c.ret ∈ intersectRectQuad2 (faceRect (frameOf side1 tf1 side2 tf2 st))
        (faceQuad (frameOf side1 tf1 side2 tf2 st)) ∧
      c.point = ((frameOf side1 tf1 side2 tf2 st).center.add
            (((frameOf side1 tf1 side2 tf2 st).Tb.linear.col
              (frameOf side1 tf1 side2 tf2 st).a1).smul
                ((frameOf side1 tf1 side2 tf2 st).k1 c.ret))).add
            (((frameOf side1 tf1 side2 tf2 st).Tb.linear.col
              (frameOf side1 tf1 side2 tf2 st).a2).smul
                ((frameOf side1 tf1 side2 tf2 st).k2 c.ret))) := by
  have hc : st.code ≠ 0 := by omega
  have h6 : ¬ st.code > 6 := by omega
  refine ⟨?_, ?_, ?_⟩
  · intro q
    unfold frameOf
    have hdet := faceFrame_det_ne_zero h1 h2 h hc h6
    obtain ⟨-, hTb⟩ := faceFrame_rotations (A := side1.smul (1 / 2))
      (B := side2.smul (1 / 2)) h1 h2 (satNormal tf1 tf2 st) st.code
    obtain ⟨hls, -, -⟩ := faceFrame_lanr_split (side1.smul (1 / 2)) (side2.smul (1 / 2))
      tf1 tf2 (satNormal tf1 tf2 st) st.code
    have hinv := lift_inverse _ hdet q
    have ec1 : (faceFrame (side1.smul (1 / 2)) (side2.smul (1 / 2)) tf1 tf2
        (satNormal tf1 tf2 st) st.code).c1
        = ((faceFrame (side1.smul (1 / 2)) (side2.smul (1 / 2)) tf1 tf2
            (satNormal tf1 tf2 st) st.code).Ta.linear.col
            (faceFrame (side1.smul (1 / 2)) (side2.smul (1 / 2)) tf1 tf2
              (satNormal tf1 tf2 st) st.code).code1).dot
          (faceFrame (side1.smul (1 / 2)) (side2.smul (1 / 2)) tf1 tf2
            (satNormal tf1 tf2 st) st.code).center := rfl
    have ec2 : (faceFrame (side1.smul (1 / 2)) (side2.smul (1 / 2)) tf1 tf2
        (satNormal tf1 tf2 st) st.code).c2
        = ((faceFrame (side1.smul (1 / 2)) (side2.smul (1 / 2)) tf1 tf2
            (satNormal tf1 tf2 st) st.code).Ta.linear.col
            (faceFrame (side1.smul (1 / 2)) (side2.smul (1 / 2)) tf1 tf2
              (satNormal tf1 tf2 st) st.code).code2).dot
          (faceFrame (side1.smul (1 / 2)) (side2.smul (1 / 2)) tf1 tf2
            (satNormal tf1 tf2 st) st.code).center := rfl
    have em11 : (faceFrame (side1.smul (1 / 2)) (side2.smul (1 / 2)) tf1 tf2
        (satNormal tf1 tf2 st) st.code).m11
        = ((faceFrame (side1.smul (1 / 2)) (side2.smul (1 / 2)) tf1 tf2
            (satNormal tf1 tf2 st) st.code).Tb.linear.col
            (faceFrame (side1.smul (1 / 2)) (side2.smul (1 / 2)) tf1 tf2
              (satNormal tf1 tf2 st) st.code).a1).dot
          ((faceFrame (side1.smul (1 / 2)) (side2.smul (1 / 2)) tf1 tf2
            (satNormal tf1 tf2 st) st.code).Ta.linear.col
            (faceFrame (side1.smul (1 / 2)) (side2.smul (1 / 2)) tf1 tf2
              (satNormal tf1 tf2 st) st.code).code1) := rfl
    have em12 : (faceFrame (side1.smul (1 / 2)) (side2.smul (1 / 2)) tf1 tf2
        (satNormal tf1 tf2 st) st.code).m12
        = ((faceFrame (side1.smul (1 / 2)) (side2.smul (1 / 2)) tf1 tf2
            (satNormal tf1 tf2 st) st.code).Tb.linear.col
            (faceFrame (side1.smul (1 / 2)) (side2.smul (1 / 2)) tf1 tf2
              (satNormal tf1 tf2 st) st.code).a2).dot
          ((faceFrame (side1.smul (1 / 2)) (side2.smul (1 / 2)) tf1 tf2
            (satNormal tf1 tf2 st) st.code).Ta.linear.col
            (faceFrame (side1.smul (1 / 2)) (side2.smul (1 / 2)) tf1 tf2
              (satNormal tf1 tf2 st) st.code).code1) := rfl
    have em21 : (faceFrame (side1.smul (1 / 2)) (side2.smul (1 / 2)) tf1 tf2
        (satNormal tf1 tf2 st) st.code).m21
        = ((faceFrame (side1.smul (1 / 2)) (side2.smul (1 / 2)) tf1 tf2
            (satNormal tf1 tf2 st) st.code).Tb.linear.col
            (faceFrame (side1.smul (1 / 2)) (side2.smul (1 / 2)) tf1 tf2
              (satNormal tf1 tf2 st) st.code).a1).dot
          ((faceFrame (side1.smul (1 / 2)) (side2.smul (1 / 2)) tf1 tf2
            (satNormal tf1 tf2 st) st.code).Ta.linear.col
            (faceFrame (side1.smul (1 / 2)) (side2.smul (1 / 2)) tf1 tf2
              (satNormal tf1 tf2 st) st.code).code2) := rfl
    have em22 : (faceFrame (side1.smul (1 / 2)) (side2.smul (1 / 2)) tf1 tf2
        (satNormal tf1 tf2 st) st.code).m22
        = ((faceFrame (side1.smul (1 / 2)) (side2.smul (1 / 2)) tf1 tf2
            (satNormal tf1 tf2 st) st.code).Tb.linear.col
            (faceFrame (side1.smul (1 / 2)) (side2.smul (1 / 2)) tf1 tf2
              (satNormal tf1 tf2 st) st.code).a2).dot
          ((faceFrame (side1.smul (1 / 2)) (side2.smul (1 / 2)) tf1 tf2
            (satNormal tf1 tf2 st) st.code).Ta.linear.col
            (faceFrame (side1.smul (1 / 2)) (side2.smul (1 / 2)) tf1 tf2
              (satNormal tf1 tf2 st) st.code).code2) := rfl
    rw [ec1, em11, em12] at hinv
    rw [ec2, em21, em22] at hinv
    generalize faceFrame (side1.smul (1 / 2)) (side2.smul (1 / 2)) tf1 tf2
      (satNormal tf1 tf2 st) st.code = f at *
    obtain ⟨⟨-, o01, o02⟩, -, -⟩ := split_orthonormal hTb hls
    refine ⟨?_, ?_, ?_⟩
    · rw [coord_lift]
      exact hinv.1
    · rw [coord_lift]
      exact hinv.2
    · rw [dot_sub_right, coord_lift, dot_comm (f.Tb.linear.col f.a1), o01,
        dot_comm (f.Tb.linear.col f.a2), o02]
      ring
  · exact faceFrame_center _ _ _ _ _ _
  · intro c hcm
    unfold survivors at hcm
    obtain ⟨hq, hpt, -, -⟩ := mem_faceCandidates hcm
    exact ⟨hq, hpt⟩

/-- C37: with both poses rotations and the sides of body 2 not negative, every
contact a face code comes with lies on a face plane of body 2: for the codes
1..3 `|(position - T2) . tf2.col(lanr)| = B[lanr]` (the incident face), for the
codes 4..6 `|(position - T2) . tf2.col(code - 4)| = B[code - 4]` (the reference
face), `B` being the half extents of body 2. -/
theorem boxBox2_face_contact_plane (cfg : Scalar K) (side1 side2 : Vec3 K)
    (tf1 tf2 : Transform3 K) (h1 : tf1.linear.IsRotation) (h2 : tf2.linear.IsRotation)
    (hs : 0 ≤ side2.x ∧ 0 ≤ side2.y ∧ 0 ≤ side2.z)
    (normal : Vec3 K) (depth : K) (maxc : Int) (contacts : List (ContactPoint K))
    (st : SatState K)
    (hst : satPhase cfg (side1.smul (1 / 2)) (side2.smul (1 / 2)) tf1 tf2 = some st)
    (hlo : 1 ≤ st.code) (hhi : st.code ≤ 6) :
    (boxBox2 cfg side1 tf1 side2 tf2 normal depth maxc contacts).return_code = st.code ∧
    ∀ c ∈ (boxBox2 cfg side1 tf1 side2 tf2 normal depth maxc contacts).contacts.drop
        contacts.length,
      (st.code ≤ 3 →
        |(c.pos.sub tf2.translation).dot
            (tf2.linear.col (frameOf side1 tf1 side2 tf2 st).lanr)|
          = (side2.smul (1 / 2)).get (frameOf side1 tf1 side2 tf2 st).lanr) ∧
      (4 ≤ st.code →
        |(c.pos.sub tf2.translation).dot (tf2.linear.col (st.code - 4))|
          = (side2.smul (1 / 2)).get (st.code - 4)) := by
  have hc : st.code ≠ 0 := by omega
  have h6 : ¬ st.code > 6 := by omega
  refine ⟨(boxBox2_of_sat cfg side1 side2 tf1 tf2 normal depth maxc contacts st hst hc).2.2, ?_⟩
  intro c hcm
  obtain ⟨cand, hcand, rfl⟩ :=
    boxBox2_face_contacts_mem cfg side1 side2 tf1 tf2 normal depth maxc contacts st hst hc h6
      c hcm
  exact survivor_face_plane h1 h2 hs hst hc h6 cand hcand

/-- C38: for a face code, with both poses rotations and no side negative,
every clipped point that passes the depth test has `0 <= dep <= depth`, where
`depth` is the value written to `*depth`; so every contact the call appends
carries a penetration depth between `-depth` and `0`. -/
theorem boxBox2_contact_depth_le (cfg : Scalar K) (side1 side2 : Vec3 K)
    (tf1 tf2 : Transform3 K) (h1 : tf1.linear.IsRotation) (h2 : tf2.linear.IsRotation)
    (hs1 : 0 ≤ side1.x ∧ 0 ≤ side1.y ∧ 0 ≤ side1.z)
    (hs2 : 0 ≤ side2.x ∧ 0 ≤ side2.y ∧ 0 ≤ side2.z)
    (normal : Vec3 K) (depth : K) (maxc : Int) (contacts : List (ContactPoint K))
    (st : SatState K)
    (hst : satPhase cfg (side1.smul (1 / 2)) (side2.smul (1 / 2)) tf1 tf2 = some st)
    (hlo : 1 ≤ st.code) (hhi : st.code ≤ 6) :
    (boxBox2 cfg side1 tf1 side2 tf2 normal depth maxc contacts).return_code = st.code ∧
    (∀ c ∈ survivors side1 tf1 side2 tf2 st,
      0 ≤ c.dep ∧ c.dep ≤ (boxBox2 cfg side1 tf1 side2 tf2 normal depth maxc contacts).depth) ∧
    ∀ c ∈ (boxBox2 cfg side1 tf1 side2 tf2 normal depth maxc contacts).contacts.drop
        contacts.length,
      0 ≤ -c.penetration_depth ∧
      -c.penetration_depth
        ≤ (boxBox2 cfg side1 tf1 side2 tf2 normal depth maxc contacts).depth := by
  have hc : st.code ≠ 0 := by omega
  have h6 : ¬ st.code > 6 := by omega
  obtain ⟨-, hd, hrc⟩ :=
    boxBox2_of_sat cfg side1 side2 tf1 tf2 normal depth maxc contacts st hst hc
  have hsurv := survivor_dep_le h1 h2 hs1 hs2 hst hc h6
  refine ⟨hrc, ?_, ?_⟩
  · intro c hcm
    rw [hd]
    exact hsurv c hcm
  · intro c hcm
    obtain ⟨cand, hcand, rfl⟩ :=
      boxBox2_face_contacts_mem cfg side1 side2 tf1 tf2 normal depth maxc contacts st hst hc h6
        c hcm
    rw [(faceEmit_normal _ _ _ _).2, neg_neg, hd]
    exact hsurv cand hcand

/-! ## The running best overlap never drops -/

theorem satStep_nonsep {cfg : Scalar K} {st st1 : SatState K} {ax : Axis K}
    (h : satStep cfg st ax = some st1) : |ax.tmp| - ax.r ≤ 0 := by
  unfold satStep at h
  by_cases h0 : |ax.tmp| - ax.r > 0
  · simp [h0] at h
  · exact not_lt.mp h0

/-- One block of the axis search does not lower the running `s`. -/
theorem satStep_mono {cfg : Scalar K} (heps : 0 ≤ cfg.epsilon) {st st1 : SatState K}
    {ax : Axis K} (h : satStep cfg st ax = some st1) : st.s ≤ st1.s := by
  cases he : ax.edge with
  | none => exact (satStep_face_max he h).1
  | some n => exact (satStep_edge_win heps he h).1

/-- No run of blocks lowers the running `s`. -/
theorem satFold_mono {cfg : Scalar K} (heps : 0 ≤ cfg.epsilon) {l : List (Axis K)}
    {st st1 : SatState K} (h : satFold cfg st l = some st1) : st.s ≤ st1.s := by
  induction l generalizing st with
  | nil =>
    simp only [satFold, Option.some.injEq] at h
    rw [h]
  | cons a rest ih =>
    rw [satFold_cons] at h
    cases hs : satStep cfg st a with
    | none => rw [hs] at h; cases h
    | some st2 =>
      rw [hs] at h
      exact le_trans (satStep_mono heps hs) (ih h)

/-- After a run of edge blocks the running `s` is at least the biased overlap
of every edge candidate of the run that passed its length test. -/
theorem satFold_edge_lower {cfg : Scalar K} (heps : 0 ≤ cfg.epsilon) {l : List (Axis K)}
    {st st1 : SatState K} (h : satFold cfg st l = some st1) :
    ∀ ax ∈ l, ∀ n, ax.edge = some n → cfg.epsilon < n.norm cfg →
      (|ax.tmp| - ax.r) / n.norm cfg * fudge_factor ≤ st1.s := by
  induction l generalizing st with
  | nil =>
    intro ax hax
    exact absurd hax (List.not_mem_nil _)
  | cons a rest ih =>
    rw [satFold_cons] at h
    cases hs : satStep cfg st a with
    | none => rw [hs] at h; cases h
    | some st2 =>
      rw [hs] at h
      intro ax hax n hn hl
      rcases List.mem_cons.mp hax with rfl | hmem
      · have hmono := satFold_mono heps h
        have hle := satStep_nonsep hs
        have hpos : 0 < n.norm cfg := lt_of_le_of_lt heps hl
        have hq : (|ax.tmp| - ax.r) / n.norm cfg ≤ 0 :=
          div_nonpos_of_nonpos_of_nonneg hle (le_of_lt hpos)
        rcases (satStep_edge_win heps hn hs).2 with ⟨e, hfail⟩ | ⟨-, -, hs2, -⟩
        · have : (|ax.tmp| - ax.r) / n.norm cfg * fudge_factor ≤ st.s := by
            by_contra hc
            exact hfail ⟨hl, not_le.mp hc⟩
          rw [e] at hmono
          exact le_trans this hmono
        · have : (|ax.tmp| - ax.r) / n.norm cfg * fudge_factor
              ≤ (|ax.tmp| - ax.r) / n.norm cfg := by
            unfold fudge_factor
            nlinarith
          rw [← hs2] at this
          exact le_trans (by rw [hs2] at this ⊢; exact this) hmono
      · exact ih h ax hmem n hn hl

/-- The depth a colliding call writes is at most the penetration on every face
candidate and at most `1.05` times the normalized penetration on every edge
candidate that passed its length test. -/
theorem satPhase_depth_bounds {cfg : Scalar K} (heps : 0 ≤ cfg.epsilon) {A B : Vec3 K}
    {tf1 tf2 : Transform3 K} {st : SatState K} (h : satPhase cfg A B tf1 tf2 = some st) :
    (∀ f ∈ faceAxes A B tf1 tf2, -st.s ≤ -(|f.tmp| - f.r)) ∧
    ∀ ax ∈ edgeAxes A B tf1 tf2, ∀ n, ax.edge = some n → cfg.epsilon < n.norm cfg →
      -st.s ≤ -((|ax.tmp| - ax.r) / n.norm cfg * fudge_factor) := by
  unfold satPhase axes at h
  rw [satFold_append] at h
  cases hf : satFold cfg (SatState.init cfg) (faceAxes A B tf1 tf2) with
  | none => rw [hf] at h; cases h
  | some stF =>
    rw [hf] at h
    simp only [Option.bind] at h
    constructor
    · intro f hfm
      have h1 := (satFold_face_max faceAxes_edge_none hf).2 f hfm
      have h2 := satFold_mono heps h
      linarith
    · intro ax hax n hn hl
      have := satFold_edge_lower heps h ax hax n hn hl
      linarith

/-! ## Stepping through edge blocks with known norms -/

/-- An edge block leaves the running variables alone when the overlap of its
candidate, times `fudge_factor`, is at most the running `s` times an upper
bound `L` of the length of `n`. -/
theorem satStep_edge_lose {cfg : Scalar K} (hsq : ExactSqrt cfg) (heps : 0 ≤ cfg.epsilon)
    {st : SatState K} {ax : Axis K} {n : Vec3 K} (L : K) (he : ax.edge = some n)
    (h0 : |ax.tmp| - ax.r ≤ 0) (hL : 0 ≤ L) (hq : n.dot n ≤ L * L)
    (hcmp : (|ax.tmp| - ax.r) * fudge_factor ≤ st.s * L) (hs : st.s ≤ 0) :
    satStep cfg st ax = some st := by
  unfold satStep
  simp only [not_lt.mpr h0, if_false, he]
  by_cases hl : n.norm cfg > cfg.epsilon
  · have hpos : 0 < n.norm cfg := lt_of_le_of_lt heps hl
    obtain ⟨-, hmul⟩ := hsq (n.dot n) (dot_self_nonneg n)
    have hle : n.norm cfg ≤ L := by
      by_contra hc
      have hlt := not_le.mp hc
      have : L * L < n.norm cfg * n.norm cfg := mul_self_lt_mul_self hL hlt
      have e : n.norm cfg * n.norm cfg = n.dot n := hmul
      linarith
    have hfail : ¬ ((|ax.tmp| - ax.r) / n.norm cfg * fudge_factor > st.s) := by
      rw [not_lt, div_mul_eq_mul_div, div_le_iff hpos]
      have : st.s * L ≤ st.s * n.norm cfg := mul_le_mul_of_nonpos_left hle hs
      linarith
    simp only [hl, if_true, hfail, if_false]
  · simp only [hl, if_false]

/-- An edge block whose candidate passes the length test and the biased test
records the candidate. -/
theorem satStep_edge_take {cfg : Scalar K} {st : SatState K} {ax : Axis K} {n : Vec3 K}
    (l0 : K) (he : ax.edge = some n) (h0 : |ax.tmp| - ax.r ≤ 0) (hl : n.norm cfg = l0)
    (hgt : cfg.epsilon < l0) (hcmp : st.s < (|ax.tmp| - ax.r) / l0 * fudge_factor) :
    satStep cfg st ax
      = some ⟨(|ax.tmp| - ax.r) / l0, -1, st.normalT, n.sdiv l0, decide (ax.tmp < 0),
          ax.code⟩ := by
  unfold satStep
  simp only [not_lt.mpr h0, if_false, he, hl, gt_iff_lt, hgt, if_true, hcmp]

/-! ## Two cubes of side 2, the second in a skew pose -/

theorem skewPose_isRotation : (skewPose : Transform3 ℝ).linear.IsRotation := by
  norm_num [skewPose, Mat3.IsRotation, Mat3.col, Mat3.coeff, Vec3.dot, Mat3.det]

theorem skew_faces :
    satFold (binary64 Real.sqrt (fun y x => Complex.arg ⟨x, y⟩) Real.pi)
      (SatState.init (binary64 Real.sqrt (fun y x => Complex.arg ⟨x, y⟩) Real.pi))
      (faceAxes ((⟨2, 2, 2⟩ : Vec3 ℝ).smul (1 / 2)) ((⟨2, 2, 2⟩ : Vec3 ℝ).smul (1 / 2))
      ⟨Mat3.identity, ⟨0, 0, 0⟩⟩ skewPose)
      = some ⟨-(2117 / 1090), 2, 1, ⟨0, 0, 0⟩, false, 3⟩ := by
  norm_num [faceAxes, satFold, satStep, SatState.init, binary64, skewPose, Mat3.identity, Mat3.transpose, Mat3.mul,
    Mat3.mulVec, Mat3.row, Mat3.col, Mat3.coeff, Mat3.cwiseAbs, Mat3.addScalar, Vec3.dot, Vec3.get,
    Vec3.sub, Vec3.smul, fudge2, abs_of_pos, abs_of_neg, abs_of_nonneg]

theorem skew_edges :
    edgeAxes ((⟨2, 2, 2⟩ : Vec3 ℝ).smul (1 / 2)) ((⟨2, 2, 2⟩ : Vec3 ℝ).smul (1 / 2))
      ⟨Mat3.identity, ⟨0, 0, 0⟩⟩ skewPose
      = [ ⟨114 / 545, 72000109 / 27250000, some ⟨0, -(60 / 109), 84 / 109⟩, -1, 0, 7⟩,
        ⟨749 / 1090, 59500109 / 27250000, some ⟨0, 84 / 109, 35 / 109⟩, -1, 0, 8⟩,
        ⟨-(63 / 109), 47500109 / 27250000, some ⟨0, -(35 / 109), -(60 / 109)⟩, -1, 0, 9⟩,
        ⟨1 / 2, 47500109 / 27250000, some ⟨60 / 109, 0, 35 / 109⟩, -1, 0, 10⟩,
        ⟨0, 72000109 / 27250000, some ⟨-(84 / 109), 0, 60 / 109⟩, -1, 0, 11⟩,
        ⟨7 / 10, 59500109 / 27250000, some ⟨35 / 109, 0, 84 / 109⟩, -1, 0, 12⟩,
        ⟨-(63 / 109), 59500109 / 27250000, some ⟨-(84 / 109), -(35 / 109), 0⟩, -1, 0, 13⟩,
        ⟨-(107 / 218), 47500109 / 27250000, some ⟨-(35 / 109), -(60 / 109), 0⟩, -1, 0, 14⟩,
        ⟨-(102 / 545), 72000109 / 27250000, some ⟨60 / 109, -(84 / 109), 0⟩, -1, 0, 15⟩ ] := by
  norm_num [edgeAxes, satFold, satStep, SatState.init, binary64, skewPose, Mat3.identity, Mat3.transpose, Mat3.mul,
    Mat3.mulVec, Mat3.row, Mat3.col, Mat3.coeff, Mat3.cwiseAbs, Mat3.addScalar, Vec3.dot, Vec3.get,
    Vec3.sub, Vec3.smul, fudge2, abs_of_pos, abs_of_neg, abs_of_nonneg]

/-- The axis search on the two cubes, with the edge candidates in source
order: candidate 8 is recorded, and candidate 12, met later, is not, although
its normalized overlap is greater. -/
theorem skew_forward :
    satPhase (binary64 Real.sqrt (fun y x => Complex.arg ⟨x, y⟩) Real.pi)
      ((⟨2, 2, 2⟩ : Vec3 ℝ).smul (1 / 2)) ((⟨2, 2, 2⟩ : Vec3 ℝ).smul (1 / 2))
      ⟨Mat3.identity, ⟨0, 0, 0⟩⟩ skewPose
      = some ⟨-(40775109 / 22750000), -1, 1, ⟨0, 12 / 13, 5 / 13⟩, false, 8⟩ := by
  have h7 : satStep (binary64 Real.sqrt (fun y x => Complex.arg ⟨x, y⟩) Real.pi)
      ⟨-(2117 / 1090), 2, 1, ⟨0, 0, 0⟩, false, 3⟩
      ⟨114 / 545, 72000109 / 27250000, some ⟨0, -(60 / 109), 84 / 109⟩, -1, 0, 7⟩
      = some ⟨-(2117 / 1090), 2, 1, ⟨0, 0, 0⟩, false, 3⟩ :=
    satStep_edge_lose (real_exactSqrt _ _) (binary64_epsilon_nonneg _ _ _) (1) rfl
      (by norm_num [abs_of_pos, abs_of_neg, abs_of_nonneg]) (by norm_num) (by norm_num [Vec3.dot])
      (by norm_num [fudge_factor, abs_of_pos, abs_of_neg, abs_of_nonneg]) (by norm_num)
  have n8 : (⟨0, 84 / 109, 35 / 109⟩ : Vec3 ℝ).norm
      (binary64 Real.sqrt (fun y x => Complex.arg ⟨x, y⟩) Real.pi) = 91 / 109 := by
    have e : (⟨0, 84 / 109, 35 / 109⟩ : Vec3 ℝ).dot ⟨0, 84 / 109, 35 / 109⟩ = (91 / 109) ^ 2 := by
      norm_num [Vec3.dot]
    simp only [Vec3.norm, binary64, e]
    exact Real.sqrt_sq (by norm_num)
  have h8 : satStep (binary64 Real.sqrt (fun y x => Complex.arg ⟨x, y⟩) Real.pi)
      ⟨-(2117 / 1090), 2, 1, ⟨0, 0, 0⟩, false, 3⟩
      ⟨749 / 1090, 59500109 / 27250000, some ⟨0, 84 / 109, 35 / 109⟩, -1, 0, 8⟩
      = some ⟨-(40775109 / 22750000), -1, 1, ⟨0, 12 / 13, 5 / 13⟩, false, 8⟩ := by
    rw [satStep_edge_take (91 / 109) rfl (by norm_num [abs_of_pos, abs_of_neg, abs_of_nonneg]) n8 (by norm_num [binary64])
      (by norm_num [fudge_factor, abs_of_pos, abs_of_neg, abs_of_nonneg])]
    norm_num [Vec3.sdiv, abs_of_pos, abs_of_neg, abs_of_nonneg]
  have h9 : satStep (binary64 Real.sqrt (fun y x => Complex.arg ⟨x, y⟩) Real.pi)
      ⟨-(40775109 / 22750000), -1, 1, ⟨0, 12 / 13, 5 / 13⟩, false, 8⟩
      ⟨-(63 / 109), 47500109 / 27250000, some ⟨0, -(35 / 109), -(60 / 109)⟩, -1, 0, 9⟩
      = some ⟨-(40775109 / 22750000), -1, 1, ⟨0, 12 / 13, 5 / 13⟩, false, 8⟩ :=
    satStep_edge_lose (real_exactSqrt _ _) (binary64_epsilon_nonneg _ _ _) (13 / 20) rfl
      (by norm_num [abs_of_pos, abs_of_neg, abs_of_nonneg]) (by norm_num) (by norm_num [Vec3.dot])
      (by norm_num [fudge_factor, abs_of_pos, abs_of_neg, abs_of_nonneg]) (by norm_num)
  have h10 : satStep (binary64 Real.sqrt (fun y x => Complex.arg ⟨x, y⟩) Real.pi)
      ⟨-(40775109 / 22750000), -1, 1, ⟨0, 12 / 13, 5 / 13⟩, false, 8⟩
      ⟨1 / 2, 47500109 / 27250000, some ⟨60 / 109, 0, 35 / 109⟩, -1, 0, 10⟩
      = some ⟨-(40775109 / 22750000), -1, 1, ⟨0, 12 / 13, 5 / 13⟩, false, 8⟩ :=
    satStep_edge_lose (real_exactSqrt _ _) (binary64_epsilon_nonneg _ _ _) (13 / 20) rfl
      (by norm_num [abs_of_pos, abs_of_neg, abs_of_nonneg]) (by norm_num) (by norm_num [Vec3.dot])
      (by norm_num [fudge_factor, abs_of_pos, abs_of_neg, abs_of_nonneg]) (by norm_num)
  have h11 : satStep (binary64 Real.sqrt (fun y x => Complex.arg ⟨x, y⟩) Real.pi)
      ⟨-(40775109 / 22750000), -1, 1, ⟨0, 12 / 13, 5 / 13⟩, false, 8⟩
      ⟨0, 72000109 / 27250000, some ⟨-(84 / 109), 0, 60 / 109⟩, -1, 0, 11⟩
      = some ⟨-(40775109 / 22750000), -1, 1, ⟨0, 12 / 13, 5 / 13⟩, false, 8⟩ :=
    satStep_edge_lose (real_exactSqrt _ _) (binary64_epsilon_nonneg _ _ _) (1) rfl
      (by norm_num [abs_of_pos, abs_of_neg, abs_of_nonneg]) (by norm_num) (by norm_num [Vec3.dot])
      (by norm_num [fudge_factor, abs_of_pos, abs_of_neg, abs_of_nonneg]) (by norm_num)
  have h12 : satStep (binary64 Real.sqrt (fun y x => Complex.arg ⟨x, y⟩) Real.pi)
      ⟨-(40775109 / 22750000), -1, 1, ⟨0, 12 / 13, 5 / 13⟩, false, 8⟩
      ⟨7 / 10, 59500109 / 27250000, some ⟨35 / 109, 0, 84 / 109⟩, -1, 0, 12⟩
      = some ⟨-(40775109 / 22750000), -1, 1, ⟨0, 12 / 13, 5 / 13⟩, false, 8⟩ :=
    satStep_edge_lose (real_exactSqrt _ _) (binary64_epsilon_nonneg _ _ _) (91 / 109) rfl
      (by norm_num [abs_of_pos, abs_of_neg, abs_of_nonneg]) (by norm_num) (by norm_num [Vec3.dot])
      (by norm_num [fudge_factor, abs_of_pos, abs_of_neg, abs_of_nonneg]) (by norm_num)
  have h13 : satStep (binary64 Real.sqrt (fun y x => Complex.arg ⟨x, y⟩) Real.pi)
      ⟨-(40775109 / 22750000), -1, 1, ⟨0, 12 / 13, 5 / 13⟩, false, 8⟩
      ⟨-(63 / 109), 59500109 / 27250000, some ⟨-(84 / 109), -(35 / 109), 0⟩, -1, 0, 13⟩
      = some ⟨-(40775109 / 22750000), -1, 1, ⟨0, 12 / 13, 5 / 13⟩, false, 8⟩ :=
    satStep_edge_lose (real_exactSqrt _ _) (binary64_epsilon_nonneg _ _ _) (91 / 109) rfl
      (by norm_num [abs_of_pos, abs_of_neg, abs_of_nonneg]) (by norm_num) (by norm_num [Vec3.dot])
      (by norm_num [fudge_factor, abs_of_pos, abs_of_neg, abs_of_nonneg]) (by norm_num)
  have h14 : satStep (binary64 Real.sqrt (fun y x => Complex.arg ⟨x, y⟩) Real.pi)
      ⟨-(40775109 / 22750000), -1, 1, ⟨0, 12 / 13, 5 / 13⟩, false, 8⟩
      ⟨-(107 / 218), 47500109 / 27250000, some ⟨-(35 / 109), -(60 / 109), 0⟩, -1, 0, 14⟩
      = some ⟨-(40775109 / 22750000), -1, 1, ⟨0, 12 / 13, 5 / 13⟩, false, 8⟩ :=
    satStep_edge_lose (real_exactSqrt _ _) (binary64_epsilon_nonneg _ _ _) (13 / 20) rfl
      (by norm_num [abs_of_pos, abs_of_neg, abs_of_nonneg]) (by norm_num) (by norm_num [Vec3.dot])
      (by norm_num [fudge_factor, abs_of_pos, abs_of_neg, abs_of_nonneg]) (by norm_num)
  have h15 : satStep (binary64 Real.sqrt (fun y x => Complex.arg ⟨x, y⟩) Real.pi)
      ⟨-(40775109 / 22750000), -1, 1, ⟨0, 12 / 13, 5 / 13⟩, false, 8⟩
      ⟨-(102 / 545), 72000109 / 27250000, some ⟨60 / 109, -(84 / 109), 0⟩, -1, 0, 15⟩
      = some ⟨-(40775109 / 22750000), -1, 1, ⟨0, 12 / 13, 5 / 13⟩, false, 8⟩ :=
    satStep_edge_lose (real_exactSqrt _ _) (binary64_epsilon_nonneg _ _ _) (1) rfl
      (by norm_num [abs_of_pos, abs_of_neg, abs_of_nonneg]) (by norm_num) (by norm_num [Vec3.dot])
      (by norm_num [fudge_factor, abs_of_pos, abs_of_neg, abs_of_nonneg]) (by norm_num)
  unfold satPhase axes
  rw [satFold_append, skew_faces, skew_edges]
  simp only [Option.bind, satFold, h7, h8, h9, h10, h11, h12, h13, h14, h15]

/-- The same search with the nine edge candidates met in the opposite order:
candidate 12 is recorded. -/
theorem skew_reverse :
    satFold (binary64 Real.sqrt (fun y x => Complex.arg ⟨x, y⟩) Real.pi)
      (SatState.init (binary64 Real.sqrt (fun y x => Complex.arg ⟨x, y⟩) Real.pi))
      (faceAxes ((⟨2, 2, 2⟩ : Vec3 ℝ).smul (1 / 2)) ((⟨2, 2, 2⟩ : Vec3 ℝ).smul (1 / 2))
      ⟨Mat3.identity, ⟨0, 0, 0⟩⟩ skewPose
        ++ (edgeAxes ((⟨2, 2, 2⟩ : Vec3 ℝ).smul (1 / 2)) ((⟨2, 2, 2⟩ : Vec3 ℝ).smul (1 / 2))
      ⟨Mat3.identity, ⟨0, 0, 0⟩⟩ skewPose).reverse)
      = some ⟨-(40425109 / 22750000), -1, 1, ⟨5 / 13, 0, 12 / 13⟩, false, 12⟩ := by
  have h15 : satStep (binary64 Real.sqrt (fun y x => Complex.arg ⟨x, y⟩) Real.pi)
      ⟨-(2117 / 1090), 2, 1, ⟨0, 0, 0⟩, false, 3⟩
      ⟨-(102 / 545), 72000109 / 27250000, some ⟨60 / 109, -(84 / 109), 0⟩, -1, 0, 15⟩
      = some ⟨-(2117 / 1090), 2, 1, ⟨0, 0, 0⟩, false, 3⟩ :=
    satStep_edge_lose (real_exactSqrt _ _) (binary64_epsilon_nonneg _ _ _) (1) rfl
      (by norm_num [abs_of_pos, abs_of_neg, abs_of_nonneg]) (by norm_num) (by norm_num [Vec3.dot])
      (by norm_num [fudge_factor, abs_of_pos, abs_of_neg, abs_of_nonneg]) (by norm_num)
  have h14 : satStep (binary64 Real.sqrt (fun y x => Complex.arg ⟨x, y⟩) Real.pi)
      ⟨-(2117 / 1090), 2, 1, ⟨0, 0, 0⟩, false, 3⟩
      ⟨-(107 / 218), 47500109 / 27250000, some ⟨-(35 / 109), -(60 / 109), 0⟩, -1, 0, 14⟩
      = some ⟨-(2117 / 1090), 2, 1, ⟨0, 0, 0⟩, false, 3⟩ :=
    satStep_edge_lose (real_exactSqrt _ _) (binary64_epsilon_nonneg _ _ _) (13 / 20) rfl
      (by norm_num [abs_of_pos, abs_of_neg, abs_of_nonneg]) (by norm_num) (by norm_num [Vec3.dot])
      (by norm_num [fudge_factor, abs_of_pos, abs_of_neg, abs_of_nonneg]) (by norm_num)
  have h13 : satStep (binary64 Real.sqrt (fun y x => Complex.arg ⟨x, y⟩) Real.pi)
      ⟨-(2117 / 1090), 2, 1, ⟨0, 0, 0⟩, false, 3⟩
      ⟨-(63 / 109), 59500109 / 27250000, some ⟨-(84 / 109), -(35 / 109), 0⟩, -1, 0, 13⟩
      = some ⟨-(2117 / 1090), 2, 1, ⟨0, 0, 0⟩, false, 3⟩ :=
    satStep_edge_lose (real_exactSqrt _ _) (binary64_epsilon_nonneg _ _ _) (91 / 109) rfl
      (by norm_num [abs_of_pos, abs_of_neg, abs_of_nonneg]) (by norm_num) (by norm_num [Vec3.dot])
      (by norm_num [fudge_factor, abs_of_pos, abs_of_neg, abs_of_nonneg]) (by norm_num)
  have n12 : (⟨35 / 109, 0, 84 / 109⟩ : Vec3 ℝ).norm
      (binary64 Real.sqrt (fun y x => Complex.arg ⟨x, y⟩) Real.pi) = 91 / 109 := by
    have e : (⟨35 / 109, 0, 84 / 109⟩ : Vec3 ℝ).dot ⟨35 / 109, 0, 84 / 109⟩ = (91 / 109) ^ 2 := by
      norm_num [Vec3.dot]
    simp only [Vec3.norm, binary64, e]
    exact Real.sqrt_sq (by norm_num)
  have h12 : satStep (binary64 Real.sqrt (fun y x => Complex.arg ⟨x, y⟩) Real.pi)
      ⟨-(2117 / 1090), 2, 1, ⟨0, 0, 0⟩, false, 3⟩
      ⟨7 / 10, 59500109 / 27250000, some ⟨35 / 109, 0, 84 / 109⟩, -1, 0, 12⟩
      = some ⟨-(40425109 / 22750000), -1, 1, ⟨5 / 13, 0, 12 / 13⟩, false, 12⟩ := by
    rw [satStep_edge_take (91 / 109) rfl (by norm_num [abs_of_pos, abs_of_neg, abs_of_nonneg]) n12 (by norm_num [binary64])
      (by norm_num [fudge_factor, abs_of_pos, abs_of_neg, abs_of_nonneg])]
    norm_num [Vec3.sdiv, abs_of_pos, abs_of_neg, abs_of_nonneg]
  have h11 : satStep (binary64 Real.sqrt (fun y x => Complex.arg ⟨x, y⟩) Real.pi)
      ⟨-(40425109 / 22750000), -1, 1, ⟨5 / 13, 0, 12 / 13⟩, false, 12⟩
      ⟨0, 72000109 / 27250000, some ⟨-(84 / 109), 0, 60 / 109⟩, -1, 0, 11⟩
      = some ⟨-(40425109 / 22750000), -1, 1, ⟨5 / 13, 0, 12 / 13⟩, false, 12⟩ :=
    satStep_edge_lose (real_exactSqrt _ _) (binary64_epsilon_nonneg _ _ _) (1) rfl
      (by norm_num [abs_of_pos, abs_of_neg, abs_of_nonneg]) (by norm_num) (by norm_num [Vec3.dot])
      (by norm_num [fudge_factor, abs_of_pos, abs_of_neg, abs_of_nonneg]) (by norm_num)
  have h10 : satStep (binary64 Real.sqrt (fun y x => Complex.arg ⟨x, y⟩) Real.pi)
      ⟨-(40425109 / 22750000), -1, 1, ⟨5 / 13, 0, 12 / 13⟩, false, 12⟩
      ⟨1 / 2, 47500109 / 27250000, some ⟨60 / 109, 0, 35 / 109⟩, -1, 0, 10⟩
      = some ⟨-(40425109 / 22750000), -1, 1, ⟨5 / 13, 0, 12 / 13⟩, false, 12⟩ :=
    satStep_edge_lose (real_exactSqrt _ _) (binary64_epsilon_nonneg _ _ _) (13 / 20) rfl
      (by norm_num [abs_of_pos, abs_of_neg, abs_of_nonneg]) (by norm_num) (by norm_num [Vec3.dot])
      (by norm_num [fudge_factor, abs_of_pos, abs_of_neg, abs_of_nonneg]) (by norm_num)
  have h9 : satStep (binary64 Real.sqrt (fun y x => Complex.arg ⟨x, y⟩) Real.pi)
      ⟨-(40425109 / 22750000), -1, 1, ⟨5 / 13, 0, 12 / 13⟩, false, 12⟩
      ⟨-(63 / 109), 47500109 / 27250000, some ⟨0, -(35 / 109), -(60 / 109)⟩, -1, 0, 9⟩
      = some ⟨-(40425109 / 22750000), -1, 1, ⟨5 / 13, 0, 12 / 13⟩, false, 12⟩ :=
    satStep_edge_lose (real_exactSqrt _ _) (binary64_epsilon_nonneg _ _ _) (13 / 20) rfl
      (by norm_num [abs_of_pos, abs_of_neg, abs_of_nonneg]) (by norm_num) (by norm_num [Vec3.dot])
      (by norm_num [fudge_factor, abs_of_pos, abs_of_neg, abs_of_nonneg]) (by norm_num)
  have h8 : satStep (binary64 Real.sqrt (fun y x => Complex.arg ⟨x, y⟩) Real.pi)
      ⟨-(40425109 / 22750000), -1, 1, ⟨5 / 13, 0, 12 / 13⟩, false, 12⟩
      ⟨749 / 1090, 59500109 / 27250000, some ⟨0, 84 / 109, 35 / 109⟩, -1, 0, 8⟩
      = some ⟨-(40425109 / 22750000), -1, 1, ⟨5 / 13, 0, 12 / 13⟩, false, 12⟩ :=
    satStep_edge_lose (real_exactSqrt _ _) (binary64_epsilon_nonneg _ _ _) (91 / 109) rfl
      (by norm_num [abs_of_pos, abs_of_neg, abs_of_nonneg]) (by norm_num) (by norm_num [Vec3.dot])
      (by norm_num [fudge_factor, abs_of_pos, abs_of_neg, abs_of_nonneg]) (by norm_num)
  have h7 : satStep (binary64 Real.sqrt (fun y x => Complex.arg ⟨x, y⟩) Real.pi)
      ⟨-(40425109 / 22750000), -1, 1, ⟨5 / 13, 0, 12 / 13⟩, false, 12⟩
      ⟨114 / 545, 72000109 / 27250000, some ⟨0, -(60 / 109), 84 / 109⟩, -1, 0, 7⟩
      = some ⟨-(40425109 / 22750000), -1, 1, ⟨5 / 13, 0, 12 / 13⟩, false, 12⟩ :=
    satStep_edge_lose (real_exactSqrt _ _) (binary64_epsilon_nonneg _ _ _) (1) rfl
      (by norm_num [abs_of_pos, abs_of_neg, abs_of_nonneg]) (by norm_num) (by norm_num [Vec3.dot])
      (by norm_num [fudge_factor, abs_of_pos, abs_of_neg, abs_of_nonneg]) (by norm_num)
  have hrev : ([ ⟨114 / 545, 72000109 / 27250000, some ⟨0, -(60 / 109), 84 / 109⟩, -1, 0, 7⟩,
        ⟨749 / 1090, 59500109 / 27250000, some ⟨0, 84 / 109, 35 / 109⟩, -1, 0, 8⟩,
        ⟨-(63 / 109), 47500109 / 27250000, some ⟨0, -(35 / 109), -(60 / 109)⟩, -1, 0, 9⟩,
        ⟨1 / 2, 47500109 / 27250000, some ⟨60 / 109, 0, 35 / 109⟩, -1, 0, 10⟩,
        ⟨0, 72000109 / 27250000, some ⟨-(84 / 109), 0, 60 / 109⟩, -1, 0, 11⟩,
        ⟨7 / 10, 59500109 / 27250000, some ⟨35 / 109, 0, 84 / 109⟩, -1, 0, 12⟩,
        ⟨-(63 / 109), 59500109 / 27250000, some ⟨-(84 / 109), -(35 / 109), 0⟩, -1, 0, 13⟩,
        ⟨-(107 / 218), 47500109 / 27250000, some ⟨-(35 / 109), -(60 / 109), 0⟩, -1, 0, 14⟩,
        ⟨-(102 / 545), 72000109 / 27250000, some ⟨60 / 109, -(84 / 109), 0⟩, -1, 0, 15⟩ ] : List (Axis ℝ)).reverse
      = [ ⟨-(102 / 545), 72000109 / 27250000, some ⟨60 / 109, -(84 / 109), 0⟩, -1, 0, 15⟩,
        ⟨-(107 / 218), 47500109 / 27250000, some ⟨-(35 / 109), -(60 / 109), 0⟩, -1, 0, 14⟩,
        ⟨-(63 / 109), 59500109 / 27250000, some ⟨-(84 / 109), -(35 / 109), 0⟩, -1, 0, 13⟩,
        ⟨7 / 10, 59500109 / 27250000, some ⟨35 / 109, 0, 84 / 109⟩, -1, 0, 12⟩,
        ⟨0, 72000109 / 27250000, some ⟨-(84 / 109), 0, 60 / 109⟩, -1, 0, 11⟩,
        ⟨1 / 2, 47500109 / 27250000, some ⟨60 / 109, 0, 35 / 109⟩, -1, 0, 10⟩,
        ⟨-(63 / 109), 47500109 / 27250000, some ⟨0, -(35 / 109), -(60 / 109)⟩, -1, 0, 9⟩,
        ⟨749 / 1090, 59500109 / 27250000, some ⟨0, 84 / 109, 35 / 109⟩, -1, 0, 8⟩,
        ⟨114 / 545, 72000109 / 27250000, some ⟨0, -(60 / 109), 84 / 109⟩, -1, 0, 7⟩ ] := rfl
  rw [satFold_append, skew_faces, skew_edges, hrev]
  simp only [Option.bind, satFold, h15, h14, h13, h12, h11, h10, h9, h8, h7]

/-! ## The depth is bounded by every axis, yet depends on the order -/

theorem skew_norm12 :
    (⟨35 / 109, 0, 84 / 109⟩ : Vec3 ℝ).norm
      (binary64 Real.sqrt (fun y x => Complex.arg ⟨x, y⟩) Real.pi) = 91 / 109 := by
  have e : (⟨35 / 109, 0, 84 / 109⟩ : Vec3 ℝ).dot ⟨35 / 109, 0, 84 / 109⟩ = (91 / 109) ^ 2 := by
    norm_num [Vec3.dot]
  simp only [Vec3.norm, binary64, e]
  exact Real.sqrt_sq (by norm_num)

/-- C35: with a non-negative `epsilon`, the running best `s` never decreases
across the fifteen tests (over any split of the candidate list into a part
already run and a part run next), so the depth a colliding call writes is at
most `-s2` for each of the six face candidates and at most `-1.05 * s2'` for
each edge candidate that passed its length test.  The depth is not in general
the least penetration over the fifteen axes, and it depends on the order of
the edge tests: for two cubes of side 2, the second in the pose `skewPose`, the
call writes the depth `40775109/22750000` of edge candidate 8 although edge
candidate 12 has the smaller normalized penetration `40425109/22750000`, which
is what the same search writes when it meets the nine edge candidates in the
opposite order. -/
theorem boxBox2_depth_bounds (cfg : Scalar K) (heps : 0 ≤ cfg.epsilon) (side1 side2 : Vec3 K)
    (tf1 tf2 : Transform3 K) (normal : Vec3 K) (depth : K) (maxc : Int)
    (contacts : List (ContactPoint K)) :
    (∀ (l1 l2 : List (Axis K)) (sa sb : SatState K),
      axes (side1.smul (1 / 2)) (side2.smul (1 / 2)) tf1 tf2 = l1 ++ l2 →
      satFold cfg (SatState.init cfg) l1 = some sa → satFold cfg sa l2 = some sb →
      (SatState.init cfg).s ≤ sa.s ∧ sa.s ≤ sb.s) ∧
    ((boxBox2 cfg side1 tf1 side2 tf2 normal depth maxc contacts).return_code ≠ 0 →
      (∀ f ∈ faceAxes (side1.smul (1 / 2)) (side2.smul (1 / 2)) tf1 tf2,
        (boxBox2 cfg side1 tf1 side2 tf2 normal depth maxc contacts).depth ≤ -(|f.tmp| - f.r)) ∧
      ∀ ax ∈ edgeAxes (side1.smul (1 / 2)) (side2.smul (1 / 2)) tf1 tf2, ∀ n,
        ax.edge = some n → cfg.epsilon < n.norm cfg →
        (boxBox2 cfg side1 tf1 side2 tf2 normal depth maxc contacts).depth
          ≤ -((|ax.tmp| - ax.r) / n.norm cfg * fudge_factor)) ∧
    ((boxBox2 (binary64 Real.sqrt (fun y x => Complex.arg ⟨x, y⟩) Real.pi)
        (⟨2, 2, 2⟩ : Vec3 ℝ) ⟨Mat3.identity, ⟨0, 0, 0⟩⟩ ⟨2, 2, 2⟩ skewPose ⟨0, 0, 0⟩ 0 4 []).return_code ≠ 0 ∧
      (boxBox2 (binary64 Real.sqrt (fun y x => Complex.arg ⟨x, y⟩) Real.pi)
        (⟨2, 2, 2⟩ : Vec3 ℝ) ⟨Mat3.identity, ⟨0, 0, 0⟩⟩ ⟨2, 2, 2⟩ skewPose ⟨0, 0, 0⟩ 0 4 []).depth = 40775109 / 22750000 ∧
      ∃ ax ∈ edgeAxes ((⟨2, 2, 2⟩ : Vec3 ℝ).smul (1 / 2)) ((⟨2, 2, 2⟩ : Vec3 ℝ).smul (1 / 2))
        ⟨Mat3.identity, ⟨0, 0, 0⟩⟩ skewPose, ∃ n,
        ax.edge = some n ∧
        (binary64 Real.sqrt (fun y x => Complex.arg ⟨x, y⟩) Real.pi).epsilon
          < n.norm (binary64 Real.sqrt (fun y x => Complex.arg ⟨x, y⟩) Real.pi) ∧
        -((|ax.tmp| - ax.r) / n.norm (binary64 Real.sqrt (fun y x => Complex.arg ⟨x, y⟩) Real.pi))
          < (boxBox2 (binary64 Real.sqrt (fun y x => Complex.arg ⟨x, y⟩) Real.pi)
        (⟨2, 2, 2⟩ : Vec3 ℝ) ⟨Mat3.identity, ⟨0, 0, 0⟩⟩ ⟨2, 2, 2⟩ skewPose ⟨0, 0, 0⟩ 0 4 []).depth) ∧
    (∃ st2 : SatState ℝ,
      (edgeAxes ((⟨2, 2, 2⟩ : Vec3 ℝ).smul (1 / 2)) ((⟨2, 2, 2⟩ : Vec3 ℝ).smul (1 / 2))
        ⟨Mat3.identity, ⟨0, 0, 0⟩⟩ skewPose).reverse.Perm
        (edgeAxes ((⟨2, 2, 2⟩ : Vec3 ℝ).smul (1 / 2)) ((⟨2, 2, 2⟩ : Vec3 ℝ).smul (1 / 2))
        ⟨Mat3.identity, ⟨0, 0, 0⟩⟩ skewPose) ∧
      satFold (binary64 Real.sqrt (fun y x => Complex.arg ⟨x, y⟩) Real.pi)
        (SatState.init (binary64 Real.sqrt (fun y x => Complex.arg ⟨x, y⟩) Real.pi))
        (faceAxes ((⟨2, 2, 2⟩ : Vec3 ℝ).smul (1 / 2)) ((⟨2, 2, 2⟩ : Vec3 ℝ).smul (1 / 2))
        ⟨Mat3.identity, ⟨0, 0, 0⟩⟩ skewPose
          ++ (edgeAxes ((⟨2, 2, 2⟩ : Vec3 ℝ).smul (1 / 2)) ((⟨2, 2, 2⟩ : Vec3 ℝ).smul (1 / 2))
        ⟨Mat3.identity, ⟨0, 0, 0⟩⟩ skewPose).reverse) = some st2 ∧
      -st2.s = 40425109 / 22750000 ∧
      -st2.s ≠ (boxBox2 (binary64 Real.sqrt (fun y x => Complex.arg ⟨x, y⟩) Real.pi)
        (⟨2, 2, 2⟩ : Vec3 ℝ) ⟨Mat3.identity, ⟨0, 0, 0⟩⟩ ⟨2, 2, 2⟩ skewPose ⟨0, 0, 0⟩ 0 4 []).depth) := by
  have hbox := boxBox2_of_sat (binary64 Real.sqrt (fun y x => Complex.arg ⟨x, y⟩) Real.pi)
    (⟨2, 2, 2⟩ : Vec3 ℝ) ⟨2, 2, 2⟩ ⟨Mat3.identity, ⟨0, 0, 0⟩⟩ skewPose ⟨0, 0, 0⟩ 0 4 [] _
    skew_forward (by decide)
  refine ⟨?_, ?_, ?_, ?_⟩
  · intro l1 l2 sa sb _ h1 h2
    exact ⟨satFold_mono heps h1, satFold_mono heps h2⟩
  · intro hrc
    obtain ⟨st, hst, hc, -, hd, -⟩ := boxBox2_hit hrc
    rw [hd]
    exact satPhase_depth_bounds heps hst
  · rw [hbox.2.1, hbox.2.2]
    refine ⟨by decide, by norm_num, ?_⟩
    refine ⟨⟨7 / 10, 59500109 / 27250000, some ⟨35 / 109, 0, 84 / 109⟩, -1, 0, 12⟩, ?_,
      ⟨35 / 109, 0, 84 / 109⟩, rfl, ?_, ?_⟩
    · rw [skew_edges]
      simp
    · rw [skew_norm12]
      norm_num [binary64]
    · rw [skew_norm12]
      norm_num [abs_of_pos]
  · refine ⟨_, List.reverse_perm _, skew_reverse, ?_, ?_⟩
    · norm_num
    · rw [hbox.2.1]
      norm_num

/-! ## The statements above on concrete inputs -/

/-- C32 on the cube of side 3 at the origin and the unit cube at
`(0.2, 0.1, 0)`, which end with the face code 1. -/
theorem faceFrame_det_bound_witness :
    (Mat3.identity : Mat3 ℝ).IsRotation ∧
    satPhase (binary64 Real.sqrt (fun y x => Complex.arg ⟨x, y⟩) Real.pi)
      ((⟨3, 3, 3⟩ : Vec3 ℝ).smul (1 / 2)) ((⟨1, 1, 1⟩ : Vec3 ℝ).smul (1 / 2))
      ⟨Mat3.identity, ⟨0, 0, 0⟩⟩ ⟨Mat3.identity, ⟨1 / 5, 1 / 10, 0⟩⟩
      = some (⟨-(9 / 5), 0, 1, ⟨0, 0, 0⟩, false, 1⟩ : SatState ℝ) ∧
    (frameOf (⟨3, 3, 3⟩ : Vec3 ℝ) ⟨Mat3.identity, ⟨0, 0, 0⟩⟩ ⟨1, 1, 1⟩
        ⟨Mat3.identity, ⟨1 / 5, 1 / 10, 0⟩⟩
        (⟨-(9 / 5), 0, 1, ⟨0, 0, 0⟩, false, 1⟩ : SatState ℝ)).m11
      * (frameOf (⟨3, 3, 3⟩ : Vec3 ℝ) ⟨Mat3.identity, ⟨0, 0, 0⟩⟩ ⟨1, 1, 1⟩
        ⟨Mat3.identity, ⟨1 / 5, 1 / 10, 0⟩⟩
        (⟨-(9 / 5), 0, 1, ⟨0, 0, 0⟩, false, 1⟩ : SatState ℝ)).m22
      - (frameOf (⟨3, 3, 3⟩ : Vec3 ℝ) ⟨Mat3.identity, ⟨0, 0, 0⟩⟩ ⟨1, 1, 1⟩
        ⟨Mat3.identity, ⟨1 / 5, 1 / 10, 0⟩⟩
        (⟨-(9 / 5), 0, 1, ⟨0, 0, 0⟩, false, 1⟩ : SatState ℝ)).m12
      * (frameOf (⟨3, 3, 3⟩ : Vec3 ℝ) ⟨Mat3.identity, ⟨0, 0, 0⟩⟩ ⟨1, 1, 1⟩
        ⟨Mat3.identity, ⟨1 / 5, 1 / 10, 0⟩⟩
        (⟨-(9 / 5), 0, 1, ⟨0, 0, 0⟩, false, 1⟩ : SatState ℝ)).m21 ≠ 0 :=
  ⟨identity_isRotation, containment_satPhase,
    (faceFrame_det_bound _ _ _ _ _ identity_isRotation identity_isRotation _
      containment_satPhase (by decide) (by decide)).2.2.2.2.2.2⟩

/-- C35 on the two cubes of side 2, the second in the pose `skewPose`. -/
theorem boxBox2_depth_bounds_witness :
    0 ≤ (binary64 Real.sqrt (fun y x => Complex.arg ⟨x, y⟩) Real.pi).epsilon ∧
    ∀ f ∈ faceAxes ((⟨2, 2, 2⟩ : Vec3 ℝ).smul (1 / 2)) ((⟨2, 2, 2⟩ : Vec3 ℝ).smul (1 / 2))
        ⟨Mat3.identity, ⟨0, 0, 0⟩⟩ skewPose,
      (boxBox2 (binary64 Real.sqrt (fun y x => Complex.arg ⟨x, y⟩) Real.pi)
        (⟨2, 2, 2⟩ : Vec3 ℝ) ⟨Mat3.identity, ⟨0, 0, 0⟩⟩ ⟨2, 2, 2⟩ skewPose ⟨0, 0, 0⟩ 0 4 []).depth ≤ -(|f.tmp| - f.r) :=
  ⟨binary64_epsilon_nonneg _ _ _,
    ((boxBox2_depth_bounds _ (binary64_epsilon_nonneg _ _ _) _ _ _ _ _ _ _ _).2.1
      (by
        rw [(boxBox2_of_sat _ _ _ _ _ _ _ _ _ _ skew_forward (by decide)).2.2]
        decide)).1⟩

/-- C36 on the cube of side 3 at the origin and the unit cube at
`(0.2, 0.1, 0)`: every candidate the lifting loop keeps carries the lifted
point of its own 2-D coordinates. -/
theorem faceFrame_lift_right_inverse_witness :
    (Mat3.identity : Mat3 ℝ).IsRotation ∧
    satPhase (binary64 Real.sqrt (fun y x => Complex.arg ⟨x, y⟩) Real.pi)
      ((⟨3, 3, 3⟩ : Vec3 ℝ).smul (1 / 2)) ((⟨1, 1, 1⟩ : Vec3 ℝ).smul (1 / 2))
      ⟨Mat3.identity, ⟨0, 0, 0⟩⟩ ⟨Mat3.identity, ⟨1 / 5, 1 / 10, 0⟩⟩
      = some (⟨-(9 / 5), 0, 1, ⟨0, 0, 0⟩, false, 1⟩ : SatState ℝ) ∧
    ∀ c ∈ survivors (⟨3, 3, 3⟩ : Vec3 ℝ) ⟨Mat3.identity, ⟨0, 0, 0⟩⟩ ⟨1, 1, 1⟩
        ⟨Mat3.identity, ⟨1 / 5, 1 / 10, 0⟩⟩
        (⟨-(9 / 5), 0, 1, ⟨0, 0, 0⟩, false, 1⟩ : SatState ℝ),
      c.ret ∈ intersectRectQuad2 (faceRect (frameOf (⟨3, 3, 3⟩ : Vec3 ℝ) ⟨Mat3.identity, ⟨0, 0, 0⟩⟩ ⟨1, 1, 1⟩
        ⟨Mat3.identity, ⟨1 / 5, 1 / 10, 0⟩⟩
        (⟨-(9 / 5), 0, 1, ⟨0, 0, 0⟩, false, 1⟩ : SatState ℝ)))
        (faceQuad (frameOf (⟨3, 3, 3⟩ : Vec3 ℝ) ⟨Mat3.identity, ⟨0, 0, 0⟩⟩ ⟨1, 1, 1⟩
        ⟨Mat3.identity, ⟨1 / 5, 1 / 10, 0⟩⟩
        (⟨-(9 / 5), 0, 1, ⟨0, 0, 0⟩, false, 1⟩ : SatState ℝ))) ∧
      c.point = ((frameOf (⟨3, 3, 3⟩ : Vec3 ℝ) ⟨Mat3.identity, ⟨0, 0, 0⟩⟩ ⟨1, 1, 1⟩
        ⟨Mat3.identity, ⟨1 / 5, 1 / 10, 0⟩⟩
        (⟨-(9 / 5), 0, 1, ⟨0, 0, 0⟩, false, 1⟩ : SatState ℝ)).center.add
          (((frameOf (⟨3, 3, 3⟩ : Vec3 ℝ) ⟨Mat3.identity, ⟨0, 0, 0⟩⟩ ⟨1, 1, 1⟩
        ⟨Mat3.identity, ⟨1 / 5, 1 / 10, 0⟩⟩
        (⟨-(9 / 5), 0, 1, ⟨0, 0, 0⟩, false, 1⟩ : SatState ℝ)).Tb.linear.col
            (frameOf (⟨3, 3, 3⟩ : Vec3 ℝ) ⟨Mat3.identity, ⟨0, 0, 0⟩⟩ ⟨1, 1, 1⟩
        ⟨Mat3.identity, ⟨1 / 5, 1 / 10, 0⟩⟩
        (⟨-(9 / 5), 0, 1, ⟨0, 0, 0⟩, false, 1⟩ : SatState ℝ)).a1).smul
              ((frameOf (⟨3, 3, 3⟩ : Vec3 ℝ) ⟨Mat3.identity, ⟨0, 0, 0⟩⟩ ⟨1, 1, 1⟩
        ⟨Mat3.identity, ⟨1 / 5, 1 / 10, 0⟩⟩
        (⟨-(9 / 5), 0, 1, ⟨0, 0, 0⟩, false, 1⟩ : SatState ℝ)).k1 c.ret))).add
          (((frameOf (⟨3, 3, 3⟩ : Vec3 ℝ) ⟨Mat3.identity, ⟨0, 0, 0⟩⟩ ⟨1, 1, 1⟩
        ⟨Mat3.identity, ⟨1 / 5, 1 / 10, 0⟩⟩
        (⟨-(9 / 5), 0, 1, ⟨0, 0, 0⟩, false, 1⟩ : SatState ℝ)).Tb.linear.col
            (frameOf (⟨3, 3, 3⟩ : Vec3 ℝ) ⟨Mat3.identity, ⟨0, 0, 0⟩⟩ ⟨1, 1, 1⟩
        ⟨Mat3.identity, ⟨1 / 5, 1 / 10, 0⟩⟩
        (⟨-(9 / 5), 0, 1, ⟨0, 0, 0⟩, false, 1⟩ : SatState ℝ)).a2).smul
              ((frameOf (⟨3, 3, 3⟩ : Vec3 ℝ) ⟨Mat3.identity, ⟨0, 0, 0⟩⟩ ⟨1, 1, 1⟩
        ⟨Mat3.identity, ⟨1 / 5, 1 / 10, 0⟩⟩
        (⟨-(9 / 5), 0, 1, ⟨0, 0, 0⟩, false, 1⟩ : SatState ℝ)).k2 c.ret)) :=
  ⟨identity_isRotation, containment_satPhase,
    (faceFrame_lift_right_inverse _ _ _ _ _ identity_isRotation identity_isRotation _
      containment_satPhase (by decide) (by decide)).2.2⟩

/-- C37 on the cube of side 3 at the origin and the unit cube at
`(0.2, 0.1, 0)`. -/
theorem boxBox2_face_contact_plane_witness :
    (Mat3.identity : Mat3 ℝ).IsRotation ∧
    satPhase (binary64 Real.sqrt (fun y x => Complex.arg ⟨x, y⟩) Real.pi)
      ((⟨3, 3, 3⟩ : Vec3 ℝ).smul (1 / 2)) ((⟨1, 1, 1⟩ : Vec3 ℝ).smul (1 / 2))
      ⟨Mat3.identity, ⟨0, 0, 0⟩⟩ ⟨Mat3.identity, ⟨1 / 5, 1 / 10, 0⟩⟩
      = some (⟨-(9 / 5), 0, 1, ⟨0, 0, 0⟩, false, 1⟩ : SatState ℝ) ∧
    (boxBox2 (binary64 Real.sqrt (fun y x => Complex.arg ⟨x, y⟩) Real.pi)
        (⟨3, 3, 3⟩ : Vec3 ℝ) ⟨Mat3.identity, ⟨0, 0, 0⟩⟩ ⟨1, 1, 1⟩
        ⟨Mat3.identity, ⟨1 / 5, 1 / 10, 0⟩⟩ ⟨0, 0, 0⟩ 0 4 []).return_code
      = (⟨-(9 / 5), 0, 1, ⟨0, 0, 0⟩, false, 1⟩ : SatState ℝ).code :=
  ⟨identity_isRotation, containment_satPhase,
    (boxBox2_face_contact_plane _ _ _ _ _ identity_isRotation identity_isRotation
      ⟨zero_le_one, zero_le_one, zero_le_one⟩ _ _ _ _ _ containment_satPhase (by decide)
      (by decide)).1⟩

/-- C38 on the cube of side 3 at the origin and the unit cube at
`(0.2, 0.1, 0)`: no appended contact is deeper than the depth written. -/
theorem boxBox2_contact_depth_le_witness :
    (Mat3.identity : Mat3 ℝ).IsRotation ∧
    satPhase (binary64 Real.sqrt (fun y x => Complex.arg ⟨x, y⟩) Real.pi)
      ((⟨3, 3, 3⟩ : Vec3 ℝ).smul (1 / 2)) ((⟨1, 1, 1⟩ : Vec3 ℝ).smul (1 / 2))
      ⟨Mat3.identity, ⟨0, 0, 0⟩⟩ ⟨Mat3.identity, ⟨1 / 5, 1 / 10, 0⟩⟩
      = some (⟨-(9 / 5), 0, 1, ⟨0, 0, 0⟩, false, 1⟩ : SatState ℝ) ∧
    ∀ c ∈ (boxBox2 (binary64 Real.sqrt (fun y x => Complex.arg ⟨x, y⟩) Real.pi)
        (⟨3, 3, 3⟩ : Vec3 ℝ) ⟨Mat3.identity, ⟨0, 0, 0⟩⟩ ⟨1, 1, 1⟩
        ⟨Mat3.identity, ⟨1 / 5, 1 / 10, 0⟩⟩ ⟨0, 0, 0⟩ 0 4 []).contacts.drop
        ([] : List (ContactPoint ℝ)).length,
      0 ≤ -c.penetration_depth ∧
      -c.penetration_depth
        ≤ (boxBox2 (binary64 Real.sqrt (fun y x => Complex.arg ⟨x, y⟩) Real.pi)
        (⟨3, 3, 3⟩ : Vec3 ℝ) ⟨Mat3.identity, ⟨0, 0, 0⟩⟩ ⟨1, 1, 1⟩
        ⟨Mat3.identity, ⟨1 / 5, 1 / 10, 0⟩⟩ ⟨0, 0, 0⟩ 0 4 []).depth :=
  ⟨identity_isRotation, containment_satPhase,
    (boxBox2_contact_depth_le _ _ _ _ _ identity_isRotation identity_isRotation
      ⟨by norm_num, by norm_num, by norm_num⟩ ⟨zero_le_one, zero_le_one, zero_le_one⟩
      _ _ _ _ _ containment_satPhase (by decide) (by decide)).2.2⟩

/-! ## Separated boxes: from the geometry to the tests -/

/-- Along every direction a box has a point that reaches the full sum of the
projected half extents beyond the centre. -/
theorem box_support {side : Vec3 K} {tf : Transform3 K} (h : tf.linear.IsRotation)
    (hs : 0 ≤ side.x ∧ 0 ≤ side.y ∧ 0 ≤ side.z) (L : Vec3 K) :
    ∃ x, inBox side tf x ∧ L.dot (x.sub tf.translation)
      = side.x / 2 * |L.dot (tf.linear.col 0)| + side.y / 2 * |L.dot (tf.linear.col 1)|
        + side.z / 2 * |L.dot (tf.linear.col 2)| := by
  have key : ∀ (a t : K), 0 ≤ a → ∃ c : K, |c| ≤ a / 2 ∧ c * t = a / 2 * |t| := by
    intro a t ha
    by_cases ht : 0 ≤ t
    · exact ⟨a / 2, by rw [abs_of_nonneg (by linarith)], by rw [abs_of_nonneg ht]⟩
    · refine ⟨-(a / 2), by rw [abs_neg, abs_of_nonneg (by linarith)], ?_⟩
      rw [abs_of_neg (not_le.mp ht)]
      ring
  obtain ⟨c0, hc0, e0⟩ := key side.x (L.dot (tf.linear.col 0)) hs.1
  obtain ⟨c1, hc1, e1⟩ := key side.y (L.dot (tf.linear.col 1)) hs.2.1
  obtain ⟨c2, hc2, e2⟩ := key side.z (L.dot (tf.linear.col 2)) hs.2.2
  have hsub : (boxPoint tf ⟨c0, c1, c2⟩).sub tf.translation = tf.linear.mulVec ⟨c0, c1, c2⟩ := by
    simp only [boxPoint, Vec3.add, Vec3.sub, Mat3.mulVec, Vec3.mk.injEq]
    refine ⟨?_, ?_, ?_⟩ <;> ring
  obtain ⟨m0, m1, m2⟩ := mulVec_dot_col h (⟨c0, c1, c2⟩ : Vec3 K)
  refine ⟨boxPoint tf ⟨c0, c1, c2⟩, ?_, ?_⟩
  · unfold inBox
    rw [hsub, dot_comm (tf.linear.col 0), dot_comm (tf.linear.col 1),
      dot_comm (tf.linear.col 2), m0, m1, m2]
    exact ⟨hc0, hc1, hc2⟩
  · rw [hsub, dot_expand h L, dot_comm (tf.linear.col 0), dot_comm (tf.linear.col 1),
      dot_comm (tf.linear.col 2), m0, m1, m2, e0, e1, e2]

/-- Two boxes apart by more than `m` along `L` have their centres apart, along
`L`, by more than the sum of the projected half extents plus `m`. -/
theorem gap_of_separation {side1 side2 : Vec3 K} {tf1 tf2 : Transform3 K}
    (h1 : tf1.linear.IsRotation) (h2 : tf2.linear.IsRotation)
    (hs1 : 0 ≤ side1.x ∧ 0 ≤ side1.y ∧ 0 ≤ side1.z)
    (hs2 : 0 ≤ side2.x ∧ 0 ≤ side2.y ∧ 0 ≤ side2.z) {L : Vec3 K} {m : K}
    (hsep : SeparatedAlong side1 tf1 side2 tf2 L m) :
    side1.x / 2 * |L.dot (tf1.linear.col 0)| + side1.y / 2 * |L.dot (tf1.linear.col 1)|
        + side1.z / 2 * |L.dot (tf1.linear.col 2)|
        + (side2.x / 2 * |L.dot (tf2.linear.col 0)| + side2.y / 2 * |L.dot (tf2.linear.col 1)|
        + side2.z / 2 * |L.dot (tf2.linear.col 2)|) + m
      < |L.dot (tf2.translation.sub tf1.translation)| := by
  obtain ⟨xp, hxp, exp⟩ := box_support h1 hs1 L
  obtain ⟨xn, hxn, exn⟩ := box_support h1 hs1 L.neg
  obtain ⟨yp, hyp, eyp⟩ := box_support h2 hs2 L
  obtain ⟨yn, hyn, eyn⟩ := box_support h2 hs2 L.neg
  simp only [dot_neg_left, abs_neg] at exn eyn
  rw [dot_sub_right] at exp exn eyp eyn
  rw [dot_sub_right]
  rcases hsep with hsep | hsep
  · have := hsep xp yn hxp hyn
    have hle := le_abs_self (L.dot tf2.translation - L.dot tf1.translation)
    linarith
  · have := hsep xn yp hxn hyp
    have hle := neg_abs_le (L.dot tf2.translation - L.dot tf1.translation)
    linarith

theorem getD_mem_of_lt {α : Type} (l : List α) (i : Nat) (d : α) (h : i < l.length) :
    l.getD i d ∈ l := by
  rw [List.getD_eq_getElem l d h]
  exact List.getElem_mem h

/-- A candidate whose direction `L` separates the boxes by more than the slack
of its `r` over the projected half extents fires. -/
theorem axis_fires_of_separation {side1 side2 : Vec3 K} {tf1 tf2 : Transform3 K}
    (h1 : tf1.linear.IsRotation) (h2 : tf2.linear.IsRotation)
    (hs1 : 0 ≤ side1.x ∧ 0 ≤ side1.y ∧ 0 ≤ side1.z)
    (hs2 : 0 ≤ side2.x ∧ 0 ≤ side2.y ∧ 0 ≤ side2.z) {ax : Axis K} {L0 : Vec3 K} {m : K}
    (hdir : ∃ L : Vec3 K, L = L0 ∧ ax.tmp = L.dot (tf2.translation.sub tf1.translation) ∧
      side1.x / 2 * |L.dot (tf1.linear.col 0)| + side1.y / 2 * |L.dot (tf1.linear.col 1)|
        + side1.z / 2 * |L.dot (tf1.linear.col 2)|
        + (side2.x / 2 * |L.dot (tf2.linear.col 0)| + side2.y / 2 * |L.dot (tf2.linear.col 1)|
        + side2.z / 2 * |L.dot (tf2.linear.col 2)|) ≤ ax.r ∧
      ax.r ≤ side1.x / 2 * |L.dot (tf1.linear.col 0)| + side1.y / 2 * |L.dot (tf1.linear.col 1)|
        + side1.z / 2 * |L.dot (tf1.linear.col 2)|
        + (side2.x / 2 * |L.dot (tf2.linear.col 0)| + side2.y / 2 * |L.dot (tf2.linear.col 1)|
        + side2.z / 2 * |L.dot (tf2.linear.col 2)|) + m)
    (hsep : SeparatedAlong side1 tf1 side2 tf2 L0 m) : |ax.tmp| - ax.r > 0 := by
  obtain ⟨L, hL, ht, -, hr⟩ := hdir
  subst hL
  have := gap_of_separation h1 h2 hs1 hs2 hsep
  rw [ht]
  linarith

/-- The world direction of edge candidate `k` is the cross product of column
`k / 3` of `tf1` with column `k % 3` of `tf2`. -/
theorem edge_world_direction {A B : Vec3 K} {tf1 tf2 : Transform3 K}
    (h1 : tf1.linear.IsRotation) (k : Nat) (hk : k < 9) (n : Vec3 K)
    (he : ((edgeAxes A B tf1 tf2).getD k ⟨0, 0, none, 0, 0, 0⟩).edge = some n) :
    tf1.linear.mulVec n = (tf1.linear.col (k / 3)).cross (tf2.linear.col (k % 3)) := by
  have hmem : (edgeAxes A B tf1 tf2).getD k ⟨0, 0, none, 0, 0, 0⟩ ∈ edgeAxes A B tf1 tf2 :=
    getD_mem_of_lt _ _ _ hk
  have hw := edgeAxes_world_cross h1 hmem he
  have hc : ((edgeAxes A B tf1 tf2).getD k ⟨0, 0, none, 0, 0, 0⟩).code = 7 + k := by
    interval_cases k <;> rfl
  rw [hc, Nat.add_sub_cancel_left] at hw
  exact hw

/-- Centres further apart along `L` than the sum of the projected half extents
plus `m` leave the boxes apart by more than `m` along `L`. -/
theorem separatedAlong_of_gap {side1 side2 : Vec3 K} {tf1 tf2 : Transform3 K}
    (h1 : tf1.linear.IsRotation) (h2 : tf2.linear.IsRotation) (L : Vec3 K) (m : K)
    (hgap : side1.x / 2 * |L.dot (tf1.linear.col 0)| + side1.y / 2 * |L.dot (tf1.linear.col 1)|
        + side1.z / 2 * |L.dot (tf1.linear.col 2)|
        + (side2.x / 2 * |L.dot (tf2.linear.col 0)| + side2.y / 2 * |L.dot (tf2.linear.col 1)|
        + side2.z / 2 * |L.dot (tf2.linear.col 2)|) + m
      < |L.dot (tf2.translation.sub tf1.translation)|) :
    SeparatedAlong side1 tf1 side2 tf2 L m := by
  by_cases hpos : 0 ≤ L.dot (tf2.translation.sub tf1.translation)
  · left
    intro x y hx hy
    have bx := box_proj_bound h1 hx L
    have by2 := box_proj_bound h2 hy L
    rw [abs_of_nonneg hpos] at hgap
    rw [dot_sub_right] at bx by2 hgap
    have ux := (abs_le.mp bx).2
    have ly := (abs_le.mp by2).1
    linarith
  · right
    intro x y hx hy
    have bx := box_proj_bound h1 hx L
    have by2 := box_proj_bound h2 hy L
    rw [abs_of_neg (not_le.mp hpos)] at hgap
    rw [dot_sub_right] at bx by2 hgap
    have lx := (abs_le.mp bx).1
    have uy := (abs_le.mp by2).2
    linarith

/-- C1, amended. Two boxes with non-negative side lengths and orthonormal
rotations that are strictly separated along a face normal of either box
(some column of `tf1` or of `tf2`: every point of one box projects strictly
below every point of the other), or separated along the cross product of
column `i` of `tf1` with column `j` of `tf2` by more than `1e-6` times the sum
of the four half extents other than `side1[i] / 2` and `side2[j] / 2` (the
inflation of `|R|` before the edge tests): for such a pair `boxBox2` returns 0,
sets `return_code` to 0, appends no contact and leaves `normal` and `depth` as
they were.  Such a pair is disjoint. -/
theorem boxBox2_separated_code_zero (cfg : Scalar K) (side1 side2 : Vec3 K)
    (tf1 tf2 : Transform3 K) (hs1 : 0 ≤ side1.x ∧ 0 ≤ side1.y ∧ 0 ≤ side1.z)
    (hs2 : 0 ≤ side2.x ∧ 0 ≤ side2.y ∧ 0 ≤ side2.z)
    (h1 : tf1.linear.IsRotation) (h2 : tf2.linear.IsRotation)
    (normal : Vec3 K) (depth : K) (maxc : Int) (contacts : List (ContactPoint K))
    (hsep : (∃ i, i < 3 ∧ (SeparatedAlong side1 tf1 side2 tf2 (tf1.linear.col i) 0 ∨
        SeparatedAlong side1 tf1 side2 tf2 (tf2.linear.col i) 0)) ∨
      (∃ i j, i < 3 ∧ j < 3 ∧ SeparatedAlong side1 tf1 side2 tf2
        ((tf1.linear.col i).cross (tf2.linear.col j))
        (fudge2 * ((side1.x + side1.y + side1.z - side1.get i) / 2
          + (side2.x + side2.y + side2.z - side2.get j) / 2)))) :
    Disjoint side1 tf1 side2 tf2 ∧
    boxBox2 cfg side1 tf1 side2 tf2 normal depth maxc contacts
      = ⟨0, normal, depth, 0, contacts⟩ := by
  refine ⟨?_, ?_⟩
  · have hdis : ∀ (L : Vec3 K) (m : K), 0 ≤ m → SeparatedAlong side1 tf1 side2 tf2 L m →
        Disjoint side1 tf1 side2 tf2 := by
      intro L m hm hL x hx
      rcases hL with hL | hL
      · have := hL x x hx.1 hx.2
        linarith
      · have := hL x x hx.1 hx.2
        linarith
    rcases hsep with ⟨i, -, hsep | hsep⟩ | ⟨i, j, hi, hj, hsep⟩
    · exact hdis _ 0 (le_refl _) hsep
    · exact hdis _ 0 (le_refl _) hsep
    · refine hdis _ _ ?_ hsep
      have g1 : side1.get i ≤ side1.x + side1.y + side1.z := by
        unfold Vec3.get
        split_ifs <;> linarith [hs1.1, hs1.2.1, hs1.2.2]
      have g2 : side2.get j ≤ side2.x + side2.y + side2.z := by
        unfold Vec3.get
        split_ifs <;> linarith [hs2.1, hs2.2.1, hs2.2.2]
      unfold fudge2
      have : (0 : K) ≤ 1 / 1000000 := by norm_num
      apply mul_nonneg this
      linarith
  apply boxBox2_of_none
  unfold satPhase
  rw [satFold_eq_none]
  rcases hsep with ⟨i, hi, hsep | hsep⟩ | ⟨i, j, hi, hj, hsep⟩
  · refine ⟨(faceAxes (side1.smul (1 / 2)) (side2.smul (1 / 2)) tf1 tf2).getD i
      ⟨0, 0, none, 0, 0, 0⟩, List.mem_append_left _ (getD_mem_of_lt _ _ _ ?_), ?_⟩
    · exact lt_of_lt_of_le hi (by decide : 3 ≤ 6)
    · obtain ⟨L, hL, ht, hlo, hr⟩ := face1_direction side1 side2 tf1 tf2 hs1 hs2 h1 h2 i hi
      exact axis_fires_of_separation h1 h2 hs1 hs2
        ⟨L, hL, ht, hlo, by rw [add_zero]; exact hr⟩ hsep
  · refine ⟨(faceAxes (side1.smul (1 / 2)) (side2.smul (1 / 2)) tf1 tf2).getD (i + 3)
      ⟨0, 0, none, 0, 0, 0⟩, List.mem_append_left _ (getD_mem_of_lt _ _ _ ?_), ?_⟩
    · exact Nat.add_lt_add_right hi 3
    · obtain ⟨L, hL, ht, hlo, hr⟩ := face2_direction side1 side2 tf1 tf2 hs1 hs2 h1 h2 i hi
      exact axis_fires_of_separation h1 h2 hs1 hs2
        ⟨L, hL, ht, hlo, by rw [add_zero]; exact hr⟩ hsep
  · have hk : 3 * i + j < 9 := by omega
    refine ⟨(edgeAxes (side1.smul (1 / 2)) (side2.smul (1 / 2)) tf1 tf2).getD (3 * i + j)
      ⟨0, 0, none, 0, 0, 0⟩, List.mem_append_right _ (getD_mem_of_lt _ _ _ hk), ?_⟩
    have hw : ∀ n, ((edgeAxes (side1.smul (1 / 2)) (side2.smul (1 / 2)) tf1 tf2).getD
        (3 * i + j) ⟨0, 0, none, 0, 0, 0⟩).edge = some n →
        tf1.linear.mulVec n
          = (tf1.linear.col ((3 * i + j) / 3)).cross (tf2.linear.col ((3 * i + j) % 3)) :=
      fun n he => edge_world_direction h1 (3 * i + j) hk n he
    have hij : (3 * i + j) / 3 = i ∧ (3 * i + j) % 3 = j := by omega
    rw [hij.1, hij.2] at hw
    interval_cases i <;> interval_cases j
    · have hd := edge_direction_0 side1 side2 tf1 tf2 hs1 hs2 h1 h2
      rw [hw _ rfl] at hd
      exact axis_fires_of_separation h1 h2 hs1 hs2 hd hsep
    · have hd := edge_direction_1 side1 side2 tf1 tf2 hs1 hs2 h1 h2
      rw [hw _ rfl] at hd
      exact axis_fires_of_separation h1 h2 hs1 hs2 hd hsep
    · have hd := edge_direction_2 side1 side2 tf1 tf2 hs1 hs2 h1 h2
      rw [hw _ rfl] at hd
      exact axis_fires_of_separation h1 h2 hs1 hs2 hd hsep
    · have hd := edge_direction_3 side1 side2 tf1 tf2 hs1 hs2 h1 h2
      rw [hw _ rfl] at hd
      exact axis_fires_of_separation h1 h2 hs1 hs2 hd hsep
    · have hd := edge_direction_4 side1 side2 tf1 tf2 hs1 hs2 h1 h2
      rw [hw _ rfl] at hd
      exact axis_fires_of_separation h1 h2 hs1 hs2 hd hsep
    · have hd := edge_direction_5 side1 side2 tf1 tf2 hs1 hs2 h1 h2
      rw [hw _ rfl] at hd
      exact axis_fires_of_separation h1 h2 hs1 hs2 hd hsep
    · have hd := edge_direction_6 side1 side2 tf1 tf2 hs1 hs2 h1 h2
      rw [hw _ rfl] at hd
      exact axis_fires_of_separation h1 h2 hs1 hs2 hd hsep
    · have hd := edge_direction_7 side1 side2 tf1 tf2 hs1 hs2 h1 h2
      rw [hw _ rfl] at hd
      exact axis_fires_of_separation h1 h2 hs1 hs2 hd hsep
    · have hd := edge_direction_8 side1 side2 tf1 tf2 hs1 hs2 h1 h2
      rw [hw _ rfl] at hd
      exact axis_fires_of_separation h1 h2 hs1 hs2 hd hsep

/-! ## Two unit cubes turned about x and about y, the second 3/2 above the first -/

theorem ridges_apart :
    SeparatedAlong (⟨1, 1, 1⟩ : Vec3 ℝ) ⟨Mat3.rotX (3 / 5) (4 / 5), ⟨0, 0, 0⟩⟩ ⟨1, 1, 1⟩
      ⟨Mat3.rotY (3 / 5) (4 / 5), ⟨0, 0, 3 / 2⟩⟩
      (((⟨Mat3.rotX (3 / 5) (4 / 5), ⟨0, 0, 0⟩⟩ : Transform3 ℝ).linear.col 0).cross
        ((⟨Mat3.rotY (3 / 5) (4 / 5), ⟨0, 0, 3 / 2⟩⟩ : Transform3 ℝ).linear.col 1))
      (fudge2 * (((⟨1, 1, 1⟩ : Vec3 ℝ).x + (⟨1, 1, 1⟩ : Vec3 ℝ).y + (⟨1, 1, 1⟩ : Vec3 ℝ).z
          - (⟨1, 1, 1⟩ : Vec3 ℝ).get 0) / 2
        + ((⟨1, 1, 1⟩ : Vec3 ℝ).x + (⟨1, 1, 1⟩ : Vec3 ℝ).y + (⟨1, 1, 1⟩ : Vec3 ℝ).z
          - (⟨1, 1, 1⟩ : Vec3 ℝ).get 1) / 2)) := by
  refine @separatedAlong_of_gap ℝ _ ⟨1, 1, 1⟩ ⟨1, 1, 1⟩ ⟨Mat3.rotX (3 / 5) (4 / 5), ⟨0, 0, 0⟩⟩
    ⟨Mat3.rotY (3 / 5) (4 / 5), ⟨0, 0, 3 / 2⟩⟩ rotX_isRotation rotY_isRotation _ _ ?_
  norm_num [Mat3.rotX, Mat3.rotY, Mat3.col, Mat3.coeff, Vec3.dot, Vec3.cross, Vec3.sub,
    Vec3.get, fudge2, abs_of_pos, abs_of_neg]

/-- C1 on the two turned unit cubes, which only the edge direction
`tf1.col(0) x tf2.col(1)` separates. -/
theorem boxBox2_separated_code_zero_witness :
    SeparatedAlong (⟨1, 1, 1⟩ : Vec3 ℝ) ⟨Mat3.rotX (3 / 5) (4 / 5), ⟨0, 0, 0⟩⟩ ⟨1, 1, 1⟩
      ⟨Mat3.rotY (3 / 5) (4 / 5), ⟨0, 0, 3 / 2⟩⟩
      (((⟨Mat3.rotX (3 / 5) (4 / 5), ⟨0, 0, 0⟩⟩ : Transform3 ℝ).linear.col 0).cross
        ((⟨Mat3.rotY (3 / 5) (4 / 5), ⟨0, 0, 3 / 2⟩⟩ : Transform3 ℝ).linear.col 1))
      (fudge2 * (((⟨1, 1, 1⟩ : Vec3 ℝ).x + (⟨1, 1, 1⟩ : Vec3 ℝ).y + (⟨1, 1, 1⟩ : Vec3 ℝ).z
          - (⟨1, 1, 1⟩ : Vec3 ℝ).get 0) / 2
        + ((⟨1, 1, 1⟩ : Vec3 ℝ).x + (⟨1, 1, 1⟩ : Vec3 ℝ).y + (⟨1, 1, 1⟩ : Vec3 ℝ).z
          - (⟨1, 1, 1⟩ : Vec3 ℝ).get 1) / 2)) ∧
    Disjoint (⟨1, 1, 1⟩ : Vec3 ℝ) ⟨Mat3.rotX (3 / 5) (4 / 5), ⟨0, 0, 0⟩⟩ ⟨1, 1, 1⟩
      ⟨Mat3.rotY (3 / 5) (4 / 5), ⟨0, 0, 3 / 2⟩⟩ ∧
    boxBox2 (binary64 Real.sqrt (fun y x => Complex.arg ⟨x, y⟩) Real.pi)
      (⟨1, 1, 1⟩ : Vec3 ℝ) ⟨Mat3.rotX (3 / 5) (4 / 5), ⟨0, 0, 0⟩⟩ ⟨1, 1, 1⟩
      ⟨Mat3.rotY (3 / 5) (4 / 5), ⟨0, 0, 3 / 2⟩⟩ ⟨0, 0, 0⟩ 0 4 []
      = ⟨0, ⟨0, 0, 0⟩, 0, 0, []⟩ :=
  ⟨ridges_apart, boxBox2_separated_code_zero
    (binary64 Real.sqrt (fun y x => Complex.arg ⟨x, y⟩) Real.pi) ⟨1, 1, 1⟩ ⟨1, 1, 1⟩
    ⟨Mat3.rotX (3 / 5) (4 / 5), ⟨0, 0, 0⟩⟩ ⟨Mat3.rotY (3 / 5) (4 / 5), ⟨0, 0, 3 / 2⟩⟩
    ⟨zero_le_one, zero_le_one, zero_le_one⟩ ⟨zero_le_one, zero_le_one, zero_le_one⟩
    rotX_isRotation rotY_isRotation ⟨0, 0, 0⟩ 0 4 []
    (Or.inr ⟨0, 1, by decide, by decide, ridges_apart⟩)⟩

end fcl
